import Mathlib

/-!
Sun GEM ethernet controller model (hw/net/sungem.c).

A shallow embedding of the device model in `hw/net/sungem.c`.

* Machine integers are natural numbers; every place where C truncates
  (assignment to a `uint32_t`, `uint16_t`, `uint8_t`, unsigned wrap-around) has
  an explicit `% 2 ^ w`.
* The register file `uint32_t **regs` is a map from (bank, index) to a value.
  `sungem_get_reg` returns the cell (bank, index) it would point at, or `none`
  for the `NULL` result.
* A function returns `none` when the C call does not return normally: a failed
  `assert(regp)` of `GET_REG`/`SET_REG`, or a descriptor loop that never ends.
* `sungem.h` and `hw/net/mii.h` are not part of the sources, so the constants
  they define are the fields of `Env`; so are the two library routines
  `net_raw_checksum` and `crc32`.
* The collaborators of the device are fields of the state: the level of the
  PCI interrupt line, guest memory reached through `pci_dma_read` and
  `pci_dma_write`, and the frames handed to `qemu_send_packet`.
-/

namespace Sungem

/-! ## Constants and helpers that the sources take from headers -/

/-- Header constants (`sungem.h`, `hw/net/mii.h`) and library routines used by
`sungem.c`, none of which is defined in the sources. -/
structure Env where
  GREG_STAT_TXINTME : Nat
  GREG_STAT_TXALL : Nat
  GREG_STAT_TXDONE : Nat
  GREG_STAT_RXDONE : Nat
  GREG_STAT_RXNOBUF : Nat
  GREG_STAT_TXMAC : Nat
  GREG_STAT_RXMAC : Nat
  GREG_STAT_MAC : Nat
  GREG_STAT_TXNR : Nat
  GREG_STAT_TXNR_SHIFT : Nat
  GREG_STAT_LATCH : Nat
  GREG_SWRST_TXRST : Nat
  GREG_SWRST_RXRST : Nat
  GREG_SWRST_RSTOUT : Nat
  TXDMA_CFG_ENABLE : Nat
  TXDMA_CFG_RINGSZ : Nat
  RXDMA_CFG_ENABLE : Nat
  RXDMA_CFG_RINGSZ : Nat
  RXDMA_CFG_FBOFF : Nat
  RXDMA_CFG_CSUMOFF : Nat
  MAC_TXRST : Nat
  MAC_RXRST : Nat
  MAC_TXSTAT : Nat
  MAC_RXSTAT : Nat
  MAC_CSTAT : Nat
  MAC_TXMASK : Nat
  MAC_RXMASK : Nat
  MAC_MCMASK : Nat
  MAC_TXCFG : Nat
  MAC_RXCFG : Nat
  MAC_XIFCFG : Nat
  MAC_MINFSZ : Nat
  MAC_MAXFSZ : Nat
  MAC_ADDR0 : Nat
  MAC_ADDR1 : Nat
  MAC_ADDR2 : Nat
  MAC_ADDR3 : Nat
  MAC_ADDR4 : Nat
  MAC_ADDR5 : Nat
  MAC_HASH0 : Nat
  MAC_PATMPS : Nat
  MAC_SMACHINE : Nat
  MAC_CSTAT_PTR : Nat
  MAC_TXCFG_ENAB : Nat
  MAC_RXCFG_ENAB : Nat
  MAC_RXCFG_SFCS : Nat
  MAC_RXCFG_PROM : Nat
  MAC_RXCFG_PGRP : Nat
  MAC_RXCFG_HFE : Nat
  MAC_XIFCFG_LBCK : Nat
  MIF_FRAME : Nat
  MIF_CFG : Nat
  MIF_STATUS : Nat
  MIF_SMACHINE : Nat
  MIF_CFG_MDI0 : Nat
  MIF_CFG_MDI1 : Nat
  MIF_FRAME_PHYAD : Nat
  MIF_FRAME_REGAD : Nat
  MIF_FRAME_OP : Nat
  MIF_FRAME_DATA : Nat
  MIF_FRAME_TALSB : Nat
  PCS_MIISTAT : Nat
  PCS_ISTAT : Nat
  PCS_SSTATE : Nat
  PROM_START : Nat
  TXDCTRL_BUFSZ : Nat
  TXDCTRL_CSTART : Nat
  TXDCTRL_COFF : Nat
  TXDCTRL_CENAB : Nat
  TXDCTRL_EOF : Nat
  TXDCTRL_SOF : Nat
  TXDCTRL_INTME : Nat
  RXDCTRL_HPASS : Nat
  RXDCTRL_ALTMAC : Nat
  MII_BMCR : Nat
  MII_BMSR : Nat
  MII_PHYID1 : Nat
  MII_PHYID2 : Nat
  MII_ANAR : Nat
  MII_ANLPAR : Nat
  MII_BMSR_100TX_FD : Nat
  MII_BMSR_AUTONEG : Nat
  MII_BMSR_AN_COMP : Nat
  MII_BMSR_LINK_ST : Nat
  MII_ANLPAR_TXFD : Nat
  /-- The routine `net_raw_checksum(data, length)` of `net/checksum.h`, as a
  function of the bytes `data[0 .. length)`. -/
  net_raw_checksum : List Nat → Nat
  /-- The zlib routine `crc32(crc, buf, len)`, as a function of the start value
  and of the bytes `buf[0 .. len)`. -/
  crc32 : Nat → List Nat → Nat

/-! ## Constants defined in sungem.c itself -/

def MAX_PACKET_SIZE : Nat := 9016

def GREG_SEBSTATE : Nat := 0x0000

def GREG_STAT : Nat := 0x000C

def GREG_IMASK : Nat := 0x0010

def GREG_IACK : Nat := 0x0014

def GREG_STAT2 : Nat := 0x001C

def GREG_PCIESTAT : Nat := 0x1000

def GREG_PCIEMASK : Nat := 0x1004

def GREG_SWRST : Nat := 0x1010

def TXDMA_KICK : Nat := 0x0000

def TXDMA_CFG : Nat := 0x0004

def TXDMA_DBLOW : Nat := 0x0008

def TXDMA_DBHI : Nat := 0x000C

def TXDMA_PCNT : Nat := 0x0024

def TXDMA_SMACHINE : Nat := 0x0028

def TXDMA_DPLOW : Nat := 0x0030

def TXDMA_DPHI : Nat := 0x0034

def TXDMA_TXDONE : Nat := 0x0100

def TXDMA_FTAG : Nat := 0x0108

def TXDMA_FSZ : Nat := 0x0118

def RXDMA_CFG : Nat := 0x0000

def RXDMA_DBLOW : Nat := 0x0004

def RXDMA_DBHI : Nat := 0x0008

def RXDMA_PCNT : Nat := 0x0018

def RXDMA_SMACHINE : Nat := 0x001C

def RXDMA_PTHRESH : Nat := 0x0020

def RXDMA_DPLOW : Nat := 0x0024

def RXDMA_DPHI : Nat := 0x0028

def RXDMA_KICK : Nat := 0x0100

def RXDMA_DONE : Nat := 0x0104

def RXDMA_BLANK : Nat := 0x0108

def RXDMA_FTAG : Nat := 0x0110

def RXDMA_FSZ : Nat := 0x0120

/-- The table `RegBlocks`: (base offset, number of registers) of each bank. -/
def RegBlocks : List (Nat × Nat) :=
  [ (0x0000, 0x0006),
    (0x1000, 0x0005),
    (0x2000, 0x000e),
    (0x2100, 0x0007),
    (0x3000, 0x0005),
    (0x4000, 0x000b),
    (0x4100, 0x0009),
    (0x6000, 0x004e),
    (0x6200, 0x0008),
    (0x9000, 0x0007),
    (0x9050, 0x0004) ]

/-! ## Machine arithmetic -/

/-- Bitwise complement of a 32-bit value (`~x` on a `uint32_t`). -/
def not32 (x : Nat) : Nat := 2 ^ 32 - 1 - x % 2 ^ 32

/-- Bitwise complement of a 64-bit value (`~x` on a `uint64_t`). -/
def not64 (x : Nat) : Nat := 2 ^ 64 - 1 - x % 2 ^ 64

/-! ## Device state -/

/-- The fields of `SunGEMState` that the model uses, followed by the state of
the collaborators of the device. -/
structure SunGEMState where
  /-- The register file: `regs b i` is `s->regs[b][i]`. Bank `b` is allocated
  with the register count of `RegBlocks`; the map also has values at indices
  beyond that count (cells (0, 6), (0, 7) and (10, 20 .. 23) are handed out by
  `sungem_get_reg`), where the code reaches memory outside the bank, so what the
  model stores there says nothing about the code: `get_reg_in_bank` marks the
  addresses whose cell is allocated. -/
  regs : Nat → Nat → Nat
  phy_addr : Nat
  rx_mask : Nat
  tx_mask : Nat
  /-- The staging buffer: `tx_data i` is `s->tx_data[i]`. -/
  tx_data : Nat → Nat
  tx_size : Nat
  tx_first_ctl : Nat
  /-- The configured station address `s->conf.macaddr.a`. -/
  macaddr : Nat → Nat
  /-- Level of the PCI interrupt line, as last set by `pci_set_irq`. -/
  irq : Bool
  /-- Guest memory, one byte per address. -/
  mem : Nat → Nat
  /-- Frames handed to `qemu_send_packet`, oldest first. -/
  sent : List (List Nat)
  /-- The flag `link_down` of the network queue. -/
  link_down : Bool

/-- The cell (bank, index) that `sungem_get_reg` points at, `none` for `NULL`.
The argument is the `uint32_t` parameter `reg`. -/
def sungem_get_reg (reg : Nat) : Option (Nat × Nat) :=
  let idx := (reg &&& 0xff) >>> 2
  if reg ≤ 0x1c then some (0, idx)
  else if reg ≥ 0x1000 ∧ reg ≤ 0x1010 then some (1, idx)
  else if reg ≥ 0x2000 ∧ reg ≤ 0x2034 then some (2, idx)
  else if reg ≥ 0x2100 ∧ reg ≤ 0x2118 then some (3, idx)
  else if reg ≥ 0x3000 ∧ reg ≤ 0x3010 then some (4, idx)
  else if reg ≥ 0x4000 ∧ reg ≤ 0x4028 then some (5, idx)
  else if reg ≥ 0x4100 ∧ reg ≤ 0x4120 then some (6, idx)
  else if reg ≥ 0x6000 ∧ reg ≤ 0x6134 then some (7, idx)
  else if reg ≥ 0x6200 ∧ reg ≤ 0x621c then some (8, idx)
  else if reg ≥ 0x9000 ∧ reg ≤ 0x9018 then some (9, idx)
  else if reg ≥ 0x9050 ∧ reg ≤ 0x905c then some (10, idx)
  else none

/-- Store through a register pointer: `*regp = val` with `regp` pointing at
cell `c`; the value is truncated to 32 bits. -/
def storeCell (s : SunGEMState) (c : Nat × Nat) (val : Nat) : SunGEMState :=
  { s with regs := fun b i => if b = c.1 ∧ i = c.2 then val % 2 ^ 32 else s.regs b i }

/-- Load through a register pointer: `*regp`, a 32-bit value. -/
def loadCell (s : SunGEMState) (c : Nat × Nat) : Nat := s.regs c.1 c.2 % 2 ^ 32

/-- The accessor `SET_REG(s, reg, val)`; `none` when the assertion fails. -/
def SET_REG (s : SunGEMState) (reg val : Nat) : Option SunGEMState :=
  match sungem_get_reg (reg % 2 ^ 32) with
  | some c => some (storeCell s c val)
  | none => none

/-- The accessor `GET_REG(s, reg)`; `none` when the assertion fails. -/
def GET_REG (s : SunGEMState) (reg : Nat) : Option Nat :=
  match sungem_get_reg (reg % 2 ^ 32) with
  | some c => some (loadCell s c)
  | none => none

/-- The collaborator `pci_set_irq`: drive the interrupt line. -/
def pci_set_irq (s : SunGEMState) (level : Bool) : SunGEMState :=
  { s with irq := level }

def sungem_eval_irq (e : Env) (s : SunGEMState) : Option SunGEMState := do
  let mask ← GET_REG s GREG_IMASK
  let stat := (← GET_REG s GREG_STAT) &&& not32 e.GREG_STAT_TXNR
  if stat &&& not32 mask ≠ 0 then
    pure (pci_set_irq s true)
  else
    pure (pci_set_irq s false)

def sungem_update_status (e : Env) (s : SunGEMState) (bits : Nat) (val : Bool) :
    Option SunGEMState := do
  let stat ← GET_REG s GREG_STAT
  let stat := if val then stat ||| bits % 2 ^ 32 else stat &&& not32 bits
  let s ← SET_REG s GREG_STAT stat
  sungem_eval_irq e s

def sungem_eval_cascade_irq (e : Env) (s : SunGEMState) : Option SunGEMState := do
  let mask ← GET_REG s e.MAC_TXSTAT
  let stat ← GET_REG s e.MAC_TXMASK
  let s ← (if stat &&& not32 mask ≠ 0 then
      sungem_update_status e s e.GREG_STAT_TXMAC true
    else
      sungem_update_status e s e.GREG_STAT_TXMAC false)
  let mask ← GET_REG s e.MAC_RXSTAT
  let stat ← GET_REG s e.MAC_RXMASK
  let s ← (if stat &&& not32 mask ≠ 0 then
      sungem_update_status e s e.GREG_STAT_RXMAC true
    else
      sungem_update_status e s e.GREG_STAT_RXMAC false)
  let mask ← GET_REG s e.MAC_CSTAT
  let stat := (← GET_REG s e.MAC_MCMASK) &&& not32 e.MAC_CSTAT_PTR
  if stat &&& not32 mask ≠ 0 then
    sungem_update_status e s e.GREG_STAT_MAC true
  else
    sungem_update_status e s e.GREG_STAT_MAC false

/-! ## Guest memory, descriptors and byte buffers -/

/-- The collaborator `pci_dma_read(d, addr, buf, len)`: the `len` bytes of guest
memory from `addr` on. -/
def pci_dma_read (s : SunGEMState) (addr len : Nat) : List Nat :=
  (List.range len).map fun i => s.mem (addr + i) % 256

/-- The collaborator `pci_dma_write(d, addr, buf, len)` with `len` the length of
`buf`: guest memory afterwards. -/
def pci_dma_write (s : SunGEMState) (addr : Nat) (buf : List Nat) : SunGEMState :=
  { s with mem := fun a =>
      if addr ≤ a ∧ a < addr + buf.length then buf.getD (a - addr) 0 else s.mem a }

/-- Value of eight bytes read as a little-endian 64-bit word. -/
def le64_to_cpu (bytes : List Nat) : Nat :=
  (List.range 8).foldr (fun i acc => bytes.getD i 0 % 256 + 256 * acc) 0

/-- The eight bytes of a 64-bit word in little-endian order. -/
def cpu_to_le64 (v : Nat) : List Nat :=
  (List.range 8).map fun i => (v >>> (8 * i)) % 256

/-- Modelled from the spec: the descriptor layout of `struct gem_txd` and
`struct gem_rxd` is declared in `sungem.h`, which is not among the sources; the
spec gives it as 16 bytes, a 64-bit control/status word followed by a 64-bit
buffer-address word. The result is the pair of the two raw 8-byte fields. -/
def descFields (bytes : List Nat) : List Nat × List Nat :=
  (bytes.take 8, (bytes.drop 8).take 8)

/-- Size of a descriptor, `sizeof(desc)`. -/
def sizeof_desc : Nat := 16

/-- The bytes `buf[start .. start + len)` of a byte array. -/
def bufSlice (buf : Nat → Nat) (start len : Nat) : List Nat :=
  (List.range len).map fun i => buf (start + i)

/-- Copy `src` into a byte array from index `off` on (the destination side of a
`pci_dma_read` into `&buf[off]`). -/
def bufStore (buf : Nat → Nat) (off : Nat) (src : List Nat) : Nat → Nat :=
  fun i => if off ≤ i ∧ i < off + src.length then src.getD (i - off) 0 else buf i

/-- The helper `stw_be_p(&buf[off], v)`: store the low 16 bits of `v`, most
significant byte first. -/
def stw_be_p (buf : Nat → Nat) (off v : Nat) : Nat → Nat :=
  fun i => if i = off then (v % 2 ^ 16) >>> 8 else if i = off + 1 then v % 256 else buf i

/-- Number of bytes walked by a routine whose `int length` parameter receives
the unsigned value `x`: the low 32 bits, and nothing when they are negative as
an `int`. -/
def int_len (x : Nat) : Nat :=
  if x % 2 ^ 32 < 2 ^ 31 then x % 2 ^ 32 else 0

/-- Byte `i` of a frame buffer (`buf[i]` on a `uint8_t` pointer). -/
def u8 (buf : List Nat) (i : Nat) : Nat := buf.getD i 0 % 256

/-! ## Receive path -/

def sungem_rx_full (s : SunGEMState) (kick done : Nat) : Bool :=
  kick == ((done + 1) % 2 ^ 32 &&& s.rx_mask)

def sungem_can_receive (e : Env) (s : SunGEMState) : Option Bool := do
  let rxmac_cfg ← GET_REG s e.MAC_RXCFG
  let rxdma_cfg ← GET_REG s (RXDMA_CFG + 0x4000)
  if rxmac_cfg &&& e.MAC_RXCFG_ENAB = 0 then
    pure false
  else if rxdma_cfg &&& e.RXDMA_CFG_ENABLE = 0 then
    pure false
  else
    let kick ← GET_REG s (RXDMA_KICK + 0x4000)
    let done ← GET_REG s (RXDMA_DONE + 0x4000)
    let full := sungem_rx_full s kick done
    pure (!full)

def rx_no_match : Nat := 0

def rx_match_promisc : Nat := 1

def rx_match_bcast : Nat := 2

def rx_match_allmcast : Nat := 3

def rx_match_mcast : Nat := 4

def rx_match_mac : Nat := 5

def rx_match_altmac : Nat := 6

def sungem_check_rx_mac (e : Env) (s : SunGEMState) (mac : List Nat) (crc : Nat) :
    Option Nat := do
  let rxcfg ← GET_REG s e.MAC_RXCFG
  if rxcfg &&& e.MAC_RXCFG_PROM ≠ 0 then
    pure rx_match_promisc
  else
    let mac0 := (u8 mac 4 <<< 8) ||| u8 mac 5
    let mac1 := (u8 mac 2 <<< 8) ||| u8 mac 3
    let mac2 := (u8 mac 0 <<< 8) ||| u8 mac 1
    if mac0 = 0xffff ∧ mac1 = 0xffff ∧ mac2 = 0xffff then
      pure rx_match_bcast
    else if u8 mac 0 &&& 1 ≠ 0 then
      if rxcfg &&& e.MAC_RXCFG_PGRP ≠ 0 then
        pure rx_match_allmcast
      else if rxcfg &&& e.MAC_RXCFG_HFE ≠ 0 then
        let crc := (crc % 2 ^ 32) >>> 24
        let idx := (crc >>> 2) &&& 0x3c
        let hash ← GET_REG s (e.MAC_HASH0 + idx)
        if hash &&& (1 <<< (15 - (crc &&& 0xf))) ≠ 0 then
          pure rx_match_mcast
        else
          pure rx_no_match
      else
        pure rx_no_match
    else
      let a0 ← GET_REG s e.MAC_ADDR0
      let a1 ← GET_REG s e.MAC_ADDR1
      let a2 ← GET_REG s e.MAC_ADDR2
      if mac0 = a0 ∧ mac1 = a1 ∧ mac2 = a2 then
        pure rx_match_mac
      else
        let a3 ← GET_REG s e.MAC_ADDR3
        if mac0 = a3 then
          let a4 ← GET_REG s e.MAC_ADDR4
          if mac1 = a4 then
            let a5 ← GET_REG s e.MAC_ADDR5
            if mac2 = a5 then pure rx_match_altmac else pure rx_no_match
          else
            pure rx_no_match
        else
          pure rx_no_match

/-- The frame that `sungem_receive` processes: the caller's frame, zero-padded
to 60 bytes in `smallbuf` when shorter. -/
def rx_pad (buf : List Nat) : List Nat :=
  if buf.length < 60 then buf ++ List.replicate (60 - buf.length) 0 else buf

/-- The function `sungem_receive(nc, buf, size)` with `size` the length of
`buf`; the result is the returned byte count and the state afterwards. -/
def sungem_receive (e : Env) (s : SunGEMState) (buf : List Nat) :
    Option (Nat × SunGEMState) := do
  let size := buf.length
  let rxmac_cfg ← GET_REG s e.MAC_RXCFG
  let rxdma_cfg ← GET_REG s (RXDMA_CFG + 0x4000)
  let max_fsize := (← GET_REG s e.MAC_MAXFSZ) &&& 0x7fff
  if rxdma_cfg &&& e.RXDMA_CFG_ENABLE = 0 ∨ rxmac_cfg &&& e.MAC_RXCFG_ENAB = 0 then
    pure (0, s)
  else
    let fcs_size := if rxmac_cfg &&& e.MAC_RXCFG_SFCS ≠ 0 then 0 else 4
    if size < 6 ∨ size + 4 > max_fsize then
      pure (size, s)
    else
      let buf := rx_pad buf
      let size := buf.length
      let mac_crc := e.crc32 (not64 0) (buf.take 6) % 2 ^ 32
      let rx_cond ← sungem_check_rx_mac e s buf mac_crc
      if rx_cond = rx_no_match then
        pure (size, s)
      else
        let kick := (← GET_REG s (RXDMA_KICK + 0x4000)) &&& s.rx_mask
        let done := (← GET_REG s (RXDMA_DONE + 0x4000)) &&& s.rx_mask
        if sungem_rx_full s kick done then
          pure (0, s)
        else
          let dbase ← GET_REG s (RXDMA_DBHI + 0x4000)
          let dbase := ((dbase <<< 32) % 2 ^ 64) ||| (← GET_REG s (RXDMA_DBLOW + 0x4000))
          let daddr := (dbase + done * sizeof_desc) % 2 ^ 64
          let desc := descFields (pci_dma_read s daddr sizeof_desc)
          let baddr := le64_to_cpu desc.2 &&& not64 7
          let baddr := baddr ||| ((rxdma_cfg &&& e.RXDMA_CFG_FBOFF) >>> 10)
          let s := pci_dma_write s baddr buf
          let coff := ((rxdma_cfg &&& e.RXDMA_CFG_CSUMOFF) >>> 13) % 2 ^ 32
          let csum := e.net_raw_checksum
            ((buf.drop coff).take (int_len ((size + 2 ^ 64 - coff) % 2 ^ 64))) % 2 ^ 32
          let status_word := ((size + fcs_size) <<< 16) % 2 ^ 64
          let status_word := status_word ||| ((mac_crc >>> 16) <<< 44)
          let status_word := status_word ||| csum
          let status_word :=
            if rx_cond = rx_match_mcast then status_word ||| e.RXDCTRL_HPASS else status_word
          let status_word :=
            if rx_cond = rx_match_altmac then status_word ||| e.RXDCTRL_ALTMAC else status_word
          let s := pci_dma_write s daddr (cpu_to_le64 status_word ++ desc.2)
          let done := (done + 1) % 2 ^ 32 &&& s.rx_mask
          let s ← SET_REG s (RXDMA_DONE + 0x4000) done
          let ints := e.GREG_STAT_RXDONE % 2 ^ 32
          let ints := if sungem_rx_full s kick done then ints ||| e.GREG_STAT_RXNOBUF % 2 ^ 32 else ints
          let s ← sungem_update_status e s ints true
          pure (size, s)

/-! ## Transmit path -/

def sungem_do_tx_csum (e : Env) (s : SunGEMState) : SunGEMState :=
  let start := ((s.tx_first_ctl &&& e.TXDCTRL_CSTART) >>> 15) % 2 ^ 16
  let off := ((s.tx_first_ctl &&& e.TXDCTRL_COFF) >>> 21) % 2 ^ 16
  if start > (s.tx_size + 2 ^ 32 - 2) % 2 ^ 32 ∨ off > (s.tx_size + 2 ^ 32 - 2) % 2 ^ 32 then
    s
  else
    let csum := e.net_raw_checksum
      (bufSlice s.tx_data start (int_len ((s.tx_size + 2 ^ 32 - start) % 2 ^ 32))) % 2 ^ 32
    { s with tx_data := stw_be_p s.tx_data off csum }

/-- The function `sungem_send_packet(s, buf, size)` for the frame `buf`. With
the loopback bit set the frame goes to the receive callback of the queue, which
is `sungem_receive`, and the byte count it returns is dropped. -/
def sungem_send_packet (e : Env) (s : SunGEMState) (buf : List Nat) :
    Option SunGEMState := do
  if (← GET_REG s e.MAC_XIFCFG) &&& e.MAC_XIFCFG_LBCK ≠ 0 then
    let r ← sungem_receive e s buf
    pure r.2
  else
    pure { s with sent := s.sent ++ [buf] }

/-- First step of `sungem_process_tx_desc`: a descriptor with the start-of-frame
flag empties the accumulator and records its control word. -/
def tx_desc_sof (e : Env) (s : SunGEMState) (control_word : Nat) : SunGEMState :=
  if control_word &&& e.TXDCTRL_SOF ≠ 0 then
    { s with tx_size := 0, tx_first_ctl := control_word }
  else s

/-- Second step of `sungem_process_tx_desc`: the copy length `len`, the buffer
size field of the descriptor after the clamp. -/
def tx_desc_len (e : Env) (s : SunGEMState) (control_word : Nat) : Nat :=
  let len := (control_word &&& e.TXDCTRL_BUFSZ) % 2 ^ 32
  if (s.tx_size + len) % 2 ^ 32 > MAX_PACKET_SIZE then
    (MAX_PACKET_SIZE + 2 ^ 32 - s.tx_size) % 2 ^ 32
  else len

/-- The function `sungem_process_tx_desc(s, desc)`; the descriptor is given by
its two words after byte swapping. -/
def sungem_process_tx_desc (e : Env) (s : SunGEMState) (control_word buffer : Nat) :
    Option SunGEMState := do
  let s := tx_desc_sof e s control_word
  let len := tx_desc_len e s control_word
  let s := { s with tx_data := bufStore s.tx_data s.tx_size (pci_dma_read s buffer len) }
  let s := { s with tx_size := (s.tx_size + len) % 2 ^ 32 }
  if control_word &&& e.TXDCTRL_EOF ≠ 0 then
    let s := if s.tx_first_ctl &&& e.TXDCTRL_CENAB ≠ 0 then sungem_do_tx_csum e s else s
    let s ← sungem_send_packet e s (bufSlice s.tx_data 0 s.tx_size)
    pure { s with tx_size := 0, tx_first_ctl := 0 }
  else
    pure s

/-- The descriptor loop `while (comp != kick)` of `sungem_tx_kick`, run for at
most `fuel` iterations; `none` when the fuel runs out before the loop ends. -/
def tx_loop (e : Env) (dbase kick : Nat) : Nat → Nat → SunGEMState → Option SunGEMState
  | 0, comp, s => if comp ≠ kick then none else some s
  | fuel + 1, comp, s =>
    if comp ≠ kick then do
      let desc := descFields (pci_dma_read s ((dbase + comp * sizeof_desc) % 2 ^ 64) sizeof_desc)
      let control_word := le64_to_cpu desc.1
      let buffer := le64_to_cpu desc.2
      let s ← sungem_process_tx_desc e s control_word buffer
      let ints := e.GREG_STAT_TXDONE % 2 ^ 32
      let ints :=
        if control_word &&& e.TXDCTRL_INTME ≠ 0 then ints ||| e.GREG_STAT_TXINTME % 2 ^ 32
        else ints
      let s ← sungem_update_status e s ints true
      let comp := (comp + 1) % 2 ^ 32 &&& s.tx_mask
      let s ← SET_REG s (TXDMA_TXDONE + 0x2000) comp
      tx_loop e dbase kick fuel comp s
    else some s

/-- The function `sungem_tx_kick`. The descriptor loop steps `comp` through
values of the form `x & tx_mask`, of which there are at most `tx_mask + 1`, so
it either ends within `tx_mask + 1` iterations or never: that is the fuel. -/
def sungem_tx_kick (e : Env) (s : SunGEMState) : Option SunGEMState := do
  let txdma_cfg ← GET_REG s (TXDMA_CFG + 0x2000)
  let txmac_cfg ← GET_REG s e.MAC_TXCFG
  if txdma_cfg &&& e.TXDMA_CFG_ENABLE = 0 ∨ txmac_cfg &&& e.MAC_TXCFG_ENAB = 0 then
    pure s
  else
    let dbase ← GET_REG s (TXDMA_DBHI + 0x2000)
    let dbase := ((dbase <<< 32) % 2 ^ 64) ||| (← GET_REG s (TXDMA_DBLOW + 0x2000))
    let comp := (← GET_REG s (TXDMA_TXDONE + 0x2000)) &&& s.tx_mask
    let kick := (← GET_REG s (TXDMA_KICK + 0x2000)) &&& s.tx_mask
    let s ← tx_loop e dbase kick (s.tx_mask + 1) comp s
    sungem_update_status e s e.GREG_STAT_TXALL true

/-! ## Ring masks and reset -/

/-- The function `sungem_update_masks`; the `int` shift `1 << n` is taken in 32
bits. -/
def sungem_update_masks (e : Env) (s : SunGEMState) : Option SunGEMState := do
  let sz := (1 <<< ((((← GET_REG s (RXDMA_CFG + 0x4000)) &&& e.RXDMA_CFG_RINGSZ) >>> 1) + 5)) % 2 ^ 32
  let s := { s with rx_mask := (sz + 2 ^ 32 - 1) % 2 ^ 32 }
  let sz := (1 <<< ((((← GET_REG s (TXDMA_CFG + 0x2000)) &&& e.TXDMA_CFG_RINGSZ) >>> 1) + 5)) % 2 ^ 32
  pure { s with tx_mask := (sz + 2 ^ 32 - 1) % 2 ^ 32 }

def sungem_reset_rx (e : Env) (s : SunGEMState) : Option SunGEMState := do
  let s ← SET_REG s (RXDMA_FSZ + 0x4000) 0x140
  let s ← SET_REG s (RXDMA_DONE + 0x4000) 0
  let s ← SET_REG s (RXDMA_KICK + 0x4000) 0
  let s ← SET_REG s (RXDMA_CFG + 0x4000) 0x1000010
  let s ← SET_REG s (RXDMA_PTHRESH + 0x4000) 0xf8
  let s ← SET_REG s (RXDMA_BLANK + 0x4000) 0
  sungem_update_masks e s

def sungem_reset_tx (e : Env) (s : SunGEMState) : Option SunGEMState := do
  let s ← SET_REG s (TXDMA_FSZ + 0x2000) 0x90
  let s ← SET_REG s (TXDMA_TXDONE + 0x2000) 0
  let s ← SET_REG s (TXDMA_KICK + 0x2000) 0
  let s ← SET_REG s (TXDMA_CFG + 0x2000) 0x118010
  let s ← sungem_update_masks e s
  pure { s with tx_size := 0, tx_first_ctl := 0 }

def sungem_reset_all (e : Env) (s : SunGEMState) (pci_reset : Bool) :
    Option SunGEMState := do
  let s ← sungem_reset_rx e s
  let s ← sungem_reset_tx e s
  let s ← SET_REG s GREG_IMASK 0xFFFFFFF
  let s ← SET_REG s GREG_STAT 0
  let s ←
    (if pci_reset then do
      let ma := s.macaddr
      let s ← SET_REG s GREG_SWRST 0
      let s ← SET_REG s e.MAC_ADDR0 (((ma 4 % 256) <<< 8) ||| ma 5 % 256)
      let s ← SET_REG s e.MAC_ADDR1 (((ma 2 % 256) <<< 8) ||| ma 3 % 256)
      SET_REG s e.MAC_ADDR2 (((ma 0 % 256) <<< 8) ||| ma 1 % 256)
    else do
      SET_REG s GREG_SWRST ((← GET_REG s GREG_SWRST) &&& e.GREG_SWRST_RSTOUT))
  SET_REG s e.MIF_CFG e.MIF_CFG_MDI0

/-! ## Transceiver stub -/

def sungem_mii_write (s : SunGEMState) (_phy_addr _reg_addr _val : Nat) : SunGEMState := s

def __sungem_mii_read (e : Env) (s : SunGEMState) (phy_addr reg_addr : Nat) : Nat :=
  if phy_addr ≠ s.phy_addr then 0xffff
  else if reg_addr = e.MII_BMCR then 0
  else if reg_addr = e.MII_PHYID1 then 0x0040
  else if reg_addr = e.MII_PHYID2 then 0x6210
  else if reg_addr = e.MII_BMSR then
    if s.link_down then
      (e.MII_BMSR_100TX_FD ||| e.MII_BMSR_AUTONEG) % 2 ^ 16
    else
      (e.MII_BMSR_100TX_FD ||| e.MII_BMSR_AN_COMP ||| e.MII_BMSR_AUTONEG |||
        e.MII_BMSR_LINK_ST) % 2 ^ 16
  else if reg_addr = e.MII_ANLPAR ∨ reg_addr = e.MII_ANAR then e.MII_ANLPAR_TXFD % 2 ^ 16
  else if reg_addr = 0x18 then 3
  else 0

def sungem_mii_read (e : Env) (s : SunGEMState) (phy_addr reg_addr : Nat) : Nat :=
  __sungem_mii_read e s phy_addr reg_addr

/-- The function `sungem_mii_op(s, val)` for a 32-bit `val`; the state is not
changed by it, so only the returned word is given. -/
def sungem_mii_op (e : Env) (s : SunGEMState) (val : Nat) : Nat :=
  if val >>> 30 ≠ 1 then 0xffff
  else
    let phy_addr := ((val &&& e.MIF_FRAME_PHYAD) >>> 23) % 2 ^ 8
    let reg_addr := ((val &&& e.MIF_FRAME_REGAD) >>> 18) % 2 ^ 8
    let op := ((val &&& e.MIF_FRAME_OP) >>> 28) % 2 ^ 8
    if op = 1 then
      let _ := sungem_mii_write s phy_addr reg_addr ((val &&& e.MIF_FRAME_DATA) % 2 ^ 16)
      (val ||| e.MIF_FRAME_TALSB) % 2 ^ 32
    else if op = 2 then
      (sungem_mii_read e s phy_addr reg_addr ||| e.MIF_FRAME_TALSB) % 2 ^ 32
    else
      (0xffff ||| e.MIF_FRAME_TALSB) % 2 ^ 32

/-! ## Register access entry points

An entry point takes the bus address `addr` and, for a write, the 64-bit value
`val`. The collaborator `qemu_flush_queued_packets` is left out: the frames it
would deliver are separate calls of `sungem_receive`. -/

def sungem_mmio_write (e : Env) (s : SunGEMState) (addr val : Nat) : Option SunGEMState :=
  if addr > e.PROM_START then some s
  else
    match sungem_get_reg (addr % 2 ^ 32) with
    | none => some s
    | some regp =>
      if addr = e.MAC_TXRST ∨ addr = e.MAC_RXRST ∨ addr = e.MAC_TXSTAT ∨ addr = e.MAC_RXSTAT ∨
          addr = e.MAC_CSTAT ∨ addr = e.MAC_PATMPS ∨ addr = e.MAC_SMACHINE ∨
          addr = e.MIF_STATUS ∨ addr = e.MIF_SMACHINE ∨ addr = e.PCS_MIISTAT ∨
          addr = e.PCS_ISTAT ∨ addr = e.PCS_SSTATE then
        some s
      else
        let val :=
          if addr = e.MIF_CFG then ((val &&& not64 e.MIF_CFG_MDI1) ||| e.MIF_CFG_MDI0) % 2 ^ 64
          else if addr = e.MAC_MINFSZ then val &&& 0x3ff
          else val
        let s := storeCell s regp val
        if addr = e.MAC_TXMASK ∨ addr = e.MAC_RXMASK ∨ addr = e.MAC_MCMASK then
          sungem_eval_cascade_irq e s
        else if addr = e.MIF_FRAME then
          some (storeCell s regp (sungem_mii_op e s (val % 2 ^ 32)))
        else if addr = e.MAC_RXCFG then do
          let s ← sungem_update_masks e s
          let _ ← GET_REG s e.MAC_RXCFG
          pure s
        else
          some s

/-- The function `sungem_mmio_read`: the value returned and the state
afterwards. -/
def sungem_mmio_read (e : Env) (s : SunGEMState) (addr : Nat) : Option (Nat × SunGEMState) :=
  if addr > e.PROM_START then some (0xffffffff, s)
  else
    match sungem_get_reg (addr % 2 ^ 32) with
    | none => some (0, s)
    | some regp =>
      let val := loadCell s regp
      if addr = e.MAC_TXSTAT then do
        let s := storeCell s regp 0
        let s ← sungem_update_status e s e.GREG_STAT_TXMAC false
        pure (val, s)
      else if addr = e.MAC_RXSTAT then do
        let s := storeCell s regp 0
        let s ← sungem_update_status e s e.GREG_STAT_RXMAC false
        pure (val, s)
      else if addr = e.MAC_CSTAT then do
        let s := storeCell s regp (loadCell s regp &&& e.MAC_CSTAT_PTR)
        let s ← sungem_update_status e s e.GREG_STAT_MAC false
        pure (val, s)
      else
        some (val, s)

def sungem_mmio_greg_write (e : Env) (s : SunGEMState) (addr val : Nat) :
    Option SunGEMState :=
  match sungem_get_reg (addr % 2 ^ 32) with
  | none => some s
  | some regp =>
    if addr = GREG_SEBSTATE ∨ addr = GREG_STAT ∨ addr = GREG_STAT2 ∨ addr = GREG_PCIESTAT then
      some s
    else if addr = GREG_IACK then do
      let val := val &&& e.GREG_STAT_LATCH
      let s ← SET_REG s GREG_STAT ((← GET_REG s GREG_STAT) &&& not64 val)
      sungem_eval_irq e s
    else
      let val := if addr = GREG_PCIEMASK then val &&& 0x7 else val
      let s := storeCell s regp val
      if addr = GREG_IMASK then
        sungem_eval_irq e s
      else if addr = GREG_SWRST then
        let sel := val &&& (e.GREG_SWRST_TXRST ||| e.GREG_SWRST_RXRST)
        if sel = e.GREG_SWRST_RXRST then sungem_reset_rx e s
        else if sel = e.GREG_SWRST_TXRST then sungem_reset_tx e s
        else if sel = e.GREG_SWRST_RXRST ||| e.GREG_SWRST_TXRST then sungem_reset_all e s false
        else some s
      else
        some s

/-- The function `sungem_mmio_greg_read`: the value returned and the state
afterwards. -/
def sungem_mmio_greg_read (e : Env) (s : SunGEMState) (addr : Nat) :
    Option (Nat × SunGEMState) :=
  match sungem_get_reg (addr % 2 ^ 32) with
  | none => some (0, s)
  | some regp =>
    let val := loadCell s regp
    if addr = GREG_STAT then do
      let s := storeCell s regp (val &&& not32 e.GREG_STAT_LATCH)
      let s ← sungem_eval_irq e s
      let val := ((val &&& not32 e.GREG_STAT_TXNR) |||
        ((← GET_REG s (TXDMA_TXDONE + 0x2000)) <<< e.GREG_STAT_TXNR_SHIFT)) % 2 ^ 32
      pure (val, s)
    else if addr = GREG_STAT2 then do
      let val := (((← GET_REG s GREG_STAT) &&& not32 e.GREG_STAT_TXNR) |||
        ((← GET_REG s (TXDMA_TXDONE + 0x2000)) <<< e.GREG_STAT_TXNR_SHIFT)) % 2 ^ 32
      pure (val, s)
    else
      some (val, s)

def sungem_mmio_txdma_write (e : Env) (s : SunGEMState) (addr val : Nat) :
    Option SunGEMState :=
  match sungem_get_reg ((addr + 0x2000) % 2 ^ 32) with
  | none => some s
  | some regp =>
    if addr = TXDMA_TXDONE ∨ addr = TXDMA_PCNT ∨ addr = TXDMA_SMACHINE ∨ addr = TXDMA_DPLOW ∨
        addr = TXDMA_DPHI ∨ addr = TXDMA_FSZ ∨ addr = TXDMA_FTAG then
      some s
    else
      let s := storeCell s regp val
      if addr = TXDMA_KICK then sungem_tx_kick e s
      else if addr = TXDMA_CFG then sungem_update_masks e s
      else some s

/-- The function `sungem_mmio_txdma_read`: the value returned and the state
afterwards. -/
def sungem_mmio_txdma_read (s : SunGEMState) (addr : Nat) : Nat × SunGEMState :=
  match sungem_get_reg ((addr + 0x2000) % 2 ^ 32) with
  | none => (0, s)
  | some regp => (loadCell s regp, s)

def sungem_mmio_rxdma_write (e : Env) (s : SunGEMState) (addr val : Nat) :
    Option SunGEMState :=
  match sungem_get_reg ((addr + 0x4000) % 2 ^ 32) with
  | none => some s
  | some regp =>
    if addr = RXDMA_DONE ∨ addr = RXDMA_PCNT ∨ addr = RXDMA_SMACHINE ∨ addr = RXDMA_DPLOW ∨
        addr = RXDMA_DPHI ∨ addr = RXDMA_FSZ ∨ addr = RXDMA_FTAG then
      some s
    else
      let s := storeCell s regp val
      if addr = RXDMA_KICK then some s
      else if addr = RXDMA_CFG then do
        let s ← sungem_update_masks e s
        let _ ← GET_REG s e.MAC_RXCFG
        pure s
      else some s

/-- The function `sungem_mmio_rxdma_read`: the value returned and the state
afterwards. -/
def sungem_mmio_rxdma_read (s : SunGEMState) (addr : Nat) : Nat × SunGEMState :=
  match sungem_get_reg ((addr + 0x4000) % 2 ^ 32) with
  | none => (0, s)
  | some regp => (loadCell s regp, s)

/-- The function `sungem_init_regs` on a freshly allocated device: zeroed
register banks, then a bus reset. -/
def sungem_init_regs (e : Env) (s : SunGEMState) : Option SunGEMState :=
  sungem_reset_all e { s with regs := fun _ _ => 0 } true

/-- The function `sungem_reset`, the device reset callback. -/
def sungem_reset (e : Env) (s : SunGEMState) : Option SunGEMState :=
  sungem_reset_all e s true

/-! ## A concrete instance

The theorems below hold for every `Env` that meets their hypotheses. To
instantiate them, `gemEnv` gives the constants their values in the GEM register
layout and `zeroState` is a device with everything cleared. -/

/-- Modelled from the spec: `net_raw_checksum` (`net/checksum.h`) is not among
the sources and the spec only names it "the defined checksum function"; this
instance is the 16-bit ones-complement sum of the bytes taken as big-endian
16-bit words, complemented. -/
def ref_net_raw_checksum (data : List Nat) : Nat :=
  let sum := ((List.range data.length).map fun i =>
    if i % 2 = 1 then data.getD i 0 % 256 else (data.getD i 0 % 256) <<< 8).sum % 2 ^ 32
  let sum := sum % 2 ^ 16 + sum >>> 16
  let sum := sum % 2 ^ 16 + sum >>> 16
  (2 ^ 16 - 1 - sum) % 2 ^ 16

/-- One bit step of the reflected CRC-32 (polynomial `0xEDB88320`). -/
def crc32_bit (c : Nat) : Nat :=
  if c % 2 = 1 then (c >>> 1) ^^^ 0xEDB88320 else c >>> 1

/-- A stand-in for the zlib routine `crc32`, which is outside the repository:
the reflected CRC-32 with pre- and post-inversion of the low 32 bits. -/
def ref_crc32 (crc : Nat) (buf : List Nat) : Nat :=
  not32 (buf.foldl (fun c b => crc32_bit^[8] (c ^^^ (b % 256))) (not32 crc))

/-- The header constants with their values in the GEM register layout. -/
def gemEnv : Env where
  GREG_STAT_TXINTME := 0x00000001
  GREG_STAT_TXALL := 0x00000002
  GREG_STAT_TXDONE := 0x00000004
  GREG_STAT_RXDONE := 0x00000010
  GREG_STAT_RXNOBUF := 0x00000020
  GREG_STAT_TXMAC := 0x00004000
  GREG_STAT_RXMAC := 0x00008000
  GREG_STAT_MAC := 0x00010000
  GREG_STAT_TXNR := 0xfff80000
  GREG_STAT_TXNR_SHIFT := 19
  GREG_STAT_LATCH := 0x0000007f
  GREG_SWRST_TXRST := 0x00000001
  GREG_SWRST_RXRST := 0x00000002
  GREG_SWRST_RSTOUT := 0x00000004
  TXDMA_CFG_ENABLE := 0x00000001
  TXDMA_CFG_RINGSZ := 0x0000001e
  RXDMA_CFG_ENABLE := 0x00000001
  RXDMA_CFG_RINGSZ := 0x0000001e
  RXDMA_CFG_FBOFF := 0x00001c00
  RXDMA_CFG_CSUMOFF := 0x000fe000
  MAC_TXRST := 0x6000
  MAC_RXRST := 0x6004
  MAC_TXSTAT := 0x6010
  MAC_RXSTAT := 0x6014
  MAC_CSTAT := 0x6018
  MAC_TXMASK := 0x6020
  MAC_RXMASK := 0x6024
  MAC_MCMASK := 0x6028
  MAC_TXCFG := 0x6030
  MAC_RXCFG := 0x6034
  MAC_XIFCFG := 0x603c
  MAC_MINFSZ := 0x6050
  MAC_MAXFSZ := 0x6054
  MAC_ADDR0 := 0x6080
  MAC_ADDR1 := 0x6084
  MAC_ADDR2 := 0x6088
  MAC_ADDR3 := 0x608c
  MAC_ADDR4 := 0x6090
  MAC_ADDR5 := 0x6094
  MAC_HASH0 := 0x60c0
  MAC_PATMPS := 0x6114
  MAC_SMACHINE := 0x6134
  MAC_CSTAT_PTR := 0xffff0000
  MAC_TXCFG_ENAB := 0x00000001
  MAC_RXCFG_ENAB := 0x00000001
  MAC_RXCFG_SFCS := 0x00000004
  MAC_RXCFG_PROM := 0x00000008
  MAC_RXCFG_PGRP := 0x00000010
  MAC_RXCFG_HFE := 0x00000020
  MAC_XIFCFG_LBCK := 0x00000002
  MIF_FRAME := 0x620c
  MIF_CFG := 0x6210
  MIF_STATUS := 0x6218
  MIF_SMACHINE := 0x621c
  MIF_CFG_MDI0 := 0x00000100
  MIF_CFG_MDI1 := 0x00000200
  MIF_FRAME_PHYAD := 0x0f800000
  MIF_FRAME_REGAD := 0x007c0000
  MIF_FRAME_OP := 0x30000000
  MIF_FRAME_DATA := 0x0000ffff
  MIF_FRAME_TALSB := 0x00010000
  PCS_MIISTAT := 0x9004
  PCS_ISTAT := 0x9018
  PCS_SSTATE := 0x905c
  PROM_START := 0x100000
  TXDCTRL_BUFSZ := 0x0000000000007fff
  TXDCTRL_CSTART := 0x00000000001f8000
  TXDCTRL_COFF := 0x000000001fe00000
  TXDCTRL_CENAB := 0x0000000020000000
  TXDCTRL_EOF := 0x0000000040000000
  TXDCTRL_SOF := 0x0000000080000000
  TXDCTRL_INTME := 0x0000000100000000
  RXDCTRL_HPASS := 0x1000000000000000
  RXDCTRL_ALTMAC := 0x2000000000000000
  MII_BMCR := 0
  MII_BMSR := 1
  MII_PHYID1 := 2
  MII_PHYID2 := 3
  MII_ANAR := 4
  MII_ANLPAR := 5
  MII_BMSR_100TX_FD := 0x4000
  MII_BMSR_AUTONEG := 0x0008
  MII_BMSR_AN_COMP := 0x0020
  MII_BMSR_LINK_ST := 0x0004
  MII_ANLPAR_TXFD := 0x0100
  net_raw_checksum := ref_net_raw_checksum
  crc32 := ref_crc32

/-- A device with every register, buffer byte and memory byte zero. -/
def zeroState : SunGEMState where
  regs := fun _ _ => 0
  phy_addr := 0
  rx_mask := 0
  tx_mask := 0
  tx_data := fun _ => 0
  tx_size := 0
  tx_first_ctl := 0
  macaddr := fun _ => 0
  irq := false
  mem := fun _ => 0
  sent := []
  link_down := false

/-- A device as allocated, before `sungem_init_regs`: the object is zeroed and
then given its configuration (station address, transceiver address); guest
memory and the link flag belong to the collaborators. -/
def newDevice (macaddr : Nat → Nat) (phy_addr : Nat) (mem : Nat → Nat) (link_down : Bool) :
    SunGEMState :=
  { zeroState with macaddr := macaddr, phy_addr := phy_addr, mem := mem, link_down := link_down }

/-! ## The device as a transition system -/

/-- One completed operation on the device: a register access through one of the
four banks, a frame delivery, a transmit kick, a reset, or an action of a
collaborator (the guest changing its memory, the link changing state). -/
inductive Step (e : Env) : SunGEMState → SunGEMState → Prop
  | mmio_write {s s' : SunGEMState} (addr val : Nat) :
      sungem_mmio_write e s addr val = some s' → Step e s s'
  | mmio_read {s s' : SunGEMState} (addr v : Nat) :
      sungem_mmio_read e s addr = some (v, s') → Step e s s'
  | greg_write {s s' : SunGEMState} (addr val : Nat) :
      sungem_mmio_greg_write e s addr val = some s' → Step e s s'
  | greg_read {s s' : SunGEMState} (addr v : Nat) :
      sungem_mmio_greg_read e s addr = some (v, s') → Step e s s'
  | txdma_write {s s' : SunGEMState} (addr val : Nat) :
      sungem_mmio_txdma_write e s addr val = some s' → Step e s s'
  | txdma_read {s : SunGEMState} (addr : Nat) :
      Step e s (sungem_mmio_txdma_read s addr).2
  | rxdma_write {s s' : SunGEMState} (addr val : Nat) :
      sungem_mmio_rxdma_write e s addr val = some s' → Step e s s'
  | rxdma_read {s : SunGEMState} (addr : Nat) :
      Step e s (sungem_mmio_rxdma_read s addr).2
  | receive {s s' : SunGEMState} (buf : List Nat) (n : Nat) :
      sungem_receive e s buf = some (n, s') → Step e s s'
  | tx_kick {s s' : SunGEMState} :
      sungem_tx_kick e s = some s' → Step e s s'
  | reset_rx {s s' : SunGEMState} :
      sungem_reset_rx e s = some s' → Step e s s'
  | reset_tx {s s' : SunGEMState} :
      sungem_reset_tx e s = some s' → Step e s s'
  | reset_all {s s' : SunGEMState} (pci_reset : Bool) :
      sungem_reset_all e s pci_reset = some s' → Step e s s'
  | guest_memory {s : SunGEMState} (mem : Nat → Nat) :
      Step e s { s with mem := mem }
  | link_status {s : SunGEMState} (down : Bool) :
      Step e s { s with link_down := down }

/-- States reachable from `sungem_init_regs` on a new device. -/
inductive Reachable (e : Env) : SunGEMState → Prop
  | init (macaddr : Nat → Nat) (phy_addr : Nat) (mem : Nat → Nat) (link_down : Bool)
      (s : SunGEMState) :
      sungem_init_regs e (newDevice macaddr phy_addr mem link_down) = some s → Reachable e s
  | step (s s' : SunGEMState) : Reachable e s → Step e s s' → Reachable e s'

/-! ## Specification-side definitions -/

/-- The interrupt level that the registers call for: the global status without
its `GREG_STAT_TXNR` field, and-not the global mask, is non-zero. -/
def irq_level (e : Env) (s : SunGEMState) : Bool :=
  decide ((loadCell s (0, 3) &&& not32 e.GREG_STAT_TXNR) &&& not32 (loadCell s (0, 4)) ≠ 0)

/-- Apart from the interrupt line, `s'` is `s`. -/
def OnlyIrq (s s' : SunGEMState) : Prop := s' = { s with irq := s'.irq }

/-- Apart from the register file and the interrupt line, `s'` is `s`. -/
def OnlyRegsIrq (s s' : SunGEMState) : Prop := s' = { s with regs := s'.regs, irq := s'.irq }

/-- The cleared device with one byte accumulated and a first control word with
checksum-enable, checksum start 0 and stuff offset 4. -/
def shortFrameState : SunGEMState :=
  { zeroState with tx_size := 1, tx_first_ctl := 0x20000000 ||| (4 <<< 21) }

/-- The cleared device with bit 0 of `MAC_TXSTAT` (cell (7, 4) in the GEM
layout) set. -/
def txStatusPendingState : SunGEMState := storeCell zeroState (7, 4) 1

/-- Frame of an update of the global status: bits of `GREG_STAT` outside the
mask `m` keep their value, every other register cell keeps its value, and
apart from the registers only the interrupt line may change. -/
def StatusFrame (m : Nat) (s s' : SunGEMState) : Prop :=
  (∀ i, m.testBit i = false → (loadCell s' (0, 3)).testBit i = (loadCell s (0, 3)).testBit i) ∧
  (∀ b i, (b, i) ≠ (0, 3) → s'.regs b i = s.regs b i) ∧
  s' = { s with regs := s'.regs, irq := s'.irq }

/-- A computation establishes `P` whenever it returns. -/
def Post {α : Type} (P : α → Prop) (x : Option α) : Prop := ∀ a, x = some a → P a

/-- Apart from the staging buffer, `s'` is `s`. -/
def OnlyTxData (s s' : SunGEMState) : Prop := s' = { s with tx_data := s'.tx_data }

/-- The cleared device with four bytes accumulated and a first control word
with checksum-enable, checksum start 0 and stuff offset 2. -/
def fourByteFrameState : SunGEMState :=
  { zeroState with tx_size := 4, tx_first_ctl := 0x20000000 ||| (2 <<< 21) }

/-- A device in the GEM layout with receive enabled and promiscuous
(`MAC_RXCFG = 0x9` in cell (7, 13)), RX DMA enabled with the smallest ring
(`RXDMA_CFG = 1` in cell (5, 0), so `rx_mask = 31`), `MAC_MAXFSZ = 1518` in cell
(7, 21), and the given `RXDMA_KICK` (cell (6, 0)) and `RXDMA_DONE` (cell (6, 1)). -/
def rxState (kick done : Nat) : SunGEMState :=
  { zeroState with
    rx_mask := 31
    regs := fun b i =>
      if b = 7 ∧ i = 13 then 0x9
      else if b = 5 ∧ i = 0 then 1
      else if b = 7 ∧ i = 21 then 1518
      else if b = 6 ∧ i = 0 then kick
      else if b = 6 ∧ i = 1 then done
      else 0 }

/-- A frame of 60 zero bytes. -/
def zeroFrame : List Nat := List.replicate 60 0

/-- One iteration of the descriptor loop of `sungem_tx_kick` at ring index
`comp`: fetch and process the descriptor, raise the completion status, store the
next index in `TXDMA_TXDONE`. -/
def tx_body (e : Env) (dbase comp : Nat) (s : SunGEMState) : Option SunGEMState := do
  let desc := descFields (pci_dma_read s ((dbase + comp * sizeof_desc) % 2 ^ 64) sizeof_desc)
  let control_word := le64_to_cpu desc.1
  let buffer := le64_to_cpu desc.2
  let s ← sungem_process_tx_desc e s control_word buffer
  let ints := e.GREG_STAT_TXDONE % 2 ^ 32
  let ints :=
    if control_word &&& e.TXDCTRL_INTME ≠ 0 then ints ||| e.GREG_STAT_TXINTME % 2 ^ 32
    else ints
  let s ← sungem_update_status e s ints true
  SET_REG s (TXDMA_TXDONE + 0x2000) ((comp + 1) % 2 ^ 32 &&& s.tx_mask)

/-- Register cells outside the list `ex` hold in `t` what they hold in `s`. -/
def RegsFrame (ex : List (Nat × Nat)) (s t : SunGEMState) : Prop :=
  ∀ b i, (b, i) ∉ ex → t.regs b i = s.regs b i

/-- Every bit of the global status that is set in `s` is set in `t`. -/
def StatMono (s t : SunGEMState) : Prop :=
  ∀ i, (loadCell s (0, 3)).testBit i = true → (loadCell t (0, 3)).testBit i = true

/-- What a transmit kick leaves alone: the ring masks, and every register cell
other than `GREG_STAT` (0, 3), `RXDMA_DONE` (6, 1) and `TXDMA_TXDONE` (3, 0);
and bits of `GREG_STAT` are only ever set. -/
def KickFrame (s t : SunGEMState) : Prop :=
  t.tx_mask = s.tx_mask ∧ t.rx_mask = s.rx_mask ∧
    RegsFrame [(0, 3), (6, 1), (3, 0)] s t ∧ StatMono s t

/-- The register addresses that the header supplies to the transmit and receive
paths are accepted by `sungem_get_reg`: the MAC configuration registers, the
six station address registers and the sixteen hash registers. -/
def DataPathDecodes (e : Env) : Prop :=
  (∀ r ∈ [e.MAC_TXCFG, e.MAC_XIFCFG, e.MAC_RXCFG, e.MAC_MAXFSZ, e.MAC_ADDR0, e.MAC_ADDR1,
      e.MAC_ADDR2, e.MAC_ADDR3, e.MAC_ADDR4, e.MAC_ADDR5],
    sungem_get_reg (r % 2 ^ 32) ≠ none) ∧
  ∀ k, k < 16 → sungem_get_reg ((e.MAC_HASH0 + 4 * k) % 2 ^ 32) ≠ none

/-- Guest memory of the two-descriptor transmit scenario: a descriptor table at
`0x1000` (slot 0: start of frame, checksum enabled with start 14 and offset 16,
14 bytes at `0x2000`; slot 1: end of frame, 46 bytes at `0x3000`), and byte
`a % 256` at every other address `a`. -/
def txRunMem : Nat → Nat := fun a =>
  if 0x1000 ≤ a ∧ a < 0x1020 then
    (cpu_to_le64 0xA207000E ++ cpu_to_le64 0x2000 ++ cpu_to_le64 0x4000002E
      ++ cpu_to_le64 0x3000).getD (a - 0x1000) 0
  else a % 256

/-- A device with a 32-slot transmit ring at `0x1000`, both transmit enable bits
set, the completion cursor at 0 and the kick cursor at `kick`, over `txRunMem`. -/
def txRunState (kick : Nat) : SunGEMState :=
  { zeroState with
    tx_mask := 31
    mem := txRunMem
    regs := fun b i =>
      if b = 2 ∧ i = 1 then 1 else if b = 7 ∧ i = 12 then 1
      else if b = 2 ∧ i = 2 then 0x1000 else if b = 2 ∧ i = 0 then kick else 0 }

/-- Base address of the transmit descriptor ring, as `sungem_tx_kick` computes
it from `TXDMA_DBHI` and `TXDMA_DBLOW`. -/
def tx_dbase (s : SunGEMState) : Nat :=
  ((loadCell s (2, 3) <<< 32) % 2 ^ 64) ||| loadCell s (2, 2)

/-- Control word of the transmit descriptor in ring slot `comp`, as the loop of
`sungem_tx_kick` reads it from guest memory. -/
def tx_desc_ctl (s : SunGEMState) (comp : Nat) : Nat :=
  le64_to_cpu (descFields (pci_dma_read s ((tx_dbase s + comp * sizeof_desc) % 2 ^ 64)
    sizeof_desc)).1

/-- Buffer address of the transmit descriptor in ring slot `comp`. -/
def tx_desc_buffer (s : SunGEMState) (comp : Nat) : Nat :=
  le64_to_cpu (descFields (pci_dma_read s ((tx_dbase s + comp * sizeof_desc) % 2 ^ 64)
    sizeof_desc)).2

/-- Buffer size field of the descriptor in slot `comp`: `len` of
`sungem_process_tx_desc` before the clamp. -/
def tx_desc_bufsz (e : Env) (s : SunGEMState) (comp : Nat) : Nat :=
  (tx_desc_ctl s comp &&& e.TXDCTRL_BUFSZ) % 2 ^ 32

/-- Ring slot of the `j`-th pending descriptor, counted from the completion
cursor. -/
def tx_slot (s : SunGEMState) (j : Nat) : Nat :=
  ((loadCell s (3, 0) &&& s.tx_mask) + j) &&& s.tx_mask

/-- Number of descriptors between the completion cursor and the kick cursor,
in ring order. -/
def tx_run_count (s : SunGEMState) : Nat :=
  ((loadCell s (2, 0) &&& s.tx_mask) + (s.tx_mask + 1) - (loadCell s (3, 0) &&& s.tx_mask))
    % (s.tx_mask + 1)

/-- Sum of the buffer sizes of the first `m` pending descriptors. -/
def tx_run_size (e : Env) (s : SunGEMState) : Nat → Nat
  | 0 => 0
  | j + 1 => tx_run_size e s j + tx_desc_bufsz e s (tx_slot s j)

/-- Concatenation, in ring order, of the first `len` bytes of the guest buffer
of each of the first `m` pending descriptors. -/
def tx_run_payload (e : Env) (s : SunGEMState) : Nat → List Nat
  | 0 => []
  | j + 1 => tx_run_payload e s j ++
      pci_dma_read s (tx_desc_buffer s (tx_slot s j)) (tx_desc_bufsz e s (tx_slot s j))

/-- The device with the payload of the first `m` pending descriptors in the
accumulator and the control word of the first one recorded. -/
def tx_run_staged (e : Env) (s : SunGEMState) (m : Nat) : SunGEMState :=
  { s with
    tx_data := bufStore s.tx_data 0 (tx_run_payload e s m)
    tx_size := (tx_run_payload e s m).length
    tx_first_ctl := tx_desc_ctl s (tx_slot s 0) }

/-- The frame that `sungem_process_tx_desc` passes to `sungem_send_packet` at
the end-of-frame descriptor of a run of `m` descriptors: the accumulator bytes
after the checksum step. -/
def tx_run_frame (e : Env) (s : SunGEMState) (m : Nat) : List Nat :=
  bufSlice
    (if (tx_run_staged e s m).tx_first_ctl &&& e.TXDCTRL_CENAB ≠ 0 then
      sungem_do_tx_csum e (tx_run_staged e s m) else tx_run_staged e s m).tx_data
    0 (tx_run_staged e s m).tx_size

/-- Apart from the accumulator fields, the interrupt level, the status register
and the transmit completion register, `t` is `s`. -/
def TxFrame (s t : SunGEMState) : Prop :=
  t.mem = s.mem ∧ t.sent = s.sent ∧ t.tx_mask = s.tx_mask ∧ t.rx_mask = s.rx_mask ∧
    t.macaddr = s.macaddr ∧ t.phy_addr = s.phy_addr ∧ t.link_down = s.link_down ∧
    RegsFrame [(0, 3), (3, 0)] s t

/-- The tail of one iteration of the descriptor loop, after
`sungem_process_tx_desc` returned `u`: the status update for a descriptor with
control word `cw` and the store of the advanced cursor to `TXDMA_TXDONE`. -/
def tx_after (e : Env) (cw comp : Nat) (u : SunGEMState) : SunGEMState :=
  storeCell (pci_set_irq
    (storeCell u (0, 3) (loadCell u (0, 3) |||
      (if cw &&& e.TXDCTRL_INTME ≠ 0
        then e.GREG_STAT_TXDONE % 2 ^ 32 ||| e.GREG_STAT_TXINTME % 2 ^ 32
        else e.GREG_STAT_TXDONE % 2 ^ 32) % 2 ^ 32))
    (irq_level e (storeCell u (0, 3) (loadCell u (0, 3) |||
      (if cw &&& e.TXDCTRL_INTME ≠ 0
        then e.GREG_STAT_TXDONE % 2 ^ 32 ||| e.GREG_STAT_TXINTME % 2 ^ 32
        else e.GREG_STAT_TXDONE % 2 ^ 32) % 2 ^ 32))))
    (3, 0) ((comp + 1) % 2 ^ 32 &&& u.tx_mask)

/-- The local `start` of `sungem_do_tx_csum`, from a first control word. -/
def tx_csum_start (e : Env) (ctl : Nat) : Nat := ((ctl &&& e.TXDCTRL_CSTART) >>> 15) % 2 ^ 16

/-- The local `off` of `sungem_do_tx_csum`, from a first control word. -/
def tx_csum_off (e : Env) (ctl : Nat) : Nat := ((ctl &&& e.TXDCTRL_COFF) >>> 21) % 2 ^ 16

/-- A frame with the 16-bit checksum `c` inserted at offset `off`, most
significant byte first (the spec's "checksum inserted"). -/
def csumInserted (c off : Nat) (frame : List Nat) : List Nat :=
  (frame.set off (c % 2 ^ 16 / 256)).set (off + 1) (c % 256)

/-- The frame of the two-descriptor scenario over `txRunMem`: 14 bytes from
`0x2000`, then 46 bytes from `0x3000` with the checksum `0x03ed` of those 46
bytes at offsets 16 and 17. -/
def twoDescFrame : List Nat :=
  [0, 1, 2, 3, 4, 5, 6, 7, 8, 9, 10, 11, 12, 13, 0, 1, 3, 237] ++
    (List.range 42).map fun i => i + 4

/-! ## The delivery path of `sungem_receive`, step by step -/

/-- The local `fcs_size` of `sungem_receive`. -/
def rx_fcs_size (e : Env) (rxmac_cfg : Nat) : Nat :=
  if rxmac_cfg &&& e.MAC_RXCFG_SFCS ≠ 0 then 0 else 4

/-- The local `kick` of `sungem_receive`: `RXDMA_KICK & rx_mask`. -/
def rx_kick (s : SunGEMState) : Nat := loadCell s (6, 0) &&& s.rx_mask

/-- The local `done` of `sungem_receive` before the advance: `RXDMA_DONE & rx_mask`. -/
def rx_done (s : SunGEMState) : Nat := loadCell s (6, 1) &&& s.rx_mask

/-- The local `done` of `sungem_receive` after the advance. -/
def rx_new_done (s : SunGEMState) : Nat := (rx_done s + 1) % 2 ^ 32 &&& s.rx_mask

/-- Base address of the receive descriptor ring, from `RXDMA_DBHI` and
`RXDMA_DBLOW`. -/
def rx_dbase (s : SunGEMState) : Nat :=
  ((loadCell s (5, 2) <<< 32) % 2 ^ 64) ||| loadCell s (5, 1)

/-- Address of the descriptor at the `done` cursor. -/
def rx_daddr (s : SunGEMState) : Nat := (rx_dbase s + rx_done s * sizeof_desc) % 2 ^ 64

/-- The raw buffer field of the descriptor at the `done` cursor. -/
def rx_desc_buffer (s : SunGEMState) : List Nat :=
  (descFields (pci_dma_read s (rx_daddr s) sizeof_desc)).2

/-- The local `baddr` of `sungem_receive`: the effective buffer address. -/
def rx_baddr (e : Env) (s : SunGEMState) : Nat :=
  (le64_to_cpu (rx_desc_buffer s) &&& not64 7) |||
    ((loadCell s (5, 0) &&& e.RXDMA_CFG_FBOFF) >>> 10)

/-- The local `csum` of `sungem_receive` for the processed frame `frame`. -/
def rx_csum (e : Env) (s : SunGEMState) (frame : List Nat) : Nat :=
  e.net_raw_checksum
    ((frame.drop (((loadCell s (5, 0) &&& e.RXDMA_CFG_CSUMOFF) >>> 13) % 2 ^ 32)).take
      (int_len ((frame.length + 2 ^ 64 -
        ((loadCell s (5, 0) &&& e.RXDMA_CFG_CSUMOFF) >>> 13) % 2 ^ 32) % 2 ^ 64))) % 2 ^ 32

/-- The status word `desc.status_word` that `sungem_receive` builds, before the
conversion to little-endian order. -/
def rx_status_word (e : Env) (size fcs_size mac_crc csum rx_cond : Nat) : Nat :=
  if rx_cond = rx_match_altmac then
    (if rx_cond = rx_match_mcast then
      ((size + fcs_size) <<< 16) % 2 ^ 64 ||| ((mac_crc >>> 16) <<< 44) ||| csum |||
        e.RXDCTRL_HPASS
    else ((size + fcs_size) <<< 16) % 2 ^ 64 ||| ((mac_crc >>> 16) <<< 44) ||| csum) |||
      e.RXDCTRL_ALTMAC
  else if rx_cond = rx_match_mcast then
    ((size + fcs_size) <<< 16) % 2 ^ 64 ||| ((mac_crc >>> 16) <<< 44) ||| csum |||
      e.RXDCTRL_HPASS
  else ((size + fcs_size) <<< 16) % 2 ^ 64 ||| ((mac_crc >>> 16) <<< 44) ||| csum

/-- The status bits that `sungem_receive` raises after a delivery. -/
def rx_ints (e : Env) (s : SunGEMState) : Nat :=
  if sungem_rx_full s (rx_kick s) (rx_new_done s) then
    e.GREG_STAT_RXDONE % 2 ^ 32 ||| e.GREG_STAT_RXNOBUF % 2 ^ 32
  else e.GREG_STAT_RXDONE % 2 ^ 32

/-- Guest memory and registers after the two DMA writes and the cursor store of
a delivery of the processed frame `frame`. -/
def rx_written (e : Env) (s : SunGEMState) (rxmac_cfg rx_cond : Nat) (frame : List Nat) :
    SunGEMState :=
  storeCell
    (pci_dma_write (pci_dma_write s (rx_baddr e s) frame) (rx_daddr s)
      (cpu_to_le64 (rx_status_word e frame.length (rx_fcs_size e rxmac_cfg)
        (e.crc32 (not64 0) (frame.take 6) % 2 ^ 32) (rx_csum e s frame) rx_cond)
        ++ rx_desc_buffer s))
    (6, 1) (rx_new_done s)

/-- The device after `sungem_receive` delivered the processed frame `frame`. -/
def rx_delivered (e : Env) (s : SunGEMState) (rxmac_cfg rx_cond : Nat) (frame : List Nat) :
    SunGEMState :=
  pci_set_irq
    (storeCell (rx_written e s rxmac_cfg rx_cond frame) (0, 3)
      (loadCell (rx_written e s rxmac_cfg rx_cond frame) (0, 3) ||| rx_ints e s % 2 ^ 32))
    (irq_level e (storeCell (rx_written e s rxmac_cfg rx_cond frame) (0, 3)
      (loadCell (rx_written e s rxmac_cfg rx_cond frame) (0, 3) ||| rx_ints e s % 2 ^ 32)))

/-- A device like `rxState 4 0` but with the RX-DMA enable bit cleared
(`dma_off`) or the MAC receive enable bit cleared (`mac_off`). -/
def rxDisabledState (dma_off mac_off : Bool) : SunGEMState :=
  { zeroState with
    rx_mask := 31
    regs := fun b i =>
      if b = 7 ∧ i = 13 then (if mac_off then 0x8 else 0x9)
      else if b = 5 ∧ i = 0 then (if dma_off then 0 else 1)
      else if b = 7 ∧ i = 21 then 1518 else if b = 6 ∧ i = 0 then 4 else 0 }

/-- The conditions under which `sungem_receive` reaches the ring write for the
frame `buf`: `MAC_RXCFG` and `MAC_MAXFSZ` read `rxmac_cfg` and `max_fsize`, both
enable bits are set, the size is valid, `sungem_check_rx_mac` on the processed
frame gives the match `rx_cond`, and the ring is not full. -/
def RxAccepts (e : Env) (s : SunGEMState) (buf : List Nat) (rxmac_cfg max_fsize rx_cond : Nat) :
    Prop :=
  GET_REG s e.MAC_RXCFG = some rxmac_cfg ∧ GET_REG s e.MAC_MAXFSZ = some max_fsize ∧
    loadCell s (5, 0) &&& e.RXDMA_CFG_ENABLE ≠ 0 ∧ rxmac_cfg &&& e.MAC_RXCFG_ENAB ≠ 0 ∧
    6 ≤ buf.length ∧ buf.length + 4 ≤ max_fsize &&& 0x7fff ∧
    sungem_check_rx_mac e s (rx_pad buf)
      (e.crc32 (not64 0) ((rx_pad buf).take 6) % 2 ^ 32) = some rx_cond ∧
    rx_cond ≠ rx_no_match ∧ rx_kick s ≠ rx_new_done s

/-- Guest memory with one receive descriptor at `0x1000` whose buffer field is
`0x2000`; every other byte is zero. -/
def rxRingMem : Nat → Nat := fun a =>
  if 0x1008 ≤ a ∧ a < 0x1010 then (cpu_to_le64 0x2000).getD (a - 0x1008) 0 else 0

/-- A device with a 32-slot receive ring at `0x1000` over `rxRingMem`, receive
enabled with `MAC_RXCFG = rxcfg`, maximum frame size 1518, the completion
cursor at 0 and the kick cursor at `kick`. -/
def rxRingState (rxcfg kick : Nat) : SunGEMState :=
  { zeroState with
    rx_mask := 31
    mem := rxRingMem
    regs := fun b i =>
      if b = 7 ∧ i = 13 then rxcfg else if b = 5 ∧ i = 0 then 1
      else if b = 7 ∧ i = 21 then 1518 else if b = 6 ∧ i = 0 then kick
      else if b = 5 ∧ i = 1 then 0x1000 else 0 }

/-- A 40-byte frame with bytes 1, 2, ..., 40. -/
def fortyByteFrame : List Nat := (List.range 40).map fun i => i + 1

/-- Bytes `i` and `i + 1` of an address taken as a big-endian 16-bit word. -/
def be16 (mac : List Nat) (i : Nat) : Nat := 256 * mac.getD i 0 + mac.getD (i + 1) 0

/-- The decision list of the spec for the receive address check, for a
destination address `mac` and an address-check value `crc`: `rxcfg` is the value
of `MAC_RXCFG`, `hash j` the value of the hash register at `MAC_HASH0 + 4 * j`
and `addr j` the value of `MAC_ADDRj`. -/
def rx_decision (e : Env) (rxcfg : Nat) (hash addr : Nat → Nat) (mac : List Nat) (crc : Nat) :
    Nat :=
  if rxcfg &&& e.MAC_RXCFG_PROM ≠ 0 then rx_match_promisc
  else if ∀ i, i < 6 → mac.getD i 0 = 0xff then rx_match_bcast
  else if (mac.getD 0 0).testBit 0 = true then
    if rxcfg &&& e.MAC_RXCFG_PGRP ≠ 0 then rx_match_allmcast
    else if rxcfg &&& e.MAC_RXCFG_HFE ≠ 0 ∧
        (hash (crc >>> 28)).testBit (15 - ((crc >>> 24) &&& 0xf)) = true then rx_match_mcast
    else rx_no_match
  else if be16 mac 4 = addr 0 ∧ be16 mac 2 = addr 1 ∧ be16 mac 0 = addr 2 then rx_match_mac
  else if be16 mac 4 = addr 3 ∧ be16 mac 2 = addr 4 ∧ be16 mac 0 = addr 5 then rx_match_altmac
  else rx_no_match

/-- A device with receive enabled, `MAC_RXCFG = rxcfg`, the primary station
address `52:54:00:12:34:56` in `MAC_ADDR0..2`, the alternate station address
`alt` in `MAC_ADDR3..5`, and every bit of the sixteen hash registers set. -/
def rxFilterState (rxcfg : Nat) (alt : List Nat) : SunGEMState :=
  { zeroState with
    rx_mask := 31
    regs := fun b i =>
      if b = 7 ∧ i = 13 then rxcfg
      else if b = 7 ∧ i = 32 then 0x3456 else if b = 7 ∧ i = 33 then 0x0012
      else if b = 7 ∧ i = 34 then 0x5254
      else if b = 7 ∧ i = 35 then be16 alt 4 else if b = 7 ∧ i = 36 then be16 alt 2
      else if b = 7 ∧ i = 37 then be16 alt 0
      else if b = 7 ∧ 48 ≤ i ∧ i < 64 then 0xffff
      else if b = 5 ∧ i = 0 then 1 else if b = 7 ∧ i = 21 then 1518
      else if b = 6 ∧ i = 0 then 4 else 0 }

/-- The multicast address `01:00:5e:00:00:01`. -/
def mcastAddr : List Nat := [0x01, 0x00, 0x5e, 0x00, 0x00, 0x01]

/-- The primary station address of `rxFilterState`. -/
def primaryAddr : List Nat := [0x52, 0x54, 0x00, 0x12, 0x34, 0x56]

/-- The unicast address `02:00:00:00:00:01`. -/
def altAddr : List Nat := [0x02, 0x00, 0x00, 0x00, 0x00, 0x01]

/-! ## Resets, step by step -/

/-- The ring mask that `sungem_update_masks` computes from a configuration
register value `cfg` and its ring-size field mask `ringsz`. -/
def ring_mask (cfg ringsz : Nat) : Nat :=
  ((1 <<< (((cfg &&& ringsz) >>> 1) + 5)) % 2 ^ 32 + 2 ^ 32 - 1) % 2 ^ 32

/-- The device after `sungem_update_masks`. -/
def masks_updated (e : Env) (s : SunGEMState) : SunGEMState :=
  { s with
    rx_mask := ring_mask (loadCell s (5, 0)) e.RXDMA_CFG_RINGSZ
    tx_mask := ring_mask (loadCell s (2, 1)) e.TXDMA_CFG_RINGSZ }

/-- The six register stores of `sungem_reset_rx`. -/
def rx_reset_regs (s : SunGEMState) : SunGEMState :=
  storeCell (storeCell (storeCell (storeCell (storeCell (storeCell s
    (6, 8) 0x140) (6, 1) 0) (6, 0) 0) (5, 0) 0x1000010) (5, 8) 0xf8) (6, 2) 0

/-- The four register stores of `sungem_reset_tx`. -/
def tx_reset_regs (s : SunGEMState) : SunGEMState :=
  storeCell (storeCell (storeCell (storeCell s (3, 6) 0x90) (3, 0) 0) (2, 0) 0) (2, 1) 0x118010

/-- The device after `sungem_reset_rx`. -/
def rx_reset_state (e : Env) (s : SunGEMState) : SunGEMState :=
  masks_updated e (rx_reset_regs s)

/-- The device after `sungem_reset_tx`. -/
def tx_reset_state (e : Env) (s : SunGEMState) : SunGEMState :=
  { masks_updated e (tx_reset_regs s) with tx_size := 0, tx_first_ctl := 0 }

/-- The state that `sungem_reset_all` reaches before it looks at its argument:
both single-sided resets, then `GREG_IMASK = 0xFFFFFFF` and `GREG_STAT = 0`. -/
def reset_all_common (e : Env) (s : SunGEMState) : SunGEMState :=
  storeCell (storeCell (tx_reset_state e (rx_reset_state e s)) (0, 4) 0xFFFFFFF) (0, 3) 0

/-- The 16-bit word `a[i] << 8 | a[i + 1]` of the configured station address. -/
def mac_word (ma : Nat → Nat) (i : Nat) : Nat := ((ma i % 256) <<< 8) ||| ma (i + 1) % 256

/-- A new device whose configured station address is `52:54:00:12:34:56`. -/
def macDevice : SunGEMState :=
  newDevice (fun i => primaryAddr.getD i 0) 0 (fun _ => 0) false

/-! ## The descriptor loop with its trace -/

/-- The descriptor loop of `sungem_tx_kick` with a record of the ring slots
whose descriptors it fetches, in the order of the fetches: `tx_loop` where each
iteration (`tx_body`) also appends its slot `comp` to the record. -/
def tx_loop_trace (e : Env) (dbase kick : Nat) :
    Nat → Nat → SunGEMState → Option (List Nat × SunGEMState)
  | 0, comp, s => if comp ≠ kick then none else some ([], s)
  | fuel + 1, comp, s =>
    if comp ≠ kick then do
      let t ← tx_body e dbase comp s
      let r ← tx_loop_trace e dbase kick fuel ((comp + 1) % 2 ^ 32 &&& t.tx_mask) t
      pure (comp :: r.1, r.2)
    else some ([], s)

/-- The 32-slot transmit ring of `txRunState` with the completion cursor at the
last slot, 31, and the kick cursor at 1: two descriptors are pending, in slots
31 and 0. -/
def txWrapState : SunGEMState :=
  { zeroState with
    tx_mask := 31
    mem := txRunMem
    regs := fun b i =>
      if b = 2 ∧ i = 1 then 1 else if b = 7 ∧ i = 12 then 1
      else if b = 2 ∧ i = 2 then 0x1000 else if b = 2 ∧ i = 0 then 1
      else if b = 3 ∧ i = 0 then 31 else 0 }

/-! ## The hash filter lookup -/

/-- The key of the hash filter in `sungem_check_rx_mac`: `crc >>= 24` on the
32-bit address-check value. -/
def hash_key (crc : Nat) : Nat := (crc % 2 ^ 32) >>> 24

/-- Byte offset from `MAC_HASH0` of the hash register that
`sungem_check_rx_mac` reads for the key `k`: `idx = (crc >> 2) & 0x3c`. -/
def hash_reg_offset (k : Nat) : Nat := (k >>> 2) &&& 0x3c

/-- Bit of the hash register that `sungem_check_rx_mac` tests for the key `k`:
`15 - (crc & 0xf)`. -/
def hash_bit (k : Nat) : Nat := 15 - (k &&& 0xf)

/-! ## A trace that raises the interrupt line -/

/-- A new device after `sungem_init_regs` and four guest writes: `TXDMA_CFG = 1`
and `MAC_TXCFG = 1` (both transmit enable bits), `GREG_IMASK = 0` (nothing
masked), and `TXDMA_KICK = 0`, a kick on an empty ring, which raises
`GREG_STAT_TXALL` and with it the interrupt line. -/
def irqTrace : Option SunGEMState := do
  let s ← sungem_init_regs gemEnv (newDevice (fun _ => 0) 0 (fun _ => 0) false)
  let s ← sungem_mmio_txdma_write gemEnv s TXDMA_CFG 1
  let s ← sungem_mmio_write gemEnv s gemEnv.MAC_TXCFG 1
  let s ← sungem_mmio_greg_write gemEnv s GREG_IMASK 0
  sungem_mmio_txdma_write gemEnv s TXDMA_KICK 0

/-! ## The cached ring masks -/

/-- The cached ring masks agree with the configuration registers: each is the
value that `sungem_update_masks` computes from the register now. -/
def MasksConsistent (e : Env) (s : SunGEMState) : Prop :=
  s.rx_mask = ring_mask (loadCell s (5, 0)) e.RXDMA_CFG_RINGSZ ∧
  s.tx_mask = ring_mask (loadCell s (2, 1)) e.TXDMA_CFG_RINGSZ

/-- Both cached ring masks are one less than a power of two. -/
def MaskShape (s : SunGEMState) : Prop :=
  (∃ k, k ≤ 32 ∧ s.rx_mask + 1 = 2 ^ k) ∧ ∃ k, k ≤ 32 ∧ s.tx_mask + 1 = 2 ^ k

/-- What an operation that does not recompute the ring masks leaves alone: both
masks, and every register cell outside `ex`. -/
def MaskKeep (ex : List (Nat × Nat)) (s t : SunGEMState) : Prop :=
  t.rx_mask = s.rx_mask ∧ t.tx_mask = s.tx_mask ∧ RegsFrame ex s t

/-- The register cell, if any, that `sungem_get_reg` returns for `reg`. -/
def cellsOf (reg : Nat) : List (Nat × Nat) := (sungem_get_reg (reg % 2 ^ 32)).toList

/-- Offsets that the bus hands to `sungem_mmio_write` and `sungem_mmio_read`:
the region `sungem.mmio` has size `SUNGEM_MMIO_SIZE - SUNGEM_MMIO_GREG_SIZE` at
offset 0 of the container and lies under the regions `sungem.greg` (offset 0,
size `0x2000`), `sungem.txdma` (offset `0x2000`, size `0x1000`) and
`sungem.rxdma` (offset `0x4000`, size `0x2000`), which `sungem_realize` maps on
top of it. -/
def MmioWindow (addr : Nat) : Prop :=
  (0x3000 ≤ addr ∧ addr < 0x4000) ∨ (0x6000 ≤ addr ∧ addr < 0x200000 - 0x2000)

/-- One completed operation on the device, as `Step`, where the four bank
handlers are called with register-aligned offsets inside their regions. -/
inductive BusStep (e : Env) : SunGEMState → SunGEMState → Prop
  | mmio_write {s s' : SunGEMState} (addr val : Nat) :
      addr % 4 = 0 → MmioWindow addr →
      sungem_mmio_write e s addr val = some s' → BusStep e s s'
  | mmio_read {s s' : SunGEMState} (addr v : Nat) :
      addr % 4 = 0 → MmioWindow addr →
      sungem_mmio_read e s addr = some (v, s') → BusStep e s s'
  | greg_write {s s' : SunGEMState} (addr val : Nat) :
      addr % 4 = 0 → addr < 0x2000 →
      sungem_mmio_greg_write e s addr val = some s' → BusStep e s s'
  | greg_read {s s' : SunGEMState} (addr v : Nat) :
      addr % 4 = 0 → addr < 0x2000 →
      sungem_mmio_greg_read e s addr = some (v, s') → BusStep e s s'
  | txdma_write {s s' : SunGEMState} (addr val : Nat) :
      addr % 4 = 0 → addr < 0x1000 →
      sungem_mmio_txdma_write e s addr val = some s' → BusStep e s s'
  | txdma_read {s : SunGEMState} (addr : Nat) :
      BusStep e s (sungem_mmio_txdma_read s addr).2
  | rxdma_write {s s' : SunGEMState} (addr val : Nat) :
      addr % 4 = 0 → addr < 0x2000 →
      sungem_mmio_rxdma_write e s addr val = some s' → BusStep e s s'
  | rxdma_read {s : SunGEMState} (addr : Nat) :
      BusStep e s (sungem_mmio_rxdma_read s addr).2
  | receive {s s' : SunGEMState} (buf : List Nat) (n : Nat) :
      sungem_receive e s buf = some (n, s') → BusStep e s s'
  | tx_kick {s s' : SunGEMState} :
      sungem_tx_kick e s = some s' → BusStep e s s'
  | reset_rx {s s' : SunGEMState} :
      sungem_reset_rx e s = some s' → BusStep e s s'
  | reset_tx {s s' : SunGEMState} :
      sungem_reset_tx e s = some s' → BusStep e s s'
  | reset_all {s s' : SunGEMState} (pci_reset : Bool) :
      sungem_reset_all e s pci_reset = some s' → BusStep e s s'
  | guest_memory {s : SunGEMState} (mem : Nat → Nat) :
      BusStep e s { s with mem := mem }
  | link_status {s : SunGEMState} (down : Bool) :
      BusStep e s { s with link_down := down }

/-- States reachable from `sungem_init_regs` on a new device through `BusStep`. -/
inductive BusReachable (e : Env) : SunGEMState → Prop
  | init (macaddr : Nat → Nat) (phy_addr : Nat) (mem : Nat → Nat) (link_down : Bool)
      (s : SunGEMState) :
      sungem_init_regs e (newDevice macaddr phy_addr mem link_down) = some s → BusReachable e s
  | step (s s' : SunGEMState) : BusReachable e s → BusStep e s s' → BusReachable e s'

/-- What an operation does to the ring masks: starting from `s`, or from a state
whose masks were just recomputed, it keeps the masks and every register cell
outside `ex`. -/
def MaskOutcome (e : Env) (ex : List (Nat × Nat)) (s t : SunGEMState) : Prop :=
  ∃ b0, (b0 = s ∨ MasksConsistent e b0) ∧ MaskKeep ex b0 t

/-- The register cells that `sungem_reset_all` writes after the two
single-sided resets. -/
def resetAllCells (e : Env) : List (Nat × Nat) :=
  (0, 4) :: (0, 3) :: (1, 4) ::
    (cellsOf e.MAC_ADDR0 ++ cellsOf e.MAC_ADDR1 ++ cellsOf e.MAC_ADDR2 ++ cellsOf e.MIF_CFG)

/-! ## Registers inside a defined bank -/

/-- The address `reg` selects a register inside a defined bank: `sungem_get_reg`
accepts it and the index it computes is below the register count of the bank in
`RegBlocks`, so the cell is one of those that `sungem_init_regs` allocates. -/
def get_reg_in_bank (reg : Nat) : Bool :=
  match sungem_get_reg reg with
  | some c => decide (c.2 < (RegBlocks.getD c.1 (0, 0)).2)
  | none => false

/-- A device with the hash filter enabled (`MAC_RXCFG = MAC_RXCFG_HFE`) in which
exactly one hash bit is set: bit 10 of the register at `MAC_HASH0 + 0x28`. -/
def hashBitState : SunGEMState :=
  { zeroState with
    regs := fun b i =>
      if b = 7 ∧ i = 13 then gemEnv.MAC_RXCFG_HFE
      else if b = 7 ∧ i = 58 then 0x400 else 0 }

end Sungem

/-!
NuBus device realize (hw/nubus/nubus-device.c).

`nubus_device_realize` up to the update of `slot_available_mask`; the creation
of the two slot memory regions that follows it is outside the model.
`hw/nubus/nubus.h` and `qemu/host-utils.h` are not part of the sources, so
`NUBUS_FIRST_SLOT`, `NUBUS_LAST_SLOT` and the helper `ctz32` are parameters.
-/

namespace Nubus

/-- The error that `nubus_device_realize` reports through `error_setg`. -/
inductive RealizeError
  | no_free_slot
  | slot_out_of_range (first last : Int)
  | slot_unavailable (slot : Int)
  deriving DecidableEq

/-- The text of the error. -/
def RealizeError.message : RealizeError → String
  | .no_free_slot => "Cannot register nubus card, no free slot available"
  | .slot_out_of_range first last =>
    "Cannot register nubus card, slot must be between " ++ toString first ++ " and " ++
      toString last
  | .slot_unavailable slot =>
    "Cannot register nubus card, slot " ++ toString slot ++ " is unavailable or already occupied"

/-- The two fields that `nubus_device_realize` reads and writes before it
creates the memory regions: `nd->slot` (the `int32_t` property `slot`, -1 when
not specified) and `nubus->slot_available_mask`. -/
structure NubusState where
  slot : Int
  slot_available_mask : Nat
  deriving DecidableEq

/-- The statement `nubus->slot_available_mask &= ~(1UL << nd->slot)`, with the
shift taken in 64 bits. -/
def claim_slot (st : NubusState) : NubusState :=
  { st with
    slot_available_mask :=
      st.slot_available_mask &&& (2 ^ 64 - 1 - ((1 : Nat) <<< st.slot.toNat) % 2 ^ 64) }

/-- The function `nubus_device_realize` up to the update of the mask: the error
set, if any, and the fields afterwards. `s` is the `uint16_t` local; the
argument of `ctz32` is converted to 32 bits. -/
def nubus_device_realize (ctz32 : Nat → Nat) (NUBUS_FIRST_SLOT NUBUS_LAST_SLOT : Int)
    (st : NubusState) : Option RealizeError × NubusState :=
  if st.slot = -1 then
    let s : Nat := ctz32 (st.slot_available_mask % 2 ^ 32) % 2 ^ 16
    if s ≠ 0 then
      (none, claim_slot { st with slot := Int.ofNat s })
    else
      (some .no_free_slot, st)
  else if st.slot < NUBUS_FIRST_SLOT ∨ st.slot > NUBUS_LAST_SLOT then
    (some (.slot_out_of_range NUBUS_FIRST_SLOT NUBUS_LAST_SLOT), st)
  else if st.slot_available_mask &&& (((1 : Nat) <<< st.slot.toNat) % 2 ^ 64) = 0 then
    (some (.slot_unavailable st.slot), st)
  else
    (none, claim_slot st)

/-- Modelled from the spec: `ctz32` (`qemu/host-utils.h`) is not among the
sources. This instance is the number of trailing zero bits of the 32-bit value,
the "lowest-numbered available slot" of a slot mask, and 32 for the value 0. -/
def ref_ctz32 (val : Nat) : Nat :=
  ((List.range 32).find? (fun i => (val % 2 ^ 32).testBit i)).getD 32

end Nubus

namespace Sungem

/-! ## Bit-level facts -/

theorem testBit_not32 (x i : Nat) :
    (not32 x).testBit i = (decide (i < 32) && !x.testBit i) := by
  have h : x % 2 ^ 32 < 2 ^ 32 := Nat.mod_lt _ (by norm_num)
  have e : not32 x = 2 ^ 32 - (x % 2 ^ 32 + 1) := by unfold not32; omega
  rw [e, Nat.testBit_two_pow_sub_succ h, Nat.testBit_mod_two_pow]
  cases decide (i < 32) <;> simp

theorem testBit_not64 (x i : Nat) :
    (not64 x).testBit i = (decide (i < 64) && !x.testBit i) := by
  have h : x % 2 ^ 64 < 2 ^ 64 := Nat.mod_lt _ (by norm_num)
  have e : not64 x = 2 ^ 64 - (x % 2 ^ 64 + 1) := by unfold not64; omega
  rw [e, Nat.testBit_two_pow_sub_succ h, Nat.testBit_mod_two_pow]
  cases decide (i < 64) <;> simp

theorem loadCell_lt (s : SunGEMState) (c : Nat × Nat) : loadCell s c < 2 ^ 32 :=
  Nat.mod_lt _ (by norm_num)

theorem testBit_of_lt_32 {a : Nat} (h : a < 2 ^ 32) (i : Nat) (hi : 32 ≤ i) :
    a.testBit i = false :=
  Nat.testBit_lt_two_pow (lt_of_lt_of_le h (Nat.pow_le_pow_right (by norm_num) hi))

theorem and_not64_mod (a v : Nat) (h : a < 2 ^ 32) :
    (a &&& not64 v) % 2 ^ 32 = a &&& not32 v := by
  apply Nat.eq_of_testBit_eq
  intro i
  simp only [Nat.testBit_mod_two_pow, Nat.testBit_and, testBit_not64, testBit_not32]
  by_cases h32 : i < 32
  · have : i < 64 := by omega
    simp [h32, this]
  · simp [h32, testBit_of_lt_32 h i (by omega)]

theorem and_not32_mod (a v : Nat) : (a &&& not32 v) % 2 ^ 32 = a &&& not32 v := by
  apply Nat.mod_eq_of_lt
  apply lt_of_le_of_lt Nat.and_le_right
  unfold not32; omega

/-! ## Register decode of the constants defined in sungem.c -/

theorem get_reg_GREG_STAT : sungem_get_reg (GREG_STAT % 2 ^ 32) = some (0, 3) := by decide

theorem get_reg_GREG_IMASK : sungem_get_reg (GREG_IMASK % 2 ^ 32) = some (0, 4) := by decide

theorem get_reg_GREG_IACK : sungem_get_reg (GREG_IACK % 2 ^ 32) = some (0, 5) := by decide

theorem get_reg_GREG_STAT2 : sungem_get_reg (GREG_STAT2 % 2 ^ 32) = some (0, 7) := by decide

theorem get_reg_TXDONE : sungem_get_reg ((TXDMA_TXDONE + 0x2000) % 2 ^ 32) = some (3, 0) := by
  decide

@[simp]
theorem GET_REG_GREG_STAT (s : SunGEMState) :
    GET_REG s GREG_STAT = some (loadCell s (0, 3)) := by
  unfold GET_REG; rw [get_reg_GREG_STAT]

@[simp]
theorem GET_REG_GREG_IMASK (s : SunGEMState) :
    GET_REG s GREG_IMASK = some (loadCell s (0, 4)) := by
  unfold GET_REG; rw [get_reg_GREG_IMASK]

@[simp]
theorem GET_REG_GREG_IACK (s : SunGEMState) :
    GET_REG s GREG_IACK = some (loadCell s (0, 5)) := by
  unfold GET_REG; rw [get_reg_GREG_IACK]

@[simp]
theorem GET_REG_TXDONE (s : SunGEMState) :
    GET_REG s (TXDMA_TXDONE + 0x2000) = some (loadCell s (3, 0)) := by
  unfold GET_REG; rw [get_reg_TXDONE]

@[simp]
theorem SET_REG_GREG_STAT (s : SunGEMState) (v : Nat) :
    SET_REG s GREG_STAT v = some (storeCell s (0, 3) v) := by
  unfold SET_REG; rw [get_reg_GREG_STAT]

@[simp]
theorem loadCell_storeCell_same (s : SunGEMState) (c : Nat × Nat) (v : Nat) :
    loadCell (storeCell s c v) c = v % 2 ^ 32 := by
  simp [loadCell, storeCell]

theorem loadCell_storeCell_ne (s : SunGEMState) (c d : Nat × Nat) (v : Nat) (h : d ≠ c) :
    loadCell (storeCell s c v) d = loadCell s d := by
  have : ¬ (d.1 = c.1 ∧ d.2 = c.2) := fun ⟨h1, h2⟩ => h (Prod.ext h1 h2)
  simp [loadCell, storeCell, this]

/-! ## Frame facts of the two state updates -/

@[simp]
theorem pci_set_irq_regs (s : SunGEMState) (b : Bool) : (pci_set_irq s b).regs = s.regs := rfl

@[simp]
theorem pci_set_irq_irq (s : SunGEMState) (b : Bool) : (pci_set_irq s b).irq = b := rfl

@[simp]
theorem pci_set_irq_tx_size (s : SunGEMState) (b : Bool) :
    (pci_set_irq s b).tx_size = s.tx_size := rfl

@[simp]
theorem pci_set_irq_tx_data (s : SunGEMState) (b : Bool) :
    (pci_set_irq s b).tx_data = s.tx_data := rfl

@[simp]
theorem pci_set_irq_tx_first_ctl (s : SunGEMState) (b : Bool) :
    (pci_set_irq s b).tx_first_ctl = s.tx_first_ctl := rfl

@[simp]
theorem pci_set_irq_tx_mask (s : SunGEMState) (b : Bool) :
    (pci_set_irq s b).tx_mask = s.tx_mask := rfl

@[simp]
theorem pci_set_irq_rx_mask (s : SunGEMState) (b : Bool) :
    (pci_set_irq s b).rx_mask = s.rx_mask := rfl

@[simp]
theorem loadCell_pci_set_irq (s : SunGEMState) (b : Bool) (c : Nat × Nat) :
    loadCell (pci_set_irq s b) c = loadCell s c := rfl

@[simp]
theorem GET_REG_pci_set_irq (s : SunGEMState) (b : Bool) (r : Nat) :
    GET_REG (pci_set_irq s b) r = GET_REG s r := rfl

@[simp]
theorem storeCell_irq (s : SunGEMState) (c : Nat × Nat) (v : Nat) :
    (storeCell s c v).irq = s.irq := rfl

@[simp]
theorem storeCell_tx_size (s : SunGEMState) (c : Nat × Nat) (v : Nat) :
    (storeCell s c v).tx_size = s.tx_size := rfl

@[simp]
theorem storeCell_tx_data (s : SunGEMState) (c : Nat × Nat) (v : Nat) :
    (storeCell s c v).tx_data = s.tx_data := rfl

@[simp]
theorem storeCell_tx_first_ctl (s : SunGEMState) (c : Nat × Nat) (v : Nat) :
    (storeCell s c v).tx_first_ctl = s.tx_first_ctl := rfl

@[simp]
theorem storeCell_tx_mask (s : SunGEMState) (c : Nat × Nat) (v : Nat) :
    (storeCell s c v).tx_mask = s.tx_mask := rfl

@[simp]
theorem storeCell_rx_mask (s : SunGEMState) (c : Nat × Nat) (v : Nat) :
    (storeCell s c v).rx_mask = s.rx_mask := rfl

theorem storeCell_regs_ne (s : SunGEMState) (c : Nat × Nat) (v b i : Nat) (h : (b, i) ≠ c) :
    (storeCell s c v).regs b i = s.regs b i := by
  have : ¬ (b = c.1 ∧ i = c.2) := fun ⟨h1, h2⟩ => h (Prod.ext h1 h2)
  simp [storeCell, this]

theorem sungem_eval_irq_eq (e : Env) (s : SunGEMState) :
    sungem_eval_irq e s = some (pci_set_irq s (irq_level e s)) := by
  simp only [sungem_eval_irq, GET_REG_GREG_STAT, GET_REG_GREG_IMASK, irq_level]
  by_cases h : (loadCell s (0, 3) &&& not32 e.GREG_STAT_TXNR) &&& not32 (loadCell s (0, 4)) = 0
  · simp [h]
  · simp [h]

/-- C7: `sungem_eval_irq` returns, drives the interrupt line high exactly when
the global status without its `GREG_STAT_TXNR` field, and-not `GREG_IMASK`, is
non-zero, and changes nothing but the line: no register is modified. -/
theorem sungem_eval_irq_level (e : Env) (s : SunGEMState) :
    ∃ stat mask s', GET_REG s GREG_STAT = some stat ∧ GET_REG s GREG_IMASK = some mask ∧
      sungem_eval_irq e s = some s' ∧
      (s'.irq = true ↔ (stat &&& not32 e.GREG_STAT_TXNR) &&& not32 mask ≠ 0) ∧
      s'.regs = s.regs ∧ OnlyIrq s s' := by
  refine ⟨_, _, _, GET_REG_GREG_STAT s, GET_REG_GREG_IMASK s, sungem_eval_irq_eq e s, ?_, rfl, rfl⟩
  simp [irq_level]

theorem greg_write_iack_eq (e : Env) (s : SunGEMState) (v : Nat) :
    sungem_mmio_greg_write e s GREG_IACK v =
      sungem_eval_irq e
        (storeCell s (0, 3) (loadCell s (0, 3) &&& not64 (v &&& e.GREG_STAT_LATCH))) := by
  unfold sungem_mmio_greg_write
  rw [get_reg_GREG_IACK]
  simp only [GREG_IACK, GREG_SEBSTATE, GREG_STAT2, GREG_PCIESTAT]
  simp only [GET_REG_GREG_STAT, SET_REG_GREG_STAT]
  rfl

/-- C8: a write of any value `v` to `GREG_IACK` through `sungem_mmio_greg_write`
returns; the global status becomes the old status and-not (`v` and
`GREG_STAT_LATCH`); every other register cell, the stored `GREG_IACK` among
them, keeps its value; the interrupt line is set to the level that the new
status calls for; nothing else changes. -/
theorem sungem_greg_write_iack (e : Env) (s : SunGEMState) (v : Nat) :
    ∃ stat mask s', GET_REG s GREG_STAT = some stat ∧ GET_REG s GREG_IMASK = some mask ∧
      sungem_mmio_greg_write e s GREG_IACK v = some s' ∧
      GET_REG s' GREG_STAT = some (stat &&& not32 (v &&& e.GREG_STAT_LATCH)) ∧
      (∀ b i, (b, i) ≠ (0, 3) → s'.regs b i = s.regs b i) ∧
      GET_REG s' GREG_IACK = GET_REG s GREG_IACK ∧
      (s'.irq = true ↔
        ((stat &&& not32 (v &&& e.GREG_STAT_LATCH)) &&& not32 e.GREG_STAT_TXNR) &&& not32 mask
          ≠ 0) ∧
      OnlyRegsIrq s s' := by
  have key := greg_write_iack_eq e s v
  rw [sungem_eval_irq_eq] at key
  have hm := and_not64_mod (loadCell s (0, 3)) (v &&& e.GREG_STAT_LATCH) (loadCell_lt s (0, 3))
  simp only [Nat.reducePow] at hm
  refine ⟨_, _, _, GET_REG_GREG_STAT s, GET_REG_GREG_IMASK s, key, ?_, ?_, ?_, ?_, rfl⟩
  · simp [hm]
  · intro b i hbi
    simp [storeCell_regs_ne _ _ _ _ _ hbi]
  · simp [loadCell_storeCell_ne]
  · simp [irq_level, loadCell_storeCell_ne, hm]

theorem get_reg_GREG_STAT_lit : sungem_get_reg (0xC % 2 ^ 32) = some (0, 3) := by decide

theorem get_reg_GREG_STAT2_lit : sungem_get_reg (0x1C % 2 ^ 32) = some (0, 7) := by decide

/-- C9: a read of `GREG_STAT` through `sungem_mmio_greg_read` returns the
pre-read status with its `GREG_STAT_TXNR` field replaced by
`TXDMA_TXDONE << GREG_STAT_TXNR_SHIFT`, leaves the stored status equal to the
pre-read status and-not `GREG_STAT_LATCH`, changes no other register cell, and
sets the interrupt line to the level that the new status calls for; a read of
`GREG_STAT2` returns the same composed value and changes no state. -/
theorem sungem_greg_read_stat (e : Env) (s : SunGEMState) :
    ∃ stat mask done s', GET_REG s GREG_STAT = some stat ∧ GET_REG s GREG_IMASK = some mask ∧
      GET_REG s (TXDMA_TXDONE + 0x2000) = some done ∧
      sungem_mmio_greg_read e s GREG_STAT =
        some (((stat &&& not32 e.GREG_STAT_TXNR) ||| (done <<< e.GREG_STAT_TXNR_SHIFT)) % 2 ^ 32,
          s') ∧
      GET_REG s' GREG_STAT = some (stat &&& not32 e.GREG_STAT_LATCH) ∧
      (∀ b i, (b, i) ≠ (0, 3) → s'.regs b i = s.regs b i) ∧
      (s'.irq = true ↔
        ((stat &&& not32 e.GREG_STAT_LATCH) &&& not32 e.GREG_STAT_TXNR) &&& not32 mask ≠ 0) ∧
      OnlyRegsIrq s s' ∧
      sungem_mmio_greg_read e s GREG_STAT2 =
        some (((stat &&& not32 e.GREG_STAT_TXNR) ||| (done <<< e.GREG_STAT_TXNR_SHIFT)) % 2 ^ 32,
          s) := by
  have hm := and_not32_mod (loadCell s (0, 3)) e.GREG_STAT_LATCH
  simp only [Nat.reducePow] at hm
  have key : sungem_mmio_greg_read e s GREG_STAT =
      some (((loadCell s (0, 3) &&& not32 e.GREG_STAT_TXNR) |||
          (loadCell s (3, 0) <<< e.GREG_STAT_TXNR_SHIFT)) % 2 ^ 32,
        pci_set_irq (storeCell s (0, 3) (loadCell s (0, 3) &&& not32 e.GREG_STAT_LATCH))
          (irq_level e (storeCell s (0, 3) (loadCell s (0, 3) &&& not32 e.GREG_STAT_LATCH)))) := by
    unfold sungem_mmio_greg_read
    simp only [GREG_STAT]
    rw [get_reg_GREG_STAT_lit]
    simp only [if_true, sungem_eval_irq_eq, GET_REG_TXDONE, GET_REG_pci_set_irq]
    have : loadCell (storeCell s (0, 3) (loadCell s (0, 3) &&& not32 e.GREG_STAT_LATCH)) (3, 0)
        = loadCell s (3, 0) := loadCell_storeCell_ne _ _ _ _ (by decide)
    simp [GET_REG, get_reg_TXDONE, this]
  have key2 : sungem_mmio_greg_read e s GREG_STAT2 =
      some (((loadCell s (0, 3) &&& not32 e.GREG_STAT_TXNR) |||
          (loadCell s (3, 0) <<< e.GREG_STAT_TXNR_SHIFT)) % 2 ^ 32, s) := by
    unfold sungem_mmio_greg_read
    simp only [GREG_STAT2]
    rw [get_reg_GREG_STAT2_lit]
    have h1 : ¬ (0x1C = GREG_STAT) := by decide
    simp [h1, GET_REG_GREG_STAT, GET_REG_TXDONE]
  refine ⟨_, _, _, _, GET_REG_GREG_STAT s, GET_REG_GREG_IMASK s, GET_REG_TXDONE s, key,
    ?_, ?_, ?_, rfl, key2⟩
  · simp [hm]
  · intro b i hbi
    simp [storeCell_regs_ne _ _ _ _ _ hbi]
  · simp [irq_level, loadCell_storeCell_ne, hm]

/-- C1: with one byte accumulated (`tx_size = 1`) and a first control word
asking for checksum start 0 and stuff offset 4, the bound `O + 2 <= n` fails,
yet `sungem_do_tx_csum` does not skip: the unsigned `tx_size - 2` wraps to
`0xffffffff`, the guard is false, and bytes 4 and 5 of the accumulator, beyond
its length, are overwritten with the checksum. The same state arises from one
descriptor with start-of-frame, end-of-frame and checksum-enable set and a
1-byte buffer, before the frame is handed over. -/
theorem sungem_do_tx_csum_short_frame :
    shortFrameState.tx_size = 1 ∧ ¬ (4 + 2 ≤ shortFrameState.tx_size) ∧
    (shortFrameState.tx_size + 2 ^ 32 - 2) % 2 ^ 32 = 0xffffffff ∧
    shortFrameState.tx_data 4 = 0 ∧ shortFrameState.tx_data 5 = 0 ∧
    (sungem_do_tx_csum gemEnv shortFrameState).tx_data 4 = 0xff ∧
    (sungem_do_tx_csum gemEnv shortFrameState).tx_data 5 = 0xff ∧
    (sungem_process_tx_desc gemEnv zeroState
        (0x80000000 ||| 0x40000000 ||| 0x20000000 ||| (4 <<< 21) ||| 1) 0).map
      (fun s' => (s'.tx_data 4, s'.tx_data 5, s'.sent)) = some (0xff, 0xff, [[0]]) := by
  decide

/-- C2: `sungem_get_reg` accepts `GREG_STAT2` (0x1c) and 0x18 in bank 0 with
indices 7 and 6, while `RegBlocks` gives bank 0 only 6 registers; it accepts
0x9050 .. 0x905c in bank 10 with indices 20 .. 23, while `RegBlocks` gives
bank 10 only 4 registers. -/
theorem sungem_get_reg_index_beyond_count :
    sungem_get_reg 0x1c = some (0, 7) ∧ sungem_get_reg 0x18 = some (0, 6) ∧
    RegBlocks.get? 0 = some (0x0000, 6) ∧
    sungem_get_reg 0x9050 = some (10, 20) ∧ sungem_get_reg 0x905c = some (10, 23) ∧
    RegBlocks.get? 10 = some (0x9050, 4) := by
  decide

/-- C3: the two distinct 4-byte-aligned addresses 0x6030 (`MAC_TXCFG`) and
0x6130 are both accepted by `sungem_get_reg` and map to the same cell (7, 12);
a write of 1 to 0x6130 through `sungem_mmio_write` changes the value read back
at 0x6030 from 0 to 1. -/
theorem sungem_get_reg_aliases :
    (0x6030 : Nat) ≠ 0x6130 ∧ 0x6030 % 4 = 0 ∧ 0x6130 % 4 = 0 ∧
    sungem_get_reg 0x6030 = some (7, 12) ∧ sungem_get_reg 0x6130 = some (7, 12) ∧
    (sungem_mmio_read gemEnv zeroState 0x6030).map Prod.fst = some 0 ∧
    ((sungem_mmio_write gemEnv zeroState 0x6130 1).bind fun s =>
      (sungem_mmio_read gemEnv s 0x6030).map Prod.fst) = some 1 := by
  decide

/-- The addresses whose index stays below the register count of their bank:
all accepted addresses except 0x18 .. 0x1c and 0x9050 .. 0x905c. -/
theorem sungem_get_reg_index_lt_iff (reg b i : Nat) (h : sungem_get_reg reg = some (b, i)) :
    i < (RegBlocks.getD b (0, 0)).2 ↔
      ¬ (0x18 ≤ reg ∧ reg ≤ 0x1c) ∧ ¬ (0x9050 ≤ reg ∧ reg ≤ 0x905c) := by
  have hidx : (reg &&& 0xff) >>> 2 = reg % 256 / 4 := by
    rw [show (0xff : Nat) = 2 ^ 8 - 1 by norm_num, Nat.and_pow_two_sub_one_eq_mod,
      Nat.shiftRight_eq_div_pow]
  unfold sungem_get_reg at h
  dsimp only at h
  rw [hidx] at h
  clear hidx
  by_cases h0 : reg ≤ 0x1c
  · rw [if_pos h0] at h
    cases h
    simp only [RegBlocks, List.getD_cons_zero, List.getD_cons_succ]
    omega
  rw [if_neg h0] at h
  by_cases h1 : reg ≥ 0x1000 ∧ reg ≤ 0x1010
  · rw [if_pos h1] at h
    cases h
    simp only [RegBlocks, List.getD_cons_zero, List.getD_cons_succ]
    omega
  rw [if_neg h1] at h
  by_cases h2 : reg ≥ 0x2000 ∧ reg ≤ 0x2034
  · rw [if_pos h2] at h
    cases h
    simp only [RegBlocks, List.getD_cons_zero, List.getD_cons_succ]
    omega
  rw [if_neg h2] at h
  by_cases h3 : reg ≥ 0x2100 ∧ reg ≤ 0x2118
  · rw [if_pos h3] at h
    cases h
    simp only [RegBlocks, List.getD_cons_zero, List.getD_cons_succ]
    omega
  rw [if_neg h3] at h
  by_cases h4 : reg ≥ 0x3000 ∧ reg ≤ 0x3010
  · rw [if_pos h4] at h
    cases h
    simp only [RegBlocks, List.getD_cons_zero, List.getD_cons_succ]
    omega
  rw [if_neg h4] at h
  by_cases h5 : reg ≥ 0x4000 ∧ reg ≤ 0x4028
  · rw [if_pos h5] at h
    cases h
    simp only [RegBlocks, List.getD_cons_zero, List.getD_cons_succ]
    omega
  rw [if_neg h5] at h
  by_cases h6 : reg ≥ 0x4100 ∧ reg ≤ 0x4120
  · rw [if_pos h6] at h
    cases h
    simp only [RegBlocks, List.getD_cons_zero, List.getD_cons_succ]
    omega
  rw [if_neg h6] at h
  by_cases h7 : reg ≥ 0x6000 ∧ reg ≤ 0x6134
  · rw [if_pos h7] at h
    cases h
    simp only [RegBlocks, List.getD_cons_zero, List.getD_cons_succ]
    omega
  rw [if_neg h7] at h
  by_cases h8 : reg ≥ 0x6200 ∧ reg ≤ 0x621c
  · rw [if_pos h8] at h
    cases h
    simp only [RegBlocks, List.getD_cons_zero, List.getD_cons_succ]
    omega
  rw [if_neg h8] at h
  by_cases h9 : reg ≥ 0x9000 ∧ reg ≤ 0x9018
  · rw [if_pos h9] at h
    cases h
    simp only [RegBlocks, List.getD_cons_zero, List.getD_cons_succ]
    omega
  rw [if_neg h9] at h
  by_cases h10 : reg ≥ 0x9050 ∧ reg ≤ 0x905c
  · rw [if_pos h10] at h
    cases h
    simp only [RegBlocks, List.getD_cons_zero, List.getD_cons_succ]
    omega
  rw [if_neg h10] at h
  cases h

theorem StatusFrame.refl (m : Nat) (s : SunGEMState) : StatusFrame m s s :=
  ⟨fun _ _ => rfl, fun _ _ _ => rfl, rfl⟩

theorem StatusFrame.trans {m1 m2 : Nat} {s1 s2 s3 : SunGEMState}
    (h1 : StatusFrame m1 s1 s2) (h2 : StatusFrame m2 s2 s3) :
    StatusFrame (m1 ||| m2) s1 s3 := by
  obtain ⟨a1, b1, c1⟩ := h1
  obtain ⟨a2, b2, c2⟩ := h2
  refine ⟨?_, ?_, ?_⟩
  · intro i hi
    rw [Nat.testBit_or, Bool.or_eq_false_iff] at hi
    rw [a2 i hi.2, a1 i hi.1]
  · intro b i hbi
    rw [b2 b i hbi, b1 b i hbi]
  · rw [c2, c1]

theorem sungem_update_status_eq (e : Env) (s : SunGEMState) (bits : Nat) (val : Bool) :
    sungem_update_status e s bits val =
      some (pci_set_irq
        (storeCell s (0, 3)
          (if val then loadCell s (0, 3) ||| bits % 2 ^ 32 else loadCell s (0, 3) &&& not32 bits))
        (irq_level e (storeCell s (0, 3)
          (if val then loadCell s (0, 3) ||| bits % 2 ^ 32
            else loadCell s (0, 3) &&& not32 bits)))) := by
  unfold sungem_update_status
  simp only [GET_REG_GREG_STAT, SET_REG_GREG_STAT, sungem_eval_irq_eq]
  rfl

theorem sungem_update_status_frame (e : Env) (s : SunGEMState) (bits : Nat) (val : Bool) :
    ∃ s', sungem_update_status e s bits val = some s' ∧ StatusFrame bits s s' ∧
      s'.irq = irq_level e s' := by
  refine ⟨_, sungem_update_status_eq e s bits val, ⟨?_, ?_, rfl⟩, ?_⟩
  · intro i hi
    simp only [loadCell_pci_set_irq, loadCell_storeCell_same]
    cases val
    · simp only [Bool.false_eq_true, if_false, Nat.testBit_mod_two_pow, Nat.testBit_and,
        testBit_not32, hi]
      by_cases h32 : i < 32
      · simp [h32]
      · simp [h32, testBit_of_lt_32 (loadCell_lt s (0, 3)) i (by omega)]
    · simp only [if_true, Nat.testBit_mod_two_pow, Nat.testBit_or, hi]
      by_cases h32 : i < 32
      · simp [h32]
      · simp [h32, testBit_of_lt_32 (loadCell_lt s (0, 3)) i (by omega)]
  · intro b i hbi
    simp [storeCell_regs_ne _ _ _ _ _ hbi]
  · simp [irq_level]

theorem ite_update_status (e : Env) (s : SunGEMState) (bits : Nat) (c : Prop) [Decidable c] :
    (if c then sungem_update_status e s bits true else sungem_update_status e s bits false) =
      sungem_update_status e s bits (decide c) := by
  by_cases h : c <;> simp [h]

/-- What `GET_REG` gives at a register that decodes. -/
theorem GET_REG_of_decodes (r : Nat)
    (h : sungem_get_reg (r % 2 ^ 32) ≠ none) :
    ∃ c, sungem_get_reg (r % 2 ^ 32) = some c ∧ ∀ t : SunGEMState, GET_REG t r = some (loadCell t c) := by
  obtain ⟨c, hc⟩ := Option.ne_none_iff_exists'.mp h
  exact ⟨c, hc, fun t => by unfold GET_REG; rw [hc]⟩

theorem sungem_eval_cascade_irq_frame (e : Env) (s : SunGEMState)
    (hdec : ∀ r ∈ [e.MAC_TXSTAT, e.MAC_TXMASK, e.MAC_RXSTAT, e.MAC_RXMASK, e.MAC_CSTAT,
      e.MAC_MCMASK], sungem_get_reg (r % 2 ^ 32) ≠ none) :
    ∃ s', sungem_eval_cascade_irq e s = some s' ∧
      StatusFrame (e.GREG_STAT_TXMAC ||| e.GREG_STAT_RXMAC ||| e.GREG_STAT_MAC) s s' ∧
      s'.irq = irq_level e s' := by
  obtain ⟨c1, -, g1⟩ := GET_REG_of_decodes _ (hdec e.MAC_TXSTAT (by simp))
  obtain ⟨c2, -, g2⟩ := GET_REG_of_decodes _ (hdec e.MAC_TXMASK (by simp))
  obtain ⟨c3, -, g3⟩ := GET_REG_of_decodes _ (hdec e.MAC_RXSTAT (by simp))
  obtain ⟨c4, -, g4⟩ := GET_REG_of_decodes _ (hdec e.MAC_RXMASK (by simp))
  obtain ⟨c5, -, g5⟩ := GET_REG_of_decodes _ (hdec e.MAC_CSTAT (by simp))
  obtain ⟨c6, -, g6⟩ := GET_REG_of_decodes _ (hdec e.MAC_MCMASK (by simp))
  obtain ⟨s1, h1, f1, -⟩ := sungem_update_status_frame e s e.GREG_STAT_TXMAC
    (decide (loadCell s c2 &&& not32 (loadCell s c1) ≠ 0))
  obtain ⟨s2, h2, f2, -⟩ := sungem_update_status_frame e s1 e.GREG_STAT_RXMAC
    (decide (loadCell s1 c4 &&& not32 (loadCell s1 c3) ≠ 0))
  obtain ⟨s3, h3, f3, i3⟩ := sungem_update_status_frame e s2 e.GREG_STAT_MAC
    (decide ((loadCell s2 c6 &&& not32 e.MAC_CSTAT_PTR) &&& not32 (loadCell s2 c5) ≠ 0))
  refine ⟨s3, ?_, (f1.trans f2).trans f3, i3⟩
  unfold sungem_eval_cascade_irq
  simp only [g1, g2, g3, g4, g5, g6, Option.bind_eq_bind, Option.some_bind, ite_update_status,
    h1, h2, h3]

/-- C5: with a MAC-transmit status bit set and its mask bit clear
(`MAC_TXSTAT = 1`, `MAC_TXMASK = 0`), `sungem_eval_cascade_irq` leaves
`GREG_STAT_TXMAC` clear and the line low, where status and-not mask is
non-zero; writing the mask bit when the status is zero (`MAC_TXSTAT = 0`,
`MAC_TXMASK = 1`) sets `GREG_STAT_TXMAC` and raises the line, where status
and-not mask is zero. The code tests mask and-not status: the two operands are
exchanged. -/
theorem sungem_eval_cascade_irq_operands_exchanged :
    GET_REG txStatusPendingState gemEnv.MAC_TXSTAT = some 1 ∧
    GET_REG txStatusPendingState gemEnv.MAC_TXMASK = some 0 ∧
    (1 : Nat) &&& not32 0 ≠ 0 ∧
    (sungem_eval_cascade_irq gemEnv txStatusPendingState).map
      (fun s' => (loadCell s' (0, 3) &&& gemEnv.GREG_STAT_TXMAC, s'.irq)) = some (0, false) ∧
    (0 : Nat) &&& not32 1 = 0 ∧
    (sungem_mmio_write gemEnv zeroState gemEnv.MAC_TXMASK 1).map
      (fun s' => (loadCell s' (7, 4), loadCell s' (7, 8),
        loadCell s' (0, 3) &&& gemEnv.GREG_STAT_TXMAC, s'.irq)) =
      some (0, 1, gemEnv.GREG_STAT_TXMAC, true) := by
  decide

/-- C6: a write to `MAC_TXMASK`, `MAC_RXMASK` or `MAC_MCMASK` through
`sungem_mmio_write` returns; every bit of `GREG_STAT` outside
`GREG_STAT_TXMAC | GREG_STAT_RXMAC | GREG_STAT_MAC` keeps its value; every
register cell other than that of `GREG_STAT` and the written one keeps its
value, so each of `MAC_TXSTAT`, `MAC_RXSTAT`, `MAC_CSTAT` reads as before; and
apart from registers only the interrupt line may change. The hypotheses place
the six MAC registers at accepted addresses, and the sub-status registers in
cells of their own. -/
theorem sungem_mask_write_frame (e : Env) (s : SunGEMState) (addr val : Nat)
    (haddr : addr = e.MAC_TXMASK ∨ addr = e.MAC_RXMASK ∨ addr = e.MAC_MCMASK)
    (hdec : ∀ r ∈ [e.MAC_TXSTAT, e.MAC_TXMASK, e.MAC_RXSTAT, e.MAC_RXMASK, e.MAC_CSTAT,
      e.MAC_MCMASK], sungem_get_reg (r % 2 ^ 32) ≠ none)
    (hsub : ∀ r ∈ [e.MAC_TXSTAT, e.MAC_RXSTAT, e.MAC_CSTAT],
      sungem_get_reg (r % 2 ^ 32) ≠ sungem_get_reg (addr % 2 ^ 32) ∧
      sungem_get_reg (r % 2 ^ 32) ≠ some (0, 3))
    (hstat : sungem_get_reg (addr % 2 ^ 32) ≠ some (0, 3)) :
    ∃ stat stat' s', GET_REG s GREG_STAT = some stat ∧
      sungem_mmio_write e s addr val = some s' ∧ GET_REG s' GREG_STAT = some stat' ∧
      (∀ i, (e.GREG_STAT_TXMAC ||| e.GREG_STAT_RXMAC ||| e.GREG_STAT_MAC).testBit i = false →
        stat'.testBit i = stat.testBit i) ∧
      (∀ b i, (b, i) ≠ (0, 3) → some (b, i) ≠ sungem_get_reg (addr % 2 ^ 32) →
        s'.regs b i = s.regs b i) ∧
      (∀ r ∈ [e.MAC_TXSTAT, e.MAC_RXSTAT, e.MAC_CSTAT], GET_REG s' r = GET_REG s r) ∧
      OnlyRegsIrq s s' := by
  -- the frame in terms of cells
  have main : ∃ s', sungem_mmio_write e s addr val = some s' ∧
      (∀ i, (e.GREG_STAT_TXMAC ||| e.GREG_STAT_RXMAC ||| e.GREG_STAT_MAC).testBit i = false →
        (loadCell s' (0, 3)).testBit i = (loadCell s (0, 3)).testBit i) ∧
      (∀ b i, (b, i) ≠ (0, 3) → some (b, i) ≠ sungem_get_reg (addr % 2 ^ 32) →
        s'.regs b i = s.regs b i) ∧
      s' = { s with regs := s'.regs, irq := s'.irq } := by
    unfold sungem_mmio_write
    by_cases hp : addr > e.PROM_START
    · exact ⟨s, by simp [hp], fun _ _ => rfl, fun _ _ _ _ => rfl, rfl⟩
    rw [if_neg hp]
    cases hc : sungem_get_reg (addr % 2 ^ 32) with
    | none => exact ⟨s, rfl, fun _ _ => rfl, fun _ _ _ _ => rfl, rfl⟩
    | some regp =>
      dsimp only
      split
      · exact ⟨s, rfl, fun _ _ => rfl, fun _ _ _ _ => rfl, rfl⟩
      · generalize (if addr = e.MIF_CFG then
            ((val &&& not64 e.MIF_CFG_MDI1) ||| e.MIF_CFG_MDI0) % 2 ^ 64
            else if addr = e.MAC_MINFSZ then val &&& 0x3ff else val) = v'
        try rw [if_pos haddr]
        obtain ⟨s', hs', ⟨fa, fb, fc⟩, -⟩ := sungem_eval_cascade_irq_frame e
          (storeCell s regp v') hdec
        have hne : ((0 : Nat), (3 : Nat)) ≠ regp := by
          intro h; rw [hc, ← h] at hstat; exact hstat rfl
        refine ⟨s', hs', ?_, ?_, ?_⟩
        · intro i hi
          rw [fa i hi, loadCell_storeCell_ne _ _ _ _ hne]
        · intro b i h1 h2
          rw [fb b i h1, storeCell_regs_ne]
          intro h; exact h2 (by rw [h])
        · rw [fc]; rfl
  obtain ⟨s', hs', fa, fb, fc⟩ := main
  refine ⟨_, _, s', GET_REG_GREG_STAT s, hs', GET_REG_GREG_STAT s', fa, fb, ?_, fc⟩
  intro r hr
  obtain ⟨h1, h2⟩ := hsub r hr
  unfold GET_REG
  cases hc : sungem_get_reg (r % 2 ^ 32) with
  | none => rfl
  | some c =>
    dsimp only
    unfold loadCell
    rw [fb c.1 c.2 (fun h => h2 (by rw [hc, ← h])) (fun h => h1 (by rw [hc, ← h]))]

/-- Witness for `sungem_mask_write_frame`: the GEM layout and a write of 1 to
`MAC_TXMASK` on the cleared device. -/
theorem sungem_mask_write_frame_witness :
    ∃ stat stat' s', GET_REG zeroState GREG_STAT = some stat ∧
      sungem_mmio_write gemEnv zeroState gemEnv.MAC_TXMASK 1 = some s' ∧
      GET_REG s' GREG_STAT = some stat' ∧
      (∀ i, (gemEnv.GREG_STAT_TXMAC ||| gemEnv.GREG_STAT_RXMAC |||
          gemEnv.GREG_STAT_MAC).testBit i = false → stat'.testBit i = stat.testBit i) ∧
      (∀ b i, (b, i) ≠ (0, 3) → some (b, i) ≠ sungem_get_reg (gemEnv.MAC_TXMASK % 2 ^ 32) →
        s'.regs b i = zeroState.regs b i) ∧
      (∀ r ∈ [gemEnv.MAC_TXSTAT, gemEnv.MAC_RXSTAT, gemEnv.MAC_CSTAT],
        GET_REG s' r = GET_REG zeroState r) ∧
      OnlyRegsIrq zeroState s' :=
  sungem_mask_write_frame gemEnv zeroState gemEnv.MAC_TXMASK 1 (Or.inl rfl)
    (by decide) (by decide) (by decide)

/-- C10, as stated, fails: address 0x20 lies in no register bank, and a read
of it leaves the state unchanged but returns 0, not `0xffffffff`, through each
of the read entry points. -/
theorem unknown_register_reads_zero :
    sungem_get_reg (0x20 % 2 ^ 32) = none ∧
    sungem_get_reg ((0x200 + 0x2000) % 2 ^ 32) = none ∧
    sungem_get_reg ((0x200 + 0x4000) % 2 ^ 32) = none ∧
    (sungem_mmio_read gemEnv zeroState 0x20).map Prod.fst = some 0 ∧
    (sungem_mmio_greg_read gemEnv zeroState 0x20).map Prod.fst = some 0 ∧
    (sungem_mmio_txdma_read zeroState 0x200).1 = 0 ∧
    (sungem_mmio_rxdma_read zeroState 0x200).1 = 0 ∧
    (0 : Nat) ≠ 0xffffffff := by
  decide

/-- C10, amended: a read of an address that no register bank covers leaves the
device state unchanged and returns 0 through each of `sungem_mmio_read`,
`sungem_mmio_greg_read`, `sungem_mmio_txdma_read` and `sungem_mmio_rxdma_read`;
only `sungem_mmio_read` of an address above `PROM_START` returns
`0xffffffff`. -/
theorem sungem_read_unknown (e : Env) (s : SunGEMState) (addr : Nat) :
    (sungem_get_reg (addr % 2 ^ 32) = none →
      sungem_mmio_read e s addr = some (if addr > e.PROM_START then 0xffffffff else 0, s) ∧
      sungem_mmio_greg_read e s addr = some (0, s)) ∧
    (sungem_get_reg ((addr + 0x2000) % 2 ^ 32) = none →
      sungem_mmio_txdma_read s addr = (0, s)) ∧
    (sungem_get_reg ((addr + 0x4000) % 2 ^ 32) = none →
      sungem_mmio_rxdma_read s addr = (0, s)) := by
  refine ⟨fun h => ⟨?_, ?_⟩, fun h => ?_, fun h => ?_⟩
  · unfold sungem_mmio_read
    rw [h]
    by_cases hp : addr > e.PROM_START <;> simp [hp]
  · unfold sungem_mmio_greg_read
    rw [h]
  · unfold sungem_mmio_txdma_read
    rw [h]
  · unfold sungem_mmio_rxdma_read
    rw [h]

/-- Witness for `sungem_read_unknown`: address 0x200 on the cleared device, an
address that is outside every bank also when offset by 0x2000 or 0x4000. -/
theorem sungem_read_unknown_witness :
    (sungem_get_reg (0x200 % 2 ^ 32) = none ∧
      sungem_get_reg ((0x200 + 0x2000) % 2 ^ 32) = none ∧
      sungem_get_reg ((0x200 + 0x4000) % 2 ^ 32) = none) ∧
    sungem_mmio_read gemEnv zeroState 0x200 =
      some (if 0x200 > gemEnv.PROM_START then 0xffffffff else 0, zeroState) ∧
    sungem_mmio_greg_read gemEnv zeroState 0x200 = some (0, zeroState) ∧
    sungem_mmio_txdma_read zeroState 0x200 = (0, zeroState) ∧
    sungem_mmio_rxdma_read zeroState 0x200 = (0, zeroState) :=
  ⟨by decide,
    ((sungem_read_unknown gemEnv zeroState 0x200).1 (by decide)).1,
    ((sungem_read_unknown gemEnv zeroState 0x200).1 (by decide)).2,
    (sungem_read_unknown gemEnv zeroState 0x200).2.1 (by decide),
    (sungem_read_unknown gemEnv zeroState 0x200).2.2 (by decide)⟩
/-! ## Reasoning about results of computations that may not return -/

@[simp]
theorem Post_some {α : Type} (P : α → Prop) (a : α) : Post P (some a) ↔ P a := by
  simp [Post]

@[simp]
theorem Post_none {α : Type} (P : α → Prop) : Post P (none : Option α) ↔ True := by
  simp [Post]

@[simp]
theorem Post_pure {α : Type} (P : α → Prop) (a : α) :
    Post P (pure a : Option α) ↔ P a := by
  simp [Post]

@[simp]
theorem Post_bind {α β : Type} (P : β → Prop) (x : Option α) (f : α → Option β) :
    Post P (x >>= f) ↔ Post (fun a => Post P (f a)) x := by
  cases x <;> simp [Post]

@[simp]
theorem Post_ite {α : Type} (P : α → Prop) (c : Prop) [Decidable c] (x y : Option α) :
    Post P (if c then x else y) ↔ (c → Post P x) ∧ (¬ c → Post P y) := by
  by_cases h : c <;> simp [h]

theorem Post.mono {α : Type} {P Q : α → Prop} {x : Option α} (h : Post P x)
    (hpq : ∀ a, P a → Q a) : Post Q x :=
  fun a ha => hpq a (h a ha)

@[simp]
theorem Post_GET_REG (Q : Nat → Prop) (s : SunGEMState) (r : Nat) :
    Post Q (GET_REG s r) ↔ ∀ c, sungem_get_reg (r % 2 ^ 32) = some c → Q (loadCell s c) := by
  unfold GET_REG
  cases sungem_get_reg (r % 2 ^ 32) <;> simp

@[simp]
theorem Post_SET_REG (Q : SunGEMState → Prop) (s : SunGEMState) (r v : Nat) :
    Post Q (SET_REG s r v) ↔
      ∀ c, sungem_get_reg (r % 2 ^ 32) = some c → Q (storeCell s c v) := by
  unfold SET_REG
  cases sungem_get_reg (r % 2 ^ 32) <;> simp

@[simp]
theorem Post_eval_irq (Q : SunGEMState → Prop) (e : Env) (s : SunGEMState) :
    Post Q (sungem_eval_irq e s) ↔ Q (pci_set_irq s (irq_level e s)) := by
  rw [sungem_eval_irq_eq, Post_some]

@[simp]
theorem Post_update_status (Q : SunGEMState → Prop) (e : Env) (s : SunGEMState)
    (bits : Nat) (val : Bool) :
    Post Q (sungem_update_status e s bits val) ↔
      Q (pci_set_irq
        (storeCell s (0, 3)
          (if val then loadCell s (0, 3) ||| bits % 2 ^ 32 else loadCell s (0, 3) &&& not32 bits))
        (irq_level e (storeCell s (0, 3)
          (if val then loadCell s (0, 3) ||| bits % 2 ^ 32
            else loadCell s (0, 3) &&& not32 bits)))) := by
  rw [sungem_update_status_eq, Post_some]

/-! ## The transmit accumulator is touched by the transmit path only -/

theorem cascade_tx_size (e : Env) (s : SunGEMState) :
    Post (fun s' => s'.tx_size = s.tx_size) (sungem_eval_cascade_irq e s) := by
  unfold sungem_eval_cascade_irq
  simp only [Post_bind, Post_GET_REG, ite_update_status, Post_update_status]
  intros
  rfl

theorem update_masks_tx_size (e : Env) (s : SunGEMState) :
    Post (fun s' => s'.tx_size = s.tx_size) (sungem_update_masks e s) := by
  unfold sungem_update_masks
  simp only [Post_bind, Post_GET_REG, Post_pure]
  intros
  trivial

theorem reset_rx_tx_size (e : Env) (s : SunGEMState) :
    Post (fun s' => s'.tx_size = s.tx_size) (sungem_reset_rx e s) := by
  unfold sungem_reset_rx
  simp only [Post_bind, Post_SET_REG]
  intros
  exact (update_masks_tx_size e _).mono (fun a h => h)

theorem check_rx_mac_returns (e : Env) (s : SunGEMState) (mac : List Nat) (crc : Nat)
    (Q : Nat → Prop) (h : ∀ v, Q v) : Post Q (sungem_check_rx_mac e s mac crc) :=
  fun a _ => h a

theorem receive_tx_size (e : Env) (s : SunGEMState) (buf : List Nat) :
    Post (fun r => r.2.tx_size = s.tx_size) (sungem_receive e s buf) := by
  unfold sungem_receive
  simp only [Post_bind, Post_GET_REG, Post_ite, Post_pure, Post_SET_REG, Post_update_status]
  repeat (first | trivial | rfl | intro _ | constructor | apply check_rx_mac_returns)

theorem tx_desc_sof_tx_size_le (e : Env) (s : SunGEMState) (cw : Nat)
    (h : s.tx_size ≤ MAX_PACKET_SIZE) : (tx_desc_sof e s cw).tx_size ≤ MAX_PACKET_SIZE := by
  unfold tx_desc_sof
  split
  · exact Nat.zero_le _
  · exact h

/-- The clamp of `sungem_process_tx_desc`: when the buffer size field is small
enough for the 32-bit sum not to wrap, the copy ends inside the accumulator. -/
theorem tx_desc_len_le (e : Env) (s : SunGEMState) (cw : Nat)
    (hB : e.TXDCTRL_BUFSZ + MAX_PACKET_SIZE < 2 ^ 32) (h : s.tx_size ≤ MAX_PACKET_SIZE) :
    s.tx_size + tx_desc_len e s cw ≤ MAX_PACKET_SIZE ∧
    (MAX_PACKET_SIZE < s.tx_size + (cw &&& e.TXDCTRL_BUFSZ) →
      tx_desc_len e s cw = MAX_PACKET_SIZE - s.tx_size) ∧
    (s.tx_size + (cw &&& e.TXDCTRL_BUFSZ) ≤ MAX_PACKET_SIZE →
      tx_desc_len e s cw = cw &&& e.TXDCTRL_BUFSZ) := by
  have hle : cw &&& e.TXDCTRL_BUFSZ ≤ e.TXDCTRL_BUFSZ := Nat.and_le_right
  unfold MAX_PACKET_SIZE at *
  have hlen : (cw &&& e.TXDCTRL_BUFSZ) % 2 ^ 32 = cw &&& e.TXDCTRL_BUFSZ :=
    Nat.mod_eq_of_lt (by omega)
  have hsum : (s.tx_size + (cw &&& e.TXDCTRL_BUFSZ)) % 2 ^ 32
      = s.tx_size + (cw &&& e.TXDCTRL_BUFSZ) := Nat.mod_eq_of_lt (by omega)
  have hc : (9016 + 2 ^ 32 - s.tx_size) % 2 ^ 32 = 9016 - s.tx_size := by omega
  unfold tx_desc_len MAX_PACKET_SIZE
  dsimp only
  rw [hlen, hsum, hc]
  split <;> omega

theorem send_packet_tx_size (e : Env) (s : SunGEMState) (buf : List Nat) :
    Post (fun s' => s'.tx_size = s.tx_size) (sungem_send_packet e s buf) := by
  unfold sungem_send_packet
  simp only [Post_bind, Post_GET_REG, Post_ite, Post_pure]
  intro c _
  refine ⟨fun _ => ?_, fun _ => trivial⟩
  exact (receive_tx_size e s buf).mono (fun a h => h)

theorem do_tx_csum_tx_size (e : Env) (s : SunGEMState) :
    (sungem_do_tx_csum e s).tx_size = s.tx_size := by
  unfold sungem_do_tx_csum
  dsimp only
  split <;> rfl

theorem process_tx_desc_tx_size (e : Env) (s : SunGEMState) (cw buffer : Nat)
    (hB : e.TXDCTRL_BUFSZ + MAX_PACKET_SIZE < 2 ^ 32) (h : s.tx_size ≤ MAX_PACKET_SIZE) :
    Post (fun s' => s'.tx_size ≤ MAX_PACKET_SIZE) (sungem_process_tx_desc e s cw buffer) := by
  have h1 := tx_desc_sof_tx_size_le e s cw h
  have h2 := (tx_desc_len_le e (tx_desc_sof e s cw) cw hB h1).1
  unfold sungem_process_tx_desc
  simp only [Post_bind, Post_ite, Post_pure]
  refine ⟨fun _ => ?_, fun _ => ?_⟩
  · intro a _
    exact Nat.zero_le _
  · show ((tx_desc_sof e s cw).tx_size + tx_desc_len e (tx_desc_sof e s cw) cw) % 2 ^ 32
      ≤ MAX_PACKET_SIZE
    exact le_trans (Nat.mod_le _ _) h2

theorem tx_loop_tx_size (e : Env) (dbase kick : Nat)
    (hB : e.TXDCTRL_BUFSZ + MAX_PACKET_SIZE < 2 ^ 32) (fuel : Nat) :
    ∀ (comp : Nat) (s : SunGEMState), s.tx_size ≤ MAX_PACKET_SIZE →
      Post (fun s' => s'.tx_size ≤ MAX_PACKET_SIZE) (tx_loop e dbase kick fuel comp s) := by
  induction fuel with
  | zero =>
    intro comp s h
    unfold tx_loop
    simp only [Post_ite, Post_none, Post_some]
    exact ⟨fun _ => trivial, fun _ => h⟩
  | succ n ih =>
    intro comp s h
    unfold tx_loop
    simp only [Post_ite, Post_some, Post_bind, Post_update_status, Post_SET_REG]
    refine ⟨fun _ => ?_, fun _ => h⟩
    refine (process_tx_desc_tx_size e s _ _ hB h).mono ?_
    intro s1 h1 c _
    exact ih _ _ h1

theorem tx_kick_tx_size (e : Env) (s : SunGEMState)
    (hB : e.TXDCTRL_BUFSZ + MAX_PACKET_SIZE < 2 ^ 32) (h : s.tx_size ≤ MAX_PACKET_SIZE) :
    Post (fun s' => s'.tx_size ≤ MAX_PACKET_SIZE) (sungem_tx_kick e s) := by
  unfold sungem_tx_kick
  simp only [Post_bind, Post_GET_REG, Post_ite, Post_pure, Post_update_status]
  intro c1 _ c2 _
  refine ⟨fun _ => h, fun _ => ?_⟩
  intro c3 _ c4 _ c5 _ c6 _
  refine (tx_loop_tx_size e _ _ hB _ _ s h).mono ?_
  intro s1 h1
  exact h1

theorem reset_tx_tx_size (e : Env) (s : SunGEMState) :
    Post (fun s' => s'.tx_size ≤ MAX_PACKET_SIZE) (sungem_reset_tx e s) := by
  unfold sungem_reset_tx
  simp only [Post_bind, Post_SET_REG, Post_pure]
  intros
  intro a _
  exact Nat.zero_le _

theorem reset_all_tx_size (e : Env) (s : SunGEMState) (b : Bool) :
    Post (fun s' => s'.tx_size ≤ MAX_PACKET_SIZE) (sungem_reset_all e s b) := by
  unfold sungem_reset_all
  simp only [Post_bind]
  intro s1 _
  refine (reset_tx_tx_size e s1).mono ?_
  intro s2 h2
  simp only [Post_SET_REG, Post_ite, Post_bind, Post_GET_REG]
  intros
  constructor <;> intros <;> exact h2

theorem mmio_write_tx_size (e : Env) (s : SunGEMState) (addr val : Nat) :
    Post (fun s' => s'.tx_size = s.tx_size) (sungem_mmio_write e s addr val) := by
  unfold sungem_mmio_write
  split
  · simp
  · cases sungem_get_reg (addr % 2 ^ 32) with
    | none => simp
    | some regp =>
      dsimp only
      simp only [Post_ite, Post_some, Post_bind, Post_GET_REG, Post_pure]
      refine ⟨fun _ => trivial, fun _ => ⟨fun _ => ?_, fun _ => ⟨fun _ => rfl, fun _ =>
        ⟨fun _ => ?_, fun _ => rfl⟩⟩⟩⟩
      · exact (cascade_tx_size e _).mono (fun a h => h)
      · refine (update_masks_tx_size e _).mono ?_
        intro a h c _
        exact h

theorem mmio_read_tx_size (e : Env) (s : SunGEMState) (addr : Nat) :
    Post (fun r => r.2.tx_size = s.tx_size) (sungem_mmio_read e s addr) := by
  unfold sungem_mmio_read
  split
  · simp
  · cases sungem_get_reg (addr % 2 ^ 32) with
    | none => simp
    | some regp =>
      dsimp only
      simp only [Post_ite, Post_some, Post_bind, Post_update_status, Post_pure]
      repeat (first | trivial | rfl | intro _ | constructor)

theorem greg_write_tx_size (e : Env) (s : SunGEMState) (addr val : Nat)
    (h : s.tx_size ≤ MAX_PACKET_SIZE) :
    Post (fun s' => s'.tx_size ≤ MAX_PACKET_SIZE) (sungem_mmio_greg_write e s addr val) := by
  unfold sungem_mmio_greg_write
  cases sungem_get_reg (addr % 2 ^ 32) with
  | none => simpa using h
  | some regp =>
    dsimp only
    simp only [Post_ite, Post_some, Post_bind, Post_GET_REG, Post_SET_REG, Post_eval_irq]
    refine ⟨fun _ => h, fun _ => ⟨fun _ => ?_, fun _ => ⟨fun _ => h, fun _ =>
      ⟨fun _ => ⟨fun _ => ?_, fun _ => ⟨fun _ => ?_, fun _ => ⟨fun _ => ?_, fun _ => h⟩⟩⟩,
        fun _ => h⟩⟩⟩⟩
    · intros; exact h
    · exact (reset_rx_tx_size e _).mono (fun a ha => by rw [ha]; exact h)
    · exact reset_tx_tx_size e _
    · exact reset_all_tx_size e _ _

theorem greg_read_tx_size (e : Env) (s : SunGEMState) (addr : Nat) :
    Post (fun r => r.2.tx_size = s.tx_size) (sungem_mmio_greg_read e s addr) := by
  unfold sungem_mmio_greg_read
  cases sungem_get_reg (addr % 2 ^ 32) with
  | none => simp
  | some regp =>
    dsimp only
    simp only [Post_ite, Post_some, Post_bind, Post_GET_REG, Post_eval_irq, Post_pure]
    repeat (first | trivial | rfl | intro _ | constructor)

theorem txdma_write_tx_size (e : Env) (s : SunGEMState) (addr val : Nat)
    (hB : e.TXDCTRL_BUFSZ + MAX_PACKET_SIZE < 2 ^ 32) (h : s.tx_size ≤ MAX_PACKET_SIZE) :
    Post (fun s' => s'.tx_size ≤ MAX_PACKET_SIZE) (sungem_mmio_txdma_write e s addr val) := by
  unfold sungem_mmio_txdma_write
  cases sungem_get_reg ((addr + 0x2000) % 2 ^ 32) with
  | none => simpa using h
  | some regp =>
    dsimp only
    simp only [Post_ite, Post_some]
    refine ⟨fun _ => h, fun _ => ⟨fun _ => ?_, fun _ => ⟨fun _ => ?_, fun _ => h⟩⟩⟩
    · exact tx_kick_tx_size e _ hB h
    · exact (update_masks_tx_size e _).mono (fun a ha => by rw [ha]; exact h)

theorem rxdma_write_tx_size (e : Env) (s : SunGEMState) (addr val : Nat) :
    Post (fun s' => s'.tx_size = s.tx_size) (sungem_mmio_rxdma_write e s addr val) := by
  unfold sungem_mmio_rxdma_write
  cases sungem_get_reg ((addr + 0x4000) % 2 ^ 32) with
  | none => simp
  | some regp =>
    dsimp only
    simp only [Post_ite, Post_some, Post_bind, Post_GET_REG, Post_pure]
    refine ⟨fun _ => trivial, fun _ => ⟨fun _ => rfl, fun _ => ⟨fun _ => ?_, fun _ => rfl⟩⟩⟩
    refine (update_masks_tx_size e _).mono ?_
    intro a h c _
    exact h

theorem txdma_read_state (s : SunGEMState) (addr : Nat) :
    (sungem_mmio_txdma_read s addr).2 = s := by
  unfold sungem_mmio_txdma_read
  cases sungem_get_reg ((addr + 0x2000) % 2 ^ 32) <;> rfl

theorem rxdma_read_state (s : SunGEMState) (addr : Nat) :
    (sungem_mmio_rxdma_read s addr).2 = s := by
  unfold sungem_mmio_rxdma_read
  cases sungem_get_reg ((addr + 0x4000) % 2 ^ 32) <;> rfl

theorem step_tx_size (e : Env) (hB : e.TXDCTRL_BUFSZ + MAX_PACKET_SIZE < 2 ^ 32)
    (s s' : SunGEMState) (hs : Step e s s') (h : s.tx_size ≤ MAX_PACKET_SIZE) :
    s'.tx_size ≤ MAX_PACKET_SIZE := by
  cases hs with
  | mmio_write addr val hr => rw [mmio_write_tx_size e s addr val _ hr]; exact h
  | mmio_read addr v hr => rw [mmio_read_tx_size e s addr _ hr]; exact h
  | greg_write addr val hr => exact greg_write_tx_size e s addr val h s' hr
  | greg_read addr v hr => rw [greg_read_tx_size e s addr _ hr]; exact h
  | txdma_write addr val hr => exact txdma_write_tx_size e s addr val hB h s' hr
  | txdma_read addr => rw [txdma_read_state]; exact h
  | rxdma_write addr val hr => rw [rxdma_write_tx_size e s addr val s' hr]; exact h
  | rxdma_read addr => rw [rxdma_read_state]; exact h
  | receive buf n hr => rw [receive_tx_size e s buf _ hr]; exact h
  | tx_kick hr => exact tx_kick_tx_size e s hB h s' hr
  | reset_rx hr => rw [reset_rx_tx_size e s s' hr]; exact h
  | reset_tx hr => exact reset_tx_tx_size e s s' hr
  | reset_all b hr => exact reset_all_tx_size e s b s' hr
  | guest_memory mem => exact h
  | link_status down => exact h

theorem reachable_tx_size (e : Env) (hB : e.TXDCTRL_BUFSZ + MAX_PACKET_SIZE < 2 ^ 32)
    (s : SunGEMState) (hr : Reachable e s) : s.tx_size ≤ MAX_PACKET_SIZE := by
  induction hr with
  | init macaddr phy_addr mem link_down s h => exact reset_all_tx_size e _ true s h
  | step s s' _ hs ih => exact step_tx_size e hB s s' hs ih

/-- C4: in every state reachable from `sungem_init_regs` through register
accesses, resets, transmit kicks, frame deliveries and actions of the
collaborators, `tx_size` is at most `MAX_PACKET_SIZE`; and for every descriptor
that `sungem_process_tx_desc` may then be given, the payload copy ends inside
the accumulator (`tx_size + len <= MAX_PACKET_SIZE` after the clamp), the copy
length is `MAX_PACKET_SIZE - tx_size` whenever `tx_size` plus the buffer size
field exceeds the maximum, and no byte at index `MAX_PACKET_SIZE` or beyond is
changed by the copy. The hypothesis on the header constant `TXDCTRL_BUFSZ`
keeps the 32-bit sum `tx_size + len` from wrapping. -/
theorem sungem_tx_size_bounded (e : Env) (s : SunGEMState)
    (hB : e.TXDCTRL_BUFSZ + MAX_PACKET_SIZE < 2 ^ 32) (hr : Reachable e s) :
    s.tx_size ≤ MAX_PACKET_SIZE ∧
    ∀ control_word buffer : Nat,
      (tx_desc_sof e s control_word).tx_size +
          tx_desc_len e (tx_desc_sof e s control_word) control_word ≤ MAX_PACKET_SIZE ∧
      (MAX_PACKET_SIZE <
          (tx_desc_sof e s control_word).tx_size + (control_word &&& e.TXDCTRL_BUFSZ) →
        tx_desc_len e (tx_desc_sof e s control_word) control_word =
          MAX_PACKET_SIZE - (tx_desc_sof e s control_word).tx_size) ∧
      ∀ i, MAX_PACKET_SIZE ≤ i →
        bufStore (tx_desc_sof e s control_word).tx_data (tx_desc_sof e s control_word).tx_size
          (pci_dma_read (tx_desc_sof e s control_word) buffer
            (tx_desc_len e (tx_desc_sof e s control_word) control_word)) i =
        (tx_desc_sof e s control_word).tx_data i := by
  have h := reachable_tx_size e hB s hr
  refine ⟨h, fun cw buffer => ?_⟩
  have h1 := tx_desc_sof_tx_size_le e s cw h
  obtain ⟨h2, h3, -⟩ := tx_desc_len_le e (tx_desc_sof e s cw) cw hB h1
  refine ⟨h2, h3, fun i hi => ?_⟩
  unfold bufStore pci_dma_read
  simp only [List.length_map, List.length_range]
  rw [if_neg]
  omega

/-- Witness for `sungem_tx_size_bounded`: the GEM layout and the state right
after `sungem_init_regs` on a cleared device. -/
theorem sungem_tx_size_bounded_witness :
    gemEnv.TXDCTRL_BUFSZ + MAX_PACKET_SIZE < 2 ^ 32 ∧
    ∃ s, Reachable gemEnv s ∧ s.tx_size ≤ MAX_PACKET_SIZE ∧
      ∀ control_word buffer : Nat,
        (tx_desc_sof gemEnv s control_word).tx_size +
            tx_desc_len gemEnv (tx_desc_sof gemEnv s control_word) control_word
          ≤ MAX_PACKET_SIZE ∧
        (MAX_PACKET_SIZE <
            (tx_desc_sof gemEnv s control_word).tx_size +
              (control_word &&& gemEnv.TXDCTRL_BUFSZ) →
          tx_desc_len gemEnv (tx_desc_sof gemEnv s control_word) control_word =
            MAX_PACKET_SIZE - (tx_desc_sof gemEnv s control_word).tx_size) ∧
        ∀ i, MAX_PACKET_SIZE ≤ i →
          bufStore (tx_desc_sof gemEnv s control_word).tx_data
            (tx_desc_sof gemEnv s control_word).tx_size
            (pci_dma_read (tx_desc_sof gemEnv s control_word) buffer
              (tx_desc_len gemEnv (tx_desc_sof gemEnv s control_word) control_word)) i =
          (tx_desc_sof gemEnv s control_word).tx_data i := by
  obtain ⟨s, hs⟩ := Option.isSome_iff_exists.mp
    (show (sungem_init_regs gemEnv (newDevice (fun _ => 0) 0 (fun _ => 0) false)).isSome = true
      by decide)
  have hr : Reachable gemEnv s := Reachable.init _ _ _ _ s hs
  exact ⟨by decide, s, hr, sungem_tx_size_bounded gemEnv s (by decide) hr⟩

/-- For an accumulator of at least two bytes the guard of `sungem_do_tx_csum`
is the bounds check: offsets that do not satisfy `S + 2 <= n` and `O + 2 <= n`
leave the state as it is. -/
theorem sungem_do_tx_csum_skips (e : Env) (s : SunGEMState)
    (h2 : 2 ≤ s.tx_size) (h32 : s.tx_size < 2 ^ 32)
    (hb : ¬ (((s.tx_first_ctl &&& e.TXDCTRL_CSTART) >>> 15) % 2 ^ 16 + 2 ≤ s.tx_size ∧
      ((s.tx_first_ctl &&& e.TXDCTRL_COFF) >>> 21) % 2 ^ 16 + 2 ≤ s.tx_size)) :
    sungem_do_tx_csum e s = s := by
  unfold sungem_do_tx_csum
  dsimp only
  have hw : (s.tx_size + 2 ^ 32 - 2) % 2 ^ 32 = s.tx_size - 2 := by omega
  rw [hw, if_pos]
  omega

/-- For an accumulator of fewer than two bytes the guard of `sungem_do_tx_csum`
never holds: `tx_size - 2` wraps in 32 bits, and the checksum is stored
whatever the offsets are. -/
theorem sungem_do_tx_csum_below_two (e : Env) (s : SunGEMState) (h : s.tx_size < 2) :
    (sungem_do_tx_csum e s).tx_data =
      stw_be_p s.tx_data (((s.tx_first_ctl &&& e.TXDCTRL_COFF) >>> 21) % 2 ^ 16)
        (e.net_raw_checksum
          (bufSlice s.tx_data (((s.tx_first_ctl &&& e.TXDCTRL_CSTART) >>> 15) % 2 ^ 16)
            (int_len ((s.tx_size + 2 ^ 32 -
              ((s.tx_first_ctl &&& e.TXDCTRL_CSTART) >>> 15) % 2 ^ 16) % 2 ^ 32))) % 2 ^ 32) := by
  unfold sungem_do_tx_csum
  dsimp only
  have h16a : ((s.tx_first_ctl &&& e.TXDCTRL_CSTART) >>> 15) % 2 ^ 16 < 2 ^ 16 :=
    Nat.mod_lt _ (by norm_num)
  have h16b : ((s.tx_first_ctl &&& e.TXDCTRL_COFF) >>> 21) % 2 ^ 16 < 2 ^ 16 :=
    Nat.mod_lt _ (by norm_num)
  rw [if_neg]
  omega

/-- C12: for every value `v`, a write to a read-only register through the
write entry point of its bank returns and leaves the whole device state as it
was: the TX-DMA and RX-DMA completion, packet-counter, state-machine,
data-pointer, FIFO-size and FIFO-tag registers; `GREG_SEBSTATE`, `GREG_STAT`,
`GREG_STAT2`, `GREG_PCIESTAT`; and the MAC, MIF and PCS status registers of the
pre-write filter of `sungem_mmio_write`. -/
theorem sungem_readonly_write_ignored (e : Env) (s : SunGEMState) (v : Nat) :
    (∀ addr ∈ [TXDMA_TXDONE, TXDMA_PCNT, TXDMA_SMACHINE, TXDMA_DPLOW, TXDMA_DPHI, TXDMA_FSZ,
        TXDMA_FTAG], sungem_mmio_txdma_write e s addr v = some s) ∧
    (∀ addr ∈ [RXDMA_DONE, RXDMA_PCNT, RXDMA_SMACHINE, RXDMA_DPLOW, RXDMA_DPHI, RXDMA_FSZ,
        RXDMA_FTAG], sungem_mmio_rxdma_write e s addr v = some s) ∧
    (∀ addr ∈ [GREG_SEBSTATE, GREG_STAT, GREG_STAT2, GREG_PCIESTAT],
        sungem_mmio_greg_write e s addr v = some s) ∧
    (∀ addr ∈ [e.MAC_TXRST, e.MAC_RXRST, e.MAC_TXSTAT, e.MAC_RXSTAT, e.MAC_CSTAT, e.MAC_PATMPS,
        e.MAC_SMACHINE, e.MIF_STATUS, e.MIF_SMACHINE, e.PCS_MIISTAT, e.PCS_ISTAT, e.PCS_SSTATE],
        sungem_mmio_write e s addr v = some s) := by
  refine ⟨?_, ?_, ?_, ?_⟩
  · intro addr h
    simp only [List.mem_cons, List.mem_singleton, List.not_mem_nil, or_false] at h
    unfold sungem_mmio_txdma_write
    cases sungem_get_reg ((addr + 0x2000) % 2 ^ 32) with
    | none => rfl
    | some regp => dsimp only; rw [if_pos h]
  · intro addr h
    simp only [List.mem_cons, List.mem_singleton, List.not_mem_nil, or_false] at h
    unfold sungem_mmio_rxdma_write
    cases sungem_get_reg ((addr + 0x4000) % 2 ^ 32) with
    | none => rfl
    | some regp => dsimp only; rw [if_pos h]
  · intro addr h
    simp only [List.mem_cons, List.mem_singleton, List.not_mem_nil, or_false] at h
    unfold sungem_mmio_greg_write
    cases sungem_get_reg (addr % 2 ^ 32) with
    | none => rfl
    | some regp => dsimp only; rw [if_pos h]
  · intro addr h
    simp only [List.mem_cons, List.mem_singleton, List.not_mem_nil, or_false] at h
    unfold sungem_mmio_write
    by_cases hp : addr > e.PROM_START
    · rw [if_pos hp]
    · rw [if_neg hp]
      cases sungem_get_reg (addr % 2 ^ 32) with
      | none => rfl
      | some regp => dsimp only; rw [if_pos h]

/-- Witness for `sungem_readonly_write_ignored`: one register of each bank, in
the GEM layout on the cleared device. -/
theorem sungem_readonly_write_ignored_witness :
    sungem_mmio_txdma_write gemEnv zeroState TXDMA_TXDONE 5 = some zeroState ∧
    sungem_mmio_rxdma_write gemEnv zeroState RXDMA_DONE 5 = some zeroState ∧
    sungem_mmio_greg_write gemEnv zeroState GREG_STAT 5 = some zeroState ∧
    sungem_mmio_write gemEnv zeroState gemEnv.MAC_TXSTAT 5 = some zeroState :=
  ⟨(sungem_readonly_write_ignored gemEnv zeroState 5).1 TXDMA_TXDONE (by decide),
    (sungem_readonly_write_ignored gemEnv zeroState 5).2.1 RXDMA_DONE (by decide),
    (sungem_readonly_write_ignored gemEnv zeroState 5).2.2.1 GREG_STAT (by decide),
    (sungem_readonly_write_ignored gemEnv zeroState 5).2.2.2 gemEnv.MAC_TXSTAT (by decide)⟩

/-- C14: when the TX-DMA enable bit of `TXDMA_CFG` or the MAC transmit enable
bit of `MAC_TXCFG` is clear, `sungem_tx_kick` returns with the device state as
it was: no register, accumulator field, interrupt level, guest memory byte or
sent frame changes. -/
theorem sungem_tx_kick_disabled (e : Env) (s : SunGEMState) (txdma_cfg txmac_cfg : Nat)
    (h1 : GET_REG s (TXDMA_CFG + 0x2000) = some txdma_cfg)
    (h2 : GET_REG s e.MAC_TXCFG = some txmac_cfg)
    (hd : txdma_cfg &&& e.TXDMA_CFG_ENABLE = 0 ∨ txmac_cfg &&& e.MAC_TXCFG_ENAB = 0) :
    sungem_tx_kick e s = some s := by
  unfold sungem_tx_kick
  rw [h1, h2]
  simp only [Option.bind_eq_bind, Option.some_bind]
  rw [if_pos hd]
  rfl

/-- Witness for `sungem_tx_kick_disabled`: the cleared device, where both
enable bits are clear. -/
theorem sungem_tx_kick_disabled_witness :
    sungem_tx_kick gemEnv zeroState = some zeroState :=
  sungem_tx_kick_disabled gemEnv zeroState 0 0 (by decide) (by decide) (by decide)

/-- C13: for every value `v` written to `MIF_CFG` through `sungem_mmio_write`,
the write returns and the stored register is the low 32 bits of
`(v & ~MIF_CFG_MDI1) | MIF_CFG_MDI0`, which is also what a read returns: bit by
bit, below bit 32 a bit of `MIF_CFG_MDI0` is set, a bit of `MIF_CFG_MDI1` that
is not in `MIF_CFG_MDI0` is clear, and every other bit is as written. The
hypotheses place `MIF_CFG` at an accepted address below the PROM window and
keep it apart from the other case labels of the handler. -/
theorem sungem_mif_cfg_write (e : Env) (s : SunGEMState) (v : Nat)
    (hdec : sungem_get_reg (e.MIF_CFG % 2 ^ 32) ≠ none) (hprom : e.MIF_CFG ≤ e.PROM_START)
    (hro : e.MIF_CFG ∉ [e.MAC_TXRST, e.MAC_RXRST, e.MAC_TXSTAT, e.MAC_RXSTAT, e.MAC_CSTAT,
      e.MAC_PATMPS, e.MAC_SMACHINE, e.MIF_STATUS, e.MIF_SMACHINE, e.PCS_MIISTAT, e.PCS_ISTAT,
      e.PCS_SSTATE])
    (hpost : e.MIF_CFG ∉ [e.MAC_TXMASK, e.MAC_RXMASK, e.MAC_MCMASK, e.MIF_FRAME, e.MAC_RXCFG]) :
    ∃ s' stored, sungem_mmio_write e s e.MIF_CFG v = some s' ∧
      GET_REG s' e.MIF_CFG = some stored ∧
      sungem_mmio_read e s' e.MIF_CFG = some (stored, s') ∧
      stored = ((v &&& not64 e.MIF_CFG_MDI1) ||| e.MIF_CFG_MDI0) % 2 ^ 32 ∧
      (∀ i, i < 32 → e.MIF_CFG_MDI0.testBit i = true → stored.testBit i = true) ∧
      (∀ i, i < 32 → e.MIF_CFG_MDI1.testBit i = true → e.MIF_CFG_MDI0.testBit i = false →
        stored.testBit i = false) ∧
      (∀ i, i < 32 → e.MIF_CFG_MDI1.testBit i = false → e.MIF_CFG_MDI0.testBit i = false →
        stored.testBit i = v.testBit i) := by
  simp only [List.mem_cons, List.mem_singleton, List.not_mem_nil, or_false, not_or] at hro hpost
  obtain ⟨c, hc⟩ := Option.ne_none_iff_exists'.mp hdec
  have hbits : ∀ i, (((v &&& not64 e.MIF_CFG_MDI1) ||| e.MIF_CFG_MDI0) % 2 ^ 64 % 2 ^ 32).testBit i
      = (decide (i < 32) && ((v.testBit i && !e.MIF_CFG_MDI1.testBit i) ||
          e.MIF_CFG_MDI0.testBit i)) := by
    intro i
    simp only [Nat.testBit_mod_two_pow, Nat.testBit_or, Nat.testBit_and, testBit_not64]
    by_cases h32 : i < 32
    · have : i < 64 := by omega
      simp [h32, this]
    · simp [h32]
  have hstore : ((v &&& not64 e.MIF_CFG_MDI1) ||| e.MIF_CFG_MDI0) % 2 ^ 64 % 2 ^ 32
      = ((v &&& not64 e.MIF_CFG_MDI1) ||| e.MIF_CFG_MDI0) % 2 ^ 32 :=
    Nat.mod_mod_of_dvd _ (by norm_num)
  refine ⟨storeCell s c (((v &&& not64 e.MIF_CFG_MDI1) ||| e.MIF_CFG_MDI0) % 2 ^ 64), _,
    ?_, ?_, ?_, hstore, ?_, ?_, ?_⟩
  · unfold sungem_mmio_write
    rw [if_neg (by omega), hc]
    simp [hro, hpost]
  · unfold GET_REG
    rw [hc]
    simp only [loadCell_storeCell_same]
  · unfold sungem_mmio_read
    rw [if_neg (by omega), hc]
    simp [hro]
  · intro i hi h0
    rw [hbits]; simp [hi, h0]
  · intro i hi h1 h0
    rw [hbits]; simp [h1, h0]
  · intro i hi h1 h0
    rw [hbits]; simp [hi, h1, h0]

/-- Witness for `sungem_mif_cfg_write`: the GEM layout, a write of all ones to
`MIF_CFG` on the cleared device. -/
theorem sungem_mif_cfg_write_witness :
    ∃ s' stored, sungem_mmio_write gemEnv zeroState gemEnv.MIF_CFG 0xffffffff = some s' ∧
      GET_REG s' gemEnv.MIF_CFG = some stored ∧
      sungem_mmio_read gemEnv s' gemEnv.MIF_CFG = some (stored, s') ∧
      stored = ((0xffffffff &&& not64 gemEnv.MIF_CFG_MDI1) ||| gemEnv.MIF_CFG_MDI0) % 2 ^ 32 ∧
      (∀ i, i < 32 → gemEnv.MIF_CFG_MDI0.testBit i = true → stored.testBit i = true) ∧
      (∀ i, i < 32 → gemEnv.MIF_CFG_MDI1.testBit i = true →
        gemEnv.MIF_CFG_MDI0.testBit i = false → stored.testBit i = false) ∧
      (∀ i, i < 32 → gemEnv.MIF_CFG_MDI1.testBit i = false →
        gemEnv.MIF_CFG_MDI0.testBit i = false → stored.testBit i = (0xffffffff).testBit i) :=
  sungem_mif_cfg_write gemEnv zeroState 0xffffffff (by decide) (by decide) (by decide)
    (by decide)

/-- C16: for an accumulated frame of length `n = tx_size` (at most
`MAX_PACKET_SIZE`) whose first control word gives a checksum start `S` and a
stuff offset `O` with `S + 2 <= n` and `O + 2 <= n`, after `sungem_do_tx_csum`
the bytes at offsets `O` and `O + 1` hold, most significant byte first, the
low 16 bits of `net_raw_checksum` over the accumulator bytes `[S, n)` as they
were before, every other accumulator byte is as before, and nothing else in
the state changes. -/
theorem sungem_do_tx_csum_places (e : Env) (s : SunGEMState) (S O : Nat)
    (hS : S = ((s.tx_first_ctl &&& e.TXDCTRL_CSTART) >>> 15) % 2 ^ 16)
    (hO : O = ((s.tx_first_ctl &&& e.TXDCTRL_COFF) >>> 21) % 2 ^ 16)
    (hn : s.tx_size ≤ MAX_PACKET_SIZE) (hSn : S + 2 ≤ s.tx_size) (hOn : O + 2 ≤ s.tx_size) :
    (sungem_do_tx_csum e s).tx_data O =
      e.net_raw_checksum (bufSlice s.tx_data S (s.tx_size - S)) % 2 ^ 16 / 256 ∧
    (sungem_do_tx_csum e s).tx_data (O + 1) =
      e.net_raw_checksum (bufSlice s.tx_data S (s.tx_size - S)) % 256 ∧
    256 * (sungem_do_tx_csum e s).tx_data O + (sungem_do_tx_csum e s).tx_data (O + 1) =
      e.net_raw_checksum (bufSlice s.tx_data S (s.tx_size - S)) % 2 ^ 16 ∧
    (∀ i, i ≠ O → i ≠ O + 1 → (sungem_do_tx_csum e s).tx_data i = s.tx_data i) ∧
    OnlyTxData s (sungem_do_tx_csum e s) := by
  unfold MAX_PACKET_SIZE at hn
  have hw : (s.tx_size + 2 ^ 32 - 2) % 2 ^ 32 = s.tx_size - 2 := by omega
  have hl : (s.tx_size + 2 ^ 32 - S) % 2 ^ 32 = s.tx_size - S := by omega
  have hi : int_len (s.tx_size - S) = s.tx_size - S := by
    unfold int_len
    have : (s.tx_size - S) % 2 ^ 32 = s.tx_size - S := Nat.mod_eq_of_lt (by omega)
    rw [this, if_pos (by omega)]
  have key : sungem_do_tx_csum e s = { s with tx_data := (stw_be_p s.tx_data O
      (e.net_raw_checksum (bufSlice s.tx_data S (s.tx_size - S)) % 2 ^ 32)) } := by
    unfold sungem_do_tx_csum
    dsimp only
    rw [← hS, ← hO, hw, hl, hi, if_neg (by omega)]
  rw [key]
  generalize e.net_raw_checksum (bufSlice s.tx_data S (s.tx_size - S)) = c
  have h1 : c % 2 ^ 32 % 2 ^ 16 = c % 2 ^ 16 := Nat.mod_mod_of_dvd _ (by norm_num)
  have h2 : c % 2 ^ 32 % 256 = c % 256 := Nat.mod_mod_of_dvd _ (by norm_num)
  have h3 : (c % 2 ^ 16) >>> 8 = c % 2 ^ 16 / 256 := by
    rw [Nat.shiftRight_eq_div_pow]
  refine ⟨?_, ?_, ?_, ?_, rfl⟩
  · simp only [stw_be_p, if_true, h1, h3]
  · simp only [stw_be_p, if_neg (Nat.succ_ne_self O), if_true, h2]
  · simp only [stw_be_p, if_neg (Nat.succ_ne_self O), if_true, h1, h2, h3]
    omega
  · intro i hi1 hi2
    simp only [stw_be_p, if_neg hi1, if_neg hi2]

/-- Witness for `sungem_do_tx_csum_places`: four accumulated zero bytes with
checksum start 0 and stuff offset 2, in the GEM layout. -/
theorem sungem_do_tx_csum_places_witness :
    (sungem_do_tx_csum gemEnv fourByteFrameState).tx_data 2 =
      gemEnv.net_raw_checksum (bufSlice fourByteFrameState.tx_data 0
        (fourByteFrameState.tx_size - 0)) % 2 ^ 16 / 256 ∧
    (sungem_do_tx_csum gemEnv fourByteFrameState).tx_data (2 + 1) =
      gemEnv.net_raw_checksum (bufSlice fourByteFrameState.tx_data 0
        (fourByteFrameState.tx_size - 0)) % 256 ∧
    256 * (sungem_do_tx_csum gemEnv fourByteFrameState).tx_data 2 +
        (sungem_do_tx_csum gemEnv fourByteFrameState).tx_data (2 + 1) =
      gemEnv.net_raw_checksum (bufSlice fourByteFrameState.tx_data 0
        (fourByteFrameState.tx_size - 0)) % 2 ^ 16 ∧
    (∀ i, i ≠ 2 → i ≠ 2 + 1 →
      (sungem_do_tx_csum gemEnv fourByteFrameState).tx_data i = fourByteFrameState.tx_data i) ∧
    OnlyTxData fourByteFrameState (sungem_do_tx_csum gemEnv fourByteFrameState) :=
  sungem_do_tx_csum_places gemEnv fourByteFrameState 0 2 (by decide) (by decide) (by decide)
    (by decide) (by decide)

theorem get_reg_RXDMA_CFG : sungem_get_reg ((RXDMA_CFG + 0x4000) % 2 ^ 32) = some (5, 0) := by
  decide

theorem get_reg_RXDMA_KICK : sungem_get_reg ((RXDMA_KICK + 0x4000) % 2 ^ 32) = some (6, 0) := by
  decide

theorem get_reg_RXDMA_DONE : sungem_get_reg ((RXDMA_DONE + 0x4000) % 2 ^ 32) = some (6, 1) := by
  decide

theorem get_reg_RXDMA_DBHI : sungem_get_reg ((RXDMA_DBHI + 0x4000) % 2 ^ 32) = some (5, 2) := by
  decide

theorem get_reg_RXDMA_DBLOW : sungem_get_reg ((RXDMA_DBLOW + 0x4000) % 2 ^ 32) = some (5, 1) := by
  decide

@[simp]
theorem GET_REG_RXDMA_CFG (s : SunGEMState) :
    GET_REG s (RXDMA_CFG + 0x4000) = some (loadCell s (5, 0)) := by
  unfold GET_REG; rw [get_reg_RXDMA_CFG]

@[simp]
theorem GET_REG_RXDMA_KICK (s : SunGEMState) :
    GET_REG s (RXDMA_KICK + 0x4000) = some (loadCell s (6, 0)) := by
  unfold GET_REG; rw [get_reg_RXDMA_KICK]

@[simp]
theorem GET_REG_RXDMA_DONE (s : SunGEMState) :
    GET_REG s (RXDMA_DONE + 0x4000) = some (loadCell s (6, 1)) := by
  unfold GET_REG; rw [get_reg_RXDMA_DONE]

@[simp]
theorem GET_REG_RXDMA_DBHI (s : SunGEMState) :
    GET_REG s (RXDMA_DBHI + 0x4000) = some (loadCell s (5, 2)) := by
  unfold GET_REG; rw [get_reg_RXDMA_DBHI]

@[simp]
theorem GET_REG_RXDMA_DBLOW (s : SunGEMState) :
    GET_REG s (RXDMA_DBLOW + 0x4000) = some (loadCell s (5, 1)) := by
  unfold GET_REG; rw [get_reg_RXDMA_DBLOW]

@[simp]
theorem SET_REG_RXDMA_DONE (s : SunGEMState) (v : Nat) :
    SET_REG s (RXDMA_DONE + 0x4000) v = some (storeCell s (6, 1) v) := by
  unfold SET_REG; rw [get_reg_RXDMA_DONE]

/-- What `sungem_can_receive` returns, given the value of `MAC_RXCFG`. -/
theorem sungem_can_receive_eq (e : Env) (s : SunGEMState) (rxmac_cfg : Nat)
    (h : GET_REG s e.MAC_RXCFG = some rxmac_cfg) :
    sungem_can_receive e s = some (decide (¬ (rxmac_cfg &&& e.MAC_RXCFG_ENAB = 0 ∨
      loadCell s (5, 0) &&& e.RXDMA_CFG_ENABLE = 0 ∨
      loadCell s (6, 0) = (loadCell s (6, 1) + 1) % 2 ^ 32 &&& s.rx_mask))) := by
  unfold sungem_can_receive
  simp only [h, GET_REG_RXDMA_CFG, GET_REG_RXDMA_KICK, GET_REG_RXDMA_DONE, Option.bind_eq_bind,
    Option.some_bind, sungem_rx_full, Option.pure_def]
  by_cases h1 : rxmac_cfg &&& e.MAC_RXCFG_ENAB = 0
  · simp [h1]
  · by_cases h2 : loadCell s (5, 0) &&& e.RXDMA_CFG_ENABLE = 0
    · simp [h1, h2]
    · by_cases h3 : loadCell s (6, 0) = (loadCell s (6, 1) + 1) % 2 ^ 32 &&& s.rx_mask
      · simp [h1, h2, h3]
      · simp [h1, h2, h3, beq_eq_decide]

/-- Stepping a ring index: for a mask `2 ^ k - 1` with `1 <= k <= 32`, the
successor `(x + 1) & mask` of a masked index differs from it. -/
theorem ring_succ_ne (mask k d : Nat) (hk1 : 1 ≤ k) (hk : k ≤ 32) (hm : mask + 1 = 2 ^ k) :
    (d + 1) % 2 ^ 32 &&& mask ≠ (((d + 1) % 2 ^ 32 &&& mask) + 1) % 2 ^ 32 &&& mask := by
  have hmask : mask = 2 ^ k - 1 := by omega
  have hdvd : 2 ^ k ∣ 2 ^ 32 := Nat.pow_dvd_pow 2 hk
  have h2 : 2 ≤ 2 ^ k := by
    calc 2 = 2 ^ 1 := by norm_num
      _ ≤ 2 ^ k := Nat.pow_le_pow_right (by norm_num) hk1
  rw [hmask, Nat.and_pow_two_sub_one_eq_mod, Nat.and_pow_two_sub_one_eq_mod,
    Nat.mod_mod_of_dvd _ hdvd, Nat.mod_mod_of_dvd _ hdvd]
  generalize 2 ^ k = n at *
  have hlt : (d + 1) % n < n := Nat.mod_lt _ (by omega)
  generalize (d + 1) % n = x at *
  by_cases hx : x + 1 < n
  · rw [Nat.mod_eq_of_lt hx]; omega
  · have : x + 1 = n := by omega
    rw [this, Nat.mod_self]; omega

/-- C18: `sungem_can_receive` returns false exactly when the MAC receive
enable bit is clear, or the RX-DMA enable bit is clear, or the ring is full
(`RXDMA_KICK == (RXDMA_DONE + 1) & rx_mask`), and true in every other state.
Consequently, for a ring mask `2 ^ k - 1` (`1 <= k <= 32`), in an enabled state
where kick equals `(done + 1) & rx_mask` it returns false, and in the state
obtained by storing `(done + 1) & rx_mask` in `RXDMA_DONE` it returns true. -/
theorem sungem_can_receive_spec (e : Env) (s : SunGEMState) (rxmac_cfg rxdma_cfg kick done : Nat)
    (h1 : GET_REG s e.MAC_RXCFG = some rxmac_cfg)
    (h2 : GET_REG s (RXDMA_CFG + 0x4000) = some rxdma_cfg)
    (h3 : GET_REG s (RXDMA_KICK + 0x4000) = some kick)
    (h4 : GET_REG s (RXDMA_DONE + 0x4000) = some done) :
    (sungem_can_receive e s = some false ↔
      (rxmac_cfg &&& e.MAC_RXCFG_ENAB = 0 ∨ rxdma_cfg &&& e.RXDMA_CFG_ENABLE = 0 ∨
        kick = (done + 1) % 2 ^ 32 &&& s.rx_mask)) ∧
    (sungem_can_receive e s = some true ↔
      ¬ (rxmac_cfg &&& e.MAC_RXCFG_ENAB = 0 ∨ rxdma_cfg &&& e.RXDMA_CFG_ENABLE = 0 ∨
        kick = (done + 1) % 2 ^ 32 &&& s.rx_mask)) ∧
    (∀ k s2, 1 ≤ k → k ≤ 32 → s.rx_mask + 1 = 2 ^ k →
      rxmac_cfg &&& e.MAC_RXCFG_ENAB ≠ 0 → rxdma_cfg &&& e.RXDMA_CFG_ENABLE ≠ 0 →
      kick = (done + 1) % 2 ^ 32 &&& s.rx_mask →
      sungem_get_reg (e.MAC_RXCFG % 2 ^ 32) ≠ some (6, 1) →
      SET_REG s (RXDMA_DONE + 0x4000) ((done + 1) % 2 ^ 32 &&& s.rx_mask) = some s2 →
      sungem_can_receive e s = some false ∧ sungem_can_receive e s2 = some true) := by
  simp only [GET_REG_RXDMA_CFG, GET_REG_RXDMA_KICK, GET_REG_RXDMA_DONE, Option.some.injEq]
    at h2 h3 h4
  have key := sungem_can_receive_eq e s rxmac_cfg h1
  rw [h2, h3, h4] at key
  have hA : sungem_can_receive e s = some false ↔
      (rxmac_cfg &&& e.MAC_RXCFG_ENAB = 0 ∨ rxdma_cfg &&& e.RXDMA_CFG_ENABLE = 0 ∨
        kick = (done + 1) % 2 ^ 32 &&& s.rx_mask) := by
    rw [key, Option.some.injEq, decide_eq_false_iff_not, not_not]
  refine ⟨hA, ?_, ?_⟩
  · rw [key, Option.some.injEq, decide_eq_true_iff]
  · intro k s2 hk1 hk hm he1 he2 hfull hcell hs2
    refine ⟨hA.mpr (Or.inr (Or.inr hfull)), ?_⟩
    rw [SET_REG_RXDMA_DONE, Option.some.injEq] at hs2
    subst hs2
    have g1 : GET_REG (storeCell s (6, 1) ((done + 1) % 2 ^ 32 &&& s.rx_mask)) e.MAC_RXCFG
        = some rxmac_cfg := by
      rw [← h1]
      unfold GET_REG
      cases hc : sungem_get_reg (e.MAC_RXCFG % 2 ^ 32) with
      | none => rfl
      | some c =>
        dsimp only
        rw [loadCell_storeCell_ne _ _ _ _ (fun hh => hcell (by rw [hc, hh]))]
    rw [sungem_can_receive_eq e _ _ g1]
    have l1 : loadCell (storeCell s (6, 1) ((done + 1) % 2 ^ 32 &&& s.rx_mask)) (5, 0)
        = rxdma_cfg := by
      rw [loadCell_storeCell_ne _ _ _ _ (by decide), h2]
    have l2 : loadCell (storeCell s (6, 1) ((done + 1) % 2 ^ 32 &&& s.rx_mask)) (6, 0)
        = kick := by
      rw [loadCell_storeCell_ne _ _ _ _ (by decide), h3]
    have hle : (done + 1) % 2 ^ 32 &&& s.rx_mask < 2 ^ 32 :=
      lt_of_le_of_lt Nat.and_le_left (Nat.mod_lt _ (by norm_num))
    have l3 : loadCell (storeCell s (6, 1) ((done + 1) % 2 ^ 32 &&& s.rx_mask)) (6, 1)
        = (done + 1) % 2 ^ 32 &&& s.rx_mask := by
      rw [loadCell_storeCell_same, Nat.mod_eq_of_lt hle]
    rw [l1, l2, l3, storeCell_rx_mask, hfull]
    have hne := ring_succ_ne s.rx_mask k done hk1 hk hm
    simp only [Nat.reducePow] at hne
    simp [he1, he2, hne]

/-- Witness for `sungem_can_receive_spec`: the enabled device with
`rx_mask = 31`, `RXDMA_DONE = 0` and `RXDMA_KICK = 1`, a full ring. -/
theorem sungem_can_receive_spec_witness :
    sungem_can_receive gemEnv (rxState 1 0) = some false ∧
    sungem_can_receive gemEnv (storeCell (rxState 1 0) (6, 1) ((0 + 1) % 2 ^ 32 &&& 31)) =
      some true :=
  (sungem_can_receive_spec gemEnv (rxState 1 0) 0x9 1 1 0 (by decide) (by decide) (by decide)
    (by decide)).2.2 5 _ (by decide) (by decide) (by decide) (by decide) (by decide) (by decide)
    (by decide) rfl

/-- C20: when receive is enabled (both enable bits set), the frame has a valid
size (at least 6 bytes, and with 4 more at most `MAC_MAXFSZ & 0x7fff`), the
address check on the processed frame gives a match, and the ring is full
(`(RXDMA_KICK & rx_mask) == ((RXDMA_DONE & rx_mask) + 1) & rx_mask`),
`sungem_receive` returns 0 and the device state is as it was: registers,
cursors, interrupt line and guest memory included. -/
theorem sungem_receive_ring_full (e : Env) (s : SunGEMState) (buf : List Nat)
    (rxmac_cfg rxdma_cfg max_fsize rx_cond kick done : Nat)
    (h1 : GET_REG s e.MAC_RXCFG = some rxmac_cfg)
    (h2 : GET_REG s (RXDMA_CFG + 0x4000) = some rxdma_cfg)
    (h3 : GET_REG s e.MAC_MAXFSZ = some max_fsize)
    (h4 : GET_REG s (RXDMA_KICK + 0x4000) = some kick)
    (h5 : GET_REG s (RXDMA_DONE + 0x4000) = some done)
    (hen : rxdma_cfg &&& e.RXDMA_CFG_ENABLE ≠ 0 ∧ rxmac_cfg &&& e.MAC_RXCFG_ENAB ≠ 0)
    (hsize : 6 ≤ buf.length ∧ buf.length + 4 ≤ max_fsize &&& 0x7fff)
    (hmatch : sungem_check_rx_mac e s (rx_pad buf)
      (e.crc32 (not64 0) ((rx_pad buf).take 6) % 2 ^ 32) = some rx_cond)
    (hcond : rx_cond ≠ rx_no_match)
    (hfull : kick &&& s.rx_mask = ((done &&& s.rx_mask) + 1) % 2 ^ 32 &&& s.rx_mask) :
    sungem_receive e s buf = some (0, s) := by
  simp only [GET_REG_RXDMA_CFG, GET_REG_RXDMA_KICK, GET_REG_RXDMA_DONE, Option.some.injEq]
    at h2 h4 h5
  unfold sungem_receive
  simp only [h1, h3, GET_REG_RXDMA_CFG, GET_REG_RXDMA_KICK, GET_REG_RXDMA_DONE,
    Option.bind_eq_bind, Option.some_bind, Option.pure_def, h2, h4, h5, hmatch]
  rw [if_neg (by tauto), if_neg (by omega), if_neg hcond, if_pos]
  unfold sungem_rx_full
  rw [hfull]
  exact beq_self_eq_true _

/-- Witness for `sungem_receive_ring_full`: the enabled device with
`rx_mask = 31`, `RXDMA_DONE = 0` and `RXDMA_KICK = 1`, given 60 zero bytes. -/
theorem sungem_receive_ring_full_witness :
    sungem_receive gemEnv (rxState 1 0) zeroFrame = some (0, rxState 1 0) :=
  sungem_receive_ring_full gemEnv (rxState 1 0) zeroFrame 0x9 1 1518 rx_match_promisc 1 0
    (by decide) (by decide) (by decide) (by decide) (by decide) (by decide) (by decide)
    (by decide) (by decide) (by decide)

/-- C19: the state below is produced by register writes on a new device
(`RXDMA_CFG = 1`, so `rx_mask = 31`; `MAC_MAXFSZ = 1518`; `MAC_RXCFG = 9`,
enabled and promiscuous; `RXDMA_KICK = 33`, a value beyond the ring). In it
`sungem_can_receive`, which compares the unmasked kick register, returns true,
while `sungem_receive` of a 60-byte frame, which masks the kick register first
(`33 & 31 = 1 = (0 + 1) & 31`), takes the ring-full branch and returns 0. -/
theorem sungem_can_receive_kick_unmasked :
    ((sungem_init_regs gemEnv zeroState).bind fun s0 =>
      (sungem_mmio_rxdma_write gemEnv s0 RXDMA_CFG 1).bind fun s1 =>
      (sungem_mmio_write gemEnv s1 gemEnv.MAC_MAXFSZ 1518).bind fun s2 =>
      (sungem_mmio_write gemEnv s2 gemEnv.MAC_RXCFG 9).bind fun s3 =>
      (sungem_mmio_rxdma_write gemEnv s3 RXDMA_KICK 33).map fun s4 =>
        (s4.rx_mask, GET_REG s4 (RXDMA_KICK + 0x4000), GET_REG s4 (RXDMA_DONE + 0x4000),
          sungem_can_receive gemEnv s4,
          (sungem_receive gemEnv s4 zeroFrame).map Prod.fst)) =
      some (31, some 33, some 0, some true, some 0) ∧
    sungem_can_receive gemEnv (rxState 33 0) = some true ∧
    (sungem_receive gemEnv (rxState 33 0) zeroFrame).map Prod.fst = some 0 := by
  decide

theorem get_reg_TXDMA_KICK : sungem_get_reg ((TXDMA_KICK + 0x2000) % 2 ^ 32) = some (2, 0) := by
  decide

theorem get_reg_TXDMA_CFG : sungem_get_reg ((TXDMA_CFG + 0x2000) % 2 ^ 32) = some (2, 1) := by
  decide

theorem get_reg_TXDMA_DBLOW : sungem_get_reg ((TXDMA_DBLOW + 0x2000) % 2 ^ 32) = some (2, 2) := by
  decide

theorem get_reg_TXDMA_DBHI : sungem_get_reg ((TXDMA_DBHI + 0x2000) % 2 ^ 32) = some (2, 3) := by
  decide

@[simp]
theorem GET_REG_TXDMA_KICK (s : SunGEMState) :
    GET_REG s (TXDMA_KICK + 0x2000) = some (loadCell s (2, 0)) := by
  unfold GET_REG; rw [get_reg_TXDMA_KICK]

@[simp]
theorem GET_REG_TXDMA_CFG (s : SunGEMState) :
    GET_REG s (TXDMA_CFG + 0x2000) = some (loadCell s (2, 1)) := by
  unfold GET_REG; rw [get_reg_TXDMA_CFG]

@[simp]
theorem GET_REG_TXDMA_DBLOW (s : SunGEMState) :
    GET_REG s (TXDMA_DBLOW + 0x2000) = some (loadCell s (2, 2)) := by
  unfold GET_REG; rw [get_reg_TXDMA_DBLOW]

@[simp]
theorem GET_REG_TXDMA_DBHI (s : SunGEMState) :
    GET_REG s (TXDMA_DBHI + 0x2000) = some (loadCell s (2, 3)) := by
  unfold GET_REG; rw [get_reg_TXDMA_DBHI]

@[simp]
theorem SET_REG_TXDONE (s : SunGEMState) (v : Nat) :
    SET_REG s (TXDMA_TXDONE + 0x2000) v = some (storeCell s (3, 0) v) := by
  unfold SET_REG; rw [get_reg_TXDONE]

/-- The descriptor loop, one iteration unrolled. -/
theorem tx_loop_succ (e : Env) (dbase kick fuel comp : Nat) (s : SunGEMState) :
    tx_loop e dbase kick (fuel + 1) comp s =
      if comp ≠ kick then
        (tx_body e dbase comp s).bind fun t =>
          tx_loop e dbase kick fuel ((comp + 1) % 2 ^ 32 &&& t.tx_mask) t
      else some s := by
  rw [tx_loop]
  by_cases h : comp ≠ kick
  · rw [if_pos h, if_pos h]
    unfold tx_body
    simp only [Option.bind_eq_bind, Option.bind_assoc, SET_REG_TXDONE, Option.some_bind,
      storeCell_tx_mask]
  · rw [if_neg h, if_neg h]

theorem tx_loop_zero (e : Env) (dbase kick comp : Nat) (s : SunGEMState) :
    tx_loop e dbase kick 0 comp s = if comp ≠ kick then none else some s := by
  rw [tx_loop]

theorem KickFrame.kick_refl (s : SunGEMState) : KickFrame s s :=
  ⟨rfl, rfl, fun _ _ _ => rfl, fun _ h => h⟩

theorem KickFrame.kick_trans {s t u : SunGEMState} (h1 : KickFrame s t) (h2 : KickFrame t u) :
    KickFrame s u := by
  obtain ⟨a1, b1, c1, d1⟩ := h1
  obtain ⟨a2, b2, c2, d2⟩ := h2
  refine ⟨by rw [a2, a1], by rw [b2, b1], fun b i h => ?_, fun i h => d2 i (d1 i h)⟩
  rw [c2 b i h, c1 b i h]

/-- A state with the same register file and ring masks. -/
theorem KickFrame.congr {s t t' : SunGEMState} (h : KickFrame s t) (hr : t'.regs = t.regs)
    (ht : t'.tx_mask = t.tx_mask) (hx : t'.rx_mask = t.rx_mask) : KickFrame s t' := by
  obtain ⟨a, b, c, d⟩ := h
  refine ⟨by rw [ht, a], by rw [hx, b], fun b i hh => ?_, fun i hh => ?_⟩
  · rw [hr, c b i hh]
  · have : loadCell t' (0, 3) = loadCell t (0, 3) := by unfold loadCell; rw [hr]
    rw [this]; exact d i hh

theorem KickFrame.store_rx_done {s t : SunGEMState} (h : KickFrame s t) (v : Nat) :
    KickFrame s (storeCell t (6, 1) v) := by
  obtain ⟨a, b, c, d⟩ := h
  refine ⟨a, b, fun b i hh => ?_, fun i hh => ?_⟩
  · have hne : (b, i) ≠ (6, 1) := fun h' => hh (by rw [h']; simp)
    rw [storeCell_regs_ne _ _ _ _ _ hne, c b i hh]
  · rw [loadCell_storeCell_ne _ _ _ _ (by decide)]; exact d i hh

theorem KickFrame.store_tx_done {s t : SunGEMState} (h : KickFrame s t) (v : Nat) :
    KickFrame s (storeCell t (3, 0) v) := by
  obtain ⟨a, b, c, d⟩ := h
  refine ⟨a, b, fun b i hh => ?_, fun i hh => ?_⟩
  · have hne : (b, i) ≠ (3, 0) := fun h' => hh (by rw [h']; simp)
    rw [storeCell_regs_ne _ _ _ _ _ hne, c b i hh]
  · rw [loadCell_storeCell_ne _ _ _ _ (by decide)]; exact d i hh

theorem KickFrame.set_status {s t : SunGEMState} (h : KickFrame s t) (bits : Nat) :
    KickFrame s (storeCell t (0, 3) (loadCell t (0, 3) ||| bits % 2 ^ 32)) := by
  obtain ⟨a, b, c, d⟩ := h
  refine ⟨a, b, fun b i hh => ?_, fun i hh => ?_⟩
  · have hne : (b, i) ≠ (0, 3) := fun h' => hh (by rw [h']; simp)
    rw [storeCell_regs_ne _ _ _ _ _ hne, c b i hh]
  · rw [loadCell_storeCell_same, Nat.testBit_mod_two_pow, Nat.testBit_or, d i hh]
    have h32 : i < 32 := by
      by_contra hc
      rw [testBit_of_lt_32 (loadCell_lt s (0, 3)) i (by omega)] at hh
      exact Bool.false_ne_true hh
    simp [h32]

/-- The bits raised by a status update are set afterwards. -/
theorem set_status_bits (t : SunGEMState) (bits i : Nat)
    (h : (bits % 2 ^ 32).testBit i = true) :
    (loadCell (storeCell t (0, 3) (loadCell t (0, 3) ||| bits % 2 ^ 32)) (0, 3)).testBit i
      = true := by
  rw [loadCell_storeCell_same, Nat.testBit_mod_two_pow, Nat.testBit_or, h]
  rw [Nat.testBit_mod_two_pow] at h
  simp only [Bool.and_eq_true, decide_eq_true_eq] at h
  simp [h.1]

theorem receive_kick_frame (e : Env) (s : SunGEMState) (buf : List Nat) :
    Post (fun r => KickFrame s r.2) (sungem_receive e s buf) := by
  unfold sungem_receive
  simp only [Post_bind, Post_GET_REG, Post_ite, Post_pure, Post_SET_REG, Post_update_status,
    if_true]
  intro c1 _ c2 _ c3 _
  refine ⟨fun _ => KickFrame.kick_refl s, fun _ => ⟨fun _ => KickFrame.kick_refl s, fun _ => ?_⟩⟩
  apply check_rx_mac_returns
  intro rx_cond
  refine ⟨fun _ => KickFrame.kick_refl s, fun _ => ?_⟩
  intro c4 _ c5 _
  refine ⟨fun _ => KickFrame.kick_refl s, fun _ => ?_⟩
  intro c6 _ c7 _ c8 h8
  rw [get_reg_RXDMA_DONE, Option.some.injEq] at h8
  subst h8
  refine KickFrame.congr (KickFrame.set_status (KickFrame.store_rx_done
    (KickFrame.congr (KickFrame.kick_refl s) ?_ ?_ ?_) _) _) rfl rfl rfl
  all_goals rfl

theorem send_packet_kick_frame (e : Env) (s : SunGEMState) (buf : List Nat) :
    Post (fun t => KickFrame s t) (sungem_send_packet e s buf) := by
  unfold sungem_send_packet
  simp only [Post_bind, Post_GET_REG, Post_ite, Post_pure]
  intro c _
  refine ⟨fun _ => ?_, fun _ => KickFrame.congr (KickFrame.kick_refl s) rfl rfl rfl⟩
  exact (receive_kick_frame e s buf).mono (fun a h => h)

theorem do_tx_csum_regs (e : Env) (s : SunGEMState) :
    (sungem_do_tx_csum e s).regs = s.regs ∧ (sungem_do_tx_csum e s).tx_mask = s.tx_mask ∧
      (sungem_do_tx_csum e s).rx_mask = s.rx_mask := by
  unfold sungem_do_tx_csum
  dsimp only
  split <;> exact ⟨rfl, rfl, rfl⟩

theorem tx_desc_sof_regs (e : Env) (s : SunGEMState) (cw : Nat) :
    (tx_desc_sof e s cw).regs = s.regs ∧ (tx_desc_sof e s cw).tx_mask = s.tx_mask ∧
      (tx_desc_sof e s cw).rx_mask = s.rx_mask := by
  unfold tx_desc_sof
  split <;> exact ⟨rfl, rfl, rfl⟩

theorem process_tx_desc_kick_frame (e : Env) (s : SunGEMState) (cw buffer : Nat) :
    Post (fun t => KickFrame s t) (sungem_process_tx_desc e s cw buffer) := by
  obtain ⟨r1, r2, r3⟩ := tx_desc_sof_regs e s cw
  have hX : ∀ (c : Prop) [Decidable c] (acc : SunGEMState), acc.regs = s.regs →
      acc.tx_mask = s.tx_mask → acc.rx_mask = s.rx_mask →
      KickFrame s (if c then sungem_do_tx_csum e acc else acc) := by
    intro c _ acc h1 h2 h3
    obtain ⟨q1, q2, q3⟩ := do_tx_csum_regs e acc
    split
    · exact KickFrame.congr (KickFrame.kick_refl s) (q1.trans h1) (q2.trans h2) (q3.trans h3)
    · exact KickFrame.congr (KickFrame.kick_refl s) h1 h2 h3
  unfold sungem_process_tx_desc
  simp only [Post_bind, Post_ite, Post_pure]
  refine ⟨fun _ => ?_, fun _ => KickFrame.congr (KickFrame.kick_refl s) r1 r2 r3⟩
  refine (send_packet_kick_frame e _ _).mono ?_
  intro a ha
  refine KickFrame.congr (KickFrame.kick_trans ?_ ha) rfl rfl rfl
  apply hX
  · exact r1
  · exact r2
  · exact r3

/-- What one iteration of the descriptor loop establishes whenever it returns. -/
theorem tx_body_post (e : Env) (dbase comp : Nat) (s : SunGEMState) :
    Post (fun t => KickFrame s t ∧
        loadCell t (3, 0) = (comp + 1) % 2 ^ 32 &&& s.tx_mask ∧
        ∀ i, (e.GREG_STAT_TXDONE % 2 ^ 32).testBit i = true →
          (loadCell t (0, 3)).testBit i = true)
      (tx_body e dbase comp s) := by
  unfold tx_body
  simp only [Post_bind, Post_update_status, if_true, SET_REG_TXDONE, Post_some]
  refine (process_tx_desc_kick_frame e s _ _).mono ?_
  intro t ht
  have hlt : (comp + 1) % 2 ^ 32 &&& s.tx_mask < 2 ^ 32 :=
    lt_of_le_of_lt Nat.and_le_left (Nat.mod_lt _ (by norm_num))
  refine ⟨?_, ?_, ?_⟩
  · exact KickFrame.store_tx_done (KickFrame.congr (KickFrame.set_status ht _) rfl rfl rfl) _
  · rw [loadCell_storeCell_same]
    simp only [pci_set_irq_tx_mask, storeCell_tx_mask, ht.1]
    exact Nat.mod_eq_of_lt hlt
  · intro i hi
    rw [loadCell_storeCell_ne _ _ _ _ (by decide), loadCell_pci_set_irq]
    have h32 : i < 32 := by
      rw [Nat.testBit_mod_two_pow] at hi
      simp only [Bool.and_eq_true, decide_eq_true_eq] at hi
      exact hi.1
    split
    · apply set_status_bits
      rw [Nat.testBit_mod_two_pow, Nat.testBit_or, hi]
      simp [h32]
    · apply set_status_bits
      rw [Nat.mod_mod]
      exact hi

theorem Post_obind {α β : Type} (P : β → Prop) (x : Option α) (f : α → Option β) :
    Post P (x.bind f) ↔ Post (fun a => Post P (f a)) x := by
  cases x <;> simp [Post]

/-- What the descriptor loop establishes whenever it returns: the completion
register, masked, has reached `kick`, and if the loop ran at all the completion
status bits are set. -/
theorem tx_loop_post (e : Env) (dbase kick fuel : Nat) :
    ∀ (comp : Nat) (s : SunGEMState), loadCell s (3, 0) &&& s.tx_mask = comp →
      Post (fun s' => KickFrame s s' ∧ loadCell s' (3, 0) &&& s'.tx_mask = kick ∧
          (comp ≠ kick → ∀ i, (e.GREG_STAT_TXDONE % 2 ^ 32).testBit i = true →
            (loadCell s' (0, 3)).testBit i = true))
        (tx_loop e dbase kick fuel comp s) := by
  induction fuel with
  | zero =>
    intro comp s h
    rw [tx_loop_zero]
    simp only [Post_ite, Post_none, Post_some]
    refine ⟨fun _ => trivial, fun hc => ?_⟩
    have hck : comp = kick := not_not.mp hc
    exact ⟨KickFrame.kick_refl s, by rw [h, hck], fun hne => absurd hck hne⟩
  | succ n ih =>
    intro comp s h
    rw [tx_loop_succ]
    simp only [Post_ite, Post_some]
    refine ⟨fun _ => ?_, fun hc => ?_⟩
    · rw [Post_obind]
      refine (tx_body_post e dbase comp s).mono ?_
      intro t ⟨hk, hd, hbits⟩
      have hidem : loadCell t (3, 0) &&& t.tx_mask = (comp + 1) % 2 ^ 32 &&& t.tx_mask := by
        rw [hd, hk.1, Nat.and_assoc, Nat.and_self]
      refine (ih _ t hidem).mono ?_
      intro s' ⟨hk', hd', _⟩
      exact ⟨hk.kick_trans hk', hd', fun _ i hi => hk'.2.2.2 i (hbits i hi)⟩
    · have hck : comp = kick := not_not.mp hc
      exact ⟨KickFrame.kick_refl s, by rw [h, hck], fun hne => absurd hck hne⟩

/-- What `sungem_tx_kick` establishes whenever it returns with both enable bits
set. -/
theorem tx_kick_post (e : Env) (s : SunGEMState) (txmac_cfg : Nat)
    (h2 : GET_REG s e.MAC_TXCFG = some txmac_cfg)
    (hen : loadCell s (2, 1) &&& e.TXDMA_CFG_ENABLE ≠ 0 ∧ txmac_cfg &&& e.MAC_TXCFG_ENAB ≠ 0) :
    Post (fun s' => KickFrame s s' ∧
        loadCell s' (3, 0) &&& s'.tx_mask = loadCell s' (2, 0) &&& s'.tx_mask ∧
        (∀ i, (e.GREG_STAT_TXALL % 2 ^ 32).testBit i = true →
          (loadCell s' (0, 3)).testBit i = true) ∧
        (loadCell s (3, 0) &&& s.tx_mask ≠ loadCell s (2, 0) &&& s.tx_mask →
          ∀ i, (e.GREG_STAT_TXDONE % 2 ^ 32).testBit i = true →
            (loadCell s' (0, 3)).testBit i = true))
      (sungem_tx_kick e s) := by
  unfold sungem_tx_kick
  simp only [GET_REG_TXDMA_CFG, h2, GET_REG_TXDMA_DBHI, GET_REG_TXDMA_DBLOW, GET_REG_TXDONE,
    GET_REG_TXDMA_KICK, Option.bind_eq_bind, Option.some_bind]
  rw [if_neg (by tauto)]
  rw [Post_obind]
  refine (tx_loop_post e _ _ _ _ s rfl).mono ?_
  intro t ⟨hk, hd, hbits⟩
  simp only [Post_update_status, if_true]
  have hk2 : KickFrame s (pci_set_irq
      (storeCell t (0, 3) (loadCell t (0, 3) ||| e.GREG_STAT_TXALL % 2 ^ 32))
      (irq_level e (storeCell t (0, 3) (loadCell t (0, 3) ||| e.GREG_STAT_TXALL % 2 ^ 32)))) :=
    KickFrame.congr (hk.kick_trans (KickFrame.set_status (KickFrame.kick_refl t) _)) rfl rfl rfl
  refine ⟨hk2, ?_, ?_, ?_⟩
  · rw [loadCell_pci_set_irq, loadCell_pci_set_irq, loadCell_storeCell_ne _ _ _ _ (by decide),
      loadCell_storeCell_ne _ _ _ _ (by decide), pci_set_irq_tx_mask, storeCell_tx_mask, hd,
      hk.1]
    have h20 : loadCell t (2, 0) = loadCell s (2, 0) := by
      unfold loadCell
      rw [hk.2.2.1 2 0 (by decide)]
    rw [h20]
  · intro i hi
    rw [loadCell_pci_set_irq]
    exact set_status_bits t _ i hi
  · intro hne i hi
    rw [loadCell_pci_set_irq]
    exact (KickFrame.set_status (KickFrame.kick_refl t) _).2.2.2 i (hbits hne i hi)

theorem ite_total {α : Type} {c : Prop} [Decidable c] {a b : Option α}
    (ha : ∃ r, a = some r) (hb : ∃ r, b = some r) :
    ∃ r, (if c then a else b) = some r := by
  split <;> assumption

theorem bind_total {α β : Type} {x : Option α} {f : α → Option β}
    (hx : ∃ a, x = some a) (hf : ∀ a, ∃ b, f a = some b) : ∃ b, x.bind f = some b := by
  obtain ⟨a, rfl⟩ := hx
  exact hf a

theorem gemEnv_data_path_decodes : DataPathDecodes gemEnv := by
  unfold DataPathDecodes
  decide

set_option maxRecDepth 100000 in
theorem hash_index_form : ∀ c, c < 256 →
    ((c >>> 2) &&& 0x3c) % 4 = 0 ∧ ((c >>> 2) &&& 0x3c) / 4 < 16 := by
  decide

theorem hash_reg_decodes (e : Env) (hdec : DataPathDecodes e) (crc : Nat) :
    sungem_get_reg ((e.MAC_HASH0 + (((crc % 2 ^ 32) >>> 24) >>> 2 &&& 0x3c)) % 2 ^ 32) ≠ none := by
  have hlt : (crc % 2 ^ 32) >>> 24 < 256 := by
    rw [Nat.shiftRight_eq_div_pow]
    have := Nat.mod_lt crc (show 0 < 2 ^ 32 by norm_num)
    omega
  obtain ⟨h1, h2⟩ := hash_index_form _ hlt
  have := hdec.2 _ h2
  have heq : 4 * ((((crc % 2 ^ 32) >>> 24) >>> 2 &&& 0x3c) / 4)
      = (((crc % 2 ^ 32) >>> 24) >>> 2 &&& 0x3c) := by omega
  rw [heq] at this
  exact this

theorem check_rx_mac_total (e : Env) (hdec : DataPathDecodes e) (s : SunGEMState)
    (mac : List Nat) (crc : Nat) : ∃ c, sungem_check_rx_mac e s mac crc = some c := by
  obtain ⟨c1, -, g1⟩ := GET_REG_of_decodes _ (hdec.1 e.MAC_RXCFG (by simp))
  obtain ⟨a0, -, ga0⟩ := GET_REG_of_decodes _ (hdec.1 e.MAC_ADDR0 (by simp))
  obtain ⟨a1, -, ga1⟩ := GET_REG_of_decodes _ (hdec.1 e.MAC_ADDR1 (by simp))
  obtain ⟨a2, -, ga2⟩ := GET_REG_of_decodes _ (hdec.1 e.MAC_ADDR2 (by simp))
  obtain ⟨a3, -, ga3⟩ := GET_REG_of_decodes _ (hdec.1 e.MAC_ADDR3 (by simp))
  obtain ⟨a4, -, ga4⟩ := GET_REG_of_decodes _ (hdec.1 e.MAC_ADDR4 (by simp))
  obtain ⟨a5, -, ga5⟩ := GET_REG_of_decodes _ (hdec.1 e.MAC_ADDR5 (by simp))
  obtain ⟨ch, -, gh⟩ := GET_REG_of_decodes _ (hash_reg_decodes e hdec crc)
  unfold sungem_check_rx_mac
  simp only [g1, ga0, ga1, ga2, ga3, ga4, ga5, gh, Option.bind_eq_bind, Option.some_bind,
    Option.pure_def]
  repeat' (first | exact ⟨_, rfl⟩ | apply ite_total)

theorem receive_total (e : Env) (hdec : DataPathDecodes e) (s : SunGEMState) (buf : List Nat) :
    ∃ r, sungem_receive e s buf = some r := by
  obtain ⟨c1, -, g1⟩ := GET_REG_of_decodes _ (hdec.1 e.MAC_RXCFG (by simp))
  obtain ⟨c2, -, g2⟩ := GET_REG_of_decodes _ (hdec.1 e.MAC_MAXFSZ (by simp))
  obtain ⟨rc, hrc⟩ := check_rx_mac_total e hdec s (rx_pad buf)
    (e.crc32 (not64 0) ((rx_pad buf).take 6) % 2 ^ 32)
  unfold sungem_receive
  simp only [g1, g2, hrc, GET_REG_RXDMA_CFG, GET_REG_RXDMA_KICK, GET_REG_RXDMA_DONE,
    GET_REG_RXDMA_DBHI, GET_REG_RXDMA_DBLOW, SET_REG_RXDMA_DONE, sungem_update_status_eq,
    Option.bind_eq_bind, Option.some_bind, Option.pure_def]
  repeat' (first | exact ⟨_, rfl⟩ | apply ite_total)

theorem send_packet_total (e : Env) (hdec : DataPathDecodes e) (s : SunGEMState)
    (buf : List Nat) : ∃ t, sungem_send_packet e s buf = some t := by
  obtain ⟨c1, -, g1⟩ := GET_REG_of_decodes _ (hdec.1 e.MAC_XIFCFG (by simp))
  obtain ⟨r, hr⟩ := receive_total e hdec s buf
  unfold sungem_send_packet
  simp only [g1, hr, Option.bind_eq_bind, Option.some_bind, Option.pure_def]
  repeat' (first | exact ⟨_, rfl⟩ | apply ite_total)

theorem process_tx_desc_total (e : Env) (hdec : DataPathDecodes e) (s : SunGEMState)
    (cw buffer : Nat) : ∃ t, sungem_process_tx_desc e s cw buffer = some t := by
  unfold sungem_process_tx_desc
  simp only [Option.bind_eq_bind, Option.pure_def]
  apply ite_total
  · exact bind_total (send_packet_total e hdec _ _) (fun _ => ⟨_, rfl⟩)
  · exact ⟨_, rfl⟩

theorem tx_body_total (e : Env) (hdec : DataPathDecodes e) (dbase comp : Nat)
    (s : SunGEMState) : ∃ t, tx_body e dbase comp s = some t := by
  unfold tx_body
  simp only [Option.bind_eq_bind, sungem_update_status_eq, SET_REG_TXDONE, Option.some_bind]
  exact bind_total (process_tx_desc_total e hdec _ _ _) (fun _ => ⟨_, rfl⟩)

theorem and_ring_mask (x mask k : Nat) (h : mask + 1 = 2 ^ k) : x &&& mask = x % 2 ^ k := by
  have : mask = 2 ^ k - 1 := by omega
  rw [this, Nat.and_pow_two_sub_one_eq_mod]

theorem ring_distance (N comp kick : Nat) (hc : comp < N) (hk : kick < N) :
    (comp + (kick + N - comp) % N) % N = kick := by
  by_cases h : comp ≤ kick
  · have h1 : (kick + N - comp) % N = kick - comp := by
      have : kick + N - comp = (kick - comp) + N := by omega
      rw [this, Nat.add_mod_right]
      exact Nat.mod_eq_of_lt (by omega)
    have h2 : comp + (kick - comp) = kick := by omega
    rw [h1, h2, Nat.mod_eq_of_lt hk]
  · have h1 : (kick + N - comp) % N = kick + N - comp := Nat.mod_eq_of_lt (by omega)
    have h2 : comp + (kick + N - comp) = kick + N := by omega
    rw [h1, h2, Nat.add_mod_right, Nat.mod_eq_of_lt hk]

/-- The descriptor loop ends when the ring size is a power of two: `n` is the
number of descriptors between the completion cursor and the kick cursor. -/
theorem tx_loop_total (e : Env) (hdec : DataPathDecodes e) (dbase kick k : Nat)
    (hk : k ≤ 32) :
    ∀ (n comp : Nat) (s : SunGEMState) (fuel : Nat), s.tx_mask + 1 = 2 ^ k → comp < 2 ^ k →
      (comp + n) % 2 ^ k = kick → n ≤ fuel →
      ∃ s', tx_loop e dbase kick fuel comp s = some s' := by
  have hstop : ∀ (comp : Nat) (s : SunGEMState) (fuel : Nat), comp = kick →
      ∃ s', tx_loop e dbase kick fuel comp s = some s' := by
    intro comp s fuel h
    cases fuel with
    | zero => rw [tx_loop_zero, if_neg (by simpa using h)]; exact ⟨_, rfl⟩
    | succ f => rw [tx_loop_succ, if_neg (by simpa using h)]; exact ⟨_, rfl⟩
  intro n
  induction n with
  | zero =>
    intro comp s fuel _ hc hn _
    rw [Nat.add_zero, Nat.mod_eq_of_lt hc] at hn
    exact hstop comp s fuel hn
  | succ n ih =>
    intro comp s fuel hm hc hn hf
    by_cases h : comp = kick
    · exact hstop comp s fuel h
    · obtain ⟨f, rfl⟩ : ∃ f, fuel = f + 1 := ⟨fuel - 1, by omega⟩
      rw [tx_loop_succ, if_pos h]
      obtain ⟨t, ht⟩ := tx_body_total e hdec dbase comp s
      have hpost := tx_body_post e dbase comp s t ht
      have htm : t.tx_mask = s.tx_mask := hpost.1.1
      rw [ht, Option.some_bind]
      have hm' : t.tx_mask + 1 = 2 ^ k := by rw [htm]; exact hm
      apply ih _ t f hm'
      · rw [and_ring_mask _ _ k hm']
        exact Nat.mod_lt _ (Nat.pow_pos (by norm_num))
      · rw [and_ring_mask _ _ k hm', Nat.mod_mod_of_dvd _ (pow_dvd_pow 2 hk), Nat.mod_add_mod,
          ← hn]
        congr 1
        omega
      · omega

/-- With both enable bits set, a ring size that is a power of two and the
data-path registers decoding, `sungem_tx_kick` returns. -/
theorem tx_kick_total (e : Env) (hdec : DataPathDecodes e) (s : SunGEMState) (k : Nat)
    (hk : k ≤ 32) (hm : s.tx_mask + 1 = 2 ^ k) : ∃ s', sungem_tx_kick e s = some s' := by
  obtain ⟨c1, -, g1⟩ := GET_REG_of_decodes _ (hdec.1 e.MAC_TXCFG (by simp))
  unfold sungem_tx_kick
  simp only [GET_REG_TXDMA_CFG, g1, GET_REG_TXDMA_DBHI, GET_REG_TXDMA_DBLOW, GET_REG_TXDONE,
    GET_REG_TXDMA_KICK, Option.bind_eq_bind, Option.some_bind, sungem_update_status_eq,
    Option.pure_def]
  apply ite_total
  · exact ⟨_, rfl⟩
  · have hpos : 0 < 2 ^ k := Nat.pow_pos (by norm_num)
    have hc : loadCell s (3, 0) &&& s.tx_mask < 2 ^ k := by
      rw [and_ring_mask _ _ k hm]; exact Nat.mod_lt _ hpos
    have hkk : loadCell s (2, 0) &&& s.tx_mask < 2 ^ k := by
      rw [and_ring_mask _ _ k hm]; exact Nat.mod_lt _ hpos
    refine bind_total (tx_loop_total e hdec _ _ k hk
      (((loadCell s (2, 0) &&& s.tx_mask) + 2 ^ k - (loadCell s (3, 0) &&& s.tx_mask)) % 2 ^ k)
      _ s _ hm hc (ring_distance _ _ _ hc hkk) ?_) (fun _ => ⟨_, rfl⟩)
    rw [hm]
    exact le_of_lt (Nat.mod_lt _ hpos)

/-- C15: when `sungem_tx_kick` is entered with the TX-DMA enable bit of
`TXDMA_CFG` and the MAC transmit enable bit of `MAC_TXCFG` both set, then in
every state it returns the completion cursor equals the producer cursor
(`TXDMA_TXDONE & tx_mask = TXDMA_KICK & tx_mask`), every bit of
`GREG_STAT_TXALL` is set in `GREG_STAT`, and every bit of `GREG_STAT_TXDONE` is
set in `GREG_STAT` if the two cursors differed on entry, that is, if at least
one descriptor was processed. It does return when the data-path register
addresses decode and the ring size `tx_mask + 1` is a power of two. -/
theorem sungem_tx_kick_catches_up (e : Env) (s : SunGEMState) (txdma_cfg txmac_cfg : Nat)
    (h1 : GET_REG s (TXDMA_CFG + 0x2000) = some txdma_cfg)
    (h2 : GET_REG s e.MAC_TXCFG = some txmac_cfg)
    (hen : txdma_cfg &&& e.TXDMA_CFG_ENABLE ≠ 0 ∧ txmac_cfg &&& e.MAC_TXCFG_ENAB ≠ 0) :
    (∀ s', sungem_tx_kick e s = some s' →
      ∃ done kick stat, GET_REG s' (TXDMA_TXDONE + 0x2000) = some done ∧
        GET_REG s' (TXDMA_KICK + 0x2000) = some kick ∧
        GET_REG s' GREG_STAT = some stat ∧
        done &&& s'.tx_mask = kick &&& s'.tx_mask ∧
        (∀ i, (e.GREG_STAT_TXALL % 2 ^ 32).testBit i = true → stat.testBit i = true) ∧
        (∀ done0 kick0, GET_REG s (TXDMA_TXDONE + 0x2000) = some done0 →
          GET_REG s (TXDMA_KICK + 0x2000) = some kick0 →
          done0 &&& s.tx_mask ≠ kick0 &&& s.tx_mask →
          ∀ i, (e.GREG_STAT_TXDONE % 2 ^ 32).testBit i = true → stat.testBit i = true)) ∧
    (DataPathDecodes e → ∀ k, k ≤ 32 → s.tx_mask + 1 = 2 ^ k →
      ∃ s', sungem_tx_kick e s = some s') := by
  rw [GET_REG_TXDMA_CFG, Option.some.injEq] at h1
  subst h1
  refine ⟨fun s' hs' => ?_, fun hdec k hk hm => tx_kick_total e hdec s k hk hm⟩
  obtain ⟨-, hcur, hall, hdone⟩ := tx_kick_post e s txmac_cfg h2 hen s' hs'
  refine ⟨_, _, _, GET_REG_TXDONE s', GET_REG_TXDMA_KICK s', GET_REG_GREG_STAT s', hcur, hall, ?_⟩
  intro done0 kick0 hd0 hk0 hne
  rw [GET_REG_TXDONE, Option.some.injEq] at hd0
  rw [GET_REG_TXDMA_KICK, Option.some.injEq] at hk0
  subst hd0 hk0
  exact hdone hne

/-- Witness for `sungem_tx_kick_catches_up`: the 32-slot ring with two pending
descriptors; the call returns with both cursors at 2 and the status bits
`GREG_STAT_TXALL` and `GREG_STAT_TXDONE` set. -/
theorem sungem_tx_kick_catches_up_witness :
    (∃ s', sungem_tx_kick gemEnv (txRunState 2) = some s') ∧
    ∀ s', sungem_tx_kick gemEnv (txRunState 2) = some s' →
      ∃ done kick stat, GET_REG s' (TXDMA_TXDONE + 0x2000) = some done ∧
        GET_REG s' (TXDMA_KICK + 0x2000) = some kick ∧
        GET_REG s' GREG_STAT = some stat ∧
        done &&& s'.tx_mask = kick &&& s'.tx_mask ∧
        (∀ i, (gemEnv.GREG_STAT_TXALL % 2 ^ 32).testBit i = true → stat.testBit i = true) ∧
        (∀ i, (gemEnv.GREG_STAT_TXDONE % 2 ^ 32).testBit i = true → stat.testBit i = true) :=
  ⟨(sungem_tx_kick_catches_up gemEnv (txRunState 2) 1 1 (by decide) (by decide)
      (by decide)).2 gemEnv_data_path_decodes 5 (by decide) (by decide),
   fun s' hs' =>
    match (sungem_tx_kick_catches_up gemEnv (txRunState 2) 1 1 (by decide) (by decide)
      (by decide)).1 s' hs' with
    | ⟨done, kick, stat, a, b, c, d, f, g⟩ =>
      ⟨done, kick, stat, a, b, c, d, f, g 0 2 (by decide) (by decide) (by decide)⟩⟩

theorem bufStore_nil (d : Nat → Nat) (off : Nat) : bufStore d off [] = d := by
  funext i
  simp [bufStore]

theorem bufStore_append (d : Nat → Nat) (P Q : List Nat) :
    bufStore (bufStore d 0 P) P.length Q = bufStore d 0 (P ++ Q) := by
  funext i
  simp only [bufStore, List.length_append, Nat.zero_le, true_and, Nat.zero_add, Nat.sub_zero]
  by_cases h1 : i < P.length
  · rw [if_neg (by omega), if_pos h1, if_pos (by omega), List.getD_append _ _ _ _ h1]
  · by_cases h2 : i < P.length + Q.length
    · rw [if_pos ⟨by omega, h2⟩, if_pos h2, List.getD_append_right _ _ _ _ (by omega)]
    · rw [if_neg (by omega), if_neg h1, if_neg h2]

theorem bufSlice_length (d : Nat → Nat) (a n : Nat) : (bufSlice d a n).length = n := by
  simp [bufSlice]

theorem bufSlice_bufStore (d : Nat → Nat) (P : List Nat) :
    bufSlice (bufStore d 0 P) 0 P.length = P := by
  apply List.ext_getElem
  · simp [bufSlice]
  · intro i h1 h2
    simp only [bufSlice, List.getElem_map, List.getElem_range, bufStore, Nat.zero_add,
      Nat.zero_le, true_and, Nat.sub_zero]
    rw [if_pos h2, List.getD_eq_getElem _ _ h2]

theorem pci_dma_read_congr (s t : SunGEMState) (h : t.mem = s.mem) (a n : Nat) :
    pci_dma_read t a n = pci_dma_read s a n := by
  unfold pci_dma_read
  rw [h]

theorem pci_dma_read_length (s : SunGEMState) (a n : Nat) :
    (pci_dma_read s a n).length = n := by
  simp [pci_dma_read]

theorem tx_run_payload_length (e : Env) (s : SunGEMState) (m : Nat) :
    (tx_run_payload e s m).length = tx_run_size e s m := by
  induction m with
  | zero => rfl
  | succ j ih => rw [tx_run_payload, tx_run_size, List.length_append, ih, pci_dma_read_length]

theorem tx_run_size_mono (e : Env) (s : SunGEMState) (j m : Nat) (h : j ≤ m) :
    tx_run_size e s j ≤ tx_run_size e s m := by
  induction m with
  | zero =>
    have : j = 0 := by omega
    rw [this]
  | succ n ih =>
    by_cases hj : j = n + 1
    · rw [hj]
    · have := ih (by omega)
      rw [tx_run_size]
      omega

theorem TxFrame.tx_refl (s : SunGEMState) : TxFrame s s :=
  ⟨rfl, rfl, rfl, rfl, rfl, rfl, rfl, fun _ _ _ => rfl⟩

theorem TxFrame.tx_trans {s t u : SunGEMState} (h1 : TxFrame s t) (h2 : TxFrame t u) :
    TxFrame s u := by
  obtain ⟨a1, a2, a3, a4, a5, a6, a7, a8⟩ := h1
  obtain ⟨b1, b2, b3, b4, b5, b6, b7, b8⟩ := h2
  exact ⟨b1.trans a1, b2.trans a2, b3.trans a3, b4.trans a4, b5.trans a5, b6.trans a6,
    b7.trans a7, fun b i h => (b8 b i h).trans (a8 b i h)⟩

theorem do_tx_csum_data_congr (e : Env) (a b : SunGEMState) (h1 : a.tx_data = b.tx_data)
    (h2 : a.tx_size = b.tx_size) (h3 : a.tx_first_ctl = b.tx_first_ctl) :
    (sungem_do_tx_csum e a).tx_data = (sungem_do_tx_csum e b).tx_data := by
  unfold sungem_do_tx_csum
  dsimp only
  rw [h2, h3]
  split
  · exact h1
  · simp only [h1]

theorem do_tx_csum_only (e : Env) (s : SunGEMState) :
    OnlyTxData s (sungem_do_tx_csum e s) := by
  unfold sungem_do_tx_csum OnlyTxData
  dsimp only
  split <;> rfl

theorem tx_desc_len_of_fits (e : Env) (s : SunGEMState) (cw : Nat)
    (h : s.tx_size + (cw &&& e.TXDCTRL_BUFSZ) % 2 ^ 32 ≤ MAX_PACKET_SIZE) :
    tx_desc_len e s cw = (cw &&& e.TXDCTRL_BUFSZ) % 2 ^ 32 := by
  unfold tx_desc_len
  dsimp only
  unfold MAX_PACKET_SIZE at h ⊢
  rw [if_neg]
  rw [Nat.mod_eq_of_lt (by omega)]
  omega

/-- A descriptor without the end-of-frame flag only extends the accumulator. -/
theorem process_tx_desc_acc (e : Env) (s : SunGEMState) (cw buffer : Nat)
    (heof : cw &&& e.TXDCTRL_EOF = 0) :
    sungem_process_tx_desc e s cw buffer = some
      { tx_desc_sof e s cw with
        tx_data := bufStore (tx_desc_sof e s cw).tx_data (tx_desc_sof e s cw).tx_size
          (pci_dma_read (tx_desc_sof e s cw) buffer (tx_desc_len e (tx_desc_sof e s cw) cw))
        tx_size := ((tx_desc_sof e s cw).tx_size + tx_desc_len e (tx_desc_sof e s cw) cw)
          % 2 ^ 32 } := by
  unfold sungem_process_tx_desc
  dsimp only
  rw [if_neg (by simpa using heof)]
  rfl

/-- A descriptor with the end-of-frame flag extends the accumulator, runs the
checksum step when enabled, passes the accumulator to `sungem_send_packet` and
then empties it. -/
theorem process_tx_desc_eof (e : Env) (s : SunGEMState) (cw buffer : Nat)
    (heof : cw &&& e.TXDCTRL_EOF ≠ 0) (w v : SunGEMState)
    (hw : w = { tx_desc_sof e s cw with
        tx_data := bufStore (tx_desc_sof e s cw).tx_data (tx_desc_sof e s cw).tx_size
          (pci_dma_read (tx_desc_sof e s cw) buffer (tx_desc_len e (tx_desc_sof e s cw) cw))
        tx_size := ((tx_desc_sof e s cw).tx_size + tx_desc_len e (tx_desc_sof e s cw) cw)
          % 2 ^ 32 })
    (hv : v = if w.tx_first_ctl &&& e.TXDCTRL_CENAB ≠ 0 then sungem_do_tx_csum e w else w) :
    sungem_process_tx_desc e s cw buffer =
      (sungem_send_packet e v (bufSlice v.tx_data 0 v.tx_size)).bind
        (fun p => some { p with tx_size := 0, tx_first_ctl := 0 }) := by
  subst hv hw
  unfold sungem_process_tx_desc
  dsimp only
  rw [if_pos heof]
  rfl

theorem tx_body_eq (e : Env) (dbase comp : Nat) (s : SunGEMState) :
    tx_body e dbase comp s =
      (sungem_process_tx_desc e s
        (le64_to_cpu (descFields
          (pci_dma_read s ((dbase + comp * sizeof_desc) % 2 ^ 64) sizeof_desc)).1)
        (le64_to_cpu (descFields
          (pci_dma_read s ((dbase + comp * sizeof_desc) % 2 ^ 64) sizeof_desc)).2)).bind
        (fun u => some (storeCell (pci_set_irq
          (storeCell u (0, 3) (loadCell u (0, 3) |||
            (if (le64_to_cpu (descFields
                (pci_dma_read s ((dbase + comp * sizeof_desc) % 2 ^ 64) sizeof_desc)).1)
                &&& e.TXDCTRL_INTME ≠ 0
              then e.GREG_STAT_TXDONE % 2 ^ 32 ||| e.GREG_STAT_TXINTME % 2 ^ 32
              else e.GREG_STAT_TXDONE % 2 ^ 32) % 2 ^ 32))
          (irq_level e (storeCell u (0, 3) (loadCell u (0, 3) |||
            (if (le64_to_cpu (descFields
                (pci_dma_read s ((dbase + comp * sizeof_desc) % 2 ^ 64) sizeof_desc)).1)
                &&& e.TXDCTRL_INTME ≠ 0
              then e.GREG_STAT_TXDONE % 2 ^ 32 ||| e.GREG_STAT_TXINTME % 2 ^ 32
              else e.GREG_STAT_TXDONE % 2 ^ 32) % 2 ^ 32))))
          (3, 0) ((comp + 1) % 2 ^ 32 &&& u.tx_mask))) := by
  unfold tx_body
  simp only [Option.bind_eq_bind, sungem_update_status_eq, SET_REG_TXDONE, Option.some_bind,
    if_true, pci_set_irq_tx_mask, storeCell_tx_mask]

theorem TxFrame.advance (t : SunGEMState) (v w : Nat) (b : Bool) :
    TxFrame t (storeCell (pci_set_irq (storeCell t (0, 3) v) b) (3, 0) w) := by
  refine ⟨rfl, rfl, rfl, rfl, rfl, rfl, rfl, ?_⟩
  intro x i h
  rw [storeCell_regs_ne _ _ _ _ _ (fun hc => h (by rw [hc]; simp))]
  show (storeCell t (0, 3) v).regs x i = _
  rw [storeCell_regs_ne _ _ _ _ _ (fun hc => h (by rw [hc]; simp))]

theorem TxFrame.status (t : SunGEMState) (v : Nat) (b : Bool) :
    TxFrame t (pci_set_irq (storeCell t (0, 3) v) b) := by
  refine ⟨rfl, rfl, rfl, rfl, rfl, rfl, rfl, ?_⟩
  intro x i h
  show (storeCell t (0, 3) v).regs x i = _
  rw [storeCell_regs_ne _ _ _ _ _ (fun hc => h (by rw [hc]; simp))]

theorem tx_desc_sof_frame (e : Env) (s : SunGEMState) (cw : Nat) :
    TxFrame s (tx_desc_sof e s cw) ∧ (tx_desc_sof e s cw).tx_data = s.tx_data := by
  unfold tx_desc_sof
  split
  · exact ⟨⟨rfl, rfl, rfl, rfl, rfl, rfl, rfl, fun _ _ _ => rfl⟩, rfl⟩
  · exact ⟨TxFrame.tx_refl s, rfl⟩

theorem tx_desc_sof_of_clear (e : Env) (s : SunGEMState) (cw : Nat)
    (h : cw &&& e.TXDCTRL_SOF = 0) : tx_desc_sof e s cw = s := by
  unfold tx_desc_sof
  rw [if_neg (by simpa using h)]

theorem do_tx_csum_frame (e : Env) (s : SunGEMState) :
    TxFrame s (sungem_do_tx_csum e s) ∧ (sungem_do_tx_csum e s).tx_size = s.tx_size ∧
      (sungem_do_tx_csum e s).tx_first_ctl = s.tx_first_ctl := by
  unfold sungem_do_tx_csum
  dsimp only
  split
  · exact ⟨TxFrame.tx_refl s, rfl, rfl⟩
  · exact ⟨⟨rfl, rfl, rfl, rfl, rfl, rfl, rfl, fun _ _ _ => rfl⟩, rfl, rfl⟩

/-- The accumulation step of `sungem_process_tx_desc` on the `j`-th descriptor
of a run, from a device that holds the payload of the first `j`. -/
theorem tx_acc_step (e : Env) (s t w : SunGEMState) (j : Nat)
    (hf : TxFrame s t)
    (hd : t.tx_data = bufStore s.tx_data 0 (tx_run_payload e s j))
    (hsz : (tx_desc_sof e t (tx_desc_ctl s (tx_slot s j))).tx_size = tx_run_size e s j)
    (hctl : (tx_desc_sof e t (tx_desc_ctl s (tx_slot s j))).tx_first_ctl
      = tx_desc_ctl s (tx_slot s 0))
    (hlen : tx_run_size e s (j + 1) ≤ MAX_PACKET_SIZE)
    (hw : w = { tx_desc_sof e t (tx_desc_ctl s (tx_slot s j)) with
        tx_data := bufStore (tx_desc_sof e t (tx_desc_ctl s (tx_slot s j))).tx_data
          (tx_desc_sof e t (tx_desc_ctl s (tx_slot s j))).tx_size
          (pci_dma_read (tx_desc_sof e t (tx_desc_ctl s (tx_slot s j)))
            (tx_desc_buffer s (tx_slot s j))
            (tx_desc_len e (tx_desc_sof e t (tx_desc_ctl s (tx_slot s j)))
              (tx_desc_ctl s (tx_slot s j))))
        tx_size := ((tx_desc_sof e t (tx_desc_ctl s (tx_slot s j))).tx_size +
          tx_desc_len e (tx_desc_sof e t (tx_desc_ctl s (tx_slot s j)))
            (tx_desc_ctl s (tx_slot s j))) % 2 ^ 32 }) :
    TxFrame s w ∧ w.tx_data = bufStore s.tx_data 0 (tx_run_payload e s (j + 1)) ∧
      w.tx_size = tx_run_size e s (j + 1) ∧ w.tx_first_ctl = tx_desc_ctl s (tx_slot s 0) := by
  obtain ⟨hu, hud⟩ := tx_desc_sof_frame e t (tx_desc_ctl s (tx_slot s j))
  generalize tx_desc_sof e t (tx_desc_ctl s (tx_slot s j)) = u at hu hud hsz hctl hw
  have hlen' : u.tx_size + (tx_desc_ctl s (tx_slot s j) &&& e.TXDCTRL_BUFSZ) % 2 ^ 32
      ≤ MAX_PACKET_SIZE := by
    rw [hsz]
    rw [tx_run_size] at hlen
    exact hlen
  have hl := tx_desc_len_of_fits e u _ hlen'
  rw [hl] at hw
  have hsu : TxFrame s u := hf.tx_trans hu
  subst hw
  refine ⟨?_, ?_, ?_, hctl⟩
  · exact ⟨hsu.1, hsu.2.1, hsu.2.2.1, hsu.2.2.2.1, hsu.2.2.2.2.1, hsu.2.2.2.2.2.1,
      hsu.2.2.2.2.2.2.1, hsu.2.2.2.2.2.2.2⟩
  · show bufStore u.tx_data u.tx_size _ = _
    rw [hud, hd, hsz, ← tx_run_payload_length, pci_dma_read_congr s u hsu.1, bufStore_append]
    rfl
  · show (u.tx_size + _) % 2 ^ 32 = _
    unfold MAX_PACKET_SIZE at hlen'
    rw [Nat.mod_eq_of_lt (by omega), hsz]
    rfl

theorem tx_loop_stop (e : Env) (dbase kick fuel : Nat) (s : SunGEMState) :
    tx_loop e dbase kick fuel kick s = some s := by
  cases fuel with
  | zero => rw [tx_loop_zero, if_neg (by simp)]
  | succ f => rw [tx_loop_succ, if_neg (by simp)]

theorem tx_slot_succ (s : SunGEMState) (k : Nat) (hk : k ≤ 32) (hm : s.tx_mask + 1 = 2 ^ k)
    (j : Nat) : (tx_slot s j + 1) % 2 ^ 32 &&& s.tx_mask = tx_slot s (j + 1) := by
  unfold tx_slot
  rw [and_ring_mask _ _ k hm, and_ring_mask _ _ k hm, and_ring_mask _ _ k hm,
    and_ring_mask _ _ k hm, Nat.mod_mod_of_dvd _ (pow_dvd_pow 2 hk), Nat.mod_add_mod,
    Nat.add_assoc]

theorem tx_slot_lt (s : SunGEMState) (k : Nat) (hk : k ≤ 32) (hm : s.tx_mask + 1 = 2 ^ k)
    (j : Nat) : tx_slot s j < 2 ^ 32 := by
  unfold tx_slot
  rw [and_ring_mask _ _ k hm]
  exact lt_of_lt_of_le (Nat.mod_lt _ (Nat.pow_pos (by norm_num)))
    (Nat.pow_le_pow_right (by norm_num) hk)

theorem tx_run_staged_fields (e : Env) (s : SunGEMState) (m : Nat) :
    (tx_run_staged e s m).tx_data = bufStore s.tx_data 0 (tx_run_payload e s m) ∧
    (tx_run_staged e s m).tx_size = tx_run_size e s m ∧
    (tx_run_staged e s m).tx_first_ctl = tx_desc_ctl s (tx_slot s 0) :=
  ⟨rfl, tx_run_payload_length e s m, rfl⟩

theorem tx_run_frame_of_staged (e : Env) (s w v : SunGEMState) (m : Nat)
    (hwd : w.tx_data = bufStore s.tx_data 0 (tx_run_payload e s m))
    (hwsz : w.tx_size = tx_run_size e s m)
    (hwctl : w.tx_first_ctl = tx_desc_ctl s (tx_slot s 0))
    (hv : v = if w.tx_first_ctl &&& e.TXDCTRL_CENAB ≠ 0 then sungem_do_tx_csum e w else w) :
    bufSlice v.tx_data 0 v.tx_size = tx_run_frame e s m := by
  obtain ⟨g1, g2, g3⟩ := tx_run_staged_fields e s m
  unfold tx_run_frame
  generalize tx_run_staged e s m = u at g1 g2 g3
  rw [g3, g2]
  by_cases hc : w.tx_first_ctl &&& e.TXDCTRL_CENAB ≠ 0
  · rw [if_pos hc] at hv
    rw [hwctl] at hc
    rw [if_pos hc, hv, (do_tx_csum_frame e w).2.1, hwsz,
      do_tx_csum_data_congr e w u (hwd.trans g1.symm) (hwsz.trans g2.symm) (hwctl.trans g3.symm)]
  · rw [if_neg hc] at hv
    rw [hwctl] at hc
    rw [if_neg hc, hv, hwsz, hwd, g1]

theorem tx_body_after (e : Env) (dbase comp : Nat) (s : SunGEMState) :
    tx_body e dbase comp s =
      (sungem_process_tx_desc e s
        (le64_to_cpu (descFields
          (pci_dma_read s ((dbase + comp * sizeof_desc) % 2 ^ 64) sizeof_desc)).1)
        (le64_to_cpu (descFields
          (pci_dma_read s ((dbase + comp * sizeof_desc) % 2 ^ 64) sizeof_desc)).2)).bind
        (fun u => some (tx_after e (le64_to_cpu (descFields
          (pci_dma_read s ((dbase + comp * sizeof_desc) % 2 ^ 64) sizeof_desc)).1) comp u)) := by
  rw [tx_body_eq]
  rfl

theorem tx_after_fields (e : Env) (cw comp : Nat) (u : SunGEMState) :
    TxFrame u (tx_after e cw comp u) ∧ (tx_after e cw comp u).tx_data = u.tx_data ∧
      (tx_after e cw comp u).tx_size = u.tx_size ∧
      (tx_after e cw comp u).tx_first_ctl = u.tx_first_ctl ∧
      loadCell (tx_after e cw comp u) (3, 0) = ((comp + 1) % 2 ^ 32 &&& u.tx_mask) % 2 ^ 32 :=
  ⟨TxFrame.advance _ _ _ _, rfl, rfl, rfl, loadCell_storeCell_same _ _ _⟩

theorem tx_clear_frame (p : SunGEMState) :
    TxFrame p { p with tx_size := 0, tx_first_ctl := 0 } :=
  ⟨rfl, rfl, rfl, rfl, rfl, rfl, rfl, fun _ _ _ => rfl⟩

/-- The descriptor loop over a run whose last descriptor, and only that one,
has the end-of-frame flag: started at the `j`-th descriptor with the payload of
the first `j` in the accumulator, it returns after one call of
`sungem_send_packet`, on the frame of the run. -/
theorem tx_loop_run (e : Env) (hdec : DataPathDecodes e) (s : SunGEMState) (k : Nat)
    (hk : k ≤ 32) (hm : s.tx_mask + 1 = 2 ^ k) (m kick : Nat)
    (hkick : kick = tx_slot s (m + 1))
    (hne : ∀ j, j ≤ m → tx_slot s j ≠ kick)
    (hsof_mid : ∀ j, 1 ≤ j → j ≤ m → tx_desc_ctl s (tx_slot s j) &&& e.TXDCTRL_SOF = 0)
    (heof_mid : ∀ j, j < m → tx_desc_ctl s (tx_slot s j) &&& e.TXDCTRL_EOF = 0)
    (heof : tx_desc_ctl s (tx_slot s m) &&& e.TXDCTRL_EOF ≠ 0)
    (hlen : tx_run_size e s (m + 1) ≤ MAX_PACKET_SIZE) :
    ∀ (r j : Nat) (t : SunGEMState) (fuel : Nat), j + r = m → r + 1 ≤ fuel → TxFrame s t →
      t.tx_data = bufStore s.tx_data 0 (tx_run_payload e s j) →
      (tx_desc_sof e t (tx_desc_ctl s (tx_slot s j))).tx_size = tx_run_size e s j →
      (tx_desc_sof e t (tx_desc_ctl s (tx_slot s j))).tx_first_ctl
        = tx_desc_ctl s (tx_slot s 0) →
      ∃ s_pre s_post s', tx_loop e (tx_dbase s) kick fuel (tx_slot s j) t = some s' ∧
        sungem_send_packet e s_pre (tx_run_frame e s (m + 1)) = some s_post ∧
        TxFrame s s_pre ∧ s_pre.tx_size = tx_run_size e s (m + 1) ∧
        s_pre.tx_first_ctl = tx_desc_ctl s (tx_slot s 0) ∧
        bufSlice s_pre.tx_data 0 s_pre.tx_size = tx_run_frame e s (m + 1) ∧
        TxFrame s_post s' ∧ s'.tx_size = 0 ∧ s'.tx_first_ctl = 0 ∧
        loadCell s' (3, 0) = kick := by
  intro r
  induction r with
  | zero =>
    intro j t fuel hj hfuel hf hd hsz hctl
    have hjm : j = m := by omega
    subst hjm
    obtain ⟨f, rfl⟩ : ∃ f, fuel = f + 1 := ⟨fuel - 1, by omega⟩
    have hcw : le64_to_cpu (descFields (pci_dma_read t
        ((tx_dbase s + tx_slot s j * sizeof_desc) % 2 ^ 64) sizeof_desc)).1
        = tx_desc_ctl s (tx_slot s j) := by
      rw [pci_dma_read_congr s t hf.1]; rfl
    have hbf : le64_to_cpu (descFields (pci_dma_read t
        ((tx_dbase s + tx_slot s j * sizeof_desc) % 2 ^ 64) sizeof_desc)).2
        = tx_desc_buffer s (tx_slot s j) := by
      rw [pci_dma_read_congr s t hf.1]; rfl
    obtain ⟨w, hw⟩ : ∃ w : SunGEMState, w =
        { tx_desc_sof e t (tx_desc_ctl s (tx_slot s j)) with
        tx_data := bufStore (tx_desc_sof e t (tx_desc_ctl s (tx_slot s j))).tx_data
          (tx_desc_sof e t (tx_desc_ctl s (tx_slot s j))).tx_size
          (pci_dma_read (tx_desc_sof e t (tx_desc_ctl s (tx_slot s j)))
            (tx_desc_buffer s (tx_slot s j))
            (tx_desc_len e (tx_desc_sof e t (tx_desc_ctl s (tx_slot s j)))
              (tx_desc_ctl s (tx_slot s j))))
        tx_size := ((tx_desc_sof e t (tx_desc_ctl s (tx_slot s j))).tx_size +
          tx_desc_len e (tx_desc_sof e t (tx_desc_ctl s (tx_slot s j)))
            (tx_desc_ctl s (tx_slot s j))) % 2 ^ 32 } := ⟨_, rfl⟩
    obtain ⟨v, hv⟩ : ∃ v : SunGEMState, v =
        if w.tx_first_ctl &&& e.TXDCTRL_CENAB ≠ 0 then sungem_do_tx_csum e w else w := ⟨_, rfl⟩
    obtain ⟨hsw, hwd, hwsz, hwctl⟩ := tx_acc_step e s t w j hf hd hsz hctl hlen hw
    have hwv : TxFrame w v ∧ v.tx_size = w.tx_size ∧ v.tx_first_ctl = w.tx_first_ctl := by
      rw [hv]
      split
      · exact do_tx_csum_frame e w
      · exact ⟨TxFrame.tx_refl w, rfl, rfl⟩
    have hframe : bufSlice v.tx_data 0 v.tx_size = tx_run_frame e s (j + 1) :=
      tx_run_frame_of_staged e s w v (j + 1) hwd hwsz hwctl hv
    obtain ⟨p, hp⟩ := send_packet_total e hdec v (bufSlice v.tx_data 0 v.tx_size)
    have hpm : p.tx_mask = s.tx_mask := by
      rw [(send_packet_kick_frame e v _ p hp).1, hwv.1.2.2.1, hsw.2.2.1]
    obtain ⟨q, hq⟩ : ∃ q : SunGEMState, q = { p with tx_size := 0, tx_first_ctl := 0 } :=
      ⟨_, rfl⟩
    have hqm : q.tx_mask = s.tx_mask := by rw [hq]; exact hpm
    obtain ⟨a1, -, a3, a4, a5⟩ := tx_after_fields e (tx_desc_ctl s (tx_slot s j)) (tx_slot s j) q
    have hnext : (tx_slot s j + 1) % 2 ^ 32 &&& q.tx_mask = kick := by
      rw [hqm, tx_slot_succ s k hk hm, ← hkick]
    refine ⟨v, p, tx_after e (tx_desc_ctl s (tx_slot s j)) (tx_slot s j) q, ?_, ?_,
      hsw.tx_trans hwv.1, hwv.2.1.trans hwsz, hwv.2.2.trans hwctl, hframe, ?_, ?_, ?_, ?_⟩
    · rw [tx_loop_succ, if_pos (hne j (Nat.le_refl j)), tx_body_after, hcw, hbf,
        process_tx_desc_eof e t _ _ heof w v hw hv, hp, Option.some_bind, ← hq,
        Option.some_bind, Option.some_bind, a1.2.2.1, hnext, tx_loop_stop]
    · rw [← hframe]; exact hp
    · have hpq : TxFrame p q := by rw [hq]; exact tx_clear_frame p
      exact hpq.tx_trans a1
    · rw [a3, hq]
    · rw [a4, hq]
    · rw [a5, hnext, hkick]
      exact Nat.mod_eq_of_lt (tx_slot_lt s k hk hm _)
  | succ r ih =>
    intro j t fuel hj hfuel hf hd hsz hctl
    obtain ⟨f, rfl⟩ : ∃ f, fuel = f + 1 := ⟨fuel - 1, by omega⟩
    have hcw : le64_to_cpu (descFields (pci_dma_read t
        ((tx_dbase s + tx_slot s j * sizeof_desc) % 2 ^ 64) sizeof_desc)).1
        = tx_desc_ctl s (tx_slot s j) := by
      rw [pci_dma_read_congr s t hf.1]; rfl
    have hbf : le64_to_cpu (descFields (pci_dma_read t
        ((tx_dbase s + tx_slot s j * sizeof_desc) % 2 ^ 64) sizeof_desc)).2
        = tx_desc_buffer s (tx_slot s j) := by
      rw [pci_dma_read_congr s t hf.1]; rfl
    obtain ⟨w, hw⟩ : ∃ w : SunGEMState, w =
        { tx_desc_sof e t (tx_desc_ctl s (tx_slot s j)) with
        tx_data := bufStore (tx_desc_sof e t (tx_desc_ctl s (tx_slot s j))).tx_data
          (tx_desc_sof e t (tx_desc_ctl s (tx_slot s j))).tx_size
          (pci_dma_read (tx_desc_sof e t (tx_desc_ctl s (tx_slot s j)))
            (tx_desc_buffer s (tx_slot s j))
            (tx_desc_len e (tx_desc_sof e t (tx_desc_ctl s (tx_slot s j)))
              (tx_desc_ctl s (tx_slot s j))))
        tx_size := ((tx_desc_sof e t (tx_desc_ctl s (tx_slot s j))).tx_size +
          tx_desc_len e (tx_desc_sof e t (tx_desc_ctl s (tx_slot s j)))
            (tx_desc_ctl s (tx_slot s j))) % 2 ^ 32 } := ⟨_, rfl⟩
    have hlen' : tx_run_size e s (j + 1) ≤ MAX_PACKET_SIZE :=
      le_trans (tx_run_size_mono e s _ _ (by omega)) hlen
    obtain ⟨hsw, hwd, hwsz, hwctl⟩ := tx_acc_step e s t w j hf hd hsz hctl hlen' hw
    have hclear := hsof_mid (j + 1) (by omega) (by omega)
    obtain ⟨a1, a2, a3, a4, -⟩ := tx_after_fields e (tx_desc_ctl s (tx_slot s j)) (tx_slot s j) w
    rw [tx_loop_succ, if_pos (hne j (by omega)), tx_body_after, hcw, hbf,
      process_tx_desc_acc e t _ _ (heof_mid j (by omega)), ← hw, Option.some_bind,
      Option.some_bind, a1.2.2.1, hsw.2.2.1, tx_slot_succ s k hk hm]
    apply ih (j + 1) _ f (by omega) (by omega)
    · exact hsw.tx_trans a1
    · rw [a2]; exact hwd
    · rw [tx_desc_sof_of_clear e _ _ hclear, a3]; exact hwsz
    · rw [tx_desc_sof_of_clear e _ _ hclear, a4]; exact hwctl

theorem bufSlice_bufStore_drop (d : Nat → Nat) (P : List Nat) (S : Nat) (h : S ≤ P.length) :
    bufSlice (bufStore d 0 P) S (P.length - S) = P.drop S := by
  apply List.ext_getElem
  · simp [bufSlice]
  · intro i h1 h2
    rw [List.length_drop] at h2
    simp only [bufSlice, List.getElem_map, List.getElem_range, bufStore, Nat.zero_add,
      Nat.zero_le, true_and, Nat.sub_zero, List.getElem_drop]
    rw [if_pos (by omega), List.getD_eq_getElem _ _ (by omega)]

/-- Inside its guard, `sungem_do_tx_csum` stores the checksum of the bytes from
`start` to the end of the accumulator at `off`. -/
theorem do_tx_csum_in_range (e : Env) (s : SunGEMState)
    (hn : s.tx_size ≤ MAX_PACKET_SIZE) (hS : tx_csum_start e s.tx_first_ctl + 2 ≤ s.tx_size)
    (hO : tx_csum_off e s.tx_first_ctl + 2 ≤ s.tx_size) :
    (sungem_do_tx_csum e s).tx_data = stw_be_p s.tx_data (tx_csum_off e s.tx_first_ctl)
      (e.net_raw_checksum (bufSlice s.tx_data (tx_csum_start e s.tx_first_ctl)
        (s.tx_size - tx_csum_start e s.tx_first_ctl)) % 2 ^ 32) := by
  unfold tx_csum_start at hS ⊢
  unfold tx_csum_off at hO ⊢
  unfold MAX_PACKET_SIZE at hn
  have hw : (s.tx_size + 2 ^ 32 - 2) % 2 ^ 32 = s.tx_size - 2 := by omega
  have hl : (s.tx_size + 2 ^ 32 - ((s.tx_first_ctl &&& e.TXDCTRL_CSTART) >>> 15) % 2 ^ 16)
      % 2 ^ 32 = s.tx_size - ((s.tx_first_ctl &&& e.TXDCTRL_CSTART) >>> 15) % 2 ^ 16 := by
    omega
  have hi : int_len (s.tx_size - ((s.tx_first_ctl &&& e.TXDCTRL_CSTART) >>> 15) % 2 ^ 16)
      = s.tx_size - ((s.tx_first_ctl &&& e.TXDCTRL_CSTART) >>> 15) % 2 ^ 16 := by
    unfold int_len
    rw [Nat.mod_eq_of_lt (by omega), if_pos (by omega)]
  unfold sungem_do_tx_csum
  dsimp only
  rw [hw, hl, hi, if_neg (by omega)]

/-- Outside its guard, for an accumulator of at least two bytes,
`sungem_do_tx_csum` changes nothing. -/
theorem do_tx_csum_out_of_range (e : Env) (s : SunGEMState)
    (hn : s.tx_size ≤ MAX_PACKET_SIZE) (h2 : 2 ≤ s.tx_size)
    (h : s.tx_size < tx_csum_start e s.tx_first_ctl + 2 ∨
      s.tx_size < tx_csum_off e s.tx_first_ctl + 2) :
    sungem_do_tx_csum e s = s := by
  unfold tx_csum_start tx_csum_off at h
  unfold MAX_PACKET_SIZE at hn
  have hw : (s.tx_size + 2 ^ 32 - 2) % 2 ^ 32 = s.tx_size - 2 := by omega
  unfold sungem_do_tx_csum
  dsimp only
  rw [hw, if_pos (by omega)]

theorem bufSlice_stw_be_p (d : Nat → Nat) (P : List Nat) (off c : Nat)
    (h : off + 2 ≤ P.length) :
    bufSlice (stw_be_p (bufStore d 0 P) off (c % 2 ^ 32)) 0 P.length = csumInserted c off P := by
  have h1 : c % 2 ^ 32 % 2 ^ 16 = c % 2 ^ 16 := Nat.mod_mod_of_dvd _ (by norm_num)
  have h2 : c % 2 ^ 32 % 256 = c % 256 := Nat.mod_mod_of_dvd _ (by norm_num)
  have h3 : (c % 2 ^ 16) >>> 8 = c % 2 ^ 16 / 256 := by
    rw [Nat.shiftRight_eq_div_pow]
  apply List.ext_getElem
  · simp [bufSlice, csumInserted]
  · intro i hi1 hi2
    simp only [csumInserted, List.length_set] at hi2
    simp only [bufSlice, List.getElem_map, List.getElem_range, Nat.zero_add, stw_be_p,
      csumInserted, h1, h2, h3, List.getElem_set]
    by_cases ha : i = off
    · subst ha
      rw [if_pos rfl, if_neg (by omega), if_pos rfl]
    · by_cases hb : i = off + 1
      · subst hb
        rw [if_neg ha, if_pos rfl, if_pos rfl]
      · rw [if_neg ha, if_neg hb, if_neg (fun h => hb h.symm), if_neg (fun h => ha h.symm)]
        simp only [bufStore, Nat.zero_le, true_and, Nat.zero_add, Nat.sub_zero]
        rw [if_pos hi2, List.getD_eq_getElem _ _ hi2]

/-- The frame of a run of `m` descriptors: its length, and its bytes in terms
of the payload. -/
theorem tx_run_frame_bytes (e : Env) (s : SunGEMState) (m : Nat) :
    (tx_run_frame e s m).length = tx_run_size e s m ∧
    (tx_desc_ctl s (tx_slot s 0) &&& e.TXDCTRL_CENAB = 0 →
      tx_run_frame e s m = tx_run_payload e s m) ∧
    (tx_desc_ctl s (tx_slot s 0) &&& e.TXDCTRL_CENAB ≠ 0 →
      tx_run_size e s m ≤ MAX_PACKET_SIZE →
      tx_csum_start e (tx_desc_ctl s (tx_slot s 0)) + 2 ≤ tx_run_size e s m →
      tx_csum_off e (tx_desc_ctl s (tx_slot s 0)) + 2 ≤ tx_run_size e s m →
      tx_run_frame e s m = csumInserted
        (e.net_raw_checksum
          ((tx_run_payload e s m).drop (tx_csum_start e (tx_desc_ctl s (tx_slot s 0)))))
        (tx_csum_off e (tx_desc_ctl s (tx_slot s 0))) (tx_run_payload e s m)) ∧
    (tx_desc_ctl s (tx_slot s 0) &&& e.TXDCTRL_CENAB ≠ 0 →
      tx_run_size e s m ≤ MAX_PACKET_SIZE → 2 ≤ tx_run_size e s m →
      tx_run_size e s m < tx_csum_start e (tx_desc_ctl s (tx_slot s 0)) + 2 ∨
        tx_run_size e s m < tx_csum_off e (tx_desc_ctl s (tx_slot s 0)) + 2 →
      tx_run_frame e s m = tx_run_payload e s m) := by
  obtain ⟨g1, g2, g3⟩ := tx_run_staged_fields e s m
  have hpl := tx_run_payload_length e s m
  unfold tx_run_frame
  generalize tx_run_staged e s m = u at g1 g2 g3
  rw [g3, g2]
  refine ⟨by rw [bufSlice_length], ?_, ?_, ?_⟩
  · intro hc
    rw [if_neg (by simpa using hc), g1, ← hpl, bufSlice_bufStore]
  · intro hc hn hS hO
    rw [← g3] at hS hO
    rw [← g2] at hn hS hO
    rw [if_pos hc, do_tx_csum_in_range e u hn hS hO, g1, g2, g3, ← hpl,
      bufSlice_bufStore_drop _ _ _ (by rw [g2, g3, ← hpl] at hS; omega),
      bufSlice_stw_be_p _ _ _ _ (by rw [g2, g3, ← hpl] at hO; exact hO)]
  · intro hc hn h2 h
    rw [← g3] at h
    rw [← g2] at hn h2 h
    rw [if_pos hc, do_tx_csum_out_of_range e u hn h2 h, g1, ← hpl, bufSlice_bufStore]

theorem ring_ne (N a d : Nat) (h0 : 0 < d) (hd : d < N) : a % N ≠ (a + d) % N := by
  intro h
  have h1 : (a + 0) % N = (a + d) % N := by rw [Nat.add_zero]; exact h
  have h2 : Nat.ModEq N 0 d := Nat.ModEq.add_left_cancel' a h1
  have h3 : 0 % N = d % N := h2
  rw [Nat.zero_mod, Nat.mod_eq_of_lt hd] at h3
  omega

theorem tx_slot_mod (s : SunGEMState) (k : Nat) (hm : s.tx_mask + 1 = 2 ^ k) (j : Nat) :
    tx_slot s j = (loadCell s (3, 0) % 2 ^ k + j) % 2 ^ k := by
  unfold tx_slot
  rw [and_ring_mask _ _ k hm, and_ring_mask _ _ k hm]

theorem tx_slot_zero (s : SunGEMState) (k : Nat) (hm : s.tx_mask + 1 = 2 ^ k) :
    loadCell s (3, 0) &&& s.tx_mask = tx_slot s 0 := by
  rw [tx_slot_mod s k hm, and_ring_mask _ _ k hm, Nat.add_zero, Nat.mod_mod]

/-- The cursors of a run of `m + 1` descriptors: the kick cursor is the slot
after the last one and none of the run's slots. -/
theorem tx_run_slots (s : SunGEMState) (k : Nat) (hm : s.tx_mask + 1 = 2 ^ k) (m : Nat)
    (hrun : tx_run_count s = m + 1) :
    loadCell s (2, 0) &&& s.tx_mask = tx_slot s (m + 1) ∧
      (∀ j, j ≤ m → tx_slot s j ≠ loadCell s (2, 0) &&& s.tx_mask) ∧ m + 1 < s.tx_mask + 1 := by
  have hpos : 0 < 2 ^ k := Nat.pow_pos (by norm_num)
  unfold tx_run_count at hrun
  rw [and_ring_mask _ _ k hm, and_ring_mask _ _ k hm, hm] at hrun
  have hlt : m + 1 < 2 ^ k := by rw [← hrun]; exact Nat.mod_lt _ hpos
  have hc : loadCell s (3, 0) % 2 ^ k < 2 ^ k := Nat.mod_lt _ hpos
  have hkk : loadCell s (2, 0) % 2 ^ k < 2 ^ k := Nat.mod_lt _ hpos
  have hd := ring_distance _ _ _ hc hkk
  rw [hrun] at hd
  have hkick : loadCell s (2, 0) &&& s.tx_mask = tx_slot s (m + 1) := by
    rw [tx_slot_mod s k hm, and_ring_mask _ _ k hm, hd]
  refine ⟨hkick, ?_, by rw [hm]; exact hlt⟩
  intro j hj
  rw [hkick, tx_slot_mod s k hm, tx_slot_mod s k hm]
  have : loadCell s (3, 0) % 2 ^ k + (m + 1) = (loadCell s (3, 0) % 2 ^ k + j) + (m + 1 - j) := by
    omega
  rw [this]
  exact ring_ne _ _ _ (by omega) (by omega)

/-- A run of `m + 1` pending descriptors with the start-of-frame flag on the
first, the end-of-frame flag on the last and on no other, and at most
`MAX_PACKET_SIZE` bytes in all: `sungem_tx_kick` returns after exactly one call
of `sungem_send_packet`, on the frame of the run. -/
theorem tx_kick_run (e : Env) (hdec : DataPathDecodes e) (s : SunGEMState) (k m : Nat)
    (txmac_cfg : Nat) (hk : k ≤ 32) (hm : s.tx_mask + 1 = 2 ^ k)
    (h2 : GET_REG s e.MAC_TXCFG = some txmac_cfg)
    (hen : loadCell s (2, 1) &&& e.TXDMA_CFG_ENABLE ≠ 0 ∧ txmac_cfg &&& e.MAC_TXCFG_ENAB ≠ 0)
    (hrun : tx_run_count s = m + 1)
    (hsof : tx_desc_ctl s (tx_slot s 0) &&& e.TXDCTRL_SOF ≠ 0)
    (hsof_mid : ∀ j, 1 ≤ j → j ≤ m → tx_desc_ctl s (tx_slot s j) &&& e.TXDCTRL_SOF = 0)
    (heof_mid : ∀ j, j < m → tx_desc_ctl s (tx_slot s j) &&& e.TXDCTRL_EOF = 0)
    (heof : tx_desc_ctl s (tx_slot s m) &&& e.TXDCTRL_EOF ≠ 0)
    (hlen : tx_run_size e s (m + 1) ≤ MAX_PACKET_SIZE) :
    ∃ s_pre s_post s', sungem_tx_kick e s = some s' ∧
      sungem_send_packet e s_pre (tx_run_frame e s (m + 1)) = some s_post ∧
      TxFrame s s_pre ∧ s_pre.tx_size = tx_run_size e s (m + 1) ∧
      s_pre.tx_first_ctl = tx_desc_ctl s (tx_slot s 0) ∧
      bufSlice s_pre.tx_data 0 s_pre.tx_size = tx_run_frame e s (m + 1) ∧
      TxFrame s_post s' ∧ s'.tx_size = 0 ∧ s'.tx_first_ctl = 0 ∧
      loadCell s' (3, 0) = loadCell s (2, 0) &&& s.tx_mask := by
  obtain ⟨hkick, hne, hfuel⟩ := tx_run_slots s k hm m hrun
  have hinit : tx_desc_sof e s (tx_desc_ctl s (tx_slot s 0)) =
      { s with tx_size := 0, tx_first_ctl := tx_desc_ctl s (tx_slot s 0) } := by
    unfold tx_desc_sof
    rw [if_pos hsof]
  obtain ⟨s_pre, s_post, t, ht, hsend, b1, b2, b3, b4, b5, b6, b7, b8⟩ :=
    tx_loop_run e hdec s k hk hm m (loadCell s (2, 0) &&& s.tx_mask) hkick hne hsof_mid heof_mid
      heof hlen m 0 s (s.tx_mask + 1) (Nat.zero_add m) (Nat.le_of_lt hfuel) (TxFrame.tx_refl s)
      (by rw [tx_run_payload, bufStore_nil]) (by rw [hinit]; rfl) (by rw [hinit])
  refine ⟨s_pre, s_post, pci_set_irq
      (storeCell t (0, 3) (loadCell t (0, 3) ||| e.GREG_STAT_TXALL % 2 ^ 32))
      (irq_level e (storeCell t (0, 3) (loadCell t (0, 3) ||| e.GREG_STAT_TXALL % 2 ^ 32))),
    ?_, hsend, b1, b2, b3, b4, b5.tx_trans (TxFrame.status _ _ _), b6, b7, ?_⟩
  · unfold sungem_tx_kick
    simp only [GET_REG_TXDMA_CFG, h2, GET_REG_TXDMA_DBHI, GET_REG_TXDMA_DBLOW, GET_REG_TXDONE,
      GET_REG_TXDMA_KICK, Option.bind_eq_bind, Option.some_bind, sungem_update_status_eq,
      if_true]
    rw [if_neg (not_or.mpr ⟨hen.1, hen.2⟩), tx_slot_zero s k hm]
    show (tx_loop e (tx_dbase s) _ _ _ s).bind _ = _
    rw [ht, Option.some_bind]
  · rw [loadCell_pci_set_irq, loadCell_storeCell_ne _ _ _ _ (by decide), b8]

/-- C17: take a device with both transmit enable bits set, a ring size that is
a power of two and data-path registers that decode, and a run of `m + 1`
descriptors between the completion cursor and the kick cursor of which the
first has the start-of-frame flag, the last has the end-of-frame flag, no other
has either flag, and whose buffer sizes sum to at most `MAX_PACKET_SIZE`. Then
`sungem_tx_kick` returns, having called `sungem_send_packet` once: on a device
`s_pre` that differs from the initial one only in accumulator, status,
completion cursor and interrupt level, and on the frame of the run, which is
the concatenation in ring order of the first `len` bytes of each descriptor's
guest buffer, with the checksum inserted when the first control word enables
it and start and offset leave two bytes inside the frame. Afterwards the
accumulator is empty (`tx_size = 0`, `tx_first_ctl = 0`) and the completion
register holds the kick cursor. When the loopback bit is clear the frame is the
one frame appended to the sent frames and guest memory is untouched. -/
theorem sungem_tx_kick_one_frame (e : Env) (s : SunGEMState) (k m txdma_cfg txmac_cfg : Nat)
    (hdec : DataPathDecodes e) (hk : k ≤ 32) (hm : s.tx_mask + 1 = 2 ^ k)
    (h1 : GET_REG s (TXDMA_CFG + 0x2000) = some txdma_cfg)
    (h2 : GET_REG s e.MAC_TXCFG = some txmac_cfg)
    (hen : txdma_cfg &&& e.TXDMA_CFG_ENABLE ≠ 0 ∧ txmac_cfg &&& e.MAC_TXCFG_ENAB ≠ 0)
    (hrun : tx_run_count s = m + 1)
    (hsof : tx_desc_ctl s (tx_slot s 0) &&& e.TXDCTRL_SOF ≠ 0)
    (hsof_mid : ∀ j, 1 ≤ j → j ≤ m → tx_desc_ctl s (tx_slot s j) &&& e.TXDCTRL_SOF = 0)
    (heof_mid : ∀ j, j < m → tx_desc_ctl s (tx_slot s j) &&& e.TXDCTRL_EOF = 0)
    (heof : tx_desc_ctl s (tx_slot s m) &&& e.TXDCTRL_EOF ≠ 0)
    (hlen : tx_run_size e s (m + 1) ≤ MAX_PACKET_SIZE) :
    ∃ s_pre s_post s' kick, sungem_tx_kick e s = some s' ∧
      sungem_send_packet e s_pre (tx_run_frame e s (m + 1)) = some s_post ∧
      TxFrame s s_pre ∧ s_pre.tx_size = tx_run_size e s (m + 1) ∧
      s_pre.tx_first_ctl = tx_desc_ctl s (tx_slot s 0) ∧
      bufSlice s_pre.tx_data 0 s_pre.tx_size = tx_run_frame e s (m + 1) ∧
      TxFrame s_post s' ∧ s'.tx_size = 0 ∧ s'.tx_first_ctl = 0 ∧
      GET_REG s (TXDMA_KICK + 0x2000) = some kick ∧
      GET_REG s' (TXDMA_TXDONE + 0x2000) = some (kick &&& s.tx_mask) ∧
      (tx_run_frame e s (m + 1)).length = tx_run_size e s (m + 1) ∧
      (tx_desc_ctl s (tx_slot s 0) &&& e.TXDCTRL_CENAB = 0 →
        tx_run_frame e s (m + 1) = tx_run_payload e s (m + 1)) ∧
      (tx_desc_ctl s (tx_slot s 0) &&& e.TXDCTRL_CENAB ≠ 0 →
        tx_csum_start e (tx_desc_ctl s (tx_slot s 0)) + 2 ≤ tx_run_size e s (m + 1) →
        tx_csum_off e (tx_desc_ctl s (tx_slot s 0)) + 2 ≤ tx_run_size e s (m + 1) →
        tx_run_frame e s (m + 1) = csumInserted
          (e.net_raw_checksum ((tx_run_payload e s (m + 1)).drop
            (tx_csum_start e (tx_desc_ctl s (tx_slot s 0)))))
          (tx_csum_off e (tx_desc_ctl s (tx_slot s 0))) (tx_run_payload e s (m + 1))) ∧
      (tx_desc_ctl s (tx_slot s 0) &&& e.TXDCTRL_CENAB ≠ 0 → 2 ≤ tx_run_size e s (m + 1) →
        tx_run_size e s (m + 1) < tx_csum_start e (tx_desc_ctl s (tx_slot s 0)) + 2 ∨
          tx_run_size e s (m + 1) < tx_csum_off e (tx_desc_ctl s (tx_slot s 0)) + 2 →
        tx_run_frame e s (m + 1) = tx_run_payload e s (m + 1)) ∧
      (∀ xif, GET_REG s e.MAC_XIFCFG = some xif → xif &&& e.MAC_XIFCFG_LBCK = 0 →
        sungem_get_reg (e.MAC_XIFCFG % 2 ^ 32) ≠ some (0, 3) →
        sungem_get_reg (e.MAC_XIFCFG % 2 ^ 32) ≠ some (3, 0) →
        s'.sent = s.sent ++ [tx_run_frame e s (m + 1)] ∧ s'.mem = s.mem) := by
  rw [GET_REG_TXDMA_CFG, Option.some.injEq] at h1
  subst h1
  obtain ⟨s_pre, s_post, s', a1, a2, a3, a4, a5, a6, a7, a8, a9, a10⟩ :=
    tx_kick_run e hdec s k m txmac_cfg hk hm h2 hen hrun hsof hsof_mid heof_mid heof hlen
  obtain ⟨c1, c2, c3, c4⟩ := tx_run_frame_bytes e s (m + 1)
  refine ⟨s_pre, s_post, s', loadCell s (2, 0), a1, a2, a3, a4, a5, a6, a7, a8, a9,
    GET_REG_TXDMA_KICK s, ?_, c1, c2, fun h => c3 h hlen, fun h => c4 h hlen, ?_⟩
  · rw [GET_REG_TXDONE, a10]
  · intro xif hx hlb hn1 hn2
    obtain ⟨c, hc, hg⟩ := GET_REG_of_decodes _ (hdec.1 e.MAC_XIFCFG (by simp))
    have hcell : (c.1, c.2) ∉ [(0, 3), (3, 0)] := by
      intro hmem
      rw [hc] at hn1 hn2
      simp only [List.mem_cons, List.mem_singleton, List.not_mem_nil, or_false] at hmem
      rcases hmem with h | h
      · exact hn1 (congrArg some h)
      · exact hn2 (congrArg some h)
    have hpre : GET_REG s_pre e.MAC_XIFCFG = some xif := by
      rw [hg, ← hx, hg]
      unfold loadCell
      rw [a3.2.2.2.2.2.2.2 c.1 c.2 hcell]
    unfold sungem_send_packet at a2
    simp only [hpre, Option.bind_eq_bind, Option.some_bind, Option.pure_def] at a2
    rw [if_neg (by simpa using hlb), Option.some.injEq] at a2
    subst a2
    exact ⟨by rw [a7.2.1]; show s_pre.sent ++ _ = _; rw [a3.2.1],
      by rw [a7.1]; show s_pre.mem = _; exact a3.1⟩

/-- Witness for `sungem_tx_kick_one_frame`: a 32-slot ring with a
start-of-frame descriptor of 14 bytes and an end-of-frame descriptor of 46
bytes, kick cursor 2. One 60-byte frame is sent and the completion register
reads 2. -/
theorem sungem_tx_kick_one_frame_witness :
    ∃ s', sungem_tx_kick gemEnv (txRunState 2) = some s' ∧
      s'.sent = [twoDescFrame] ∧ twoDescFrame.length = 60 ∧
      s'.tx_size = 0 ∧ s'.tx_first_ctl = 0 ∧
      GET_REG s' (TXDMA_TXDONE + 0x2000) = some 2 := by
  obtain ⟨_, _, s', kick, a1, _, _, _, _, _, _, a8, a9, a10, a11, _, _, _, _, a16⟩ :=
    sungem_tx_kick_one_frame gemEnv (txRunState 2) 5 1 1 1 gemEnv_data_path_decodes
      (by decide) (by decide) (by decide) (by decide) (by decide) (by decide) (by decide)
      (fun j h1 h2 => by
        have hj : j = 1 := by omega
        subst hj
        decide)
      (fun j h1 => by
        have hj : j = 0 := by omega
        subst hj
        decide)
      (by decide) (by decide)
  have hk : kick = 2 := by
    have h : GET_REG (txRunState 2) (TXDMA_KICK + 0x2000) = some 2 := by decide
    rw [h, Option.some.injEq] at a10
    exact a10.symm
  subst hk
  have hf : tx_run_frame gemEnv (txRunState 2) (1 + 1) = twoDescFrame := by decide
  obtain ⟨b1, -⟩ := a16 0 (by decide) (by decide) (by decide) (by decide)
  rw [hf] at b1
  exact ⟨s', a1, b1, by decide, a8, a9, a11⟩

/-- The delivery path of `sungem_receive`: receive enabled, a valid size, an
address match and a ring that is not full. -/
theorem receive_delivers (e : Env) (s : SunGEMState) (buf : List Nat)
    (rxmac_cfg max_fsize rx_cond : Nat)
    (h1 : GET_REG s e.MAC_RXCFG = some rxmac_cfg)
    (h3 : GET_REG s e.MAC_MAXFSZ = some max_fsize)
    (hen : loadCell s (5, 0) &&& e.RXDMA_CFG_ENABLE ≠ 0 ∧ rxmac_cfg &&& e.MAC_RXCFG_ENAB ≠ 0)
    (hsize : 6 ≤ buf.length ∧ buf.length + 4 ≤ max_fsize &&& 0x7fff)
    (hmatch : sungem_check_rx_mac e s (rx_pad buf)
      (e.crc32 (not64 0) ((rx_pad buf).take 6) % 2 ^ 32) = some rx_cond)
    (hcond : rx_cond ≠ rx_no_match)
    (hroom : sungem_rx_full s (rx_kick s) (rx_done s) = false) :
    sungem_receive e s buf =
      some ((rx_pad buf).length, rx_delivered e s rxmac_cfg rx_cond (rx_pad buf)) := by
  unfold sungem_receive
  simp only [h1, h3, hmatch, GET_REG_RXDMA_CFG, GET_REG_RXDMA_KICK, GET_REG_RXDMA_DONE,
    GET_REG_RXDMA_DBHI, GET_REG_RXDMA_DBLOW, SET_REG_RXDMA_DONE, sungem_update_status_eq,
    Option.bind_eq_bind, Option.some_bind, Option.pure_def, if_true]
  unfold rx_kick rx_done at hroom
  rw [if_neg (not_or.mpr ⟨hen.1, hen.2⟩), if_neg (by omega), if_neg hcond, hroom]
  simp only [Bool.false_eq_true, if_false]
  rfl

/-- C21 (as the code has it): when the RX-DMA enable bit of `RXDMA_CFG` or the
MAC receive enable bit of `MAC_RXCFG` is clear, `sungem_receive` returns 0,
"can't receive", for every frame, and the device state is as it was:
registers, cursors, interrupt line and guest memory included. -/
theorem sungem_receive_disabled (e : Env) (s : SunGEMState) (buf : List Nat)
    (rxmac_cfg rxdma_cfg max_fsize : Nat)
    (h1 : GET_REG s e.MAC_RXCFG = some rxmac_cfg)
    (h2 : GET_REG s (RXDMA_CFG + 0x4000) = some rxdma_cfg)
    (h3 : GET_REG s e.MAC_MAXFSZ = some max_fsize)
    (hdis : rxdma_cfg &&& e.RXDMA_CFG_ENABLE = 0 ∨ rxmac_cfg &&& e.MAC_RXCFG_ENAB = 0) :
    sungem_receive e s buf = some (0, s) := by
  unfold sungem_receive
  rw [h1, h2, h3]
  simp only [Option.bind_eq_bind, Option.some_bind]
  rw [if_pos hdis]
  rfl

/-- Witness for `sungem_receive_disabled`: the cleared device, where both
enable bits are clear, and a 60-byte frame. -/
theorem sungem_receive_disabled_witness :
    sungem_receive gemEnv zeroState zeroFrame = some (0, zeroState) :=
  sungem_receive_disabled gemEnv zeroState zeroFrame 0 0 0 (by decide) (by decide) (by decide)
    (by decide)

/-- C21, counterexample: on a device with receive disabled, `sungem_receive` of
a 60-byte frame returns 0, not the length 60 of the frame; this is so when only
the RX-DMA enable bit is clear and when only the MAC enable bit is clear. -/
theorem sungem_receive_disabled_not_length :
    zeroFrame.length = 60 ∧
    (sungem_receive gemEnv zeroState zeroFrame).map Prod.fst = some 0 ∧
    (sungem_receive gemEnv (rxDisabledState true false) zeroFrame).map Prod.fst = some 0 ∧
    (sungem_receive gemEnv (rxDisabledState false true) zeroFrame).map Prod.fst = some 0 := by
  decide

/-- C22: when receive is enabled, `sungem_receive` of a frame shorter than 6
bytes, or whose length plus 4 exceeds `MAC_MAXFSZ & 0x7fff`, returns the
length of the frame and the device state is as it was: descriptor ring,
`RXDMA_DONE`, `GREG_STAT`, interrupt line and guest memory included. -/
theorem sungem_receive_bad_size (e : Env) (s : SunGEMState) (buf : List Nat)
    (rxmac_cfg rxdma_cfg max_fsize : Nat)
    (h1 : GET_REG s e.MAC_RXCFG = some rxmac_cfg)
    (h2 : GET_REG s (RXDMA_CFG + 0x4000) = some rxdma_cfg)
    (h3 : GET_REG s e.MAC_MAXFSZ = some max_fsize)
    (hen : rxdma_cfg &&& e.RXDMA_CFG_ENABLE ≠ 0 ∧ rxmac_cfg &&& e.MAC_RXCFG_ENAB ≠ 0)
    (hsize : buf.length < 6 ∨ buf.length + 4 > max_fsize &&& 0x7fff) :
    sungem_receive e s buf = some (buf.length, s) := by
  unfold sungem_receive
  rw [h1, h2, h3]
  simp only [Option.bind_eq_bind, Option.some_bind]
  rw [if_neg (not_or.mpr ⟨hen.1, hen.2⟩), if_pos hsize]
  rfl

/-- Witness for `sungem_receive_bad_size`: an enabled device with maximum frame
size 1518, a 5-byte frame and a 1515-byte frame. -/
theorem sungem_receive_bad_size_witness :
    sungem_receive gemEnv (rxState 4 0) (List.replicate 5 0)
      = some ((List.replicate 5 0).length, rxState 4 0) ∧
    sungem_receive gemEnv (rxState 4 0) (List.replicate 1515 0)
      = some ((List.replicate 1515 0).length, rxState 4 0) :=
  ⟨sungem_receive_bad_size gemEnv (rxState 4 0) (List.replicate 5 0) 0x9 1 1518 (by decide)
      (by decide) (by decide) (by decide) (Or.inl (by decide)),
   sungem_receive_bad_size gemEnv (rxState 4 0) (List.replicate 1515 0) 0x9 1 1518 (by decide)
      (by decide) (by decide) (by decide) (Or.inr (by rw [List.length_replicate]; decide))⟩

theorem or_mod_high (x F : Nat) (hF : F % 2 ^ 60 = 0) : (x ||| F) % 2 ^ 60 = x % 2 ^ 60 := by
  apply Nat.eq_of_testBit_eq
  intro i
  rw [Nat.testBit_mod_two_pow, Nat.testBit_mod_two_pow, Nat.testBit_or]
  by_cases h : i < 60
  · have hz : F.testBit i = false := by
      have := Nat.testBit_mod_two_pow F 60 i
      rw [hF, Nat.zero_testBit] at this
      simpa [h] using this.symm
    rw [hz, Bool.or_false]
  · simp [h]

theorem rx_status_base (A C csum : Nat) (hA : A < 2 ^ 15) (hS : csum < 2 ^ 16) :
    (A <<< 16) % 2 ^ 64 ||| (C <<< 44) ||| csum = 2 ^ 44 * C + 2 ^ 16 * A + csum := by
  have h1 : (A <<< 16) % 2 ^ 64 = 2 ^ 16 * A := by
    rw [Nat.shiftLeft_eq, Nat.mul_comm]
    exact Nat.mod_eq_of_lt (by omega)
  have h2 : C <<< 44 = 2 ^ 44 * C := by rw [Nat.shiftLeft_eq, Nat.mul_comm]
  have h3 : 2 ^ 44 * C + 2 ^ 16 * A = 2 ^ 44 * C ||| 2 ^ 16 * A :=
    Nat.mul_add_lt_is_or (by omega) C
  have h4 : 2 ^ 44 * C + 2 ^ 16 * A = 2 ^ 16 * (2 ^ 28 * C + A) := by omega
  have h5 : 2 ^ 16 * (2 ^ 28 * C + A) + csum = 2 ^ 16 * (2 ^ 28 * C + A) ||| csum :=
    Nat.mul_add_lt_is_or hS _
  rw [h1, h2, Nat.or_comm (2 ^ 16 * A), ← h3, h4, ← h5]

/-- The status word without its flag bits, as a sum of its three fields. -/
theorem rx_status_word_low (e : Env) (size fcs mac_crc csum rx_cond : Nat)
    (hA : size + fcs < 2 ^ 15) (hC : mac_crc < 2 ^ 32) (hS : csum < 2 ^ 16)
    (hH : e.RXDCTRL_HPASS % 2 ^ 60 = 0) (hL : e.RXDCTRL_ALTMAC % 2 ^ 60 = 0) :
    rx_status_word e size fcs mac_crc csum rx_cond % 2 ^ 60 =
      2 ^ 44 * (mac_crc >>> 16) + 2 ^ 16 * (size + fcs) + csum := by
  have hC' : mac_crc >>> 16 < 2 ^ 16 := by
    rw [Nat.shiftRight_eq_div_pow]
    omega
  have hb := rx_status_base (size + fcs) (mac_crc >>> 16) csum hA hS
  have hlt : 2 ^ 44 * (mac_crc >>> 16) + 2 ^ 16 * (size + fcs) + csum < 2 ^ 60 := by omega
  unfold rx_status_word
  split
  · split
    · rw [or_mod_high _ _ hL, or_mod_high _ _ hH, hb, Nat.mod_eq_of_lt hlt]
    · rw [or_mod_high _ _ hL, hb, Nat.mod_eq_of_lt hlt]
  · split
    · rw [or_mod_high _ _ hH, hb, Nat.mod_eq_of_lt hlt]
    · rw [hb, Nat.mod_eq_of_lt hlt]

/-- The three fields of the status word decode exactly. -/
theorem rx_status_word_fields (e : Env) (size fcs mac_crc csum rx_cond : Nat)
    (hA : size + fcs < 2 ^ 15) (hC : mac_crc < 2 ^ 32) (hS : csum < 2 ^ 16)
    (hH : e.RXDCTRL_HPASS % 2 ^ 60 = 0) (hL : e.RXDCTRL_ALTMAC % 2 ^ 60 = 0) :
    rx_status_word e size fcs mac_crc csum rx_cond &&& 0xffff = csum ∧
    (rx_status_word e size fcs mac_crc csum rx_cond >>> 16) &&& 0x7fff = size + fcs ∧
    (rx_status_word e size fcs mac_crc csum rx_cond >>> 44) &&& 0xffff = mac_crc >>> 16 ∧
    (rx_status_word e size fcs mac_crc csum rx_cond >>> 31) &&& 0x1fff = 0 := by
  have hlow := rx_status_word_low e size fcs mac_crc csum rx_cond hA hC hS hH hL
  have hC' : mac_crc >>> 16 < 2 ^ 16 := by
    rw [Nat.shiftRight_eq_div_pow]
    omega
  generalize rx_status_word e size fcs mac_crc csum rx_cond = w at hlow
  generalize mac_crc >>> 16 = C at hlow hC'
  have e1 : (0xffff : Nat) = 2 ^ 16 - 1 := by norm_num
  have e2 : (0x7fff : Nat) = 2 ^ 15 - 1 := by norm_num
  have e3 : (0x1fff : Nat) = 2 ^ 13 - 1 := by norm_num
  rw [e1, e2, e3, Nat.and_pow_two_sub_one_eq_mod, Nat.and_pow_two_sub_one_eq_mod,
    Nat.and_pow_two_sub_one_eq_mod, Nat.and_pow_two_sub_one_eq_mod, Nat.shiftRight_eq_div_pow,
    Nat.shiftRight_eq_div_pow, Nat.shiftRight_eq_div_pow]
  refine ⟨?_, ?_, ?_, ?_⟩ <;> omega

theorem and_high_zero (x F : Nat) (hx : x < 2 ^ 60) (hF : F % 2 ^ 60 = 0) : x &&& F = 0 := by
  apply Nat.eq_of_testBit_eq
  intro i
  rw [Nat.testBit_and, Nat.zero_testBit]
  by_cases h : i < 60
  · have hz : F.testBit i = false := by
      have := Nat.testBit_mod_two_pow F 60 i
      rw [hF, Nat.zero_testBit] at this
      simpa [h] using this.symm
    rw [hz, Bool.and_false]
  · have hz : x.testBit i = false :=
      Nat.testBit_lt_two_pow (lt_of_lt_of_le hx (Nat.pow_le_pow_right (by norm_num) (by omega)))
    rw [hz, Bool.false_and]

/-- The flag bits of the status word: `RXDCTRL_HPASS` is there exactly for a
hash match, `RXDCTRL_ALTMAC` exactly for an alternate-address match. -/
theorem rx_status_word_flags (e : Env) (size fcs mac_crc csum rx_cond : Nat)
    (hA : size + fcs < 2 ^ 15) (hC : mac_crc < 2 ^ 32) (hS : csum < 2 ^ 16)
    (hH : e.RXDCTRL_HPASS % 2 ^ 60 = 0) (hL : e.RXDCTRL_ALTMAC % 2 ^ 60 = 0)
    (hHL : e.RXDCTRL_HPASS &&& e.RXDCTRL_ALTMAC = 0) :
    rx_status_word e size fcs mac_crc csum rx_cond &&& e.RXDCTRL_HPASS =
      (if rx_cond = rx_match_mcast then e.RXDCTRL_HPASS else 0) ∧
    rx_status_word e size fcs mac_crc csum rx_cond &&& e.RXDCTRL_ALTMAC =
      (if rx_cond = rx_match_altmac then e.RXDCTRL_ALTMAC else 0) := by
  have hC' : mac_crc >>> 16 < 2 ^ 16 := by
    rw [Nat.shiftRight_eq_div_pow]
    omega
  have hb := rx_status_base (size + fcs) (mac_crc >>> 16) csum hA hS
  have hlt : (size + fcs) <<< 16 % 2 ^ 64 ||| (mac_crc >>> 16) <<< 44 ||| csum < 2 ^ 60 := by
    rw [hb]; omega
  have hLH : e.RXDCTRL_ALTMAC &&& e.RXDCTRL_HPASS = 0 := by rw [Nat.and_comm]; exact hHL
  unfold rx_status_word
  generalize (size + fcs) <<< 16 % 2 ^ 64 ||| (mac_crc >>> 16) <<< 44 ||| csum = b at hlt
  have h1 := and_high_zero b _ hlt hH
  have h2 := and_high_zero b _ hlt hL
  by_cases ha : rx_cond = rx_match_altmac
  · have hm : rx_cond ≠ rx_match_mcast := by rw [ha]; decide
    simp only [if_pos ha, if_neg hm, Nat.and_distrib_right, h1, h2, hLH, Nat.and_self,
      Nat.zero_or, Nat.or_zero, and_self]
  · by_cases hm : rx_cond = rx_match_mcast
    · simp only [if_neg ha, if_pos hm, Nat.and_distrib_right, h1, h2, hHL, Nat.and_self,
        Nat.zero_or, Nat.or_zero, and_self]
    · rw [if_neg ha, if_neg hm, if_neg hm, if_neg ha]
      exact ⟨h1, h2⟩

theorem cpu_to_le64_length (w : Nat) : (cpu_to_le64 w).length = 8 := by
  simp [cpu_to_le64]

theorem rx_desc_buffer_length (s : SunGEMState) : (rx_desc_buffer s).length = 8 := by
  simp [rx_desc_buffer, descFields, pci_dma_read, sizeof_desc]

theorem le64_roundtrip (w : Nat) : le64_to_cpu (cpu_to_le64 w) = w % 2 ^ 64 := by
  simp only [le64_to_cpu, cpu_to_le64, List.range, List.range.loop, List.map, List.foldr,
    List.getD_cons_zero, List.getD_cons_succ, Nat.shiftRight_eq_div_pow]
  omega

theorem pci_dma_write_mem (s : SunGEMState) (addr : Nat) (buf : List Nat) (a : Nat) :
    (pci_dma_write s addr buf).mem a =
      if addr ≤ a ∧ a < addr + buf.length then buf.getD (a - addr) 0 else s.mem a := rfl

/-- Guest memory after a delivery: the descriptor slot at the old `done` cursor
holds the new status word and its buffer field, the frame buffer holds the
processed frame, every other byte is as before. -/
theorem rx_delivered_mem (e : Env) (s : SunGEMState) (rxmac_cfg rx_cond : Nat)
    (frame : List Nat) (a : Nat) :
    (rx_delivered e s rxmac_cfg rx_cond frame).mem a =
      if rx_daddr s ≤ a ∧ a < rx_daddr s + 16 then
        (cpu_to_le64 (rx_status_word e frame.length (rx_fcs_size e rxmac_cfg)
          (e.crc32 (not64 0) (frame.take 6) % 2 ^ 32) (rx_csum e s frame) rx_cond)
          ++ rx_desc_buffer s).getD (a - rx_daddr s) 0
      else if rx_baddr e s ≤ a ∧ a < rx_baddr e s + frame.length then
        frame.getD (a - rx_baddr e s) 0
      else s.mem a := by
  show (pci_dma_write (pci_dma_write s (rx_baddr e s) frame) (rx_daddr s) _).mem a = _
  rw [pci_dma_write_mem, pci_dma_write_mem, List.length_append, cpu_to_le64_length,
    rx_desc_buffer_length]

theorem rx_delivered_fields (e : Env) (s : SunGEMState) (rxmac_cfg rx_cond : Nat)
    (frame : List Nat) :
    (rx_delivered e s rxmac_cfg rx_cond frame).rx_mask = s.rx_mask ∧
    (rx_delivered e s rxmac_cfg rx_cond frame).tx_mask = s.tx_mask ∧
    (rx_delivered e s rxmac_cfg rx_cond frame).tx_data = s.tx_data ∧
    (rx_delivered e s rxmac_cfg rx_cond frame).tx_size = s.tx_size ∧
    (rx_delivered e s rxmac_cfg rx_cond frame).tx_first_ctl = s.tx_first_ctl ∧
    (rx_delivered e s rxmac_cfg rx_cond frame).sent = s.sent ∧
    RegsFrame [(0, 3), (6, 1)] s (rx_delivered e s rxmac_cfg rx_cond frame) ∧
    loadCell (rx_delivered e s rxmac_cfg rx_cond frame) (6, 1) = rx_new_done s ∧
    loadCell (rx_delivered e s rxmac_cfg rx_cond frame) (0, 3) =
      loadCell s (0, 3) ||| rx_ints e s := by
  have hnd : rx_new_done s < 2 ^ 32 :=
    lt_of_le_of_lt Nat.and_le_left (Nat.mod_lt _ (by norm_num))
  have hints : rx_ints e s < 2 ^ 32 := by
    unfold rx_ints
    split
    · exact Nat.or_lt_two_pow (Nat.mod_lt _ (by norm_num)) (Nat.mod_lt _ (by norm_num))
    · exact Nat.mod_lt _ (by norm_num)
  have h03 : loadCell (rx_written e s rxmac_cfg rx_cond frame) (0, 3) = loadCell s (0, 3) := by
    unfold rx_written
    rw [loadCell_storeCell_ne _ _ _ _ (by decide)]
    rfl
  refine ⟨rfl, rfl, rfl, rfl, rfl, rfl, ?_, ?_, ?_⟩
  · intro b i h
    unfold rx_delivered
    rw [pci_set_irq_regs, storeCell_regs_ne _ _ _ _ _ (fun hc => h (by rw [hc]; simp))]
    unfold rx_written
    rw [storeCell_regs_ne _ _ _ _ _ (fun hc => h (by rw [hc]; simp))]
    rfl
  · unfold rx_delivered
    rw [loadCell_pci_set_irq, loadCell_storeCell_ne _ _ _ _ (by decide)]
    unfold rx_written
    rw [loadCell_storeCell_same, Nat.mod_eq_of_lt hnd]
  · unfold rx_delivered
    rw [loadCell_pci_set_irq, loadCell_storeCell_same, h03, Nat.mod_eq_of_lt hints]
    exact Nat.mod_eq_of_lt (Nat.or_lt_two_pow (loadCell_lt s (0, 3)) hints)

theorem cpu_to_le64_bytes (w : Nat) : ∀ x ∈ cpu_to_le64 w, x < 256 := by
  intro x hx
  simp only [cpu_to_le64, List.mem_map] at hx
  obtain ⟨i, -, rfl⟩ := hx
  exact Nat.mod_lt _ (by norm_num)

theorem pci_dma_read_bytes (s : SunGEMState) (a n : Nat) : ∀ x ∈ pci_dma_read s a n, x < 256 := by
  intro x hx
  simp only [pci_dma_read, List.mem_map] at hx
  obtain ⟨i, -, rfl⟩ := hx
  exact Nat.mod_lt _ (by norm_num)

theorem rx_desc_buffer_bytes (s : SunGEMState) : ∀ x ∈ rx_desc_buffer s, x < 256 := by
  intro x hx
  unfold rx_desc_buffer descFields at hx
  exact pci_dma_read_bytes s _ _ x (List.mem_of_mem_drop (List.mem_of_mem_take hx))

/-- Reading the descriptor slot at the old `done` cursor back from guest memory
after a delivery gives the new status word, in little-endian order, and the
buffer field the slot had. -/
theorem rx_delivered_desc (e : Env) (s : SunGEMState) (rxmac_cfg rx_cond : Nat)
    (frame : List Nat) :
    pci_dma_read (rx_delivered e s rxmac_cfg rx_cond frame) (rx_daddr s) sizeof_desc =
      cpu_to_le64 (rx_status_word e frame.length (rx_fcs_size e rxmac_cfg)
        (e.crc32 (not64 0) (frame.take 6) % 2 ^ 32) (rx_csum e s frame) rx_cond)
        ++ rx_desc_buffer s := by
  have hlen : (cpu_to_le64 (rx_status_word e frame.length (rx_fcs_size e rxmac_cfg)
        (e.crc32 (not64 0) (frame.take 6) % 2 ^ 32) (rx_csum e s frame) rx_cond)
        ++ rx_desc_buffer s).length = 16 := by
    rw [List.length_append, cpu_to_le64_length, rx_desc_buffer_length]
  have hbytes : ∀ x ∈ cpu_to_le64 (rx_status_word e frame.length (rx_fcs_size e rxmac_cfg)
        (e.crc32 (not64 0) (frame.take 6) % 2 ^ 32) (rx_csum e s frame) rx_cond)
        ++ rx_desc_buffer s, x < 256 := by
    intro x hx
    rcases List.mem_append.mp hx with h | h
    · exact cpu_to_le64_bytes _ x h
    · exact rx_desc_buffer_bytes s x h
  apply List.ext_getElem
  · rw [pci_dma_read_length, hlen]; rfl
  · intro i h1 h2
    rw [pci_dma_read_length] at h1
    unfold sizeof_desc at h1
    simp only [pci_dma_read, List.getElem_map, List.getElem_range]
    rw [rx_delivered_mem, if_pos ⟨by omega, by omega⟩, Nat.add_sub_cancel_left,
      List.getD_eq_getElem _ _ h2]
    exact Nat.mod_eq_of_lt (hbytes _ (List.getElem_mem _))

theorem RxAccepts.delivers {e : Env} {s : SunGEMState} {buf : List Nat}
    {rxmac_cfg max_fsize rx_cond : Nat} (h : RxAccepts e s buf rxmac_cfg max_fsize rx_cond) :
    sungem_receive e s buf =
      some ((rx_pad buf).length, rx_delivered e s rxmac_cfg rx_cond (rx_pad buf)) := by
  obtain ⟨h1, h3, a, b, c, d, hm, hc, hr⟩ := h
  refine receive_delivers e s buf rxmac_cfg max_fsize rx_cond h1 h3 ⟨a, b⟩ ⟨c, d⟩ hm hc ?_
  unfold sungem_rx_full
  exact beq_eq_false_iff_ne.mpr hr

theorem rx_pad_length_bound (buf : List Nat) (fcs max_fsize : Nat)
    (h : buf.length + 4 ≤ max_fsize &&& 0x7fff) (hf : fcs ≤ 4) :
    (rx_pad buf).length + fcs < 2 ^ 15 := by
  have h1 : max_fsize &&& 0x7fff ≤ 0x7fff := Nat.and_le_right
  unfold rx_pad
  split
  · rw [List.length_append, List.length_replicate]
    omega
  · omega

theorem rx_fcs_size_le (e : Env) (c : Nat) : rx_fcs_size e c ≤ 4 := by
  unfold rx_fcs_size
  split <;> omega

theorem rx_pad_short (buf : List Nat) (h : buf.length < 60) :
    rx_pad buf = buf ++ List.replicate (60 - buf.length) 0 ∧ (rx_pad buf).length = 60 := by
  unfold rx_pad
  rw [if_pos h, List.length_append, List.length_replicate]
  exact ⟨rfl, by omega⟩

theorem rx_csum_lt (e : Env) (s : SunGEMState) (frame : List Nat)
    (hcsum : ∀ l, e.net_raw_checksum l < 2 ^ 16) : rx_csum e s frame < 2 ^ 16 := by
  unfold rx_csum
  exact lt_of_le_of_lt (Nat.mod_le _ _) (hcsum _)

theorem ref_net_raw_checksum_lt : ∀ l, gemEnv.net_raw_checksum l < 2 ^ 16 := by
  intro l
  show ref_net_raw_checksum l < 2 ^ 16
  unfold ref_net_raw_checksum
  exact Nat.mod_lt _ (by norm_num)

/-- C27: for every frame that `sungem_receive` writes into the ring, with a
16-bit checksum function and the two flag constants at or above bit 60 and
disjoint, the status word `sw` written back to the descriptor slot (there in
little-endian order) decodes exactly: bits 16..30 hold the processed frame
length plus the trailer allowance, bits 31..43 are clear, bits 44..59 hold the
high 16 bits of the address-check value, the low 16 bits hold the checksum,
`RXDCTRL_HPASS` is set for a hash match and clear otherwise, `RXDCTRL_ALTMAC`
is set for an alternate-address match and clear otherwise. -/
theorem sungem_receive_status_word (e : Env) (s : SunGEMState) (buf : List Nat)
    (rxmac_cfg max_fsize rx_cond : Nat)
    (hacc : RxAccepts e s buf rxmac_cfg max_fsize rx_cond)
    (hcsum : ∀ l, e.net_raw_checksum l < 2 ^ 16)
    (hH : e.RXDCTRL_HPASS % 2 ^ 60 = 0) (hL : e.RXDCTRL_ALTMAC % 2 ^ 60 = 0)
    (hHL : e.RXDCTRL_HPASS &&& e.RXDCTRL_ALTMAC = 0) :
    ∃ s' sw, sungem_receive e s buf = some ((rx_pad buf).length, s') ∧
      pci_dma_read s' (rx_daddr s) sizeof_desc = cpu_to_le64 sw ++ rx_desc_buffer s ∧
      (sw >>> 16) &&& 0x7fff = (rx_pad buf).length + rx_fcs_size e rxmac_cfg ∧
      (sw >>> 31) &&& 0x1fff = 0 ∧
      (sw >>> 44) &&& 0xffff = (e.crc32 (not64 0) ((rx_pad buf).take 6) % 2 ^ 32) >>> 16 ∧
      sw &&& 0xffff = rx_csum e s (rx_pad buf) ∧
      (rx_cond = rx_match_mcast → sw &&& e.RXDCTRL_HPASS = e.RXDCTRL_HPASS) ∧
      (rx_cond ≠ rx_match_mcast → sw &&& e.RXDCTRL_HPASS = 0) ∧
      (rx_cond = rx_match_altmac → sw &&& e.RXDCTRL_ALTMAC = e.RXDCTRL_ALTMAC) ∧
      (rx_cond ≠ rx_match_altmac → sw &&& e.RXDCTRL_ALTMAC = 0) := by
  have hA := rx_pad_length_bound buf (rx_fcs_size e rxmac_cfg) max_fsize hacc.2.2.2.2.2.1
    (rx_fcs_size_le e rxmac_cfg)
  have hC : e.crc32 (not64 0) ((rx_pad buf).take 6) % 2 ^ 32 < 2 ^ 32 :=
    Nat.mod_lt _ (by norm_num)
  have hS := rx_csum_lt e s (rx_pad buf) hcsum
  obtain ⟨f1, f2, f3, f4⟩ := rx_status_word_fields e _ _ _ _ rx_cond hA hC hS hH hL
  obtain ⟨g1, g2⟩ := rx_status_word_flags e _ _ _ _ rx_cond hA hC hS hH hL hHL
  refine ⟨_, _, hacc.delivers, rx_delivered_desc e s rxmac_cfg rx_cond (rx_pad buf), f2, f4, f3,
    f1, ?_, ?_, ?_, ?_⟩
  · intro h; rw [g1, if_pos h]
  · intro h; rw [g1, if_neg h]
  · intro h; rw [g2, if_pos h]
  · intro h; rw [g2, if_neg h]

/-- Witness for `sungem_receive_status_word`: a 40-byte frame on a promiscuous
device with the GEM constants. -/
theorem sungem_receive_status_word_witness :
    ∃ s' sw, sungem_receive gemEnv (rxRingState 9 4) fortyByteFrame
        = some ((rx_pad fortyByteFrame).length, s') ∧
      pci_dma_read s' (rx_daddr (rxRingState 9 4)) sizeof_desc
        = cpu_to_le64 sw ++ rx_desc_buffer (rxRingState 9 4) ∧
      (sw >>> 16) &&& 0x7fff = (rx_pad fortyByteFrame).length + rx_fcs_size gemEnv 9 ∧
      (sw >>> 31) &&& 0x1fff = 0 ∧
      (sw >>> 44) &&& 0xffff
        = (gemEnv.crc32 (not64 0) ((rx_pad fortyByteFrame).take 6) % 2 ^ 32) >>> 16 ∧
      sw &&& 0xffff = rx_csum gemEnv (rxRingState 9 4) (rx_pad fortyByteFrame) ∧
      (rx_match_promisc = rx_match_mcast → sw &&& gemEnv.RXDCTRL_HPASS = gemEnv.RXDCTRL_HPASS) ∧
      (rx_match_promisc ≠ rx_match_mcast → sw &&& gemEnv.RXDCTRL_HPASS = 0) ∧
      (rx_match_promisc = rx_match_altmac →
        sw &&& gemEnv.RXDCTRL_ALTMAC = gemEnv.RXDCTRL_ALTMAC) ∧
      (rx_match_promisc ≠ rx_match_altmac → sw &&& gemEnv.RXDCTRL_ALTMAC = 0) :=
  sungem_receive_status_word gemEnv (rxRingState 9 4) fortyByteFrame 9 1518 rx_match_promisc
    (by unfold RxAccepts; decide) ref_net_raw_checksum_lt (by decide) (by decide) (by decide)

/-- C24: an accepted frame of length `L` with `6 <= L < 60` is processed as the
60-byte copy `buf ++ zeros`: classification (in `RxAccepts`) and checksum are
taken on that copy, its 60 bytes are what the buffer holds afterwards (at every
buffer address that the descriptor write-back does not cover), 60 is returned,
and the frame-length field of the status word written back is 60 plus the
trailer allowance (4, or 0 when `MAC_RXCFG_SFCS` is set). The checksum function
is 16-bit and the flag constants lie at or above bit 60. -/
theorem sungem_receive_pads_short_frame (e : Env) (s : SunGEMState) (buf : List Nat)
    (rxmac_cfg max_fsize rx_cond : Nat)
    (hacc : RxAccepts e s buf rxmac_cfg max_fsize rx_cond)
    (hshort : buf.length < 60)
    (hcsum : ∀ l, e.net_raw_checksum l < 2 ^ 16)
    (hH : e.RXDCTRL_HPASS % 2 ^ 60 = 0) (hL : e.RXDCTRL_ALTMAC % 2 ^ 60 = 0) :
    rx_pad buf = buf ++ List.replicate (60 - buf.length) 0 ∧
    (buf ++ List.replicate (60 - buf.length) 0).length = 60 ∧
    ∃ s' sw, sungem_receive e s buf = some (60, s') ∧
      (∀ i, i < 60 →
        ¬ (rx_daddr s ≤ rx_baddr e s + i ∧ rx_baddr e s + i < rx_daddr s + 16) →
        s'.mem (rx_baddr e s + i) = (buf ++ List.replicate (60 - buf.length) 0).getD i 0) ∧
      pci_dma_read s' (rx_daddr s) sizeof_desc = cpu_to_le64 sw ++ rx_desc_buffer s ∧
      (sw >>> 16) &&& 0x7fff = 60 + rx_fcs_size e rxmac_cfg ∧
      (rx_fcs_size e rxmac_cfg = if rxmac_cfg &&& e.MAC_RXCFG_SFCS ≠ 0 then 0 else 4) ∧
      sw &&& 0xffff = rx_csum e s (buf ++ List.replicate (60 - buf.length) 0) ∧
      (sw >>> 44) &&& 0xffff = (e.crc32 (not64 0)
        ((buf ++ List.replicate (60 - buf.length) 0).take 6) % 2 ^ 32) >>> 16 := by
  obtain ⟨hp, hl⟩ := rx_pad_short buf hshort
  have hA := rx_pad_length_bound buf (rx_fcs_size e rxmac_cfg) max_fsize hacc.2.2.2.2.2.1
    (rx_fcs_size_le e rxmac_cfg)
  have hC : e.crc32 (not64 0) ((rx_pad buf).take 6) % 2 ^ 32 < 2 ^ 32 :=
    Nat.mod_lt _ (by norm_num)
  have hS := rx_csum_lt e s (rx_pad buf) hcsum
  obtain ⟨f1, f2, f3, -⟩ := rx_status_word_fields e _ _ _ _ rx_cond hA hC hS hH hL
  have hd : sungem_receive e s buf
      = some (60, rx_delivered e s rxmac_cfg rx_cond (rx_pad buf)) := by
    rw [hacc.delivers, hl]
  have hdesc := rx_delivered_desc e s rxmac_cfg rx_cond (rx_pad buf)
  rw [← hp]
  refine ⟨rfl, hl, rx_delivered e s rxmac_cfg rx_cond (rx_pad buf),
    rx_status_word e (rx_pad buf).length (rx_fcs_size e rxmac_cfg)
      (e.crc32 (not64 0) ((rx_pad buf).take 6) % 2 ^ 32) (rx_csum e s (rx_pad buf)) rx_cond,
    hd, ?_, hdesc, ?_, rfl, f1, f3⟩
  swap
  · rw [f2, hl]
  intro i hi hno
  rw [rx_delivered_mem, if_neg hno, if_pos ⟨by omega, by omega⟩, Nat.add_sub_cancel_left]

/-- Witness for `sungem_receive_pads_short_frame`: the 40-byte frame is written
as 60 bytes and the length field reads 64. -/
theorem sungem_receive_pads_short_frame_witness :
    ∃ s' sw, sungem_receive gemEnv (rxRingState 9 4) fortyByteFrame = some (60, s') ∧
      pci_dma_read s' 0x2000 60 = fortyByteFrame ++ List.replicate 20 0 ∧
      pci_dma_read s' 0x1000 sizeof_desc = cpu_to_le64 sw ++ cpu_to_le64 0x2000 ∧
      (sw >>> 16) &&& 0x7fff = 64 := by
  obtain ⟨-, -, s', sw, a1, a2, a3, a4, -, -, -⟩ :=
    sungem_receive_pads_short_frame gemEnv (rxRingState 9 4) fortyByteFrame 9 1518
      rx_match_promisc (by unfold RxAccepts; decide) (by decide) ref_net_raw_checksum_lt
      (by decide) (by decide)
  have hb : rx_baddr gemEnv (rxRingState 9 4) = 0x2000 := by decide
  have hd : rx_daddr (rxRingState 9 4) = 0x1000 := by decide
  have hdb : rx_desc_buffer (rxRingState 9 4) = cpu_to_le64 0x2000 := by decide
  have hf : rx_fcs_size gemEnv 9 = 4 := by decide
  rw [hb, hd] at a2
  rw [hd, hdb] at a3
  rw [hf] at a4
  have hz : 60 - fortyByteFrame.length = 20 := by decide
  rw [hz] at a2
  refine ⟨s', sw, a1, ?_, a3, a4⟩
  apply List.ext_getElem
  · rw [pci_dma_read_length]; decide
  · intro i h1 h2
    rw [pci_dma_read_length] at h1
    simp only [pci_dma_read, List.getElem_map, List.getElem_range]
    rw [a2 i h1 (by omega), List.getD_eq_getElem _ _ h2]
    have hbytes : ∀ x ∈ fortyByteFrame ++ List.replicate 20 0, x < 256 := by decide
    exact Nat.mod_eq_of_lt (hbytes _ (List.getElem_mem _))

theorem rx_new_done_unmasked (s : SunGEMState) (k : Nat) (hk : k ≤ 32)
    (hm : s.rx_mask + 1 = 2 ^ k) :
    rx_new_done s = (loadCell s (6, 1) + 1) % 2 ^ 32 &&& s.rx_mask := by
  unfold rx_new_done rx_done
  rw [and_ring_mask _ _ k hm, and_ring_mask _ _ k hm, and_ring_mask _ _ k hm,
    Nat.mod_mod_of_dvd _ (pow_dvd_pow 2 hk), Nat.mod_mod_of_dvd _ (pow_dvd_pow 2 hk),
    Nat.mod_add_mod]

/-- C28: on every delivery `sungem_receive` stores
`((RXDMA_DONE & rx_mask) + 1) & rx_mask` in `RXDMA_DONE` (which is
`(RXDMA_DONE + 1) & rx_mask` for a ring mask `2 ^ k - 1`), ORs
`GREG_STAT_RXDONE` into `GREG_STAT`, and ORs `GREG_STAT_RXNOBUF` into it exactly
when the advance made the ring full
(`RXDMA_KICK & rx_mask == (new done + 1) & rx_mask`). No other register and
neither ring mask changes. In guest memory the descriptor slot at the old
`done` cursor is rewritten, with the new status word and its old buffer field,
and apart from that slot and the frame buffer every byte is as before. -/
theorem sungem_receive_advances_ring (e : Env) (s : SunGEMState) (buf : List Nat)
    (rxmac_cfg max_fsize rx_cond : Nat)
    (hacc : RxAccepts e s buf rxmac_cfg max_fsize rx_cond) :
    ∃ s' sw kick done stat, sungem_receive e s buf = some ((rx_pad buf).length, s') ∧
      GET_REG s (RXDMA_KICK + 0x4000) = some kick ∧
      GET_REG s (RXDMA_DONE + 0x4000) = some done ∧
      GET_REG s GREG_STAT = some stat ∧
      GET_REG s' (RXDMA_DONE + 0x4000) = some (((done &&& s.rx_mask) + 1) % 2 ^ 32 &&& s.rx_mask) ∧
      (∀ k, k ≤ 32 → s.rx_mask + 1 = 2 ^ k →
        GET_REG s' (RXDMA_DONE + 0x4000) = some ((done + 1) % 2 ^ 32 &&& s.rx_mask)) ∧
      GET_REG s' GREG_STAT = some (stat |||
        (if kick &&& s.rx_mask =
            ((((done &&& s.rx_mask) + 1) % 2 ^ 32 &&& s.rx_mask) + 1) % 2 ^ 32 &&& s.rx_mask
          then e.GREG_STAT_RXDONE % 2 ^ 32 ||| e.GREG_STAT_RXNOBUF % 2 ^ 32
          else e.GREG_STAT_RXDONE % 2 ^ 32)) ∧
      RegsFrame [(0, 3), (6, 1)] s s' ∧ s'.rx_mask = s.rx_mask ∧ s'.tx_mask = s.tx_mask ∧
      pci_dma_read s' (rx_daddr s) sizeof_desc = cpu_to_le64 sw ++ rx_desc_buffer s ∧
      (∀ a, ¬ (rx_daddr s ≤ a ∧ a < rx_daddr s + 16) →
        ¬ (rx_baddr e s ≤ a ∧ a < rx_baddr e s + (rx_pad buf).length) →
        s'.mem a = s.mem a) := by
  obtain ⟨m1, m2, -, -, -, -, r1, r2, r3⟩ := rx_delivered_fields e s rxmac_cfg rx_cond (rx_pad buf)
  have hints : rx_ints e s =
      (if loadCell s (6, 0) &&& s.rx_mask =
          ((((loadCell s (6, 1) &&& s.rx_mask) + 1) % 2 ^ 32 &&& s.rx_mask) + 1) % 2 ^ 32
            &&& s.rx_mask
        then e.GREG_STAT_RXDONE % 2 ^ 32 ||| e.GREG_STAT_RXNOBUF % 2 ^ 32
        else e.GREG_STAT_RXDONE % 2 ^ 32) := by
    unfold rx_ints sungem_rx_full rx_kick rx_new_done rx_done
    simp only [beq_iff_eq]
  refine ⟨_, _, loadCell s (6, 0), loadCell s (6, 1), loadCell s (0, 3), hacc.delivers,
    GET_REG_RXDMA_KICK s, GET_REG_RXDMA_DONE s, GET_REG_GREG_STAT s, ?_, ?_, ?_, r1, m1, m2,
    rx_delivered_desc e s rxmac_cfg rx_cond (rx_pad buf), ?_⟩
  · rw [GET_REG_RXDMA_DONE, r2]; rfl
  · intro k hk hm
    rw [GET_REG_RXDMA_DONE, r2, rx_new_done_unmasked s k hk hm]
  · rw [GET_REG_GREG_STAT, r3, hints]
  · intro a h1 h2
    rw [rx_delivered_mem, if_neg h1, if_neg h2]

/-- Witness for `sungem_receive_advances_ring`: with the kick cursor at 2 the
delivery moves `RXDMA_DONE` from 0 to 1, which fills the ring, so both
`GREG_STAT_RXDONE` (`0x10`) and `GREG_STAT_RXNOBUF` (`0x20`) are raised. -/
theorem sungem_receive_advances_ring_witness :
    ∃ s', sungem_receive gemEnv (rxRingState 9 2) fortyByteFrame = some (60, s') ∧
      GET_REG s' (RXDMA_DONE + 0x4000) = some 1 ∧ GET_REG s' GREG_STAT = some 0x30 ∧
      ∀ a, ¬ (0x1000 ≤ a ∧ a < 0x1010) → ¬ (0x2000 ≤ a ∧ a < 0x203c) →
        s'.mem a = (rxRingState 9 2).mem a := by
  obtain ⟨s', sw, kick, done, stat, a1, a2, a3, a4, a5, -, a7, -, -, -, -, a12⟩ :=
    sungem_receive_advances_ring gemEnv (rxRingState 9 2) fortyByteFrame 9 1518
      rx_match_promisc (by unfold RxAccepts; decide)
  have hk : GET_REG (rxRingState 9 2) (RXDMA_KICK + 0x4000) = some 2 := by decide
  have hd : GET_REG (rxRingState 9 2) (RXDMA_DONE + 0x4000) = some 0 := by decide
  have hs : GET_REG (rxRingState 9 2) GREG_STAT = some 0 := by decide
  rw [hk, Option.some.injEq] at a2
  rw [hd, Option.some.injEq] at a3
  rw [hs, Option.some.injEq] at a4
  subst a2 a3 a4
  have hl : (rx_pad fortyByteFrame).length = 60 := by decide
  have hb : rx_baddr gemEnv (rxRingState 9 2) = 0x2000 := by decide
  have hda : rx_daddr (rxRingState 9 2) = 0x1000 := by decide
  rw [hl] at a1
  rw [hl, hb, hda] at a12
  exact ⟨s', a1, a5, a7, a12⟩

/-- C23, evaluation: the 40-byte frame is accepted and written into the ring
(`RXDMA_DONE` moves from 0 to 1), and the value returned is 60, the length of
the padded copy, not 40. A frame of 60 bytes or more returns its own length. -/
theorem sungem_receive_returns_padded_length :
    fortyByteFrame.length = 40 ∧
    (sungem_receive gemEnv (rxRingState 9 4) fortyByteFrame).map Prod.fst = some 60 ∧
    (sungem_receive gemEnv (rxRingState 9 4) fortyByteFrame).bind
      (fun r => GET_REG r.2 (RXDMA_DONE + 0x4000)) = some 1 ∧
    (sungem_receive gemEnv (rxRingState 9 4) (List.replicate 61 0)).map Prod.fst = some 61 := by
  decide

theorem u8_of_byte (mac : List Nat) (hb : ∀ x ∈ mac, x < 256) (i : Nat) :
    u8 mac i = mac.getD i 0 := by
  unfold u8
  by_cases h : i < mac.length
  · rw [List.getD_eq_getElem _ _ h]
    exact Nat.mod_eq_of_lt (hb _ (List.getElem_mem _))
  · rw [List.getD_eq_default _ _ (by omega)]

theorem mac_word_be16 (mac : List Nat) (hb : ∀ x ∈ mac, x < 256) (i : Nat) :
    (u8 mac i <<< 8) ||| u8 mac (i + 1) = be16 mac i := by
  have h1 : u8 mac (i + 1) < 2 ^ 8 := Nat.mod_lt _ (by norm_num)
  rw [Nat.shiftLeft_eq, Nat.mul_comm, ← Nat.mul_add_lt_is_or h1, u8_of_byte mac hb,
    u8_of_byte mac hb]
  rfl

theorem be16_eq_ffff (mac : List Nat) (hb : ∀ x ∈ mac, x < 256) (i : Nat) :
    be16 mac i = 0xffff ↔ mac.getD i 0 = 0xff ∧ mac.getD (i + 1) 0 = 0xff := by
  have h0 : mac.getD i 0 < 256 := by rw [← u8_of_byte mac hb]; exact Nat.mod_lt _ (by norm_num)
  have h1 : mac.getD (i + 1) 0 < 256 := by
    rw [← u8_of_byte mac hb]; exact Nat.mod_lt _ (by norm_num)
  unfold be16
  omega

theorem and_one_shift_ne_zero (x n : Nat) : x &&& (1 <<< n) ≠ 0 ↔ x.testBit n = true := by
  rw [Nat.one_shiftLeft, Nat.and_two_pow]
  cases x.testBit n
  · simp
  · simp

set_option maxRecDepth 100000 in
theorem hash_index_spec : ∀ c, c < 256 →
    (c >>> 2) &&& 0x3c = 4 * (c / 16) ∧ c &&& 0xf = c % 16 := by
  decide

theorem crc_hash_fields (crc : Nat) (hcrc : crc < 2 ^ 32) :
    (((crc % 2 ^ 32) >>> 24) >>> 2) &&& 0x3c = 4 * (crc >>> 28) ∧
    ((crc % 2 ^ 32) >>> 24) &&& 0xf = (crc >>> 24) &&& 0xf ∧ crc >>> 28 < 16 := by
  rw [Nat.mod_eq_of_lt hcrc]
  have hlt : crc >>> 24 < 256 := by
    rw [Nat.shiftRight_eq_div_pow]; omega
  obtain ⟨h1, -⟩ := hash_index_spec _ hlt
  rw [h1]
  simp only [Nat.shiftRight_eq_div_pow]
  refine ⟨by omega, trivial, by omega⟩

theorem bcast_iff (mac : List Nat) (hb : ∀ x ∈ mac, x < 256) :
    (be16 mac 4 = 0xffff ∧ be16 mac 2 = 0xffff ∧ be16 mac 0 = 0xffff) ↔
      ∀ i, i < 6 → mac.getD i 0 = 0xff := by
  rw [be16_eq_ffff mac hb, be16_eq_ffff mac hb, be16_eq_ffff mac hb]
  constructor
  · rintro ⟨⟨h4, h5⟩, ⟨h2, h3⟩, h0, h1⟩ i hi
    have : i = 0 ∨ i = 1 ∨ i = 2 ∨ i = 3 ∨ i = 4 ∨ i = 5 := by omega
    rcases this with rfl | rfl | rfl | rfl | rfl | rfl <;> assumption
  · intro h
    exact ⟨⟨h 4 (by omega), h 5 (by omega)⟩, ⟨h 2 (by omega), h 3 (by omega)⟩,
      h 0 (by omega), h 1 (by omega)⟩

theorem mcast_iff (mac : List Nat) (hb : ∀ x ∈ mac, x < 256) :
    u8 mac 0 &&& 1 ≠ 0 ↔ (mac.getD 0 0).testBit 0 = true := by
  rw [u8_of_byte mac hb]
  exact and_one_shift_ne_zero _ 0

/-- The code of `sungem_check_rx_mac` computes the decision list. -/
theorem check_rx_mac_decision (e : Env) (s : SunGEMState) (mac : List Nat) (crc rxcfg : Nat)
    (hash addr : Nat → Nat)
    (hcfg : GET_REG s e.MAC_RXCFG = some rxcfg)
    (hhash : ∀ j, j < 16 → GET_REG s (e.MAC_HASH0 + 4 * j) = some (hash j))
    (h0 : GET_REG s e.MAC_ADDR0 = some (addr 0)) (h1 : GET_REG s e.MAC_ADDR1 = some (addr 1))
    (h2 : GET_REG s e.MAC_ADDR2 = some (addr 2)) (h3 : GET_REG s e.MAC_ADDR3 = some (addr 3))
    (h4 : GET_REG s e.MAC_ADDR4 = some (addr 4)) (h5 : GET_REG s e.MAC_ADDR5 = some (addr 5))
    (hb : ∀ x ∈ mac, x < 256) (hcrc : crc < 2 ^ 32) :
    sungem_check_rx_mac e s mac crc = some (rx_decision e rxcfg hash addr mac crc) := by
  obtain ⟨c1, c2, c3⟩ := crc_hash_fields crc hcrc
  have hw4 := mac_word_be16 mac hb 4
  have hw2 := mac_word_be16 mac hb 2
  have hw0 := mac_word_be16 mac hb 0
  unfold sungem_check_rx_mac rx_decision
  simp only [hcfg, h0, h1, h2, h3, h4, h5, c1, c2, hhash _ c3, hw4, hw2, hw0,
    Option.bind_eq_bind, Option.some_bind, Option.pure_def, bcast_iff mac hb, mcast_iff mac hb,
    and_one_shift_ne_zero]
  by_cases hp : rxcfg &&& e.MAC_RXCFG_PROM ≠ 0
  · rw [if_pos hp, if_pos hp]
  · rw [if_neg hp, if_neg hp]
    by_cases hbc : ∀ i, i < 6 → mac.getD i 0 = 0xff
    · rw [if_pos hbc, if_pos hbc]
    · rw [if_neg hbc, if_neg hbc]
      by_cases hm : (mac.getD 0 0).testBit 0 = true
      · rw [if_pos hm, if_pos hm]
        by_cases hg : rxcfg &&& e.MAC_RXCFG_PGRP ≠ 0
        · rw [if_pos hg, if_pos hg]
        · rw [if_neg hg, if_neg hg]
          by_cases hf : rxcfg &&& e.MAC_RXCFG_HFE ≠ 0
          · rw [if_pos hf]
            by_cases ht : (hash (crc >>> 28)).testBit (15 - ((crc >>> 24) &&& 0xf)) = true
            · rw [if_pos ht, if_pos ⟨hf, ht⟩]
            · rw [if_neg ht, if_neg (fun h => ht h.2)]
          · rw [if_neg hf, if_neg (fun h => hf h.1)]
      · rw [if_neg hm, if_neg hm]
        by_cases ha : be16 mac 4 = addr 0 ∧ be16 mac 2 = addr 1 ∧ be16 mac 0 = addr 2
        · rw [if_pos ha, if_pos ha]
        · rw [if_neg ha, if_neg ha]
          by_cases h3' : be16 mac 4 = addr 3
          · rw [if_pos h3']
            by_cases h4' : be16 mac 2 = addr 4
            · rw [if_pos h4']
              by_cases h5' : be16 mac 0 = addr 5
              · rw [if_pos h5', if_pos ⟨h3', h4', h5'⟩]
              · rw [if_neg h5', if_neg (fun h => h5' h.2.2)]
            · rw [if_neg h4', if_neg (fun h => h4' h.2.1)]
          · rw [if_neg h3', if_neg (fun h => h3' h.1)]

/-- C25: for a destination address of at least six bytes and a 32-bit
address-check value, with the registers it reads decoding,
`sungem_check_rx_mac` returns what the decision list `rx_decision` gives:
promiscuous, else broadcast, else for a multicast address all-multicast, hash
match (bit `15 - ((crc >> 24) & 0xf)` of the hash register at
`MAC_HASH0 + 4 * (crc >> 28)`) or no match, else primary address, else alternate
address, else no match. -/
theorem sungem_check_rx_mac_decision_list (e : Env) (s : SunGEMState) (mac : List Nat)
    (crc rxcfg : Nat) (hash addr : Nat → Nat)
    (hcfg : GET_REG s e.MAC_RXCFG = some rxcfg)
    (hhash : ∀ j, j < 16 → GET_REG s (e.MAC_HASH0 + 4 * j) = some (hash j))
    (h0 : GET_REG s e.MAC_ADDR0 = some (addr 0)) (h1 : GET_REG s e.MAC_ADDR1 = some (addr 1))
    (h2 : GET_REG s e.MAC_ADDR2 = some (addr 2)) (h3 : GET_REG s e.MAC_ADDR3 = some (addr 3))
    (h4 : GET_REG s e.MAC_ADDR4 = some (addr 4)) (h5 : GET_REG s e.MAC_ADDR5 = some (addr 5))
    (hlen : 6 ≤ mac.length) (hb : ∀ x ∈ mac, x < 256) (hcrc : crc < 2 ^ 32) :
    sungem_check_rx_mac e s mac crc = some (rx_decision e rxcfg hash addr mac crc) := by
  have _ := hlen
  exact check_rx_mac_decision e s mac crc rxcfg hash addr hcfg hhash h0 h1 h2 h3 h4 h5 hb hcrc

/-- Witness for `sungem_check_rx_mac_decision_list`: with the hash filter on,
the multicast address `01:00:5e:00:00:01` is a hash match. -/
theorem sungem_check_rx_mac_decision_list_witness :
    sungem_check_rx_mac gemEnv (rxFilterState 0x21 altAddr) mcastAddr 1752589405 =
      some (rx_decision gemEnv 0x21 (fun _ => 0xffff)
        (fun j => [0x3456, 0x0012, 0x5254, 0x0001, 0x0000, 0x0200].getD j 0) mcastAddr
        1752589405) ∧
    rx_decision gemEnv 0x21 (fun _ => 0xffff)
        (fun j => [0x3456, 0x0012, 0x5254, 0x0001, 0x0000, 0x0200].getD j 0) mcastAddr
        1752589405 = rx_match_mcast :=
  ⟨sungem_check_rx_mac_decision_list gemEnv (rxFilterState 0x21 altAddr) mcastAddr 1752589405
      0x21 (fun _ => 0xffff) (fun j => [0x3456, 0x0012, 0x5254, 0x0001, 0x0000, 0x0200].getD j 0)
      (by decide)
      (fun j hj => by
        have : j = 0 ∨ j = 1 ∨ j = 2 ∨ j = 3 ∨ j = 4 ∨ j = 5 ∨ j = 6 ∨ j = 7 ∨ j = 8 ∨ j = 9 ∨
          j = 10 ∨ j = 11 ∨ j = 12 ∨ j = 13 ∨ j = 14 ∨ j = 15 := by omega
        rcases this with h | h | h | h | h | h | h | h | h | h | h | h | h | h | h | h <;>
          subst h <;> decide)
      (by decide) (by decide) (by decide) (by decide) (by decide) (by decide) (by decide)
      (by decide) (by decide),
   by decide⟩

/-- C26 (as the code has it): with promiscuous mode off, a destination address
that is not multicast (bit 0 of its first byte clear), equals the alternate
station address in `MAC_ADDR3..MAC_ADDR5` and does not equal the primary
station address in `MAC_ADDR0..MAC_ADDR2` is classified alternate-unicast,
whatever the hash filter bit, the all-multicast bit and the hash registers
hold. -/
theorem sungem_check_rx_mac_alt_unicast (e : Env) (s : SunGEMState) (mac : List Nat)
    (crc rxcfg a0 a1 a2 : Nat)
    (hcfg : GET_REG s e.MAC_RXCFG = some rxcfg) (hprom : rxcfg &&& e.MAC_RXCFG_PROM = 0)
    (h0 : GET_REG s e.MAC_ADDR0 = some a0) (h1 : GET_REG s e.MAC_ADDR1 = some a1)
    (h2 : GET_REG s e.MAC_ADDR2 = some a2)
    (h3 : GET_REG s e.MAC_ADDR3 = some (be16 mac 4))
    (h4 : GET_REG s e.MAC_ADDR4 = some (be16 mac 2))
    (h5 : GET_REG s e.MAC_ADDR5 = some (be16 mac 0))
    (hb : ∀ x ∈ mac, x < 256)
    (huni : (mac.getD 0 0).testBit 0 = false)
    (hprim : ¬ (be16 mac 4 = a0 ∧ be16 mac 2 = a1 ∧ be16 mac 0 = a2)) :
    sungem_check_rx_mac e s mac crc = some rx_match_altmac := by
  have hw4 := mac_word_be16 mac hb 4
  have hw2 := mac_word_be16 mac hb 2
  have hw0 := mac_word_be16 mac hb 0
  have hnb : ¬ ∀ i, i < 6 → mac.getD i 0 = 0xff := by
    intro h
    rw [h 0 (by omega)] at huni
    exact absurd huni (by decide)
  have hnm : ¬ ((mac.getD 0 0).testBit 0 = true) := by rw [huni]; decide
  unfold sungem_check_rx_mac
  simp only [hcfg, h0, h1, h2, h3, h4, h5, hw4, hw2, hw0, Option.bind_eq_bind,
    Option.some_bind, Option.pure_def, bcast_iff mac hb, mcast_iff mac hb]
  rw [if_neg (by simpa using hprom), if_neg hnb, if_neg hnm, if_neg hprim]
  simp only [if_true]

/-- Witness for `sungem_check_rx_mac_alt_unicast`: the unicast alternate
address `02:00:00:00:00:01`, with the hash filter on and every hash bit set. -/
theorem sungem_check_rx_mac_alt_unicast_witness :
    sungem_check_rx_mac gemEnv (rxFilterState 0x21 altAddr) altAddr
      (gemEnv.crc32 (not64 0) altAddr % 2 ^ 32) = some rx_match_altmac :=
  sungem_check_rx_mac_alt_unicast gemEnv (rxFilterState 0x21 altAddr) altAddr _ 0x21
    0x3456 0x0012 0x5254 (by decide) (by decide) (by decide) (by decide) (by decide)
    (by decide) (by decide) (by decide) (by decide) (by decide) (by decide)

set_option maxRecDepth 100000 in
/-- C26, counterexample: promiscuous mode is off, the hash filter is on, the
hash bit of the address is set and the address equals the alternate station
address, yet a multicast address is classified hash-matched, not
alternate-unicast; and an address that also equals the primary station address
is classified primary-unicast. -/
theorem sungem_check_rx_mac_alt_not_reached :
    (GET_REG (rxFilterState 0x21 mcastAddr) gemEnv.MAC_RXCFG = some 0x21 ∧
      0x21 &&& gemEnv.MAC_RXCFG_PROM = 0 ∧ 0x21 &&& gemEnv.MAC_RXCFG_HFE ≠ 0 ∧
      (GET_REG (rxFilterState 0x21 mcastAddr)
          (gemEnv.MAC_HASH0 + 4 * ((gemEnv.crc32 (not64 0) mcastAddr % 2 ^ 32) >>> 28))).map
        (fun h => h.testBit (15 - (((gemEnv.crc32 (not64 0) mcastAddr % 2 ^ 32) >>> 24) &&& 0xf)))
        = some true ∧
      mcastAddr ≠ List.replicate 6 0xff ∧
      GET_REG (rxFilterState 0x21 mcastAddr) gemEnv.MAC_ADDR3 = some (be16 mcastAddr 4) ∧
      GET_REG (rxFilterState 0x21 mcastAddr) gemEnv.MAC_ADDR4 = some (be16 mcastAddr 2) ∧
      GET_REG (rxFilterState 0x21 mcastAddr) gemEnv.MAC_ADDR5 = some (be16 mcastAddr 0) ∧
      sungem_check_rx_mac gemEnv (rxFilterState 0x21 mcastAddr) mcastAddr
        (gemEnv.crc32 (not64 0) mcastAddr % 2 ^ 32) = some rx_match_mcast ∧
      rx_match_mcast ≠ rx_match_altmac) ∧
    (GET_REG (rxFilterState 0x21 primaryAddr) gemEnv.MAC_ADDR3 = some (be16 primaryAddr 4) ∧
      GET_REG (rxFilterState 0x21 primaryAddr) gemEnv.MAC_ADDR4 = some (be16 primaryAddr 2) ∧
      GET_REG (rxFilterState 0x21 primaryAddr) gemEnv.MAC_ADDR5 = some (be16 primaryAddr 0) ∧
      sungem_check_rx_mac gemEnv (rxFilterState 0x21 primaryAddr) primaryAddr
        (gemEnv.crc32 (not64 0) primaryAddr % 2 ^ 32) = some rx_match_mac ∧
      rx_match_mac ≠ rx_match_altmac) := by
  decide

theorem storeCell_storeCell (s : SunGEMState) (c : Nat × Nat) (v r : Nat) :
    storeCell (storeCell s c v) c r = storeCell s c r := by
  unfold storeCell
  congr 1
  funext b i
  dsimp only
  split <;> rfl

theorem mii_op_storeCell (e : Env) (s : SunGEMState) (c : Nat × Nat) (v x : Nat) :
    sungem_mii_op e (storeCell s c v) x = sungem_mii_op e s x := rfl

/-- A write to `MIF_FRAME` through `sungem_mmio_write` stores the result of
`sungem_mii_op` on the low 32 bits of the value, and nothing else. -/
theorem mmio_write_mif_frame (e : Env) (s : SunGEMState) (v : Nat) (c : Nat × Nat)
    (hc : sungem_get_reg (e.MIF_FRAME % 2 ^ 32) = some c)
    (hprom : e.MIF_FRAME ≤ e.PROM_START)
    (hro : e.MIF_FRAME ∉ [e.MAC_TXRST, e.MAC_RXRST, e.MAC_TXSTAT, e.MAC_RXSTAT, e.MAC_CSTAT,
      e.MAC_PATMPS, e.MAC_SMACHINE, e.MIF_STATUS, e.MIF_SMACHINE, e.PCS_MIISTAT, e.PCS_ISTAT,
      e.PCS_SSTATE])
    (hpre : e.MIF_FRAME ∉ [e.MIF_CFG, e.MAC_MINFSZ])
    (hpost : e.MIF_FRAME ∉ [e.MAC_TXMASK, e.MAC_RXMASK, e.MAC_MCMASK]) :
    sungem_mmio_write e s e.MIF_FRAME v =
      some (storeCell s c (sungem_mii_op e s (v % 2 ^ 32))) := by
  simp only [List.mem_cons, List.mem_singleton, List.not_mem_nil, or_false, not_or] at hro hpre hpost
  unfold sungem_mmio_write
  rw [if_neg (by omega), hc]
  simp only [hro, hpre, hpost, or_self, if_false, if_true]
  rw [storeCell_storeCell, mii_op_storeCell]

/-- C29: for a 32-bit value `v` written to `MIF_FRAME` (an accepted address
below the PROM window, apart from the other case labels of the handler): when
the start tag `v >> 30` is not 1 the stub `sungem_mii_op` returns `0xffff`;
when it is 1 and the opcode is neither 1 nor 2 it returns
`0xffff | MIF_FRAME_TALSB`. In both cases `sungem_mmio_write` returns with that
result stored in the cell of `MIF_FRAME`, where a register load finds it, and
with nothing else changed. -/
theorem sungem_mif_frame_invalid (e : Env) (s : SunGEMState) (v : Nat) (c : Nat × Nat)
    (hv : v < 2 ^ 32)
    (hc : sungem_get_reg (e.MIF_FRAME % 2 ^ 32) = some c)
    (hprom : e.MIF_FRAME ≤ e.PROM_START)
    (hro : e.MIF_FRAME ∉ [e.MAC_TXRST, e.MAC_RXRST, e.MAC_TXSTAT, e.MAC_RXSTAT, e.MAC_CSTAT,
      e.MAC_PATMPS, e.MAC_SMACHINE, e.MIF_STATUS, e.MIF_SMACHINE, e.PCS_MIISTAT, e.PCS_ISTAT,
      e.PCS_SSTATE])
    (hpre : e.MIF_FRAME ∉ [e.MIF_CFG, e.MAC_MINFSZ])
    (hpost : e.MIF_FRAME ∉ [e.MAC_TXMASK, e.MAC_RXMASK, e.MAC_MCMASK]) :
    (v >>> 30 ≠ 1 →
      sungem_mii_op e s v = 0xffff ∧
      sungem_mmio_write e s e.MIF_FRAME v = some (storeCell s c 0xffff) ∧
      GET_REG (storeCell s c 0xffff) e.MIF_FRAME = some 0xffff) ∧
    (v >>> 30 = 1 → ((v &&& e.MIF_FRAME_OP) >>> 28) % 2 ^ 8 ≠ 1 →
      ((v &&& e.MIF_FRAME_OP) >>> 28) % 2 ^ 8 ≠ 2 →
      sungem_mii_op e s v = (0xffff ||| e.MIF_FRAME_TALSB) % 2 ^ 32 ∧
      sungem_mmio_write e s e.MIF_FRAME v =
        some (storeCell s c ((0xffff ||| e.MIF_FRAME_TALSB) % 2 ^ 32)) ∧
      GET_REG (storeCell s c ((0xffff ||| e.MIF_FRAME_TALSB) % 2 ^ 32)) e.MIF_FRAME =
        some ((0xffff ||| e.MIF_FRAME_TALSB) % 2 ^ 32)) := by
  have hw := mmio_write_mif_frame e s v c hc hprom hro hpre hpost
  rw [Nat.mod_eq_of_lt hv] at hw
  have hget : ∀ r, r < 2 ^ 32 → GET_REG (storeCell s c r) e.MIF_FRAME = some r := by
    intro r hr
    unfold GET_REG
    rw [hc]
    simp only [loadCell_storeCell_same, Nat.mod_eq_of_lt hr]
  constructor
  · intro hsof
    have hop : sungem_mii_op e s v = 0xffff := by
      unfold sungem_mii_op
      rw [if_pos hsof]
    rw [hw, hop]
    exact ⟨rfl, rfl, hget _ (by norm_num)⟩
  · intro hsof h1 h2
    have hop : sungem_mii_op e s v = (0xffff ||| e.MIF_FRAME_TALSB) % 2 ^ 32 := by
      unfold sungem_mii_op
      rw [if_neg (by simpa using hsof)]
      dsimp only
      rw [if_neg h1, if_neg h2]
    rw [hw, hop]
    exact ⟨rfl, rfl, hget _ (Nat.mod_lt _ (by norm_num))⟩

/-- Witness for `sungem_mif_frame_invalid`: the GEM layout; the value 0 has
start tag 0, the value `0x40000000` has start tag 1 and opcode 0. -/
theorem sungem_mif_frame_invalid_witness :
    (sungem_mii_op gemEnv zeroState 0 = 0xffff ∧
      sungem_mmio_write gemEnv zeroState gemEnv.MIF_FRAME 0
        = some (storeCell zeroState (8, 3) 0xffff) ∧
      GET_REG (storeCell zeroState (8, 3) 0xffff) gemEnv.MIF_FRAME = some 0xffff) ∧
    (sungem_mii_op gemEnv zeroState 0x40000000
        = (0xffff ||| gemEnv.MIF_FRAME_TALSB) % 2 ^ 32 ∧
      sungem_mmio_write gemEnv zeroState gemEnv.MIF_FRAME 0x40000000 =
        some (storeCell zeroState (8, 3) ((0xffff ||| gemEnv.MIF_FRAME_TALSB) % 2 ^ 32)) ∧
      GET_REG (storeCell zeroState (8, 3) ((0xffff ||| gemEnv.MIF_FRAME_TALSB) % 2 ^ 32))
          gemEnv.MIF_FRAME
        = some ((0xffff ||| gemEnv.MIF_FRAME_TALSB) % 2 ^ 32)) :=
  ⟨(sungem_mif_frame_invalid gemEnv zeroState 0 (8, 3) (by decide) (by decide) (by decide)
      (by decide) (by decide) (by decide)).1 (by decide),
   (sungem_mif_frame_invalid gemEnv zeroState 0x40000000 (8, 3) (by decide) (by decide)
      (by decide) (by decide) (by decide) (by decide)).2 (by decide) (by decide) (by decide)⟩

/-- C30: for a 32-bit value `v` written to `MIF_FRAME` with start tag 1 and
opcode 1 (write), whatever its PHY address, register index and data fields,
`sungem_mmio_write` returns with `v | MIF_FRAME_TALSB` stored in the cell of
`MIF_FRAME` and nothing else changed; the data is discarded: afterwards every
transceiver register reads as before, through `sungem_mii_read` and through
any later management frame. -/
theorem sungem_mif_frame_write_op (e : Env) (s : SunGEMState) (v : Nat) (c : Nat × Nat)
    (hv : v < 2 ^ 32)
    (hc : sungem_get_reg (e.MIF_FRAME % 2 ^ 32) = some c)
    (hprom : e.MIF_FRAME ≤ e.PROM_START)
    (hro : e.MIF_FRAME ∉ [e.MAC_TXRST, e.MAC_RXRST, e.MAC_TXSTAT, e.MAC_RXSTAT, e.MAC_CSTAT,
      e.MAC_PATMPS, e.MAC_SMACHINE, e.MIF_STATUS, e.MIF_SMACHINE, e.PCS_MIISTAT, e.PCS_ISTAT,
      e.PCS_SSTATE])
    (hpre : e.MIF_FRAME ∉ [e.MIF_CFG, e.MAC_MINFSZ])
    (hpost : e.MIF_FRAME ∉ [e.MAC_TXMASK, e.MAC_RXMASK, e.MAC_MCMASK])
    (hsof : v >>> 30 = 1) (hop : ((v &&& e.MIF_FRAME_OP) >>> 28) % 2 ^ 8 = 1) :
    ∃ s', sungem_mmio_write e s e.MIF_FRAME v = some s' ∧
      s' = storeCell s c ((v ||| e.MIF_FRAME_TALSB) % 2 ^ 32) ∧
      GET_REG s' e.MIF_FRAME = some ((v ||| e.MIF_FRAME_TALSB) % 2 ^ 32) ∧
      (∀ phy_addr reg_addr,
        sungem_mii_read e s' phy_addr reg_addr = sungem_mii_read e s phy_addr reg_addr) ∧
      (∀ r, sungem_mii_op e s' r = sungem_mii_op e s r) ∧
      (∀ r, (sungem_mmio_write e s' e.MIF_FRAME r).bind (fun t => GET_REG t e.MIF_FRAME) =
        (sungem_mmio_write e s e.MIF_FRAME r).bind (fun t => GET_REG t e.MIF_FRAME)) := by
  have hw := mmio_write_mif_frame e s v c hc hprom hro hpre hpost
  rw [Nat.mod_eq_of_lt hv] at hw
  have hmii : sungem_mii_op e s v = (v ||| e.MIF_FRAME_TALSB) % 2 ^ 32 := by
    unfold sungem_mii_op
    rw [if_neg (by simpa using hsof)]
    dsimp only
    rw [if_pos hop]
  rw [hmii] at hw
  have hget : ∀ (t : SunGEMState) r, GET_REG (storeCell t c r) e.MIF_FRAME = some (r % 2 ^ 32) := by
    intro t r
    unfold GET_REG
    rw [hc]
    simp only [loadCell_storeCell_same]
  refine ⟨_, hw, rfl, ?_, fun _ _ => rfl, fun _ => rfl, ?_⟩
  · rw [hget, Nat.mod_mod]
  · intro r
    rw [mmio_write_mif_frame e _ r c hc hprom hro hpre hpost,
      mmio_write_mif_frame e s r c hc hprom hro hpre hpost, Option.some_bind, Option.some_bind,
      hget, hget, mii_op_storeCell]

/-- Witness for `sungem_mif_frame_write_op`: the GEM layout and the write frame
`0x50021234` (start tag 1, opcode 1). -/
theorem sungem_mif_frame_write_op_witness :
    ∃ s', sungem_mmio_write gemEnv zeroState gemEnv.MIF_FRAME 0x50021234 = some s' ∧
      GET_REG s' gemEnv.MIF_FRAME = some 0x50031234 ∧
      (∀ phy_addr reg_addr, sungem_mii_read gemEnv s' phy_addr reg_addr
        = sungem_mii_read gemEnv zeroState phy_addr reg_addr) := by
  obtain ⟨s', a1, -, a3, a4, -, -⟩ :=
    sungem_mif_frame_write_op gemEnv zeroState 0x50021234 (8, 3) (by decide) (by decide)
      (by decide) (by decide) (by decide) (by decide) (by decide) (by decide)
  exact ⟨s', a1, a3, a4⟩

theorem and_of_or_disjoint (x y l : Nat) (h : l &&& (x ||| y) = 0) :
    (x ||| y) % 2 ^ 16 &&& l = 0 := by
  apply Nat.eq_of_testBit_eq
  intro i
  have hi := congrArg (fun n => n.testBit i) h
  simp only [Nat.testBit_and, Nat.testBit_or, Nat.zero_testBit] at hi
  simp only [Nat.testBit_and, Nat.testBit_or, Nat.testBit_mod_two_pow, Nat.zero_testBit]
  cases hx : x.testBit i <;> cases hy : y.testBit i <;> cases hL : l.testBit i <;>
    simp_all

theorem and_of_or_contains (w l : Nat) (hl : l < 2 ^ 16)
    (hsub : ∀ i, l.testBit i = true → w.testBit i = true) :
    w % 2 ^ 16 &&& l = l := by
  apply Nat.eq_of_testBit_eq
  intro i
  simp only [Nat.testBit_and, Nat.testBit_mod_two_pow]
  by_cases h16 : i < 16
  · cases hL : l.testBit i
    · simp
    · simp [h16, hsub i hL]
  · have : l.testBit i = false :=
      Nat.testBit_lt_two_pow (lt_of_lt_of_le hl (Nat.pow_le_pow_right (by norm_num) (by omega)))
    simp [this]

/-- The values of `__sungem_mii_read` for the configured PHY address, with
distinct register numbers. -/
theorem mii_read_values (e : Env) (s : SunGEMState) (reg : Nat)
    (hd : [e.MII_BMCR, e.MII_PHYID1, e.MII_PHYID2, e.MII_BMSR, e.MII_ANLPAR, e.MII_ANAR,
      0x18].Nodup) :
    (reg = e.MII_PHYID1 → __sungem_mii_read e s s.phy_addr reg = 0x0040) ∧
    (reg = e.MII_PHYID2 → __sungem_mii_read e s s.phy_addr reg = 0x6210) ∧
    (reg = e.MII_BMCR → __sungem_mii_read e s s.phy_addr reg = 0) ∧
    (reg = e.MII_ANAR ∨ reg = e.MII_ANLPAR →
      __sungem_mii_read e s s.phy_addr reg = e.MII_ANLPAR_TXFD % 2 ^ 16) ∧
    (reg = 0x18 → __sungem_mii_read e s s.phy_addr reg = 3) ∧
    (reg = e.MII_BMSR → __sungem_mii_read e s s.phy_addr reg =
      if s.link_down then (e.MII_BMSR_100TX_FD ||| e.MII_BMSR_AUTONEG) % 2 ^ 16
      else (e.MII_BMSR_100TX_FD ||| e.MII_BMSR_AN_COMP ||| e.MII_BMSR_AUTONEG |||
        e.MII_BMSR_LINK_ST) % 2 ^ 16) ∧
    (reg ∉ [e.MII_BMCR, e.MII_PHYID1, e.MII_PHYID2, e.MII_BMSR, e.MII_ANLPAR, e.MII_ANAR,
      0x18] → __sungem_mii_read e s s.phy_addr reg = 0) := by
  simp only [List.nodup_cons, List.mem_cons, List.mem_singleton, List.not_mem_nil, or_false,
    not_or, List.nodup_nil, and_true] at hd
  obtain ⟨⟨a1, a2, a3, a4, a5, a6⟩, ⟨b2, b3, b4, b5, b6⟩, ⟨c3, c4, c5, c6⟩, ⟨d4, d5, d6⟩,
    ⟨f5, f6⟩, g6⟩ := hd
  unfold __sungem_mii_read
  rw [if_neg (by simp)]
  refine ⟨?_, ?_, ?_, ?_, ?_, ?_, ?_⟩
  · rintro rfl
    rw [if_neg (Ne.symm a1), if_pos rfl]
  · rintro rfl
    rw [if_neg (Ne.symm a2), if_neg (Ne.symm b2), if_pos rfl]
  · rintro rfl
    rw [if_pos rfl]
  · rintro (rfl | rfl)
    · rw [if_neg (Ne.symm a5), if_neg (Ne.symm b5), if_neg (Ne.symm c5), if_neg (Ne.symm d5),
        if_pos (Or.inr rfl)]
    · rw [if_neg (Ne.symm a4), if_neg (Ne.symm b4), if_neg (Ne.symm c4), if_neg (Ne.symm d4),
        if_pos (Or.inl rfl)]
  · rintro rfl
    rw [if_neg (Ne.symm a6), if_neg (Ne.symm b6), if_neg (Ne.symm c6), if_neg (Ne.symm d6),
      if_neg (by
        rintro (h | h)
        · exact f6 h.symm
        · exact g6.1 h.symm), if_pos rfl]
  · rintro rfl
    rw [if_neg (Ne.symm a3), if_neg (Ne.symm b3), if_neg (Ne.symm c3), if_pos rfl]
  · intro hn
    simp only [List.mem_cons, List.mem_singleton, List.not_mem_nil, or_false, not_or] at hn
    obtain ⟨n1, n2, n3, n4, n5, n6, n7⟩ := hn
    rw [if_neg n1, if_neg n2, if_neg n3, if_neg n4, if_neg (not_or.mpr ⟨n5, n6⟩), if_neg n7]

/-- C31: for a 32-bit value `v` written to `MIF_FRAME` with start tag 1, opcode
2 (read) and the PHY address field equal to the configured `phy_addr`,
`sungem_mmio_write` returns with `d | MIF_FRAME_TALSB` stored in the cell of
`MIF_FRAME` and nothing else changed, where `d`, for the register index `reg`
of `v`, is `0x0040` for `MII_PHYID1`, `0x6210` for `MII_PHYID2`, 0 for
`MII_BMCR`, `MII_ANLPAR_TXFD` for `MII_ANAR` and `MII_ANLPAR`, 3 for `0x18`, 0
for every other index except `MII_BMSR`, and for `MII_BMSR` a value in which
`MII_BMSR_LINK_ST` and `MII_BMSR_AN_COMP` are set when the link is up and clear
when it is down. The register numbers are distinct, and the two link bits are
16-bit and apart from the two bits that are always reported. -/
theorem sungem_mif_frame_read_op (e : Env) (s : SunGEMState) (v : Nat) (c : Nat × Nat)
    (hv : v < 2 ^ 32)
    (hc : sungem_get_reg (e.MIF_FRAME % 2 ^ 32) = some c)
    (hprom : e.MIF_FRAME ≤ e.PROM_START)
    (hro : e.MIF_FRAME ∉ [e.MAC_TXRST, e.MAC_RXRST, e.MAC_TXSTAT, e.MAC_RXSTAT, e.MAC_CSTAT,
      e.MAC_PATMPS, e.MAC_SMACHINE, e.MIF_STATUS, e.MIF_SMACHINE, e.PCS_MIISTAT, e.PCS_ISTAT,
      e.PCS_SSTATE])
    (hpre : e.MIF_FRAME ∉ [e.MIF_CFG, e.MAC_MINFSZ])
    (hpost : e.MIF_FRAME ∉ [e.MAC_TXMASK, e.MAC_RXMASK, e.MAC_MCMASK])
    (hsof : v >>> 30 = 1) (hop : ((v &&& e.MIF_FRAME_OP) >>> 28) % 2 ^ 8 = 2)
    (hphy : ((v &&& e.MIF_FRAME_PHYAD) >>> 23) % 2 ^ 8 = s.phy_addr)
    (hd : [e.MII_BMCR, e.MII_PHYID1, e.MII_PHYID2, e.MII_BMSR, e.MII_ANLPAR, e.MII_ANAR,
      0x18].Nodup)
    (hl : e.MII_BMSR_LINK_ST < 2 ^ 16) (ha : e.MII_BMSR_AN_COMP < 2 ^ 16)
    (hl0 : e.MII_BMSR_LINK_ST &&& (e.MII_BMSR_100TX_FD ||| e.MII_BMSR_AUTONEG) = 0)
    (ha0 : e.MII_BMSR_AN_COMP &&& (e.MII_BMSR_100TX_FD ||| e.MII_BMSR_AUTONEG) = 0) :
    ∃ d reg, reg = ((v &&& e.MIF_FRAME_REGAD) >>> 18) % 2 ^ 8 ∧
      d = sungem_mii_read e s s.phy_addr reg ∧
      sungem_mmio_write e s e.MIF_FRAME v =
        some (storeCell s c ((d ||| e.MIF_FRAME_TALSB) % 2 ^ 32)) ∧
      GET_REG (storeCell s c ((d ||| e.MIF_FRAME_TALSB) % 2 ^ 32)) e.MIF_FRAME =
        some ((d ||| e.MIF_FRAME_TALSB) % 2 ^ 32) ∧
      (reg = e.MII_PHYID1 → d = 0x0040) ∧ (reg = e.MII_PHYID2 → d = 0x6210) ∧
      (reg = e.MII_BMCR → d = 0) ∧
      (reg = e.MII_ANAR ∨ reg = e.MII_ANLPAR → d = e.MII_ANLPAR_TXFD % 2 ^ 16) ∧
      (reg = 0x18 → d = 3) ∧
      (reg = e.MII_BMSR → s.link_down = false →
        d &&& e.MII_BMSR_LINK_ST = e.MII_BMSR_LINK_ST ∧
        d &&& e.MII_BMSR_AN_COMP = e.MII_BMSR_AN_COMP) ∧
      (reg = e.MII_BMSR → s.link_down = true →
        d &&& e.MII_BMSR_LINK_ST = 0 ∧ d &&& e.MII_BMSR_AN_COMP = 0) ∧
      (reg ∉ [e.MII_BMCR, e.MII_PHYID1, e.MII_PHYID2, e.MII_BMSR, e.MII_ANLPAR, e.MII_ANAR,
        0x18] → d = 0) := by
  have hw := mmio_write_mif_frame e s v c hc hprom hro hpre hpost
  rw [Nat.mod_eq_of_lt hv] at hw
  have hmii : sungem_mii_op e s v =
      (sungem_mii_read e s s.phy_addr (((v &&& e.MIF_FRAME_REGAD) >>> 18) % 2 ^ 8) |||
        e.MIF_FRAME_TALSB) % 2 ^ 32 := by
    unfold sungem_mii_op
    rw [if_neg (by simpa using hsof)]
    dsimp only
    rw [hop, hphy, if_neg (by decide), if_pos rfl]
  rw [hmii] at hw
  obtain ⟨r1, r2, r3, r4, r5, r6, r7⟩ :=
    mii_read_values e s (((v &&& e.MIF_FRAME_REGAD) >>> 18) % 2 ^ 8) hd
  have hget : GET_REG (storeCell s c
      ((sungem_mii_read e s s.phy_addr (((v &&& e.MIF_FRAME_REGAD) >>> 18) % 2 ^ 8) |||
        e.MIF_FRAME_TALSB) % 2 ^ 32)) e.MIF_FRAME =
      some ((sungem_mii_read e s s.phy_addr (((v &&& e.MIF_FRAME_REGAD) >>> 18) % 2 ^ 8) |||
        e.MIF_FRAME_TALSB) % 2 ^ 32) := by
    unfold GET_REG
    rw [hc]
    simp only [loadCell_storeCell_same, Nat.mod_mod]
  refine ⟨_, _, rfl, rfl, hw, hget, r1, r2, r3, r4, r5, ?_, ?_, r7⟩
  · intro hr hup
    show __sungem_mii_read e s s.phy_addr _ &&& _ = _ ∧ __sungem_mii_read e s s.phy_addr _ &&& _ = _
    rw [r6 hr, hup]
    simp only [Bool.false_eq_true, if_false]
    refine ⟨and_of_or_contains _ _ hl ?_, and_of_or_contains _ _ ha ?_⟩
    · intro i hi
      simp only [Nat.testBit_or, hi, Bool.or_true]
    · intro i hi
      simp only [Nat.testBit_or, hi, Bool.or_true, Bool.true_or]
  · intro hr hdown
    show __sungem_mii_read e s s.phy_addr _ &&& _ = _ ∧ __sungem_mii_read e s s.phy_addr _ &&& _ = _
    rw [r6 hr, hdown]
    simp only [if_true]
    exact ⟨and_of_or_disjoint _ _ _ hl0, and_of_or_disjoint _ _ _ ha0⟩

/-- Witness for `sungem_mif_frame_read_op`: the GEM layout, PHY address 0, and
the read frame `0x60080000` for register 2 (`MII_PHYID1`): `0x0040` with the
acknowledgement bit is stored. -/
theorem sungem_mif_frame_read_op_witness :
    sungem_mmio_write gemEnv zeroState gemEnv.MIF_FRAME 0x60080000 =
      some (storeCell zeroState (8, 3) 0x10040) ∧
    GET_REG (storeCell zeroState (8, 3) 0x10040) gemEnv.MIF_FRAME = some 0x10040 := by
  obtain ⟨d, reg, a1, a2, a3, a4, a5, -⟩ :=
    sungem_mif_frame_read_op gemEnv zeroState 0x60080000 (8, 3) (by decide) (by decide)
      (by decide) (by decide) (by decide) (by decide) (by decide) (by decide) (by decide)
      (by decide) (by decide) (by decide) (by decide) (by decide)
  have hreg : reg = gemEnv.MII_PHYID1 := by rw [a1]; decide
  have hd := a5 hreg
  subst hd
  exact ⟨a3, a4⟩

theorem SET_REG_of {r : Nat} {c : Nat × Nat} (h : sungem_get_reg (r % 2 ^ 32) = some c)
    (s : SunGEMState) (v : Nat) : SET_REG s r v = some (storeCell s c v) := by
  unfold SET_REG; rw [h]

theorem GET_REG_of {r : Nat} {c : Nat × Nat} (h : sungem_get_reg (r % 2 ^ 32) = some c)
    (s : SunGEMState) : GET_REG s r = some (loadCell s c) := by
  unfold GET_REG; rw [h]

theorem update_masks_eq (e : Env) (s : SunGEMState) :
    sungem_update_masks e s = some (masks_updated e s) := by
  unfold sungem_update_masks masks_updated ring_mask
  have h : ∀ x : Nat, loadCell { s with rx_mask := x } (2, 1) = loadCell s (2, 1) :=
    fun _ => rfl
  simp only [GET_REG_RXDMA_CFG, GET_REG_TXDMA_CFG, Option.bind_eq_bind, Option.some_bind,
    Option.pure_def, h]

theorem reset_rx_eq (e : Env) (s : SunGEMState) :
    sungem_reset_rx e s = some (rx_reset_state e s) := by
  unfold sungem_reset_rx rx_reset_state rx_reset_regs
  simp only [SET_REG_of (show sungem_get_reg ((RXDMA_FSZ + 0x4000) % 2 ^ 32) = some (6, 8) by decide),
    SET_REG_RXDMA_DONE,
    SET_REG_of (show sungem_get_reg ((RXDMA_KICK + 0x4000) % 2 ^ 32) = some (6, 0) by decide),
    SET_REG_of (show sungem_get_reg ((RXDMA_CFG + 0x4000) % 2 ^ 32) = some (5, 0) by decide),
    SET_REG_of (show sungem_get_reg ((RXDMA_PTHRESH + 0x4000) % 2 ^ 32) = some (5, 8) by decide),
    SET_REG_of (show sungem_get_reg ((RXDMA_BLANK + 0x4000) % 2 ^ 32) = some (6, 2) by decide),
    Option.bind_eq_bind, Option.some_bind, update_masks_eq]

theorem reset_tx_eq (e : Env) (s : SunGEMState) :
    sungem_reset_tx e s = some (tx_reset_state e s) := by
  unfold sungem_reset_tx tx_reset_state tx_reset_regs
  simp only [SET_REG_of (show sungem_get_reg ((TXDMA_FSZ + 0x2000) % 2 ^ 32) = some (3, 6) by decide),
    SET_REG_TXDONE,
    SET_REG_of (show sungem_get_reg ((TXDMA_KICK + 0x2000) % 2 ^ 32) = some (2, 0) by decide),
    SET_REG_of (show sungem_get_reg ((TXDMA_CFG + 0x2000) % 2 ^ 32) = some (2, 1) by decide),
    Option.bind_eq_bind, Option.some_bind, update_masks_eq, Option.pure_def]

theorem masks_updated_regs (e : Env) (s : SunGEMState) :
    (masks_updated e s).regs = s.regs := by
  unfold masks_updated
  exact rfl

theorem loadCell_masks_updated (e : Env) (s : SunGEMState) (c : Nat × Nat) :
    loadCell (masks_updated e s) c = loadCell s c := by
  unfold loadCell
  rw [masks_updated_regs]

theorem rx_reset_regs_cells (s : SunGEMState) :
    loadCell (rx_reset_regs s) (6, 8) = 0x140 ∧ loadCell (rx_reset_regs s) (6, 1) = 0 ∧
    loadCell (rx_reset_regs s) (6, 0) = 0 ∧ loadCell (rx_reset_regs s) (5, 0) = 0x1000010 ∧
    loadCell (rx_reset_regs s) (5, 8) = 0xf8 ∧ loadCell (rx_reset_regs s) (6, 2) = 0 ∧
    ∀ c, c ∉ [(6, 8), (6, 1), (6, 0), (5, 0), (5, 8), (6, 2)] →
      loadCell (rx_reset_regs s) c = loadCell s c := by
  unfold rx_reset_regs
  refine ⟨?_, ?_, ?_, ?_, ?_, ?_, ?_⟩
  · simp [loadCell, storeCell]
  · simp [loadCell, storeCell]
  · simp [loadCell, storeCell]
  · simp [loadCell, storeCell]
  · simp [loadCell, storeCell]
  · simp [loadCell, storeCell]
  · intro c hc
    simp only [List.mem_cons, List.mem_singleton, List.not_mem_nil, or_false, not_or] at hc
    obtain ⟨h1, h2, h3, h4, h5, h6⟩ := hc
    rw [loadCell_storeCell_ne _ _ _ _ h6, loadCell_storeCell_ne _ _ _ _ h5,
      loadCell_storeCell_ne _ _ _ _ h4, loadCell_storeCell_ne _ _ _ _ h3,
      loadCell_storeCell_ne _ _ _ _ h2, loadCell_storeCell_ne _ _ _ _ h1]

theorem tx_reset_regs_cells (s : SunGEMState) :
    loadCell (tx_reset_regs s) (3, 6) = 0x90 ∧ loadCell (tx_reset_regs s) (3, 0) = 0 ∧
    loadCell (tx_reset_regs s) (2, 0) = 0 ∧ loadCell (tx_reset_regs s) (2, 1) = 0x118010 ∧
    ∀ c, c ∉ [(3, 6), (3, 0), (2, 0), (2, 1)] →
      loadCell (tx_reset_regs s) c = loadCell s c := by
  unfold tx_reset_regs
  refine ⟨?_, ?_, ?_, ?_, ?_⟩
  · simp [loadCell, storeCell]
  · simp [loadCell, storeCell]
  · simp [loadCell, storeCell]
  · simp [loadCell, storeCell]
  · intro c hc
    simp only [List.mem_cons, List.mem_singleton, List.not_mem_nil, or_false, not_or] at hc
    obtain ⟨h1, h2, h3, h4⟩ := hc
    rw [loadCell_storeCell_ne _ _ _ _ h4, loadCell_storeCell_ne _ _ _ _ h3,
      loadCell_storeCell_ne _ _ _ _ h2, loadCell_storeCell_ne _ _ _ _ h1]

theorem ring_mask_lt (cfg ringsz : Nat) : ring_mask cfg ringsz < 2 ^ 32 :=
  Nat.mod_lt _ (Nat.pow_pos (by decide))

theorem rx_reset_state_cells (e : Env) (s : SunGEMState) :
    loadCell (rx_reset_state e s) (6, 8) = 0x140 ∧ loadCell (rx_reset_state e s) (6, 1) = 0 ∧
    loadCell (rx_reset_state e s) (6, 0) = 0 ∧ loadCell (rx_reset_state e s) (5, 0) = 0x1000010 ∧
    loadCell (rx_reset_state e s) (5, 8) = 0xf8 ∧ loadCell (rx_reset_state e s) (6, 2) = 0 ∧
    ∀ c, c ∉ [(6, 8), (6, 1), (6, 0), (5, 0), (5, 8), (6, 2)] →
      loadCell (rx_reset_state e s) c = loadCell s c := by
  unfold rx_reset_state
  simp only [loadCell_masks_updated]
  exact rx_reset_regs_cells s

theorem tx_reset_state_regs (e : Env) (s : SunGEMState) :
    (tx_reset_state e s).regs = (tx_reset_regs s).regs := by
  unfold tx_reset_state masks_updated
  exact rfl

theorem loadCell_tx_reset_state (e : Env) (s : SunGEMState) (c : Nat × Nat) :
    loadCell (tx_reset_state e s) c = loadCell (tx_reset_regs s) c := by
  unfold loadCell
  rw [tx_reset_state_regs]

theorem tx_reset_state_cells (e : Env) (s : SunGEMState) :
    loadCell (tx_reset_state e s) (3, 6) = 0x90 ∧ loadCell (tx_reset_state e s) (3, 0) = 0 ∧
    loadCell (tx_reset_state e s) (2, 0) = 0 ∧ loadCell (tx_reset_state e s) (2, 1) = 0x118010 ∧
    ∀ c, c ∉ [(3, 6), (3, 0), (2, 0), (2, 1)] →
      loadCell (tx_reset_state e s) c = loadCell s c := by
  simp only [loadCell_tx_reset_state]
  exact tx_reset_regs_cells s

theorem rx_reset_state_masks (e : Env) (s : SunGEMState) :
    (rx_reset_state e s).rx_mask = ring_mask 0x1000010 e.RXDMA_CFG_RINGSZ ∧
    (rx_reset_state e s).tx_mask = ring_mask (loadCell s (2, 1)) e.TXDMA_CFG_RINGSZ := by
  have h1 : (rx_reset_state e s).rx_mask =
      ring_mask (loadCell (rx_reset_regs s) (5, 0)) e.RXDMA_CFG_RINGSZ := by
    unfold rx_reset_state masks_updated
    exact rfl
  have h2 : (rx_reset_state e s).tx_mask =
      ring_mask (loadCell (rx_reset_regs s) (2, 1)) e.TXDMA_CFG_RINGSZ := by
    unfold rx_reset_state masks_updated
    exact rfl
  rw [h1, h2, (rx_reset_regs_cells s).2.2.2.1,
    (rx_reset_regs_cells s).2.2.2.2.2.2 (2, 1) (by decide)]
  exact ⟨rfl, rfl⟩

theorem tx_reset_state_masks (e : Env) (s : SunGEMState) :
    (tx_reset_state e s).tx_mask = ring_mask 0x118010 e.TXDMA_CFG_RINGSZ ∧
    (tx_reset_state e s).rx_mask = ring_mask (loadCell s (5, 0)) e.RXDMA_CFG_RINGSZ ∧
    (tx_reset_state e s).tx_size = 0 ∧ (tx_reset_state e s).tx_first_ctl = 0 := by
  have h1 : (tx_reset_state e s).tx_mask =
      ring_mask (loadCell (tx_reset_regs s) (2, 1)) e.TXDMA_CFG_RINGSZ := by
    unfold tx_reset_state masks_updated
    exact rfl
  have h2 : (tx_reset_state e s).rx_mask =
      ring_mask (loadCell (tx_reset_regs s) (5, 0)) e.RXDMA_CFG_RINGSZ := by
    unfold tx_reset_state masks_updated
    exact rfl
  have h3 : (tx_reset_state e s).tx_size = 0 := by
    unfold tx_reset_state
    exact rfl
  have h4 : (tx_reset_state e s).tx_first_ctl = 0 := by
    unfold tx_reset_state
    exact rfl
  rw [h1, h2, (tx_reset_regs_cells s).2.2.2.1,
    (tx_reset_regs_cells s).2.2.2.2 (5, 0) (by decide)]
  exact ⟨rfl, rfl, h3, h4⟩

theorem GET_REG_some_of_decodes (s : SunGEMState) (r : Nat)
    (h : sungem_get_reg (r % 2 ^ 32) ≠ none) : ∃ v, GET_REG s r = some v := by
  obtain ⟨c, hc⟩ := Option.ne_none_iff_exists'.mp h
  exact ⟨_, GET_REG_of hc s⟩

theorem masks_updated_of_cells (e : Env) (s t : SunGEMState)
    (h1 : loadCell t (5, 0) = loadCell s (5, 0)) (h2 : loadCell t (2, 1) = loadCell s (2, 1))
    (h3 : t.rx_mask = ring_mask (loadCell s (5, 0)) e.RXDMA_CFG_RINGSZ)
    (h4 : t.tx_mask = ring_mask (loadCell s (2, 1)) e.TXDMA_CFG_RINGSZ) :
    masks_updated e t = t := by
  unfold masks_updated
  rw [h1, h2, ← h3, ← h4]

theorem rx_reset_state_masks_fixed (e : Env) (s : SunGEMState) :
    masks_updated e (rx_reset_state e s) = rx_reset_state e s := by
  apply masks_updated_of_cells e (rx_reset_regs s)
  · exact loadCell_masks_updated e _ _
  · exact loadCell_masks_updated e _ _
  · unfold rx_reset_state masks_updated
    exact rfl
  · unfold rx_reset_state masks_updated
    exact rfl

theorem tx_reset_state_masks_fixed (e : Env) (s : SunGEMState) :
    masks_updated e (tx_reset_state e s) = tx_reset_state e s := by
  apply masks_updated_of_cells e (tx_reset_regs s)
  · exact loadCell_tx_reset_state e _ _
  · exact loadCell_tx_reset_state e _ _
  · unfold tx_reset_state masks_updated
    exact rfl
  · unfold tx_reset_state masks_updated
    exact rfl

theorem can_receive_rx_reset (e : Env) (s : SunGEMState)
    (hrx : sungem_get_reg (e.MAC_RXCFG % 2 ^ 32) ≠ none)
    (hre : 0x1000010 &&& e.RXDMA_CFG_ENABLE = 0) :
    sungem_can_receive e (rx_reset_state e s) = some false := by
  obtain ⟨v, hv⟩ := GET_REG_some_of_decodes (rx_reset_state e s) _ hrx
  rw [sungem_can_receive_eq e _ v hv, (rx_reset_state_cells e s).2.2.2.1]
  simp only [hre, true_or, or_true, not_true_eq_false, decide_False]

theorem tx_kick_tx_reset (e : Env) (s : SunGEMState)
    (htx : sungem_get_reg (e.MAC_TXCFG % 2 ^ 32) ≠ none)
    (hte : 0x118010 &&& e.TXDMA_CFG_ENABLE = 0) :
    sungem_tx_kick e (tx_reset_state e s) = some (tx_reset_state e s) := by
  obtain ⟨v, hv⟩ := GET_REG_some_of_decodes (tx_reset_state e s) _ htx
  unfold sungem_tx_kick
  rw [GET_REG_TXDMA_CFG, hv, (tx_reset_state_cells e s).2.2.2.1]
  simp only [Option.bind_eq_bind, Option.some_bind]
  rw [if_pos (Or.inl hte)]
  rfl

/-- C32: `sungem_reset_rx` returns a state with `RXDMA_FSZ = 0x140`,
`RXDMA_DONE = 0`, `RXDMA_KICK = 0`, `RXDMA_CFG = 0x1000010` and `rx_mask`
recomputed from that configuration; `sungem_reset_tx` returns a state with
`TXDMA_FSZ = 0x90`, `TXDMA_TXDONE = 0`, `TXDMA_KICK = 0`, `TXDMA_CFG = 0x118010`,
`tx_mask` recomputed, `tx_size = 0` and `tx_first_ctl = 0`. When the enable bit
of each configuration register is not a bit of its reset value and the two MAC
configuration registers decode, the reset ring is empty (kick equals done),
`sungem_can_receive` returns false after the RX reset and `sungem_tx_kick`
returns the state as it is after the TX reset. -/
theorem sungem_reset_rx_tx_values (e : Env) (s : SunGEMState)
    (hrx : sungem_get_reg (e.MAC_RXCFG % 2 ^ 32) ≠ none)
    (htx : sungem_get_reg (e.MAC_TXCFG % 2 ^ 32) ≠ none)
    (hre : 0x1000010 &&& e.RXDMA_CFG_ENABLE = 0)
    (hte : 0x118010 &&& e.TXDMA_CFG_ENABLE = 0) :
    (∃ r, sungem_reset_rx e s = some r ∧
      GET_REG r (RXDMA_FSZ + 0x4000) = some 0x140 ∧
      GET_REG r (RXDMA_DONE + 0x4000) = some 0 ∧
      GET_REG r (RXDMA_KICK + 0x4000) = some 0 ∧
      GET_REG r (RXDMA_CFG + 0x4000) = some 0x1000010 ∧
      r.rx_mask = ring_mask 0x1000010 e.RXDMA_CFG_RINGSZ ∧
      sungem_update_masks e r = some r ∧
      GET_REG r (RXDMA_KICK + 0x4000) = GET_REG r (RXDMA_DONE + 0x4000) ∧
      sungem_can_receive e r = some false) ∧
    (∃ t, sungem_reset_tx e s = some t ∧
      GET_REG t (TXDMA_FSZ + 0x2000) = some 0x90 ∧
      GET_REG t (TXDMA_TXDONE + 0x2000) = some 0 ∧
      GET_REG t (TXDMA_KICK + 0x2000) = some 0 ∧
      GET_REG t (TXDMA_CFG + 0x2000) = some 0x118010 ∧
      t.tx_mask = ring_mask 0x118010 e.TXDMA_CFG_RINGSZ ∧
      t.tx_size = 0 ∧ t.tx_first_ctl = 0 ∧
      sungem_update_masks e t = some t ∧
      GET_REG t (TXDMA_KICK + 0x2000) = GET_REG t (TXDMA_TXDONE + 0x2000) ∧
      sungem_tx_kick e t = some t) := by
  have hr := rx_reset_state_cells e s
  have ht := tx_reset_state_cells e s
  refine ⟨⟨_, reset_rx_eq e s, ?_, ?_, ?_, ?_, (rx_reset_state_masks e s).1, ?_, ?_,
    can_receive_rx_reset e s hrx hre⟩,
    ⟨_, reset_tx_eq e s, ?_, ?_, ?_, ?_, (tx_reset_state_masks e s).1,
      (tx_reset_state_masks e s).2.2.1, (tx_reset_state_masks e s).2.2.2, ?_, ?_,
      tx_kick_tx_reset e s htx hte⟩⟩
  · rw [GET_REG_of (show sungem_get_reg ((RXDMA_FSZ + 0x4000) % 2 ^ 32) = some (6, 8) by decide),
      hr.1]
  · rw [GET_REG_RXDMA_DONE, hr.2.1]
  · rw [GET_REG_RXDMA_KICK, hr.2.2.1]
  · rw [GET_REG_RXDMA_CFG, hr.2.2.2.1]
  · rw [update_masks_eq, rx_reset_state_masks_fixed]
  · rw [GET_REG_RXDMA_KICK, GET_REG_RXDMA_DONE, hr.2.2.1, hr.2.1]
  · rw [GET_REG_of (show sungem_get_reg ((TXDMA_FSZ + 0x2000) % 2 ^ 32) = some (3, 6) by decide),
      ht.1]
  · rw [GET_REG_TXDONE, ht.2.1]
  · rw [GET_REG_TXDMA_KICK, ht.2.2.1]
  · rw [GET_REG_TXDMA_CFG, ht.2.2.2.1]
  · rw [update_masks_eq, tx_reset_state_masks_fixed]
  · rw [GET_REG_TXDMA_KICK, GET_REG_TXDONE, ht.2.2.1, ht.2.1]

/-- Witness for `sungem_reset_rx_tx_values`: the reference constants and the
cleared device. -/
theorem sungem_reset_rx_tx_values_witness :
    (∃ r, sungem_reset_rx gemEnv zeroState = some r ∧
      GET_REG r (RXDMA_CFG + 0x4000) = some 0x1000010 ∧ r.rx_mask = 8191 ∧
      sungem_can_receive gemEnv r = some false) ∧
    (∃ t, sungem_reset_tx gemEnv zeroState = some t ∧
      GET_REG t (TXDMA_CFG + 0x2000) = some 0x118010 ∧ t.tx_mask = 8191 ∧
      sungem_tx_kick gemEnv t = some t) := by
  have h := sungem_reset_rx_tx_values gemEnv zeroState (by decide) (by decide) (by decide)
    (by decide)
  obtain ⟨⟨r, a1, _, _, _, a5, a6, _, _, a9⟩, ⟨t, b1, _, _, _, b5, b6, _, _, _, _, b11⟩⟩ := h
  exact ⟨⟨r, a1, a5, a6.trans (by decide), a9⟩, ⟨t, b1, b5, b6.trans (by decide), b11⟩⟩

theorem reset_all_bus_eq (e : Env) (s : SunGEMState) (c0 c1 c2 cm : Nat × Nat)
    (h0 : sungem_get_reg (e.MAC_ADDR0 % 2 ^ 32) = some c0)
    (h1 : sungem_get_reg (e.MAC_ADDR1 % 2 ^ 32) = some c1)
    (h2 : sungem_get_reg (e.MAC_ADDR2 % 2 ^ 32) = some c2)
    (hm : sungem_get_reg (e.MIF_CFG % 2 ^ 32) = some cm) :
    sungem_reset_all e s true =
      some (storeCell (storeCell (storeCell (storeCell (storeCell (reset_all_common e s)
        (1, 4) 0) c0 (mac_word s.macaddr 4)) c1 (mac_word s.macaddr 2))
        c2 (mac_word s.macaddr 0)) cm e.MIF_CFG_MDI0) := by
  unfold sungem_reset_all reset_all_common mac_word
  simp only [reset_rx_eq, reset_tx_eq, Option.bind_eq_bind, Option.some_bind,
    SET_REG_of (show sungem_get_reg (GREG_IMASK % 2 ^ 32) = some (0, 4) by decide),
    SET_REG_GREG_STAT,
    SET_REG_of (show sungem_get_reg (GREG_SWRST % 2 ^ 32) = some (1, 4) by decide),
    SET_REG_of h0, SET_REG_of h1, SET_REG_of h2, SET_REG_of hm, if_true]
  rfl

theorem reset_all_soft_eq (e : Env) (s : SunGEMState) (cm : Nat × Nat)
    (hm : sungem_get_reg (e.MIF_CFG % 2 ^ 32) = some cm) :
    sungem_reset_all e s false =
      some (storeCell (storeCell (reset_all_common e s) (1, 4)
        (loadCell (reset_all_common e s) (1, 4) &&& e.GREG_SWRST_RSTOUT)) cm e.MIF_CFG_MDI0) := by
  unfold sungem_reset_all reset_all_common
  simp only [reset_rx_eq, reset_tx_eq, Option.bind_eq_bind, Option.some_bind,
    SET_REG_of (show sungem_get_reg (GREG_IMASK % 2 ^ 32) = some (0, 4) by decide),
    SET_REG_GREG_STAT,
    SET_REG_of (show sungem_get_reg (GREG_SWRST % 2 ^ 32) = some (1, 4) by decide),
    GET_REG_of (show sungem_get_reg (GREG_SWRST % 2 ^ 32) = some (1, 4) by decide),
    SET_REG_of hm, Bool.false_eq_true, if_false]

theorem reset_all_common_cells (e : Env) (s : SunGEMState) :
    loadCell (reset_all_common e s) (0, 3) = 0 ∧
    loadCell (reset_all_common e s) (0, 4) = 0xFFFFFFF ∧
    ∀ c, c ∉ [(0, 3), (0, 4), (3, 6), (3, 0), (2, 0), (2, 1), (6, 8), (6, 1), (6, 0), (5, 0),
        (5, 8), (6, 2)] →
      loadCell (reset_all_common e s) c = loadCell s c := by
  unfold reset_all_common
  refine ⟨loadCell_storeCell_same _ _ _, ?_, ?_⟩
  · rw [loadCell_storeCell_ne _ _ _ _ (by decide), loadCell_storeCell_same]
    exact Nat.mod_eq_of_lt (by decide)
  · intro c hc
    simp only [List.mem_cons, List.mem_singleton, List.not_mem_nil, or_false, not_or] at hc
    obtain ⟨a1, a2, a3, a4, a5, a6, a7, a8, a9, a10, a11, a12⟩ := hc
    rw [loadCell_storeCell_ne _ _ _ _ a1, loadCell_storeCell_ne _ _ _ _ a2,
      (tx_reset_state_cells e _).2.2.2.2 c (by
        simp only [List.mem_cons, List.mem_singleton, List.not_mem_nil, or_false, not_or]
        exact ⟨a3, a4, a5, a6⟩),
      (rx_reset_state_cells e _).2.2.2.2.2.2 c (by
        simp only [List.mem_cons, List.mem_singleton, List.not_mem_nil, or_false, not_or]
        exact ⟨a7, a8, a9, a10, a11, a12⟩)]

theorem reset_all_common_high (e : Env) (s : SunGEMState) (c : Nat × Nat) (h : 7 ≤ c.1) :
    loadCell (reset_all_common e s) c = loadCell s c := by
  apply (reset_all_common_cells e s).2.2
  obtain ⟨b, i⟩ := c
  simp only [List.mem_cons, Prod.mk.injEq, List.mem_singleton, List.not_mem_nil, or_false, not_or]
  simp only at h
  refine ⟨?_, ?_, ?_, ?_, ?_, ?_, ?_, ?_, ?_, ?_, ?_, ?_⟩ <;> omega

theorem reset_all_common_macaddr (e : Env) (s : SunGEMState) :
    (reset_all_common e s).macaddr = s.macaddr := rfl

theorem mac_word_lt (ma : Nat → Nat) (i : Nat) : mac_word ma i < 2 ^ 16 := by
  unfold mac_word
  exact Nat.or_lt_two_pow
    (by rw [Nat.shiftLeft_eq]; have := Nat.mod_lt (ma i) (show 0 < 256 by decide); omega)
    (by have := Nat.mod_lt (ma (i + 1)) (show 0 < 256 by decide); omega)

theorem mac_word_mod (ma : Nat → Nat) (i : Nat) : mac_word ma i % 2 ^ 32 = mac_word ma i :=
  Nat.mod_eq_of_lt (Nat.lt_of_lt_of_le (mac_word_lt ma i) (by decide))

theorem cell_ne_of_high {c : Nat × Nat} (h : 7 ≤ c.1) (b i : Nat) (hb : b < 7) : (b, i) ≠ c := by
  intro hc
  rw [← hc] at h
  exact absurd h (Nat.not_le.mpr hb)

theorem mac_word_unicast (x y : Nat) (hy : y < 256) (h : x &&& 1 = 0) :
    (x <<< 8) ||| y ≠ 0xffff := by
  have hy2 : y < 2 ^ 8 := hy
  rw [Nat.shiftLeft_eq, Nat.mul_comm, ← Nat.mul_add_lt_is_or hy2]
  intro hc
  have hx2 : x = 255 := by omega
  rw [hx2] at h
  exact absurd h (by decide)

theorem check_rx_mac_primary (e : Env) (r : SunGEMState) (ma : Nat → Nat) (mac : List Nat)
    (crc rxcfg : Nat)
    (hcfg : GET_REG r e.MAC_RXCFG = some rxcfg) (hp : rxcfg &&& e.MAC_RXCFG_PROM = 0)
    (h0 : GET_REG r e.MAC_ADDR0 = some (mac_word ma 4))
    (h1 : GET_REG r e.MAC_ADDR1 = some (mac_word ma 2))
    (h2 : GET_REG r e.MAC_ADDR2 = some (mac_word ma 0))
    (hmac : ∀ i, i < 6 → u8 mac i = ma i % 256) (hu : u8 mac 0 &&& 1 = 0) :
    sungem_check_rx_mac e r mac crc = some rx_match_mac := by
  unfold sungem_check_rx_mac
  have hb : ¬ ((u8 mac 4 <<< 8) ||| u8 mac 5 = 0xffff ∧ (u8 mac 2 <<< 8) ||| u8 mac 3 = 0xffff ∧
      (u8 mac 0 <<< 8) ||| u8 mac 1 = 0xffff) := fun h =>
    mac_word_unicast _ _ (Nat.mod_lt _ (by decide)) hu h.2.2
  have hm : (u8 mac 4 <<< 8) ||| u8 mac 5 = mac_word ma 4 ∧
      (u8 mac 2 <<< 8) ||| u8 mac 3 = mac_word ma 2 ∧
      (u8 mac 0 <<< 8) ||| u8 mac 1 = mac_word ma 0 := by
    unfold mac_word
    rw [hmac 0 (by decide), hmac 1 (by decide), hmac 2 (by decide), hmac 3 (by decide),
      hmac 4 (by decide), hmac 5 (by decide)]
    exact ⟨rfl, rfl, rfl⟩
  simp only [hcfg, h0, h1, h2, Option.bind_eq_bind, Option.some_bind, Option.pure_def]
  rw [if_neg (not_not.mpr hp), if_neg hb, if_neg (not_not.mpr hu), if_pos hm]

/-- C33: `sungem_reset_all` returns the state obtained by `sungem_reset_rx`,
then `sungem_reset_tx`, then the stores `GREG_IMASK = 0xFFFFFFF`,
`GREG_STAT = 0`, the stores of its branch, and `MIF_CFG = MIF_CFG_MDI0`. With
`MAC_ADDR0..2` and `MIF_CFG` decoding to four distinct cells of the MAC and
later banks: in both cases `GREG_STAT` reads 0 and `MIF_CFG` reads
`MIF_CFG_MDI0`; for a bus reset `GREG_SWRST` reads 0 and `MAC_ADDR0..2` read
`a[4]<<8 | a[5]`, `a[2]<<8 | a[3]`, `a[0]<<8 | a[1]` of the configured address,
so that a frame whose destination is that address, with the group bit clear,
classifies as `rx_match_mac` when the promiscuous bit is clear; otherwise
`MAC_ADDR0..2` read as before and `GREG_SWRST` reads its prior value AND
`GREG_SWRST_RSTOUT`. -/
theorem sungem_reset_all_spec (e : Env) (s : SunGEMState) (c0 c1 c2 cm : Nat × Nat)
    (h0 : sungem_get_reg (e.MAC_ADDR0 % 2 ^ 32) = some c0)
    (h1 : sungem_get_reg (e.MAC_ADDR1 % 2 ^ 32) = some c1)
    (h2 : sungem_get_reg (e.MAC_ADDR2 % 2 ^ 32) = some c2)
    (hm : sungem_get_reg (e.MIF_CFG % 2 ^ 32) = some cm)
    (hb : 7 ≤ c0.1 ∧ 7 ≤ c1.1 ∧ 7 ≤ c2.1 ∧ 7 ≤ cm.1)
    (hd : [c0, c1, c2, cm].Nodup) :
    ∃ r1 r2, sungem_reset_rx e s = some r1 ∧ sungem_reset_tx e r1 = some r2 ∧
      (∃ r, sungem_reset_all e s true = some r ∧
        r = storeCell (storeCell (storeCell (storeCell (storeCell (storeCell (storeCell r2
          (0, 4) 0xFFFFFFF) (0, 3) 0) (1, 4) 0) c0 (mac_word s.macaddr 4))
          c1 (mac_word s.macaddr 2)) c2 (mac_word s.macaddr 0)) cm e.MIF_CFG_MDI0 ∧
        GET_REG r GREG_STAT = some 0 ∧
        GET_REG r e.MIF_CFG = some (e.MIF_CFG_MDI0 % 2 ^ 32) ∧
        GET_REG r GREG_SWRST = some 0 ∧
        GET_REG r e.MAC_ADDR0 = some (((s.macaddr 4 % 256) <<< 8) ||| s.macaddr 5 % 256) ∧
        GET_REG r e.MAC_ADDR1 = some (((s.macaddr 2 % 256) <<< 8) ||| s.macaddr 3 % 256) ∧
        GET_REG r e.MAC_ADDR2 = some (((s.macaddr 0 % 256) <<< 8) ||| s.macaddr 1 % 256) ∧
        ∀ mac crc rxcfg, GET_REG r e.MAC_RXCFG = some rxcfg →
          rxcfg &&& e.MAC_RXCFG_PROM = 0 →
          (∀ i, i < 6 → u8 mac i = s.macaddr i % 256) → u8 mac 0 &&& 1 = 0 →
          sungem_check_rx_mac e r mac crc = some rx_match_mac) ∧
      (∃ r, sungem_reset_all e s false = some r ∧
        r = storeCell (storeCell (storeCell (storeCell r2 (0, 4) 0xFFFFFFF) (0, 3) 0) (1, 4)
          (loadCell s (1, 4) &&& e.GREG_SWRST_RSTOUT)) cm e.MIF_CFG_MDI0 ∧
        GET_REG r GREG_STAT = some 0 ∧
        GET_REG r e.MIF_CFG = some (e.MIF_CFG_MDI0 % 2 ^ 32) ∧
        GET_REG r e.MAC_ADDR0 = GET_REG s e.MAC_ADDR0 ∧
        GET_REG r e.MAC_ADDR1 = GET_REG s e.MAC_ADDR1 ∧
        GET_REG r e.MAC_ADDR2 = GET_REG s e.MAC_ADDR2 ∧
        ∀ old, GET_REG s GREG_SWRST = some old →
          GET_REG r GREG_SWRST = some (old &&& e.GREG_SWRST_RSTOUT)) := by
  obtain ⟨b0, b1, b2, bm⟩ := hb
  simp only [List.nodup_cons, List.mem_cons, List.mem_singleton, List.not_mem_nil, or_false,
    not_or, List.nodup_nil, and_true, not_false_eq_true] at hd
  obtain ⟨⟨d01, d02, d0m⟩, ⟨d12, d1m⟩, d2m⟩ := hd
  have n0 : ∀ b i, b < 7 → (b, i) ≠ c0 := fun b i h => cell_ne_of_high b0 b i h
  have n1 : ∀ b i, b < 7 → (b, i) ≠ c1 := fun b i h => cell_ne_of_high b1 b i h
  have n2 : ∀ b i, b < 7 → (b, i) ≠ c2 := fun b i h => cell_ne_of_high b2 b i h
  have nm : ∀ b i, b < 7 → (b, i) ≠ cm := fun b i h => cell_ne_of_high bm b i h
  have hC := reset_all_common_cells e s
  have hS : loadCell (reset_all_common e s) (1, 4) = loadCell s (1, 4) :=
    hC.2.2 (1, 4) (by decide)
  have gS := GET_REG_of (show sungem_get_reg (GREG_SWRST % 2 ^ 32) = some (1, 4) by decide)
  refine ⟨_, _, reset_rx_eq e s, reset_tx_eq e _, ⟨_, reset_all_bus_eq e s c0 c1 c2 cm h0 h1 h2 hm,
    rfl, ?_, ?_, ?_, ?_, ?_, ?_, ?_⟩, ⟨_, reset_all_soft_eq e s cm hm, ?_, ?_, ?_, ?_, ?_, ?_, ?_⟩⟩
  · rw [GET_REG_GREG_STAT, loadCell_storeCell_ne _ _ _ _ (nm 0 3 (by decide)),
      loadCell_storeCell_ne _ _ _ _ (n2 0 3 (by decide)),
      loadCell_storeCell_ne _ _ _ _ (n1 0 3 (by decide)),
      loadCell_storeCell_ne _ _ _ _ (n0 0 3 (by decide)),
      loadCell_storeCell_ne _ _ _ _ (by decide), hC.1]
  · rw [GET_REG_of hm, loadCell_storeCell_same]
  · rw [gS, loadCell_storeCell_ne _ _ _ _ (nm 1 4 (by decide)),
      loadCell_storeCell_ne _ _ _ _ (n2 1 4 (by decide)),
      loadCell_storeCell_ne _ _ _ _ (n1 1 4 (by decide)),
      loadCell_storeCell_ne _ _ _ _ (n0 1 4 (by decide)), loadCell_storeCell_same]
    rfl
  · rw [GET_REG_of h0, loadCell_storeCell_ne _ _ _ _ d0m, loadCell_storeCell_ne _ _ _ _ d02,
      loadCell_storeCell_ne _ _ _ _ d01, loadCell_storeCell_same, mac_word_mod]
    rfl
  · rw [GET_REG_of h1, loadCell_storeCell_ne _ _ _ _ d1m, loadCell_storeCell_ne _ _ _ _ d12,
      loadCell_storeCell_same, mac_word_mod]
    rfl
  · rw [GET_REG_of h2, loadCell_storeCell_ne _ _ _ _ d2m, loadCell_storeCell_same, mac_word_mod]
    rfl
  · intro mac crc rxcfg hcfg hp hmac hu
    refine check_rx_mac_primary e _ s.macaddr mac crc rxcfg hcfg hp ?_ ?_ ?_ hmac hu
    · rw [GET_REG_of h0, loadCell_storeCell_ne _ _ _ _ d0m, loadCell_storeCell_ne _ _ _ _ d02,
        loadCell_storeCell_ne _ _ _ _ d01, loadCell_storeCell_same, mac_word_mod]
    · rw [GET_REG_of h1, loadCell_storeCell_ne _ _ _ _ d1m, loadCell_storeCell_ne _ _ _ _ d12,
        loadCell_storeCell_same, mac_word_mod]
    · rw [GET_REG_of h2, loadCell_storeCell_ne _ _ _ _ d2m, loadCell_storeCell_same,
        mac_word_mod]
  · rw [hS]
    rfl
  · rw [GET_REG_GREG_STAT, loadCell_storeCell_ne _ _ _ _ (nm 0 3 (by decide)),
      loadCell_storeCell_ne _ _ _ _ (by decide), hC.1]
  · rw [GET_REG_of hm, loadCell_storeCell_same]
  · rw [GET_REG_of h0, GET_REG_of h0, loadCell_storeCell_ne _ _ _ _ (Ne.symm d0m).symm,
      loadCell_storeCell_ne _ _ _ _ (Ne.symm (n0 1 4 (by decide))),
      reset_all_common_high e s c0 b0]
  · rw [GET_REG_of h1, GET_REG_of h1, loadCell_storeCell_ne _ _ _ _ d1m,
      loadCell_storeCell_ne _ _ _ _ (Ne.symm (n1 1 4 (by decide))),
      reset_all_common_high e s c1 b1]
  · rw [GET_REG_of h2, GET_REG_of h2, loadCell_storeCell_ne _ _ _ _ d2m,
      loadCell_storeCell_ne _ _ _ _ (Ne.symm (n2 1 4 (by decide))),
      reset_all_common_high e s c2 b2]
  · intro old ho
    rw [gS, Option.some.injEq] at ho
    rw [gS, loadCell_storeCell_ne _ _ _ _ (nm 1 4 (by decide)), loadCell_storeCell_same, hS, ho,
      Nat.mod_eq_of_lt]
    exact Nat.lt_of_le_of_lt Nat.and_le_left (ho ▸ loadCell_lt s (1, 4))

/-- Witness for `sungem_reset_all_spec`: the reference constants and a new
device configured with the address `52:54:00:12:34:56`; after a bus reset a
frame to that address classifies as `rx_match_mac`. -/
theorem sungem_reset_all_spec_witness :
    ∃ r, sungem_reset_all gemEnv macDevice true = some r ∧
      GET_REG r gemEnv.MAC_ADDR0 = some 0x3456 ∧ GET_REG r gemEnv.MAC_ADDR1 = some 0x0012 ∧
      GET_REG r gemEnv.MAC_ADDR2 = some 0x5254 ∧
      sungem_check_rx_mac gemEnv r primaryAddr 0 = some rx_match_mac := by
  obtain ⟨r1, r2, e1, e2, ⟨r, a1, a2, _, _, _, a6, a7, a8, a9⟩, _⟩ :=
    sungem_reset_all_spec gemEnv macDevice (7, 32) (7, 33) (7, 34) (8, 4) (by decide) (by decide)
      (by decide) (by decide) (by decide) (by decide)
  refine ⟨r, a1, a6, a7, a8, a9 primaryAddr 0 0 ?_ (by decide) (by decide) (by decide)⟩
  rw [reset_rx_eq, Option.some.injEq] at e1
  subst e1
  rw [reset_tx_eq, Option.some.injEq] at e2
  subst e2
  rw [a2]
  decide

theorem greg_write_swrst (e : Env) (s : SunGEMState) (v : Nat) :
    sungem_mmio_greg_write e s GREG_SWRST v =
      if v &&& (e.GREG_SWRST_TXRST ||| e.GREG_SWRST_RXRST) = e.GREG_SWRST_RXRST then
        sungem_reset_rx e (storeCell s (1, 4) v)
      else if v &&& (e.GREG_SWRST_TXRST ||| e.GREG_SWRST_RXRST) = e.GREG_SWRST_TXRST then
        sungem_reset_tx e (storeCell s (1, 4) v)
      else if v &&& (e.GREG_SWRST_TXRST ||| e.GREG_SWRST_RXRST) =
          e.GREG_SWRST_RXRST ||| e.GREG_SWRST_TXRST then
        sungem_reset_all e (storeCell s (1, 4) v) false
      else some (storeCell s (1, 4) v) := by
  unfold sungem_mmio_greg_write
  rw [show sungem_get_reg (GREG_SWRST % 2 ^ 32) = some (1, 4) by decide]
  have a : ¬ (GREG_SWRST = GREG_SEBSTATE ∨ GREG_SWRST = GREG_STAT ∨ GREG_SWRST = GREG_STAT2 ∨
      GREG_SWRST = GREG_PCIESTAT) := by decide
  have b : ¬ GREG_SWRST = GREG_IACK := by decide
  have c : ¬ GREG_SWRST = GREG_PCIEMASK := by decide
  have d : ¬ GREG_SWRST = GREG_IMASK := by decide
  simp only [if_neg a, if_neg b, if_neg c, if_neg d, if_true]

theorem and_two_pow_cases (v i : Nat) : v &&& 2 ^ i = 0 ∨ v &&& 2 ^ i = 2 ^ i := by
  rw [Nat.and_two_pow]
  cases v.testBit i
  · left; simp
  · right; simp

theorem two_pow_or_ne (i j : Nat) (h : i ≠ j) : 2 ^ i ||| 2 ^ j ≠ 2 ^ j := by
  intro hc
  have h1 : (2 ^ i ||| 2 ^ j).testBit i = true := by
    rw [Nat.testBit_or, Nat.testBit_two_pow_self, Bool.true_or]
  rw [hc, Nat.testBit_two_pow] at h1
  exact h (of_decide_eq_true h1).symm

theorem swrst_select (v i j : Nat) (h : i ≠ j) :
    (v &&& 2 ^ i ≠ 0 → v &&& 2 ^ j ≠ 0 →
      v &&& (2 ^ i ||| 2 ^ j) ≠ 2 ^ j ∧ v &&& (2 ^ i ||| 2 ^ j) ≠ 2 ^ i ∧
      v &&& (2 ^ i ||| 2 ^ j) = 2 ^ j ||| 2 ^ i) ∧
    (v &&& 2 ^ i = 0 → v &&& 2 ^ j ≠ 0 → v &&& (2 ^ i ||| 2 ^ j) = 2 ^ j) ∧
    (v &&& 2 ^ i ≠ 0 → v &&& 2 ^ j = 0 →
      v &&& (2 ^ i ||| 2 ^ j) ≠ 2 ^ j ∧ v &&& (2 ^ i ||| 2 ^ j) = 2 ^ i) ∧
    (v &&& 2 ^ i = 0 → v &&& 2 ^ j = 0 →
      v &&& (2 ^ i ||| 2 ^ j) ≠ 2 ^ j ∧ v &&& (2 ^ i ||| 2 ^ j) ≠ 2 ^ i ∧
      v &&& (2 ^ i ||| 2 ^ j) ≠ 2 ^ j ||| 2 ^ i) := by
  have pi : 0 < 2 ^ i := Nat.pow_pos (by decide)
  have pj : 0 < 2 ^ j := Nat.pow_pos (by decide)
  have hne : (2 : Nat) ^ i ≠ 2 ^ j := fun hc => h (Nat.pow_right_injective (le_refl 2) hc)
  rw [Nat.and_or_distrib_left]
  refine ⟨?_, ?_, ?_, ?_⟩
  · intro a b
    have a2 := (and_two_pow_cases v i).resolve_left a
    have b2 := (and_two_pow_cases v j).resolve_left b
    rw [a2, b2]
    refine ⟨two_pow_or_ne i j h, ?_, Nat.or_comm _ _⟩
    rw [Nat.or_comm]
    exact two_pow_or_ne j i (Ne.symm h)
  · intro a b
    rw [a, (and_two_pow_cases v j).resolve_left b, Nat.zero_or]
  · intro a b
    rw [b, (and_two_pow_cases v i).resolve_left a, Nat.or_zero]
    exact ⟨hne, rfl⟩
  · intro a b
    rw [a, b, Nat.zero_or]
    refine ⟨fun hc => absurd hc.symm (Nat.pos_iff_ne_zero.mp pj),
      fun hc => absurd hc.symm (Nat.pos_iff_ne_zero.mp pi), fun hc => ?_⟩
    have h1 : (2 ^ j ||| 2 ^ i).testBit j = true := by
      rw [Nat.testBit_or, Nat.testBit_two_pow_self, Bool.true_or]
    rw [← hc, Nat.zero_testBit] at h1
    exact absurd h1 (by decide)

theorem greg_read_swrst (e : Env) (s : SunGEMState) :
    sungem_mmio_greg_read e s GREG_SWRST = some (loadCell s (1, 4), s) := by
  unfold sungem_mmio_greg_read
  rw [show sungem_get_reg (GREG_SWRST % 2 ^ 32) = some (1, 4) by decide]
  have a : ¬ GREG_SWRST = GREG_STAT := by decide
  have b : ¬ GREG_SWRST = GREG_STAT2 := by decide
  simp only [if_neg a, if_neg b]

theorem reset_all_soft_swrst (e : Env) (s : SunGEMState) (cm : Nat × Nat) (v : Nat)
    (hcm : cm ≠ (1, 4)) (hv : v < 2 ^ 32) :
    loadCell (storeCell (storeCell (reset_all_common e (storeCell s (1, 4) v)) (1, 4)
      (loadCell (reset_all_common e (storeCell s (1, 4) v)) (1, 4) &&& e.GREG_SWRST_RSTOUT))
      cm e.MIF_CFG_MDI0) (1, 4) = v &&& e.GREG_SWRST_RSTOUT := by
  rw [loadCell_storeCell_ne _ _ _ _ (Ne.symm hcm), loadCell_storeCell_same,
    (reset_all_common_cells e _).2.2 (1, 4) (by decide), loadCell_storeCell_same,
    Nat.mod_eq_of_lt hv]
  exact Nat.mod_eq_of_lt (Nat.lt_of_le_of_lt Nat.and_le_left hv)

/-- C34: a write of `v` to `GREG_SWRST` through `sungem_mmio_greg_write`
returns, and the state it returns is that of storing `v` followed by
`sungem_reset_all(false)` when both `GREG_SWRST_TXRST` and `GREG_SWRST_RXRST`
are set in `v`, by `sungem_reset_rx` when only RXRST is set, by
`sungem_reset_tx` when only TXRST is set, and by nothing when neither is set
(the two constants being distinct single bits, `MIF_CFG` decoding to a cell
other than that of `GREG_SWRST`). After the both-bits case a read of
`GREG_SWRST` returns `v AND GREG_SWRST_RSTOUT` for a 32-bit `v`, in which both
reset bits are clear when `GREG_SWRST_RSTOUT` shares no bit with them. -/
theorem sungem_swrst_write_resets (e : Env) (s : SunGEMState) (v i j : Nat) (cm : Nat × Nat)
    (hT : e.GREG_SWRST_TXRST = 2 ^ i) (hR : e.GREG_SWRST_RXRST = 2 ^ j) (hij : i ≠ j)
    (hm : sungem_get_reg (e.MIF_CFG % 2 ^ 32) = some cm) (hcm : cm ≠ (1, 4)) :
    ∃ r, sungem_mmio_greg_write e s GREG_SWRST v = some r ∧
      (v &&& e.GREG_SWRST_TXRST ≠ 0 → v &&& e.GREG_SWRST_RXRST ≠ 0 →
        sungem_reset_all e (storeCell s (1, 4) v) false = some r ∧
        (v < 2 ^ 32 →
          sungem_mmio_greg_read e r GREG_SWRST = some (v &&& e.GREG_SWRST_RSTOUT, r) ∧
          (e.GREG_SWRST_RSTOUT &&& e.GREG_SWRST_TXRST = 0 →
            e.GREG_SWRST_RSTOUT &&& e.GREG_SWRST_RXRST = 0 →
            (v &&& e.GREG_SWRST_RSTOUT) &&& e.GREG_SWRST_TXRST = 0 ∧
            (v &&& e.GREG_SWRST_RSTOUT) &&& e.GREG_SWRST_RXRST = 0))) ∧
      (v &&& e.GREG_SWRST_TXRST = 0 → v &&& e.GREG_SWRST_RXRST ≠ 0 →
        sungem_reset_rx e (storeCell s (1, 4) v) = some r) ∧
      (v &&& e.GREG_SWRST_TXRST ≠ 0 → v &&& e.GREG_SWRST_RXRST = 0 →
        sungem_reset_tx e (storeCell s (1, 4) v) = some r) ∧
      (v &&& e.GREG_SWRST_TXRST = 0 → v &&& e.GREG_SWRST_RXRST = 0 →
        r = storeCell s (1, 4) v) := by
  have key := greg_write_swrst e s v
  rw [hT, hR] at key ⊢
  obtain ⟨s1, s2, s3, s4⟩ := swrst_select v i j hij
  by_cases a : v &&& 2 ^ i = 0
  · by_cases b : v &&& 2 ^ j = 0
    · obtain ⟨x1, x2, x3⟩ := s4 a b
      rw [if_neg x1, if_neg x2, if_neg x3] at key
      exact ⟨_, key, fun h => absurd a h, fun _ h => absurd b h, fun h => absurd a h,
        fun _ _ => rfl⟩
    · rw [if_pos (s2 a b)] at key
      exact ⟨_, key.trans (reset_rx_eq e _), fun h => absurd a h, fun _ _ => reset_rx_eq e _,
        fun h => absurd a h, fun _ h => absurd h b⟩
  · by_cases b : v &&& 2 ^ j = 0
    · obtain ⟨x1, x2⟩ := s3 a b
      rw [if_neg x1, if_pos x2] at key
      exact ⟨_, key.trans (reset_tx_eq e _), fun _ h => absurd b h, fun h => absurd h a,
        fun _ _ => reset_tx_eq e _, fun h => absurd h a⟩
    · obtain ⟨x1, x2, x3⟩ := s1 a b
      rw [if_neg x1, if_neg x2, if_pos x3] at key
      refine ⟨_, key.trans (reset_all_soft_eq e _ cm hm), fun _ _ =>
        ⟨reset_all_soft_eq e _ cm hm, fun hv => ⟨?_, fun o1 o2 => ⟨?_, ?_⟩⟩⟩,
        fun h => absurd h a, fun _ h => absurd h b, fun h => absurd h a⟩
      · rw [greg_read_swrst, reset_all_soft_swrst e s cm v hcm hv]
      · rw [Nat.and_assoc, o1, Nat.and_zero]
      · rw [Nat.and_assoc, o2, Nat.and_zero]

/-- Witness for `sungem_swrst_write_resets`: the reference constants
(`TXRST = 1`, `RXRST = 2`, `RSTOUT = 4`), the cleared device and `v = 7`; the
register reads back 4. -/
theorem sungem_swrst_write_resets_witness :
    ∃ r, sungem_mmio_greg_write gemEnv zeroState GREG_SWRST 7 = some r ∧
      sungem_reset_all gemEnv (storeCell zeroState (1, 4) 7) false = some r ∧
      sungem_mmio_greg_read gemEnv r GREG_SWRST = some (4, r) := by
  obtain ⟨r, a1, a2, _⟩ := sungem_swrst_write_resets gemEnv zeroState 7 0 1 (8, 4) (by decide)
    (by decide) (by decide) (by decide) (by decide)
  obtain ⟨b1, b2⟩ := a2 (by decide) (by decide)
  exact ⟨r, a1, b1, (b2 (by decide)).1⟩

theorem tx_loop_trace_erase (e : Env) (dbase kick : Nat) :
    ∀ (fuel comp : Nat) (s : SunGEMState),
      (tx_loop_trace e dbase kick fuel comp s).map Prod.snd = tx_loop e dbase kick fuel comp s := by
  intro fuel
  induction fuel with
  | zero =>
    intro comp s
    rw [tx_loop_trace, tx_loop_zero]
    by_cases h : comp ≠ kick
    · rw [if_pos h, if_pos h]; rfl
    · rw [if_neg h, if_neg h]; rfl
  | succ f ih =>
    intro comp s
    rw [tx_loop_trace, tx_loop_succ]
    by_cases h : comp ≠ kick
    · rw [if_pos h, if_pos h]
      cases hb : tx_body e dbase comp s with
      | none => rfl
      | some t =>
        simp only [Option.bind_eq_bind, Option.some_bind, Option.pure_def]
        rw [← ih]
        cases tx_loop_trace e dbase kick f ((comp + 1) % 2 ^ 32 &&& t.tx_mask) t with
        | none => rfl
        | some r => rfl
    · rw [if_neg h, if_neg h]; rfl

theorem range_map_shift (N comp n : Nat) (hc : comp < N) :
    (List.range (n + 1)).map (fun j => (comp + j) % N) =
      comp :: (List.range n).map (fun j => ((comp + 1) % N + j) % N) := by
  rw [List.range_succ_eq_map, List.map_cons, List.map_map, Nat.add_zero, Nat.mod_eq_of_lt hc]
  congr 1
  apply List.map_congr_left
  intro j _
  simp only [Function.comp_apply]
  rw [Nat.mod_add_mod]
  congr 1
  omega

/-- The descriptor loop ends after `n` iterations on the slots `comp`,
`comp + 1`, ... (modulo the ring size), when `kick` is `n` slots ahead. -/
theorem tx_loop_trace_run (e : Env) (hdec : DataPathDecodes e) (dbase kick k : Nat)
    (hk : k ≤ 32) :
    ∀ (n comp : Nat) (s : SunGEMState) (fuel : Nat), s.tx_mask + 1 = 2 ^ k → comp < 2 ^ k →
      (comp + n) % 2 ^ k = kick → (∀ j, j < n → (comp + j) % 2 ^ k ≠ kick) → n ≤ fuel →
      ∃ u, tx_loop_trace e dbase kick fuel comp s =
        some ((List.range n).map (fun j => (comp + j) % 2 ^ k), u) := by
  intro n
  induction n with
  | zero =>
    intro comp s fuel _ hc hn _ _
    rw [Nat.add_zero, Nat.mod_eq_of_lt hc] at hn
    cases fuel with
    | zero => rw [tx_loop_trace, if_neg (by simpa using hn)]; exact ⟨_, rfl⟩
    | succ f => rw [tx_loop_trace, if_neg (by simpa using hn)]; exact ⟨_, rfl⟩
  | succ n ih =>
    intro comp s fuel hm hc hn hne hf
    have h : comp ≠ kick := by
      have := hne 0 (Nat.succ_pos n)
      rwa [Nat.add_zero, Nat.mod_eq_of_lt hc] at this
    obtain ⟨f, rfl⟩ : ∃ f, fuel = f + 1 := ⟨fuel - 1, by omega⟩
    rw [tx_loop_trace, if_pos h]
    obtain ⟨t, ht⟩ := tx_body_total e hdec dbase comp s
    have hpost := tx_body_post e dbase comp s t ht
    have htm : t.tx_mask = s.tx_mask := hpost.1.1
    have hm2 : t.tx_mask + 1 = 2 ^ k := by rw [htm]; exact hm
    have hnext : (comp + 1) % 2 ^ 32 &&& t.tx_mask = (comp + 1) % 2 ^ k := by
      rw [and_ring_mask _ _ k hm2, Nat.mod_mod_of_dvd _ (pow_dvd_pow 2 hk)]
    obtain ⟨u, hu⟩ := ih ((comp + 1) % 2 ^ k) t f hm2 (Nat.mod_lt _ (Nat.pow_pos (by decide)))
      (by rw [Nat.mod_add_mod, ← hn]; congr 1; omega)
      (fun j hj => by
        have := hne (j + 1) (by omega)
        rw [Nat.mod_add_mod]
        rwa [show comp + (j + 1) = comp + 1 + j by omega] at this)
      (by omega)
    refine ⟨u, ?_⟩
    simp only [ht, Option.bind_eq_bind, Option.some_bind, hnext, hu, Option.pure_def]
    rw [range_map_shift _ _ _ hc]

theorem ring_count_eq (N K D : Nat) (hN : N ∣ 2 ^ 32) (hpos : 0 < N) (hD : D < 2 ^ 32) :
    ((K + 2 ^ 32 - D) % 2 ^ 32) % N = (K % N + N - D % N) % N := by
  rw [Nat.mod_mod_of_dvd _ hN]
  have hr : D % N < N := Nat.mod_lt _ hpos
  have h1 : (K + 2 ^ 32 - D + D) % N = (K % N + N - D % N + D) % N := by
    have e1 : K + 2 ^ 32 - D + D = K + 2 ^ 32 := by omega
    have e2 : K % N + N - D % N + D = K % N + N * (1 + D / N) := by
      have := Nat.div_add_mod D N
      rw [Nat.mul_add, Nat.mul_one]
      omega
    obtain ⟨c, hc⟩ := hN
    rw [e1, e2, hc, Nat.add_mul_mod_self_left, Nat.add_mul_mod_self_left, Nat.mod_mod]
  exact Nat.ModEq.add_right_cancel' D h1

theorem tx_trace_slots (s : SunGEMState) (k : Nat) (hk : k ≤ 32) (hm : s.tx_mask + 1 = 2 ^ k) :
    (loadCell s (3, 0) &&& s.tx_mask) < 2 ^ k ∧
    ((loadCell s (3, 0) &&& s.tx_mask) +
      (((loadCell s (2, 0) + 2 ^ 32 - loadCell s (3, 0)) % 2 ^ 32) &&& s.tx_mask)) % 2 ^ k =
        loadCell s (2, 0) &&& s.tx_mask ∧
    (∀ j, j < (((loadCell s (2, 0) + 2 ^ 32 - loadCell s (3, 0)) % 2 ^ 32) &&& s.tx_mask) →
      ((loadCell s (3, 0) &&& s.tx_mask) + j) % 2 ^ k ≠ loadCell s (2, 0) &&& s.tx_mask) ∧
    (((loadCell s (2, 0) + 2 ^ 32 - loadCell s (3, 0)) % 2 ^ 32) &&& s.tx_mask) ≤ s.tx_mask := by
  have hpos : 0 < 2 ^ k := Nat.pow_pos (by decide)
  have hc : loadCell s (3, 0) % 2 ^ k < 2 ^ k := Nat.mod_lt _ hpos
  have hkk : loadCell s (2, 0) % 2 ^ k < 2 ^ k := Nat.mod_lt _ hpos
  have hn := ring_count_eq (2 ^ k) (loadCell s (2, 0)) (loadCell s (3, 0)) (pow_dvd_pow 2 hk)
    hpos (loadCell_lt s (3, 0))
  have hd := ring_distance _ _ _ hc hkk
  rw [and_ring_mask _ _ k hm, and_ring_mask _ _ k hm, and_ring_mask _ _ k hm, hn]
  have hlt : (loadCell s (2, 0) % 2 ^ k + 2 ^ k - loadCell s (3, 0) % 2 ^ k) % 2 ^ k < 2 ^ k :=
    Nat.mod_lt _ hpos
  refine ⟨hc, hd, ?_, by omega⟩
  intro j hj
  rw [← hd]
  have : loadCell s (3, 0) % 2 ^ k +
      (loadCell s (2, 0) % 2 ^ k + 2 ^ k - loadCell s (3, 0) % 2 ^ k) % 2 ^ k =
      (loadCell s (3, 0) % 2 ^ k + j) +
        ((loadCell s (2, 0) % 2 ^ k + 2 ^ k - loadCell s (3, 0) % 2 ^ k) % 2 ^ k - j) := by
    omega
  rw [this]
  exact ring_ne _ _ _ (by omega) (by omega)

theorem tx_loop_trace_fuel (e : Env) (dbase kick : Nat) :
    ∀ (fuel comp : Nat) (s : SunGEMState) (r : List Nat × SunGEMState),
      tx_loop_trace e dbase kick fuel comp s = some r →
      ∀ fuel2, fuel ≤ fuel2 → tx_loop_trace e dbase kick fuel2 comp s = some r := by
  intro fuel
  induction fuel with
  | zero =>
    intro comp s r h fuel2 _
    rw [tx_loop_trace] at h
    by_cases hc : comp ≠ kick
    · rw [if_pos hc] at h
      exact absurd h (by simp)
    · rw [if_neg hc] at h
      cases fuel2 with
      | zero => rw [tx_loop_trace, if_neg hc]; exact h
      | succ f => rw [tx_loop_trace, if_neg hc]; exact h
  | succ f ih =>
    intro comp s r h fuel2 hf
    obtain ⟨g, rfl⟩ : ∃ g, fuel2 = g + 1 := ⟨fuel2 - 1, by omega⟩
    rw [tx_loop_trace] at h ⊢
    by_cases hc : comp ≠ kick
    · rw [if_pos hc] at h ⊢
      cases hb : tx_body e dbase comp s with
      | none => rw [hb] at h; exact absurd h (by simp)
      | some t =>
        rw [hb] at h
        simp only [Option.bind_eq_bind, Option.some_bind, Option.pure_def] at h ⊢
        cases hr : tx_loop_trace e dbase kick f ((comp + 1) % 2 ^ 32 &&& t.tx_mask) t with
        | none => rw [hr] at h; exact absurd h (by simp)
        | some q =>
          rw [hr] at h
          rw [ih _ t q hr g (by omega)]
          exact h
    · rw [if_neg hc] at h ⊢
      exact h

theorem tx_kick_of_loop (e : Env) (s u : SunGEMState) (txmac_cfg : Nat)
    (h2 : GET_REG s e.MAC_TXCFG = some txmac_cfg)
    (hen : loadCell s (2, 1) &&& e.TXDMA_CFG_ENABLE ≠ 0 ∧ txmac_cfg &&& e.MAC_TXCFG_ENAB ≠ 0)
    (hu : tx_loop e (tx_dbase s) (loadCell s (2, 0) &&& s.tx_mask) (s.tx_mask + 1)
      (loadCell s (3, 0) &&& s.tx_mask) s = some u) :
    sungem_tx_kick e s = sungem_update_status e u e.GREG_STAT_TXALL true := by
  unfold sungem_tx_kick
  simp only [GET_REG_TXDMA_CFG, h2, GET_REG_TXDMA_DBHI, GET_REG_TXDMA_DBLOW, GET_REG_TXDONE,
    GET_REG_TXDMA_KICK, Option.bind_eq_bind, Option.some_bind]
  rw [if_neg (not_or.mpr ⟨hen.1, hen.2⟩)]
  show (tx_loop e (tx_dbase s) _ _ _ s).bind _ = _
  rw [hu, Option.some_bind]

/-- C36: with both transmit enable bits set (the data-path registers decoding
and the ring size `tx_mask + 1` a power of two), the descriptor loop of
`sungem_tx_kick` ends for every register state and guest memory: with
`n = (TXDMA_KICK - TXDMA_TXDONE) AND tx_mask`, taken in 32 bits, every bound
of at least `n` iterations lets the loop return the same state after fetching
exactly the `n` descriptors of the slots `(TXDMA_TXDONE AND tx_mask) + j`
wrapped with `AND tx_mask`, for `j = 0 .. n - 1` in this order; `n` is at most
`tx_mask`, and `sungem_tx_kick` returns the state of the loop with
`GREG_STAT_TXALL` raised. -/
theorem sungem_tx_kick_terminates (e : Env) (hdec : DataPathDecodes e) (s : SunGEMState)
    (k txdma_cfg txmac_cfg : Nat) (hk : k ≤ 32) (hm : s.tx_mask + 1 = 2 ^ k)
    (h1 : GET_REG s (TXDMA_CFG + 0x2000) = some txdma_cfg)
    (h2 : GET_REG s e.MAC_TXCFG = some txmac_cfg)
    (hen : txdma_cfg &&& e.TXDMA_CFG_ENABLE ≠ 0 ∧ txmac_cfg &&& e.MAC_TXCFG_ENAB ≠ 0) :
    ∃ u s',
      (∀ fuel, ((loadCell s (2, 0) + 2 ^ 32 - loadCell s (3, 0)) % 2 ^ 32) &&& s.tx_mask ≤ fuel →
        tx_loop_trace e (tx_dbase s) (loadCell s (2, 0) &&& s.tx_mask) fuel
          (loadCell s (3, 0) &&& s.tx_mask) s =
        some ((List.range
          (((loadCell s (2, 0) + 2 ^ 32 - loadCell s (3, 0)) % 2 ^ 32) &&& s.tx_mask)).map
            (fun j => ((loadCell s (3, 0) &&& s.tx_mask) + j) &&& s.tx_mask), u)) ∧
      ((loadCell s (2, 0) + 2 ^ 32 - loadCell s (3, 0)) % 2 ^ 32) &&& s.tx_mask ≤ s.tx_mask ∧
      tx_loop e (tx_dbase s) (loadCell s (2, 0) &&& s.tx_mask) (s.tx_mask + 1)
        (loadCell s (3, 0) &&& s.tx_mask) s = some u ∧
      sungem_update_status e u e.GREG_STAT_TXALL true = some s' ∧
      sungem_tx_kick e s = some s' := by
  rw [GET_REG_TXDMA_CFG, Option.some.injEq] at h1
  subst h1
  obtain ⟨hc, hd, hne, hle⟩ := tx_trace_slots s k hk hm
  obtain ⟨u, hu⟩ := tx_loop_trace_run e hdec (tx_dbase s) (loadCell s (2, 0) &&& s.tx_mask) k hk
    _ _ s _ hm hc hd hne (le_refl _)
  have hmap : (List.range
      (((loadCell s (2, 0) + 2 ^ 32 - loadCell s (3, 0)) % 2 ^ 32) &&& s.tx_mask)).map
        (fun j => ((loadCell s (3, 0) &&& s.tx_mask) + j) % 2 ^ k) =
      (List.range
        (((loadCell s (2, 0) + 2 ^ 32 - loadCell s (3, 0)) % 2 ^ 32) &&& s.tx_mask)).map
        (fun j => ((loadCell s (3, 0) &&& s.tx_mask) + j) &&& s.tx_mask) :=
    List.map_congr_left (fun j _ => (and_ring_mask _ _ k hm).symm)
  rw [hmap] at hu
  have hall := tx_loop_trace_fuel e _ _ _ _ s _ hu
  have hloop : tx_loop e (tx_dbase s) (loadCell s (2, 0) &&& s.tx_mask) (s.tx_mask + 1)
      (loadCell s (3, 0) &&& s.tx_mask) s = some u := by
    rw [← tx_loop_trace_erase, hall (s.tx_mask + 1) (Nat.le_succ_of_le hle)]
    rfl
  have hst := sungem_update_status_eq e u e.GREG_STAT_TXALL true
  exact ⟨u, _, hall, hle, hloop, hst, (tx_kick_of_loop e s u txmac_cfg h2 hen hloop).trans hst⟩

/-- Witness for `sungem_tx_kick_terminates`: the 32-slot ring with the
completion cursor at 31 and the kick cursor at 1; the loop fetches the
descriptors of slots 31 and 0, in this order. -/
theorem sungem_tx_kick_terminates_witness :
    ∃ u s', tx_loop_trace gemEnv (tx_dbase txWrapState) 1 32 31 txWrapState = some ([31, 0], u) ∧
      sungem_tx_kick gemEnv txWrapState = some s' := by
  obtain ⟨u, s', a1, _, _, _, a5⟩ := sungem_tx_kick_terminates gemEnv gemEnv_data_path_decodes
    txWrapState 5 1 1 (by decide) (by decide) (by decide) (by decide) (by decide)
  exact ⟨u, s', a1 32 (by decide), a5⟩

/-- The hash branch of `sungem_check_rx_mac` reads the register at
`MAC_HASH0 + hash_reg_offset k` and tests its bit `hash_bit k`, for
`k = hash_key crc`. -/
theorem check_rx_mac_hash_lookup (e : Env) (s : SunGEMState) (mac : List Nat) (crc rxcfg : Nat)
    (hcfg : GET_REG s e.MAC_RXCFG = some rxcfg) (hp : rxcfg &&& e.MAC_RXCFG_PROM = 0)
    (hb : ¬ ((u8 mac 4 <<< 8) ||| u8 mac 5 = 0xffff ∧ (u8 mac 2 <<< 8) ||| u8 mac 3 = 0xffff ∧
      (u8 mac 0 <<< 8) ||| u8 mac 1 = 0xffff))
    (hm : u8 mac 0 &&& 1 ≠ 0) (hg : rxcfg &&& e.MAC_RXCFG_PGRP = 0)
    (hf : rxcfg &&& e.MAC_RXCFG_HFE ≠ 0) :
    sungem_check_rx_mac e s mac crc =
      (GET_REG s (e.MAC_HASH0 + hash_reg_offset (hash_key crc))).bind (fun hash =>
        some (if hash &&& (1 <<< hash_bit (hash_key crc)) ≠ 0 then rx_match_mcast
          else rx_no_match)) := by
  unfold sungem_check_rx_mac hash_reg_offset hash_bit hash_key
  simp only [hcfg, Option.bind_eq_bind, Option.some_bind, Option.pure_def]
  rw [if_neg (not_not.mpr hp), if_neg hb, if_pos hm, if_neg (not_not.mpr hg), if_pos hf]
  cases GET_REG s (e.MAC_HASH0 + (((crc % 2 ^ 32) >>> 24) >>> 2 &&& 0x3c)) with
  | none => rfl
  | some hash =>
    simp only [Option.some_bind]
    by_cases h : hash &&& (1 <<< (15 - ((crc % 2 ^ 32) >>> 24 &&& 0xf))) ≠ 0
    · rw [if_pos h, if_pos h]
    · rw [if_neg h, if_neg h]

theorem hash_key_lt (crc : Nat) : hash_key crc < 256 := by
  unfold hash_key
  rw [Nat.shiftRight_eq_div_pow]
  have := Nat.mod_lt crc (show 0 < 2 ^ 32 by decide)
  omega

theorem hash_fields (k : Nat) (hk : k < 256) :
    hash_reg_offset k = 4 * (k / 16) ∧ hash_bit k = 15 - k % 16 := by
  unfold hash_reg_offset hash_bit
  obtain ⟨h1, h2⟩ := hash_index_spec k hk
  rw [h1, h2]
  exact ⟨rfl, rfl⟩

theorem mac_bank_cell (a : Nat) (h0 : 0x6000 ≤ a) (h1 : a ≤ 0x6134) :
    sungem_get_reg (a % 2 ^ 32) = some (7, (a % 256) / 4) := by
  have hlt : a < 2 ^ 32 := by omega
  rw [Nat.mod_eq_of_lt hlt]
  unfold sungem_get_reg
  have e1 : (a &&& 0xff) >>> 2 = (a % 256) / 4 := by
    rw [show (0xff : Nat) = 2 ^ 8 - 1 by decide, Nat.and_pow_two_sub_one_eq_mod,
      Nat.shiftRight_eq_div_pow]
  simp only [e1]
  rw [if_neg (by omega), if_neg (by omega), if_neg (by omega), if_neg (by omega),
    if_neg (by omega), if_neg (by omega), if_neg (by omega), if_pos ⟨h0, h1⟩]

/-- C37: the hash-filter lookup of `sungem_check_rx_mac` addresses a 256-entry
bitmap exactly. For a frame that reaches the hash branch (promiscuous and
all-multicast bits clear, hash-filter bit set, group bit set, not broadcast)
`sungem_check_rx_mac` returns `rx_match_mcast` when bit `15 - (k AND 0xf)` of
the register at `MAC_HASH0 + ((k >> 2) AND 0x3c)` is set and `rx_no_match` when
it is clear, for the key `k = crc >> 24`, and that register is a cell of the
MAC bank (bank 7). The key is below 256, and the map from `k` to the pair (byte
offset, bit) that the code uses sends the 256 keys to pairs (`4 * i`, `b`) with
`i, b < 16`, is injective, and reaches every such pair; two keys with
different offsets read different cells. The hypotheses place the sixteen hash
registers `MAC_HASH0 + 4 * i` in the MAC address range. -/
theorem sungem_hash_filter_bijection (e : Env) (h0 : 0x6000 ≤ e.MAC_HASH0)
    (h1 : e.MAC_HASH0 + 0x3c ≤ 0x6134) :
    (∀ s mac crc rxcfg, GET_REG s e.MAC_RXCFG = some rxcfg →
      rxcfg &&& e.MAC_RXCFG_PROM = 0 →
      ¬ ((u8 mac 4 <<< 8) ||| u8 mac 5 = 0xffff ∧ (u8 mac 2 <<< 8) ||| u8 mac 3 = 0xffff ∧
        (u8 mac 0 <<< 8) ||| u8 mac 1 = 0xffff) →
      u8 mac 0 &&& 1 ≠ 0 → rxcfg &&& e.MAC_RXCFG_PGRP = 0 → rxcfg &&& e.MAC_RXCFG_HFE ≠ 0 →
      ∃ idx hash,
        sungem_get_reg ((e.MAC_HASH0 + hash_reg_offset (hash_key crc)) % 2 ^ 32) =
          some (7, idx) ∧
        GET_REG s (e.MAC_HASH0 + hash_reg_offset (hash_key crc)) = some hash ∧
        hash = loadCell s (7, idx) ∧
        (hash.testBit (hash_bit (hash_key crc)) = true →
          sungem_check_rx_mac e s mac crc = some rx_match_mcast) ∧
        (hash.testBit (hash_bit (hash_key crc)) = false →
          sungem_check_rx_mac e s mac crc = some rx_no_match)) ∧
    (∀ crc, hash_key crc < 256) ∧
    (∀ k, k < 256 → ∃ i b, i < 16 ∧ b < 16 ∧ hash_reg_offset k = 4 * i ∧ hash_bit k = b) ∧
    (∀ k1 k2, k1 < 256 → k2 < 256 → hash_reg_offset k1 = hash_reg_offset k2 →
      hash_bit k1 = hash_bit k2 → k1 = k2) ∧
    (∀ i b, i < 16 → b < 16 → ∃ k, k < 256 ∧ hash_reg_offset k = 4 * i ∧ hash_bit k = b) ∧
    (∀ k, k < 256 → 0x6000 ≤ e.MAC_HASH0 + hash_reg_offset k ∧
      e.MAC_HASH0 + hash_reg_offset k ≤ 0x6134 ∧
      ∃ idx, sungem_get_reg ((e.MAC_HASH0 + hash_reg_offset k) % 2 ^ 32) = some (7, idx)) ∧
    (∀ k1 k2, k1 < 256 → k2 < 256 →
      sungem_get_reg ((e.MAC_HASH0 + hash_reg_offset k1) % 2 ^ 32) =
        sungem_get_reg ((e.MAC_HASH0 + hash_reg_offset k2) % 2 ^ 32) →
      hash_reg_offset k1 = hash_reg_offset k2) := by
  refine ⟨?_, hash_key_lt, ?_, ?_, ?_, ?_, ?_⟩
  · intro s mac crc rxcfg hcfg hp hb hm hg hf
    obtain ⟨a, -⟩ := hash_fields _ (hash_key_lt crc)
    have hkl := hash_key_lt crc
    have hlo : 0x6000 ≤ e.MAC_HASH0 + hash_reg_offset (hash_key crc) := by omega
    have hhi : e.MAC_HASH0 + hash_reg_offset (hash_key crc) ≤ 0x6134 := by omega
    have hcell := mac_bank_cell _ hlo hhi
    have hget := GET_REG_of hcell s
    have hres := check_rx_mac_hash_lookup e s mac crc rxcfg hcfg hp hb hm hg hf
    rw [hget, Option.some_bind] at hres
    refine ⟨_, _, hcell, hget, rfl, fun ht => ?_, fun ht => ?_⟩
    · rw [hres, if_pos ((and_one_shift_ne_zero _ _).mpr ht)]
    · rw [hres, if_neg (fun hc => by
        rw [(and_one_shift_ne_zero _ _).mp hc] at ht
        exact absurd ht (by decide))]
  · intro k hk
    obtain ⟨a, b⟩ := hash_fields k hk
    exact ⟨k / 16, 15 - k % 16, by omega, by omega, a, b⟩
  · intro k1 k2 hk1 hk2 ho hb
    obtain ⟨a1, b1⟩ := hash_fields k1 hk1
    obtain ⟨a2, b2⟩ := hash_fields k2 hk2
    rw [a1, a2] at ho
    rw [b1, b2] at hb
    omega
  · intro i b hi hb
    have hk : 16 * i + (15 - b) < 256 := by omega
    obtain ⟨a1, b1⟩ := hash_fields _ hk
    exact ⟨16 * i + (15 - b), hk, by rw [a1]; omega, by rw [b1]; omega⟩
  · intro k hk
    obtain ⟨a, -⟩ := hash_fields k hk
    have hlo : 0x6000 ≤ e.MAC_HASH0 + hash_reg_offset k := by omega
    have hhi : e.MAC_HASH0 + hash_reg_offset k ≤ 0x6134 := by omega
    exact ⟨hlo, hhi, _, mac_bank_cell _ hlo hhi⟩
  · intro k1 k2 hk1 hk2 hc
    obtain ⟨a1, -⟩ := hash_fields k1 hk1
    obtain ⟨a2, -⟩ := hash_fields k2 hk2
    rw [mac_bank_cell _ (by omega) (by omega), mac_bank_cell _ (by omega) (by omega),
      Option.some.injEq, Prod.mk.injEq] at hc
    have := hc.2
    omega

/-- Witness for `sungem_hash_filter_bijection`: the reference constants, where
`MAC_HASH0 = 0x60c0`, and a device with the hash filter enabled in which only
bit 10 of the register at offset `0x28` is set. A multicast frame with key
`0xa5`, which selects this bit, is accepted; one with key `0xa4`, which selects
bit 11 of the same register, is not. -/
theorem sungem_hash_filter_bijection_witness :
    sungem_check_rx_mac gemEnv hashBitState mcastAddr 0xa5000000 = some rx_match_mcast ∧
    sungem_check_rx_mac gemEnv hashBitState mcastAddr 0xa4000000 = some rx_no_match := by
  have h := (sungem_hash_filter_bijection gemEnv (by decide) (by decide)).1 hashBitState
    mcastAddr
  obtain ⟨i1, v1, c1, g1, e1, p1, -⟩ := h 0xa5000000 gemEnv.MAC_RXCFG_HFE (by decide) (by decide)
    (by decide) (by decide) (by decide) (by decide)
  obtain ⟨i2, v2, c2, g2, e2, -, n2⟩ := h 0xa4000000 gemEnv.MAC_RXCFG_HFE (by decide) (by decide)
    (by decide) (by decide) (by decide) (by decide)
  have d1 : GET_REG hashBitState (gemEnv.MAC_HASH0 + hash_reg_offset (hash_key 0xa5000000)) =
      some 0x400 := by decide
  have d2 : GET_REG hashBitState (gemEnv.MAC_HASH0 + hash_reg_offset (hash_key 0xa4000000)) =
      some 0x400 := by decide
  rw [d1, Option.some.injEq] at g1
  rw [d2, Option.some.injEq] at g2
  subst g1 g2
  exact ⟨p1 (by decide), n2 (by decide)⟩

set_option maxRecDepth 100000 in
/-- C38, evaluation: a guest write of `0xfe001` to `RXDMA_CFG` (enable bit and
checksum offset field 127) followed by a 60-byte frame. The frame is accepted
and written into the ring (`RXDMA_DONE` moves from 0 to 1) although the
checksum offset `coff = 127` is beyond the processed length 60: the length
`size - coff` wraps to `2 ^ 64 - 67`, which is negative as the `int` argument of
the checksum function, and the checksum stored in the low 16 bits of the status
word is that of an empty range. -/
theorem sungem_receive_csum_offset_beyond_frame :
    (rx_pad zeroFrame).length = 60 ∧
    ((sungem_mmio_rxdma_write gemEnv (rxRingState 9 4) RXDMA_CFG 0xfe001).bind
      (fun s => GET_REG s (RXDMA_CFG + 0x4000))).map
        (fun cfg => ((cfg &&& gemEnv.RXDMA_CFG_CSUMOFF) >>> 13) % 2 ^ 32) = some 127 ∧
    ((sungem_mmio_rxdma_write gemEnv (rxRingState 9 4) RXDMA_CFG 0xfe001).bind
      (fun s => sungem_receive gemEnv s zeroFrame)).bind
        (fun r => GET_REG r.2 (RXDMA_DONE + 0x4000)) = some 1 ∧
    ((rx_pad zeroFrame).length + 2 ^ 64 - 127) % 2 ^ 64 = 2 ^ 64 - 67 ∧
    int_len (((rx_pad zeroFrame).length + 2 ^ 64 - 127) % 2 ^ 64) = 0 ∧
    (sungem_mmio_rxdma_write gemEnv (rxRingState 9 4) RXDMA_CFG 0xfe001).map
      (fun s => rx_csum gemEnv s (rx_pad zeroFrame)) = some (gemEnv.net_raw_checksum []) ∧
    ((sungem_mmio_rxdma_write gemEnv (rxRingState 9 4) RXDMA_CFG 0xfe001).bind
      (fun s => sungem_receive gemEnv s zeroFrame)).map
        (fun r => (r.2.mem 0x1000, r.2.mem 0x1001)) = some (0xff, 0xff) := by
  decide

/-- C39, evaluation: on the device of `irqTrace` the interrupt line is asserted
and the registers call for it. A guest write of `TXRST | RXRST` to `GREG_SWRST`
then runs `sungem_reset_all`, which clears `GREG_STAT` and sets `GREG_IMASK` to
`0xFFFFFFF`: the registers call for a low line, and the line is still
asserted. -/
theorem sungem_swrst_leaves_irq_asserted :
    irqTrace.map (fun s => (s.irq, irq_level gemEnv s)) = some (true, true) ∧
    (irqTrace.bind (fun s => sungem_mmio_greg_write gemEnv s GREG_SWRST 3)).map
      (fun s => (s.irq, irq_level gemEnv s, loadCell s (0, 3), loadCell s (0, 4))) =
        some (true, false, 0, 0xFFFFFFF) := by
  decide

/-- C35, evaluation: after `sungem_init_regs` on a new device, `RXDMA_CFG` holds
`0x1000010` (ring-size field 8) and `rx_mask + 1 = 32 * 2 ^ 8`. A call of
`sungem_mmio_rxdma_write` with `addr = 1` and `val = 0` stores 0 in the cell of
`RXDMA_CFG`, because `sungem_get_reg` drops the two low address bits, and does
not run `sungem_update_masks`, because the post-write switch compares `addr`
with `RXDMA_CFG`: the ring-size field is then 0 and `rx_mask + 1` is still
8192, not 32. The same holds for `TXDMA_CFG` with `addr = 5`. -/
theorem sungem_ring_mask_stale_after_unaligned_write :
    (sungem_init_regs gemEnv (newDevice (fun _ => 0) 0 (fun _ => 0) false)).map
      (fun s => (loadCell s (5, 0), (loadCell s (5, 0) &&& gemEnv.RXDMA_CFG_RINGSZ) >>> 1,
        s.rx_mask + 1)) = some (0x1000010, 8, 32 * 2 ^ 8) ∧
    ((sungem_init_regs gemEnv (newDevice (fun _ => 0) 0 (fun _ => 0) false)).bind
      (fun s => sungem_mmio_rxdma_write gemEnv s 1 0)).map
      (fun s => (loadCell s (5, 0), (loadCell s (5, 0) &&& gemEnv.RXDMA_CFG_RINGSZ) >>> 1,
        s.rx_mask + 1)) = some (0, 0, 8192) ∧
    ((sungem_init_regs gemEnv (newDevice (fun _ => 0) 0 (fun _ => 0) false)).bind
      (fun s => sungem_mmio_txdma_write gemEnv s 5 0)).map
      (fun s => (loadCell s (2, 1), (loadCell s (2, 1) &&& gemEnv.TXDMA_CFG_RINGSZ) >>> 1,
        s.tx_mask + 1)) = some (0, 0, 8192) := by
  decide
/-! ## The ring masks over the transition system -/

theorem ring_mask_pow (cfg rsz : Nat) : ∃ k, k ≤ 32 ∧ ring_mask cfg rsz + 1 = 2 ^ k := by
  unfold ring_mask
  rw [Nat.one_shiftLeft]
  by_cases h : ((cfg &&& rsz) >>> 1) + 5 < 32
  · have hlt : 2 ^ (((cfg &&& rsz) >>> 1) + 5) < 2 ^ 32 := Nat.pow_lt_pow_right (by decide) h
    have hpos : 0 < 2 ^ (((cfg &&& rsz) >>> 1) + 5) := Nat.pow_pos (by decide)
    refine ⟨_, Nat.le_of_lt h, ?_⟩
    rw [Nat.mod_eq_of_lt hlt]
    have e1 : 2 ^ (((cfg &&& rsz) >>> 1) + 5) + 2 ^ 32 - 1 =
        (2 ^ (((cfg &&& rsz) >>> 1) + 5) - 1) + 2 ^ 32 := by omega
    rw [e1, Nat.add_mod_right, Nat.mod_eq_of_lt (by omega)]
    omega
  · have hdvd : 2 ^ 32 ∣ 2 ^ (((cfg &&& rsz) >>> 1) + 5) := pow_dvd_pow 2 (by omega)
    refine ⟨32, le_refl _, ?_⟩
    rw [Nat.mod_eq_zero_of_dvd hdvd, Nat.zero_add, Nat.mod_eq_of_lt (by decide)]
    decide

/-- For a ring-size field of at most 26 the mask is that of a ring of
`32 * 2 ^ n` descriptors. -/
theorem ring_mask_size (cfg rsz : Nat) (h : (cfg &&& rsz) >>> 1 < 27) :
    ring_mask cfg rsz + 1 = 32 * 2 ^ ((cfg &&& rsz) >>> 1) := by
  unfold ring_mask
  rw [Nat.one_shiftLeft]
  have hlt : 2 ^ (((cfg &&& rsz) >>> 1) + 5) < 2 ^ 32 :=
    Nat.pow_lt_pow_right (by decide) (by omega)
  have hpos : 0 < 2 ^ ((cfg &&& rsz) >>> 1) := Nat.pow_pos (by decide)
  have hx : 2 ^ (((cfg &&& rsz) >>> 1) + 5) = 32 * 2 ^ ((cfg &&& rsz) >>> 1) := by
    rw [Nat.pow_add, Nat.mul_comm]
  rw [hx] at hlt ⊢
  omega

theorem MasksConsistent.to_shape {e : Env} {s : SunGEMState} (h : MasksConsistent e s) :
    MaskShape s := by
  unfold MaskShape
  rw [h.1, h.2]
  exact ⟨ring_mask_pow _ _, ring_mask_pow _ _⟩

theorem masks_updated_consistent (e : Env) (s : SunGEMState) :
    MasksConsistent e (masks_updated e s) := by
  unfold MasksConsistent
  rw [loadCell_masks_updated, loadCell_masks_updated]
  exact ⟨rfl, rfl⟩

theorem rx_reset_state_consistent (e : Env) (s : SunGEMState) :
    MasksConsistent e (rx_reset_state e s) :=
  masks_updated_consistent e _

theorem tx_reset_state_consistent (e : Env) (s : SunGEMState) :
    MasksConsistent e (tx_reset_state e s) := by
  unfold MasksConsistent
  rw [loadCell_tx_reset_state, loadCell_tx_reset_state]
  exact ⟨rfl, rfl⟩

theorem MaskKeep.keep_shape {ex : List (Nat × Nat)} {s t : SunGEMState} (h : MaskKeep ex s t)
    (hs : MaskShape s) : MaskShape t := by
  unfold MaskShape
  rw [h.1, h.2.1]
  exact hs

theorem MaskKeep.keep_consistent {e : Env} {ex : List (Nat × Nat)} {s t : SunGEMState}
    (h : MaskKeep ex s t) (h1 : (5, 0) ∉ ex) (h2 : (2, 1) ∉ ex) (hs : MasksConsistent e s) :
    MasksConsistent e t := by
  unfold MasksConsistent loadCell
  rw [h.1, h.2.1, h.2.2 5 0 h1, h.2.2 2 1 h2]
  exact hs

theorem MaskKeep.keep_refl (ex : List (Nat × Nat)) (s : SunGEMState) : MaskKeep ex s s :=
  ⟨rfl, rfl, fun _ _ _ => rfl⟩

theorem MaskKeep.keep_weaken {ex ex2 : List (Nat × Nat)} {s t : SunGEMState} (h : MaskKeep ex s t)
    (hsub : ∀ c, c ∈ ex → c ∈ ex2) : MaskKeep ex2 s t :=
  ⟨h.1, h.2.1, fun b i hn => h.2.2 b i (fun hc => hn (hsub _ hc))⟩

theorem MaskKeep.keep_trans {ex : List (Nat × Nat)} {s t u : SunGEMState}
    (h1 : MaskKeep ex s t) (h2 : MaskKeep ex t u) : MaskKeep ex s u :=
  ⟨h2.1.trans h1.1, h2.2.1.trans h1.2.1, fun b i hn => (h2.2.2 b i hn).trans (h1.2.2 b i hn)⟩

theorem MaskKeep.store (ex : List (Nat × Nat)) (s : SunGEMState) (c : Nat × Nat) (v : Nat)
    (hc : c ∈ ex) : MaskKeep ex s (storeCell s c v) :=
  ⟨rfl, rfl, fun b i hn => storeCell_regs_ne s c v b i (fun h => hn (h ▸ hc))⟩

theorem MaskKeep.irq (ex : List (Nat × Nat)) (s : SunGEMState) (b : Bool) :
    MaskKeep ex s (pci_set_irq s b) :=
  ⟨rfl, rfl, fun _ _ _ => rfl⟩

theorem KickFrame.mask_keep {s t : SunGEMState} (h : KickFrame s t) :
    MaskKeep [(0, 3), (6, 1), (3, 0)] s t :=
  ⟨h.2.1, h.1, h.2.2.1⟩

theorem MaskKeep.keep_status {ex : List (Nat × Nat)} {s t : SunGEMState} (h : MaskKeep ex s t)
    (h03 : (0, 3) ∈ ex) (v : Nat) (b : Bool) :
    MaskKeep ex s (pci_set_irq (storeCell t (0, 3) v) b) :=
  h.keep_trans ((MaskKeep.store ex t (0, 3) v h03).keep_trans (MaskKeep.irq ex _ b))

theorem MaskOutcome.of_keep {e : Env} {ex : List (Nat × Nat)} {s t : SunGEMState}
    (h : MaskKeep ex s t) : MaskOutcome e ex s t :=
  ⟨s, Or.inl rfl, h⟩

theorem MaskOutcome.of_consistent {e : Env} (ex : List (Nat × Nat)) (s : SunGEMState)
    {t : SunGEMState} (h : MasksConsistent e t) : MaskOutcome e ex s t :=
  ⟨t, Or.inr h, MaskKeep.keep_refl ex t⟩

theorem MaskOutcome.out_shape {e : Env} {ex : List (Nat × Nat)} {s t : SunGEMState}
    (h : MaskOutcome e ex s t) (hs : MaskShape s) : MaskShape t := by
  obtain ⟨b0, hb, hk⟩ := h
  rcases hb with rfl | hc
  · exact hk.keep_shape hs
  · exact hk.keep_shape hc.to_shape

theorem MaskOutcome.out_consistent {e : Env} {ex : List (Nat × Nat)} {s t : SunGEMState}
    (h : MaskOutcome e ex s t) (h1 : (5, 0) ∉ ex) (h2 : (2, 1) ∉ ex)
    (hs : MasksConsistent e s) : MasksConsistent e t := by
  obtain ⟨b0, hb, hk⟩ := h
  rcases hb with rfl | hc
  · exact hk.keep_consistent h1 h2 hs
  · exact hk.keep_consistent h1 h2 hc

theorem mem_cellsOf {r : Nat} {c : Nat × Nat} (h : sungem_get_reg (r % 2 ^ 32) = some c) :
    c ∈ cellsOf r := by
  unfold cellsOf
  rw [h]
  exact List.mem_singleton.mpr rfl

theorem cascade_mask_keep (e : Env) (s : SunGEMState) :
    Post (fun t => MaskKeep [(0, 3)] s t) (sungem_eval_cascade_irq e s) := by
  unfold sungem_eval_cascade_irq
  simp only [Post_bind, Post_GET_REG, ite_update_status, Post_update_status]
  intros
  exact (((MaskKeep.keep_refl _ s).keep_status (List.mem_singleton.mpr rfl) _ _).keep_status
    (List.mem_singleton.mpr rfl) _ _).keep_status (List.mem_singleton.mpr rfl) _ _

theorem update_masks_outcome (e : Env) (ex : List (Nat × Nat)) (s0 s : SunGEMState) :
    Post (fun t => MaskOutcome e ex s0 t) (sungem_update_masks e s) := by
  rw [update_masks_eq, Post_some]
  exact MaskOutcome.of_consistent ex s0 (masks_updated_consistent e s)

theorem receive_mask_keep (e : Env) (s : SunGEMState) (buf : List Nat) :
    Post (fun r => MaskKeep [(0, 3), (6, 1), (3, 0)] s r.2) (sungem_receive e s buf) :=
  (receive_kick_frame e s buf).mono (fun _ h => h.mask_keep)

theorem tx_kick_kick_frame (e : Env) (s : SunGEMState) :
    Post (fun t => KickFrame s t) (sungem_tx_kick e s) := by
  unfold sungem_tx_kick
  simp only [Post_bind, Post_GET_REG, Post_ite, Post_pure, Post_update_status, if_true]
  intro c1 _ c2 _
  refine ⟨fun _ => KickFrame.kick_refl s, fun _ => ?_⟩
  intro c3 _ c4 _ c5 h5 c6 _
  rw [get_reg_TXDONE, Option.some.injEq] at h5
  subst h5
  refine (tx_loop_post e _ _ _ _ s rfl).mono ?_
  intro t ⟨hk, _, _⟩
  exact KickFrame.congr (hk.kick_trans (KickFrame.set_status (KickFrame.kick_refl t) _)) rfl rfl
    rfl

theorem tx_kick_mask_keep (e : Env) (s : SunGEMState) :
    Post (fun t => MaskKeep [(0, 3), (6, 1), (3, 0)] s t) (sungem_tx_kick e s) :=
  (tx_kick_kick_frame e s).mono (fun _ h => h.mask_keep)

theorem mem_resetAllCells (e : Env) :
    (0, 4) ∈ resetAllCells e ∧ (0, 3) ∈ resetAllCells e ∧ (1, 4) ∈ resetAllCells e ∧
    (∀ c, c ∈ cellsOf e.MAC_ADDR0 → c ∈ resetAllCells e) ∧
    (∀ c, c ∈ cellsOf e.MAC_ADDR1 → c ∈ resetAllCells e) ∧
    (∀ c, c ∈ cellsOf e.MAC_ADDR2 → c ∈ resetAllCells e) ∧
    (∀ c, c ∈ cellsOf e.MIF_CFG → c ∈ resetAllCells e) := by
  refine ⟨?_, ?_, ?_, ?_, ?_, ?_, ?_⟩
  · simp [resetAllCells]
  · simp [resetAllCells]
  · simp [resetAllCells]
  · intro c h
    simp [resetAllCells, h]
  · intro c h
    simp [resetAllCells, h]
  · intro c h
    simp [resetAllCells, h]
  · intro c h
    simp [resetAllCells, h]

theorem reset_all_base (e : Env) (s : SunGEMState) (b : Bool) :
    Post (fun t => ∃ b0, MasksConsistent e b0 ∧ MaskKeep (resetAllCells e) b0 t)
      (sungem_reset_all e s b) := by
  obtain ⟨m1, m2, m3, m4, m5, m6, m7⟩ := mem_resetAllCells e
  have base : MasksConsistent e (tx_reset_state e (rx_reset_state e s)) :=
    tx_reset_state_consistent e _
  have k0 : MaskKeep (resetAllCells e) (tx_reset_state e (rx_reset_state e s))
      (reset_all_common e s) :=
    (MaskKeep.store _ _ _ _ m1).keep_trans (MaskKeep.store _ _ _ _ m2)
  unfold sungem_reset_all
  simp only [reset_rx_eq, reset_tx_eq, Option.bind_eq_bind, Option.some_bind,
    SET_REG_of (show sungem_get_reg (GREG_IMASK % 2 ^ 32) = some (0, 4) by decide),
    SET_REG_GREG_STAT,
    SET_REG_of (show sungem_get_reg (GREG_SWRST % 2 ^ 32) = some (1, 4) by decide),
    GET_REG_of (show sungem_get_reg (GREG_SWRST % 2 ^ 32) = some (1, 4) by decide)]
  rw [Post_obind]
  cases b with
  | true =>
    simp only [if_true, Post_obind, Post_SET_REG, Post_some]
    intro c0 h0 c1 h1 c2 h2 cm hm
    exact ⟨_, base, ((((k0.keep_trans (MaskKeep.store _ _ _ _ m3)).keep_trans
      (MaskKeep.store _ _ _ _ (m4 _ (mem_cellsOf h0)))).keep_trans
      (MaskKeep.store _ _ _ _ (m5 _ (mem_cellsOf h1)))).keep_trans
      (MaskKeep.store _ _ _ _ (m6 _ (mem_cellsOf h2)))).keep_trans
      (MaskKeep.store _ _ _ _ (m7 _ (mem_cellsOf hm)))⟩
  | false =>
    simp only [Bool.false_eq_true, if_false, Post_SET_REG, Post_some]
    intro cm hm
    exact ⟨_, base, (k0.keep_trans (MaskKeep.store _ _ _ _ m3)).keep_trans
      (MaskKeep.store _ _ _ _ (m7 _ (mem_cellsOf hm)))⟩

theorem reset_all_outcome (e : Env) (s0 s : SunGEMState) (b : Bool) :
    Post (fun t => MaskOutcome e (resetAllCells e) s0 t) (sungem_reset_all e s b) :=
  (reset_all_base e s b).mono (fun _ ⟨b0, hb, hk⟩ => ⟨b0, Or.inr hb, hk⟩)

theorem reset_rx_outcome (e : Env) (ex : List (Nat × Nat)) (s0 s : SunGEMState) :
    Post (fun t => MaskOutcome e ex s0 t) (sungem_reset_rx e s) := by
  rw [reset_rx_eq, Post_some]
  exact MaskOutcome.of_consistent ex s0 (rx_reset_state_consistent e s)

theorem reset_tx_outcome (e : Env) (ex : List (Nat × Nat)) (s0 s : SunGEMState) :
    Post (fun t => MaskOutcome e ex s0 t) (sungem_reset_tx e s) := by
  rw [reset_tx_eq, Post_some]
  exact MaskOutcome.of_consistent ex s0 (tx_reset_state_consistent e s)

theorem MaskOutcome.out_weaken {e : Env} {ex ex2 : List (Nat × Nat)} {s t : SunGEMState}
    (h : MaskOutcome e ex s t) (hsub : ∀ c, c ∈ ex → c ∈ ex2) : MaskOutcome e ex2 s t := by
  obtain ⟨b0, hb, hk⟩ := h
  exact ⟨b0, hb, hk.keep_weaken hsub⟩

theorem greg_write_outcome (e : Env) (s : SunGEMState) (addr val : Nat) :
    Post (fun t => MaskOutcome e (cellsOf addr ++ resetAllCells e) s t)
      (sungem_mmio_greg_write e s addr val) := by
  have m03 : (0, 3) ∈ cellsOf addr ++ resetAllCells e :=
    List.mem_append_right _ (mem_resetAllCells e).2.1
  unfold sungem_mmio_greg_write
  cases hreg : sungem_get_reg (addr % 2 ^ 32) with
  | none =>
    rw [Post_some]
    exact MaskOutcome.of_keep (MaskKeep.keep_refl _ s)
  | some regp =>
    have mreg : regp ∈ cellsOf addr ++ resetAllCells e :=
      List.mem_append_left _ (mem_cellsOf hreg)
    dsimp only
    simp only [Post_ite, Post_some, Post_bind, Post_GET_REG, Post_SET_REG, Post_eval_irq]
    refine ⟨fun _ => MaskOutcome.of_keep (MaskKeep.keep_refl _ s), fun _ => ⟨fun _ => ?_,
      fun _ => ⟨fun _ => ?_, fun _ => ⟨fun _ => ⟨fun _ => ?_, fun _ => ⟨fun _ => ?_,
        fun _ => ⟨fun _ => ?_, fun _ => ?_⟩⟩⟩, fun _ => ?_⟩⟩⟩⟩
    · intro c1 h1 c2 h2
      rw [get_reg_GREG_STAT, Option.some.injEq] at h2
      subst h2
      exact MaskOutcome.of_keep ((MaskKeep.store _ s _ _ m03).keep_trans (MaskKeep.irq _ _ _))
    · exact MaskOutcome.of_keep ((MaskKeep.store _ s _ _ mreg).keep_trans (MaskKeep.irq _ _ _))
    · exact reset_rx_outcome e _ s _
    · exact reset_tx_outcome e _ s _
    · exact (reset_all_outcome e s _ false).mono
        (fun t h => h.out_weaken (fun c hc => List.mem_append_right _ hc))
    · exact MaskOutcome.of_keep (MaskKeep.store _ s _ _ mreg)
    · exact MaskOutcome.of_keep (MaskKeep.store _ s _ _ mreg)

theorem greg_read_mask_keep (e : Env) (s : SunGEMState) (addr : Nat) :
    Post (fun r => MaskKeep (cellsOf addr) s r.2) (sungem_mmio_greg_read e s addr) := by
  unfold sungem_mmio_greg_read
  cases hreg : sungem_get_reg (addr % 2 ^ 32) with
  | none =>
    rw [Post_some]
    exact MaskKeep.keep_refl _ s
  | some regp =>
    dsimp only
    simp only [Post_ite, Post_some, Post_bind, Post_GET_REG, Post_eval_irq, Post_pure]
    refine ⟨fun _ => ?_, fun _ => ⟨fun _ => ?_, fun _ => MaskKeep.keep_refl _ s⟩⟩
    · intro c _
      exact (MaskKeep.store _ s _ _ (mem_cellsOf hreg)).keep_trans (MaskKeep.irq _ _ _)
    · intro c1 _ c2 _
      exact MaskKeep.keep_refl _ s

theorem txdma_write_outcome (e : Env) (s : SunGEMState) (addr val : Nat) :
    Post (fun t => MaskOutcome e
        ((0, 3) :: (6, 1) :: (3, 0) :: (if addr = TXDMA_CFG then [] else cellsOf (addr + 0x2000)))
        s t)
      (sungem_mmio_txdma_write e s addr val) := by
  unfold sungem_mmio_txdma_write
  cases hreg : sungem_get_reg ((addr + 0x2000) % 2 ^ 32) with
  | none =>
    rw [Post_some]
    exact MaskOutcome.of_keep (MaskKeep.keep_refl _ s)
  | some regp =>
    dsimp only
    simp only [Post_ite, Post_some]
    refine ⟨fun _ => MaskOutcome.of_keep (MaskKeep.keep_refl _ s), fun _ => ⟨fun hk => ?_,
      fun _ => ⟨fun _ => ?_, fun hc => ?_⟩⟩⟩
    · have hne : addr ≠ TXDMA_CFG := by rw [hk]; decide
      have mreg : regp ∈ (0, 3) :: (6, 1) :: (3, 0) ::
          (if addr = TXDMA_CFG then [] else cellsOf (addr + 0x2000)) := by
        rw [if_neg hne]
        exact List.mem_cons_of_mem _ (List.mem_cons_of_mem _ (List.mem_cons_of_mem _
          (mem_cellsOf hreg)))
      refine (tx_kick_mask_keep e _).mono (fun t h => ?_)
      exact MaskOutcome.of_keep ((MaskKeep.store _ s _ _ mreg).keep_trans
        (h.keep_weaken (fun c hc => by
          simp only [List.mem_cons, List.mem_singleton, List.not_mem_nil, or_false] at hc
          rcases hc with rfl | rfl | rfl <;> simp)))
    · exact update_masks_outcome e _ s _
    · have mreg : regp ∈ (0, 3) :: (6, 1) :: (3, 0) ::
          (if addr = TXDMA_CFG then [] else cellsOf (addr + 0x2000)) := by
        rw [if_neg hc]
        exact List.mem_cons_of_mem _ (List.mem_cons_of_mem _ (List.mem_cons_of_mem _
          (mem_cellsOf hreg)))
      exact MaskOutcome.of_keep (MaskKeep.store _ s _ _ mreg)

theorem rxdma_write_outcome (e : Env) (s : SunGEMState) (addr val : Nat) :
    Post (fun t => MaskOutcome e (if addr = RXDMA_CFG then [] else cellsOf (addr + 0x4000)) s t)
      (sungem_mmio_rxdma_write e s addr val) := by
  unfold sungem_mmio_rxdma_write
  cases hreg : sungem_get_reg ((addr + 0x4000) % 2 ^ 32) with
  | none =>
    rw [Post_some]
    exact MaskOutcome.of_keep (MaskKeep.keep_refl _ s)
  | some regp =>
    dsimp only
    simp only [Post_ite, Post_some, Post_bind, Post_GET_REG, Post_pure]
    refine ⟨fun _ => MaskOutcome.of_keep (MaskKeep.keep_refl _ s), fun _ => ⟨fun hk => ?_,
      fun _ => ⟨fun _ => ?_, fun hc => ?_⟩⟩⟩
    · have hne : addr ≠ RXDMA_CFG := by rw [hk]; decide
      refine MaskOutcome.of_keep (MaskKeep.store _ s _ _ ?_)
      rw [if_neg hne]
      exact mem_cellsOf hreg
    · refine (update_masks_outcome e
        (if addr = RXDMA_CFG then [] else cellsOf (addr + 0x4000)) s _).mono ?_
      intro t h c _
      exact h
    · refine MaskOutcome.of_keep (MaskKeep.store _ s _ _ ?_)
      rw [if_neg hc]
      exact mem_cellsOf hreg

theorem mmio_write_outcome (e : Env) (s : SunGEMState) (addr val : Nat) :
    Post (fun t => MaskOutcome e ((0, 3) :: cellsOf addr) s t)
      (sungem_mmio_write e s addr val) := by
  unfold sungem_mmio_write
  split
  · rw [Post_some]
    exact MaskOutcome.of_keep (MaskKeep.keep_refl _ s)
  · cases hreg : sungem_get_reg (addr % 2 ^ 32) with
    | none =>
      rw [Post_some]
      exact MaskOutcome.of_keep (MaskKeep.keep_refl _ s)
    | some regp =>
      have mreg : regp ∈ (0, 3) :: cellsOf addr := List.mem_cons_of_mem _ (mem_cellsOf hreg)
      dsimp only
      simp only [Post_ite, Post_some, Post_bind, Post_GET_REG, Post_pure]
      refine ⟨fun _ => MaskOutcome.of_keep (MaskKeep.keep_refl _ s), fun _ => ⟨fun _ => ?_,
        fun _ => ⟨fun _ => ?_, fun _ => ⟨fun _ => ?_, fun _ => ?_⟩⟩⟩⟩
      · refine (cascade_mask_keep e _).mono (fun t h => ?_)
        exact MaskOutcome.of_keep ((MaskKeep.store _ s _ _ mreg).keep_trans
          (h.keep_weaken (fun c hc => by
            rw [List.mem_singleton] at hc
            rw [hc]
            exact List.mem_cons_self _ _)))
      · exact MaskOutcome.of_keep ((MaskKeep.store _ s _ _ mreg).keep_trans
          (MaskKeep.store _ _ _ _ mreg))
      · refine (update_masks_outcome e ((0, 3) :: cellsOf addr) s _).mono ?_
        intro t h c _
        exact h
      · exact MaskOutcome.of_keep (MaskKeep.store _ s _ _ mreg)

theorem mmio_read_mask_keep (e : Env) (s : SunGEMState) (addr : Nat) :
    Post (fun r => MaskKeep ((0, 3) :: cellsOf addr) s r.2) (sungem_mmio_read e s addr) := by
  unfold sungem_mmio_read
  split
  · rw [Post_some]
    exact MaskKeep.keep_refl _ s
  · cases hreg : sungem_get_reg (addr % 2 ^ 32) with
    | none =>
      rw [Post_some]
      exact MaskKeep.keep_refl _ s
    | some regp =>
      have mreg : regp ∈ (0, 3) :: cellsOf addr := List.mem_cons_of_mem _ (mem_cellsOf hreg)
      dsimp only
      simp only [Post_ite, Post_some, Post_bind, Post_update_status, Post_pure]
      repeat (first
        | exact MaskKeep.keep_refl _ s
        | exact (MaskKeep.store _ s _ _ mreg).keep_status (List.mem_cons_self _ _) _ _
        | intro _
        | constructor)

theorem get_reg_bank (r : Nat) (c : Nat × Nat) (h : sungem_get_reg r = some c) :
    c.2 = (r % 256) / 4 ∧ (c.1 = 5 → 0x4000 ≤ r ∧ r ≤ 0x4028) ∧
      (c.1 = 2 → 0x2000 ≤ r ∧ r ≤ 0x2034) := by
  have e1 : (r &&& 0xff) >>> 2 = (r % 256) / 4 := by
    rw [show (0xff : Nat) = 2 ^ 8 - 1 by decide, Nat.and_pow_two_sub_one_eq_mod,
      Nat.shiftRight_eq_div_pow]
  unfold sungem_get_reg at h
  simp only [e1] at h
  by_cases h0 : r ≤ 0x1c
  · rw [if_pos h0, Option.some.injEq] at h
    subst h
    exact ⟨rfl, fun x => by simp at x, fun x => by simp at x⟩
  rw [if_neg h0] at h
  by_cases h1 : r ≥ 0x1000 ∧ r ≤ 0x1010
  · rw [if_pos h1, Option.some.injEq] at h
    subst h
    exact ⟨rfl, fun x => by simp at x, fun x => by simp at x⟩
  rw [if_neg h1] at h
  by_cases h2 : r ≥ 0x2000 ∧ r ≤ 0x2034
  · rw [if_pos h2, Option.some.injEq] at h
    subst h
    exact ⟨rfl, fun x => by simp at x, fun _ => h2⟩
  rw [if_neg h2] at h
  by_cases h3 : r ≥ 0x2100 ∧ r ≤ 0x2118
  · rw [if_pos h3, Option.some.injEq] at h
    subst h
    exact ⟨rfl, fun x => by simp at x, fun x => by simp at x⟩
  rw [if_neg h3] at h
  by_cases h4 : r ≥ 0x3000 ∧ r ≤ 0x3010
  · rw [if_pos h4, Option.some.injEq] at h
    subst h
    exact ⟨rfl, fun x => by simp at x, fun x => by simp at x⟩
  rw [if_neg h4] at h
  by_cases h5 : r ≥ 0x4000 ∧ r ≤ 0x4028
  · rw [if_pos h5, Option.some.injEq] at h
    subst h
    exact ⟨rfl, fun _ => h5, fun x => by simp at x⟩
  rw [if_neg h5] at h
  by_cases h6 : r ≥ 0x4100 ∧ r ≤ 0x4120
  · rw [if_pos h6, Option.some.injEq] at h
    subst h
    exact ⟨rfl, fun x => by simp at x, fun x => by simp at x⟩
  rw [if_neg h6] at h
  by_cases h7 : r ≥ 0x6000 ∧ r ≤ 0x6134
  · rw [if_pos h7, Option.some.injEq] at h
    subst h
    exact ⟨rfl, fun x => by simp at x, fun x => by simp at x⟩
  rw [if_neg h7] at h
  by_cases h8 : r ≥ 0x6200 ∧ r ≤ 0x621c
  · rw [if_pos h8, Option.some.injEq] at h
    subst h
    exact ⟨rfl, fun x => by simp at x, fun x => by simp at x⟩
  rw [if_neg h8] at h
  by_cases h9 : r ≥ 0x9000 ∧ r ≤ 0x9018
  · rw [if_pos h9, Option.some.injEq] at h
    subst h
    exact ⟨rfl, fun x => by simp at x, fun x => by simp at x⟩
  rw [if_neg h9] at h
  by_cases h10 : r ≥ 0x9050 ∧ r ≤ 0x905c
  · rw [if_pos h10, Option.some.injEq] at h
    subst h
    exact ⟨rfl, fun x => by simp at x, fun x => by simp at x⟩
  rw [if_neg h10] at h
  exact absurd h (by simp)

/-- The cells of the two DMA configuration registers are reached from their
own addresses and the three unaligned addresses that follow each. -/
theorem get_reg_cfg_cells (r : Nat) (c : Nat × Nat) (h : sungem_get_reg r = some c) :
    (c = (5, 0) → 0x4000 ≤ r ∧ r ≤ 0x4003) ∧ (c = (2, 1) → 0x2004 ≤ r ∧ r ≤ 0x2007) := by
  obtain ⟨hi, h5, h2⟩ := get_reg_bank r c h
  constructor
  · intro hc
    rw [hc] at hi h5
    have := h5 rfl
    simp only at hi
    omega
  · intro hc
    rw [hc] at hi h2
    have := h2 rfl
    simp only at hi
    omega

theorem cellsOf_cfg (reg : Nat) (hlt : reg < 2 ^ 32) :
    ((5, 0) ∈ cellsOf reg → 0x4000 ≤ reg ∧ reg ≤ 0x4003) ∧
    ((2, 1) ∈ cellsOf reg → 0x2004 ≤ reg ∧ reg ≤ 0x2007) := by
  unfold cellsOf
  rw [Nat.mod_eq_of_lt hlt]
  cases h : sungem_get_reg reg with
  | none => exact ⟨fun x => absurd x (by simp), fun x => absurd x (by simp)⟩
  | some c =>
    obtain ⟨a, b⟩ := get_reg_cfg_cells reg c h
    simp only [Option.toList_some, List.mem_singleton]
    exact ⟨fun x => a x.symm, fun x => b x.symm⟩

/-- Every operation keeps the ring masks one less than a power of two. -/
theorem step_mask_shape (e : Env) (s s' : SunGEMState) (hs : Step e s s') (h : MaskShape s) :
    MaskShape s' := by
  cases hs with
  | mmio_write addr val hr => exact (mmio_write_outcome e s addr val s' hr).out_shape h
  | mmio_read addr v hr => exact (mmio_read_mask_keep e s addr _ hr).keep_shape h
  | greg_write addr val hr => exact (greg_write_outcome e s addr val s' hr).out_shape h
  | greg_read addr v hr => exact (greg_read_mask_keep e s addr _ hr).keep_shape h
  | txdma_write addr val hr => exact (txdma_write_outcome e s addr val s' hr).out_shape h
  | txdma_read addr => rw [txdma_read_state]; exact h
  | rxdma_write addr val hr => exact (rxdma_write_outcome e s addr val s' hr).out_shape h
  | rxdma_read addr => rw [rxdma_read_state]; exact h
  | receive buf n hr => exact (receive_mask_keep e s buf _ hr).keep_shape h
  | tx_kick hr => exact (tx_kick_mask_keep e s s' hr).keep_shape h
  | reset_rx hr => exact (reset_rx_outcome e [] s s s' hr).out_shape h
  | reset_tx hr => exact (reset_tx_outcome e [] s s s' hr).out_shape h
  | reset_all b hr => exact (reset_all_outcome e s s b s' hr).out_shape h
  | guest_memory mem => exact h
  | link_status down => exact h

/-- In every reachable state both ring masks are one less than a power of two,
at most `2 ^ 32`. -/
theorem reachable_mask_shape (e : Env) (s : SunGEMState) (hr : Reachable e s) :
    MaskShape s := by
  induction hr with
  | init macaddr phy_addr mem link_down s h =>
    obtain ⟨b0, hb, hk⟩ := reset_all_base e _ true s h
    exact hk.keep_shape hb.to_shape
  | step s s' _ hs ih => exact step_mask_shape e s s' hs ih

theorem bus_cells_mmio (addr : Nat) (hw : MmioWindow addr) :
    (5, 0) ∉ (0, 3) :: cellsOf addr ∧ (2, 1) ∉ (0, 3) :: cellsOf addr := by
  have hlt : addr < 2 ^ 32 := by
    rcases hw with h | h <;> omega
  obtain ⟨a, b⟩ := cellsOf_cfg addr hlt
  constructor
  · intro h
    rcases List.mem_cons.mp h with h1 | h1
    · exact absurd h1 (by decide)
    · have := a h1
      rcases hw with h | h <;> omega
  · intro h
    rcases List.mem_cons.mp h with h1 | h1
    · exact absurd h1 (by decide)
    · have := b h1
      rcases hw with h | h <;> omega

theorem bus_cells_greg (addr : Nat) (hw : addr < 0x2000) :
    (5, 0) ∉ cellsOf addr ∧ (2, 1) ∉ cellsOf addr := by
  obtain ⟨a, b⟩ := cellsOf_cfg addr (by omega)
  exact ⟨fun h => by have := a h; omega, fun h => by have := b h; omega⟩

theorem bus_cells_txdma (addr : Nat) (ha : addr % 4 = 0) (hw : addr < 0x1000) :
    (5, 0) ∉ (0, 3) :: (6, 1) :: (3, 0) ::
        (if addr = TXDMA_CFG then [] else cellsOf (addr + 0x2000)) ∧
    (2, 1) ∉ (0, 3) :: (6, 1) :: (3, 0) ::
        (if addr = TXDMA_CFG then [] else cellsOf (addr + 0x2000)) := by
  obtain ⟨a, b⟩ := cellsOf_cfg (addr + 0x2000) (by omega)
  have hcfg : TXDMA_CFG = 4 := rfl
  by_cases hc : addr = TXDMA_CFG
  · rw [if_pos hc]
    exact ⟨by decide, by decide⟩
  · rw [if_neg hc]
    constructor
    · intro h
      simp only [List.mem_cons, Prod.mk.injEq] at h
      rcases h with h | h | h | h
      · omega
      · omega
      · omega
      · have := a h
        omega
    · intro h
      simp only [List.mem_cons, Prod.mk.injEq] at h
      rcases h with h | h | h | h
      · omega
      · omega
      · omega
      · have := b h
        rw [hcfg] at hc
        omega

theorem bus_cells_rxdma (addr : Nat) (ha : addr % 4 = 0) (hw : addr < 0x2000) :
    (5, 0) ∉ (if addr = RXDMA_CFG then [] else cellsOf (addr + 0x4000)) ∧
    (2, 1) ∉ (if addr = RXDMA_CFG then [] else cellsOf (addr + 0x4000)) := by
  obtain ⟨a, b⟩ := cellsOf_cfg (addr + 0x4000) (by omega)
  have hcfg : RXDMA_CFG = 0 := rfl
  by_cases hc : addr = RXDMA_CFG
  · rw [if_pos hc]
    exact ⟨by simp, by simp⟩
  · rw [if_neg hc]
    constructor
    · intro h
      have := a h
      rw [hcfg] at hc
      omega
    · intro h
      have := b h
      omega

/-- Every operation of the bus keeps the ring masks consistent with the
configuration registers, when the header places `MAC_ADDR0..2` and `MIF_CFG`
outside the cells of `RXDMA_CFG` and `TXDMA_CFG`. -/
theorem bus_step_consistent (e : Env)
    (henv : (5, 0) ∉ resetAllCells e ∧ (2, 1) ∉ resetAllCells e)
    (s s' : SunGEMState) (hs : BusStep e s s') (h : MasksConsistent e s) :
    MasksConsistent e s' := by
  have k3 : (5, 0) ∉ [((0 : Nat), (3 : Nat)), (6, 1), (3, 0)] ∧
      (2, 1) ∉ [((0 : Nat), (3 : Nat)), (6, 1), (3, 0)] := ⟨by decide, by decide⟩
  cases hs with
  | mmio_write addr val ha hw hr =>
    exact (mmio_write_outcome e s addr val s' hr).out_consistent (bus_cells_mmio addr hw).1
      (bus_cells_mmio addr hw).2 h
  | mmio_read addr v ha hw hr =>
    exact (mmio_read_mask_keep e s addr _ hr).keep_consistent (bus_cells_mmio addr hw).1
      (bus_cells_mmio addr hw).2 h
  | greg_write addr val ha hw hr =>
    refine (greg_write_outcome e s addr val s' hr).out_consistent ?_ ?_ h
    · exact fun hc => (List.mem_append.mp hc).elim (bus_cells_greg addr hw).1 henv.1
    · exact fun hc => (List.mem_append.mp hc).elim (bus_cells_greg addr hw).2 henv.2
  | greg_read addr v ha hw hr =>
    exact (greg_read_mask_keep e s addr _ hr).keep_consistent (bus_cells_greg addr hw).1
      (bus_cells_greg addr hw).2 h
  | txdma_write addr val ha hw hr =>
    exact (txdma_write_outcome e s addr val s' hr).out_consistent (bus_cells_txdma addr ha hw).1
      (bus_cells_txdma addr ha hw).2 h
  | txdma_read addr => rw [txdma_read_state]; exact h
  | rxdma_write addr val ha hw hr =>
    exact (rxdma_write_outcome e s addr val s' hr).out_consistent (bus_cells_rxdma addr ha hw).1
      (bus_cells_rxdma addr ha hw).2 h
  | rxdma_read addr => rw [rxdma_read_state]; exact h
  | receive buf n hr => exact (receive_mask_keep e s buf _ hr).keep_consistent k3.1 k3.2 h
  | tx_kick hr => exact (tx_kick_mask_keep e s s' hr).keep_consistent k3.1 k3.2 h
  | reset_rx hr =>
    exact (reset_rx_outcome e [] s s s' hr).out_consistent (by simp) (by simp) h
  | reset_tx hr =>
    exact (reset_tx_outcome e [] s s s' hr).out_consistent (by simp) (by simp) h
  | reset_all b hr => exact (reset_all_outcome e s s b s' hr).out_consistent henv.1 henv.2 h
  | guest_memory mem => exact h
  | link_status down => exact h

theorem bus_reachable_consistent (e : Env)
    (henv : (5, 0) ∉ resetAllCells e ∧ (2, 1) ∉ resetAllCells e)
    (s : SunGEMState) (hr : BusReachable e s) : MasksConsistent e s := by
  induction hr with
  | init macaddr phy_addr mem link_down s h =>
    obtain ⟨b0, hb, hk⟩ := reset_all_base e _ true s h
    exact hk.keep_consistent henv.1 henv.2 hb
  | step s s' _ hs ih => exact bus_step_consistent e henv s s' hs ih

/-- The ring sizes over the bus: in every state reachable from
`sungem_init_regs` through register accesses at register-aligned offsets inside
each region, resets, transmit kicks and frame deliveries, `rx_mask + 1` is
`32 * 2 ^ n` for `n` the ring-size field of `RXDMA_CFG`, and `tx_mask + 1` is
`32 * 2 ^ m` for `m` the ring-size field of `TXDMA_CFG`. -/
theorem bus_reachable_ring_sizes (e : Env)
    (henv : (5, 0) ∉ resetAllCells e ∧ (2, 1) ∉ resetAllCells e)
    (hrsz : e.RXDMA_CFG_RINGSZ ≤ 0x1e ∧ e.TXDMA_CFG_RINGSZ ≤ 0x1e)
    (s : SunGEMState) (hr : BusReachable e s) :
    s.rx_mask + 1 = 32 * 2 ^ ((loadCell s (5, 0) &&& e.RXDMA_CFG_RINGSZ) >>> 1) ∧
    s.tx_mask + 1 = 32 * 2 ^ ((loadCell s (2, 1) &&& e.TXDMA_CFG_RINGSZ) >>> 1) := by
  obtain ⟨h1, h2⟩ := bus_reachable_consistent e henv s hr
  have b1 : (loadCell s (5, 0) &&& e.RXDMA_CFG_RINGSZ) >>> 1 < 27 := by
    have := @Nat.and_le_right (loadCell s (5, 0)) e.RXDMA_CFG_RINGSZ
    rw [Nat.shiftRight_eq_div_pow]
    omega
  have b2 : (loadCell s (2, 1) &&& e.TXDMA_CFG_RINGSZ) >>> 1 < 27 := by
    have := @Nat.and_le_right (loadCell s (2, 1)) e.TXDMA_CFG_RINGSZ
    rw [Nat.shiftRight_eq_div_pow]
    omega
  rw [h1, h2]
  exact ⟨ring_mask_size _ _ b1, ring_mask_size _ _ b2⟩

/-- The reference constants meet the hypotheses of `bus_reachable_ring_sizes`. -/
theorem gemEnv_bus_ring_sizes (s : SunGEMState) (hr : BusReachable gemEnv s) :
    s.rx_mask + 1 = 32 * 2 ^ ((loadCell s (5, 0) &&& gemEnv.RXDMA_CFG_RINGSZ) >>> 1) ∧
    s.tx_mask + 1 = 32 * 2 ^ ((loadCell s (2, 1) &&& gemEnv.TXDMA_CFG_RINGSZ) >>> 1) :=
  bus_reachable_ring_sizes gemEnv ⟨by decide, by decide⟩ ⟨by decide, by decide⟩ s hr

/-- The addresses of registers inside a defined bank are the accepted addresses
other than `0x18 .. 0x1c` and `0x9050 .. 0x905c`. -/
theorem get_reg_in_bank_iff (reg : Nat) :
    get_reg_in_bank reg = true ↔
      sungem_get_reg reg ≠ none ∧ ¬ (0x18 ≤ reg ∧ reg ≤ 0x1c) ∧
        ¬ (0x9050 ≤ reg ∧ reg ≤ 0x905c) := by
  unfold get_reg_in_bank
  cases hc : sungem_get_reg reg with
  | none => simp
  | some c =>
    obtain ⟨b, i⟩ := c
    simp only [decide_eq_true_eq, ne_eq, not_false_eq_true, true_and, reduceCtorEq]
    exact sungem_get_reg_index_lt_iff reg b i hc

end Sungem

namespace Nubus

/-- With no slot specified and a mask whose `ctz32` is non-zero in 16 bits,
`nubus_device_realize` sets no error, assigns the slot `ctz32` gives and clears
that bit of the mask. -/
theorem nubus_realize_auto_slot (ctz32 : Nat → Nat) (first last : Int) (mask : Nat)
    (h : ctz32 (mask % 2 ^ 32) % 2 ^ 16 ≠ 0) :
    nubus_device_realize ctz32 first last ⟨-1, mask⟩ =
      (none, claim_slot ⟨Int.ofNat (ctz32 (mask % 2 ^ 32) % 2 ^ 16), mask⟩) := by
  unfold nubus_device_realize
  simp only [if_true]
  rw [if_pos h]

/-- With no slot specified and a mask whose `ctz32` is zero in 16 bits,
`nubus_device_realize` reports that no slot is free and changes nothing. -/
theorem nubus_realize_auto_error (ctz32 : Nat → Nat) (first last : Int) (mask : Nat)
    (h : ctz32 (mask % 2 ^ 32) % 2 ^ 16 = 0) :
    nubus_device_realize ctz32 first last ⟨-1, mask⟩ = (some .no_free_slot, ⟨-1, mask⟩) := by
  unfold nubus_device_realize
  simp only [if_true]
  rw [if_neg (not_not.mpr h)]

/-- C40, evaluation: with no slot specified (`slot = -1`) and no slot free
(`slot_available_mask = 0`), `ctz32` gives 32, the test `if (s)` succeeds, and
`nubus_device_realize` sets no error: the device gets slot 32 and the mask stays
0. With only slot 0 free (`slot_available_mask = 1`), `ctz32` gives 0 and the
same test reports that no slot is free. With slots 9 to 14 free the lowest one,
9, is assigned and its bit cleared. -/
theorem nubus_realize_no_free_slot_accepted (first last : Int) :
    ref_ctz32 0 = 32 ∧
    nubus_device_realize ref_ctz32 first last ⟨-1, 0⟩ = (none, ⟨32, 0⟩) ∧
    nubus_device_realize ref_ctz32 first last ⟨-1, 1⟩ = (some .no_free_slot, ⟨-1, 1⟩) ∧
    nubus_device_realize ref_ctz32 first last ⟨-1, 0x7e00⟩ = (none, ⟨9, 0x7c00⟩) :=
  ⟨by decide, rfl, rfl, rfl⟩

end Nubus
